import Mathlib

/-!
# Monarch FFT convolution kernels (flash-fft-conv, fp16 complex kernels)

A shallow embedding of the three CUDA kernels

* `monarch_conv_cuda_complex_kernel`            (monarch_cuda_16_16_16_complex_kernel.h)
* `monarch_conv_bwd_cuda_complex_kernel`        (monarch_cuda_16_16_16_bwd_complex_kernel.h)
* `monarch_conv_bwd_cuda_16_32_32_complex_kernel` (monarch_cuda_16_32_32_bwd_complex_kernel.h)

in exact arithmetic.  A pair of half-precision planes (`x_real`, `x_imag`) is one array
`ℕ → K` of complex values over a commutative ring `K` with a conjugation `star`
(`K = ℂ` is the intended instance).  Memory is a total function on indices; a thread block
is executed stage by stage (the stages are the regions between `__syncthreads()`), and inside
a stage the warps and their `k_idx` iterations are executed one after the other.
-/

namespace Monarch

/-! ## Constants, 32-bit offsets, WMMA tiles -/

/-- Modelled from the spec: `WMMA_M = WMMA_N = WMMA_K` of the missing header
`monarch_cuda_shared.h`, the side of one tensor-core tile (the radix 16). -/
def WMMA_M : ℕ := 16

/-- Modelled from the spec: `WARP_SIZE` of the missing header `monarch_cuda_shared.h`;
the kernels also spell it as the literal `32` (`thread_id % 32`). -/
def WARP_SIZE : ℕ := 32

/-- The value of a 32-bit (`uint`/`int`) expression: arithmetic modulo `2^32`. -/
def u32 (x : ℕ) : ℕ := x % 4294967296

/-- The two `wmma` memory layouts. -/
inductive Layout where
  | row_major : Layout
  | col_major : Layout

/-- A register tile: the `W × W` array of 16×16 `wmma::fragment`s of one operand, seen as one
`(16 W) × (16 W)` matrix; fragment `[X][Y]` is the block of rows `16 X ..` and columns `16 Y ..`. -/
abbrev Frag (K : Type) := ℕ → ℕ → K

/-- The call `wmma::load_matrix_sync(frag, mem + ptr, ldm)`: element `(i, j)` of the tile. -/
def load_matrix_sync {K : Type} (mem : ℕ → K) (ptr ldm : ℕ) (layout : Layout) : Frag K :=
  match layout with
  | .row_major => fun i j => mem (ptr + i * ldm + j)
  | .col_major => fun i j => mem (ptr + j * ldm + i)

/-- The call `wmma::store_matrix_sync(mem + ptr, frag, ldm, layout)` of an `r × r` tile
(`r ≤ ldm`): the address `ptr + i * ldm + j` receives element `(i, j)` (row major) or
element `(j, i)` (column major); every other address keeps its value. -/
def store_matrix_sync {K : Type} (mem : ℕ → K) (ptr ldm r : ℕ) (frag : Frag K)
    (layout : Layout) : ℕ → K :=
  fun idx =>
    if ptr ≤ idx ∧ (idx - ptr) / ldm < r ∧ (idx - ptr) % ldm < r then
      match layout with
      | .row_major => frag ((idx - ptr) / ldm) ((idx - ptr) % ldm)
      | .col_major => frag ((idx - ptr) % ldm) ((idx - ptr) / ldm)
    else mem idx

/-- The tensor-core product `wmma::mma_sync` summed over the inner fragment index, as one
complex `r × r` matrix product (the real/imaginary parts `ac - bd`, `ad + bc`). -/
def mma {K : Type} [CommRing K] (r : ℕ) (A B : Frag K) : Frag K :=
  fun i j => ∑ k ∈ Finset.range r, A i k * B k j

/-- Element-wise complex product of two register tiles of the same fragment type. -/
def frag_mul {K : Type} [CommRing K] (A k_frag : Frag K) : Frag K :=
  fun i j => A i j * k_frag i j

/-! ## The matrix-multiply helpers of `monarch_cuda_shared.h` -/

/-- Modelled from the spec: `complex_matmul_c2c_256` / `complex_matmul_c2c_1024` of the missing
header `monarch_cuda_shared.h`, overload without twiddle ("dense matrix multiply against a
radix DFT matrix" along the outer axis): the `r × r` tile is loaded column-major with leading
dimension `stride` from `inp + in_ptr`, multiplied by `b_frag`, and stored with `out_layout`
and leading dimension `stride` at `out + out_ptr`. -/
def complex_matmul_c2c {K : Type} [CommRing K] (stride r : ℕ) (inp : ℕ → K) (in_ptr : ℕ)
    (out : ℕ → K) (out_ptr : ℕ) (b_frag : Frag K) (out_layout : Layout) : ℕ → K :=
  store_matrix_sync out out_ptr stride r
    (mma r (load_matrix_sync inp in_ptr stride .col_major) b_frag) out_layout

/-- Modelled from the spec: the overload of `complex_matmul_c2c_256` / `complex_matmul_c2c_1024`
with a twiddle tile `k_frag` (missing header `monarch_cuda_shared.h`): the loaded tile is
multiplied element-wise by `k_frag` ("elementwise complex multiply by a twiddle table") before
the matrix product. -/
def complex_matmul_c2c_twiddle {K : Type} [CommRing K] (stride r : ℕ) (inp : ℕ → K)
    (in_ptr : ℕ) (out : ℕ → K) (out_ptr : ℕ) (b_frag k_frag : Frag K)
    (out_layout : Layout) : ℕ → K :=
  store_matrix_sync out out_ptr stride r
    (mma r (frag_mul (load_matrix_sync inp in_ptr stride .col_major) k_frag) b_frag) out_layout

/-- Modelled from the spec: `complex_matmul_load_b` of the missing header
`monarch_cuda_shared.h`, with `output_to_shmem = false` as at every call site: the data tile
is the `matrix_b` operand, loaded row-major from `b_mem + ptr`, multiplied element-wise by the
twiddle tile `k_frag` (a `matrix_b` fragment), and multiplied from the left by `a_frag`; the
product stays in the accumulator, which is the result. -/
def complex_matmul_load_b {K : Type} [CommRing K] (r ldm : ℕ) (b_mem : ℕ → K) (ptr : ℕ)
    (a_frag k_frag : Frag K) : Frag K :=
  mma r a_frag (frag_mul (load_matrix_sync b_mem ptr ldm .row_major) k_frag)

/-- Modelled from the spec: `complex_matmul` of the missing header `monarch_cuda_shared.h`:
the `matrix_a` operand is the accumulator of the previous product (`a_frag_from_acc`) or is
loaded row-major from `a + ptr`; it is multiplied element-wise by `k_frag` and then by
`b_frag`; the product is left in the accumulator (second component) and, when
`output_to_shmem`, stored at `a + ptr` with `out_layout`. -/
def complex_matmul {K : Type} [CommRing K] (r ldm : ℕ) (a_frag_from_acc output_to_shmem : Bool)
    (a : ℕ → K) (ptr : ℕ) (b_frag acc k_frag : Frag K) (out_layout : Layout) :
    (ℕ → K) × Frag K :=
  let a_frag := if a_frag_from_acc then acc else load_matrix_sync a ptr ldm .row_major
  let acc1 := mma r (frag_mul a_frag k_frag) b_frag
  (if output_to_shmem then store_matrix_sync a ptr ldm r acc1 out_layout else a, acc1)

/-- Modelled from the spec: `complex_mul_conj_half2` of the missing header
`monarch_cuda_shared.h`, `dk_f = dout * x.conj()`. -/
def complex_mul_conj_half2 {K : Type} [CommRing K] [StarRing K] (a b : K) : K := a * star b

/-! ## Striped block loads and stores (`cub::BlockLoad` / `cub::BlockStore`, striped) -/

/-- The striped `cub::BlockLoad` of `items` packed items per thread, each item packing two
consecutive elements: register slot `m` of thread `t` receives element
`2 * ((m / 2) * num_threads + t) + m % 2` of `src + ptr`. -/
def BlockLoad_striped {K : Type} (num_threads items : ℕ) (src : ℕ → K) (ptr : ℕ)
    (regs : ℕ → ℕ → K) : ℕ → ℕ → K :=
  fun t m => if m / 2 < items then src (ptr + 2 * ((m / 2) * num_threads + t) + m % 2)
    else regs t m

/-- The striped `cub::BlockStore` of `items` packed items per thread: element
`2 * (i * num_threads + t) + e` of `dst + ptr` receives register slot `2 * i + e` of
thread `t`. -/
def BlockStore_striped {K : Type} (num_threads items : ℕ) (regs : ℕ → ℕ → K) (dst : ℕ → K)
    (ptr : ℕ) : ℕ → K :=
  fun idx =>
    if ptr ≤ idx ∧ (idx - ptr) / 2 / num_threads < items then
      regs ((idx - ptr) / 2 % num_threads) (2 * ((idx - ptr) / 2 / num_threads) + (idx - ptr) % 2)
    else dst idx

/-- The loop `for i < items: a_idx = i * num_threads + thread_id; plane[a_idx] = regs[2 i], regs[2 i + 1]`
run by every thread: the `__half2` at index `a_idx` (elements `2 a_idx`, `2 a_idx + 1`) is
written by thread `a_idx % num_threads` in iteration `a_idx / num_threads`. -/
def regs_to_shared {K : Type} (num_threads items : ℕ) (regs : ℕ → ℕ → K) (plane : ℕ → K) :
    ℕ → K :=
  fun idx =>
    if idx / 2 / num_threads < items then
      regs (idx / 2 % num_threads) (2 * (idx / 2 / num_threads) + idx % 2)
    else plane idx

/-- The loop `for i < items: a_idx = i * num_threads + thread_id; regs[2 i], regs[2 i + 1] = plane[a_idx]`
run by every thread. -/
def shared_to_regs {K : Type} (num_threads items : ℕ) (plane : ℕ → K) (regs : ℕ → ℕ → K) :
    ℕ → ℕ → K :=
  fun t m => if m / 2 < items then plane (2 * ((m / 2) * num_threads + t) + m % 2)
    else regs t m

/-- Sequential execution of `for (i = 0; i < n; i++)`, also of the warps of a block inside
one barrier-delimited stage. -/
def forRange {σ : Type} (n : ℕ) (body : ℕ → σ → σ) (s : σ) : σ :=
  (List.range n).foldl (fun s i => body i s) s

/-! ## Kernel parameters and tables (16_16_16 kernels) -/

/-- Template and run-time parameters of the 16_16_16 kernels. -/
structure Params where
  BLOCK_DIM_X : ℕ
  BLOCK_DIM_Y : ℕ
  N : ℕ
  MATMUL_WARP_WIDTH : ℕ
  DFT_SIZE : ℕ
  B_TILE_SIZE : ℕ
  H_TILE_SIZE : ℕ
  WARP_TILE_SIZE : ℕ
  B : ℕ
  H : ℕ
  signal_size : ℕ
  sqrt_N : ℕ

/-- The source line `num_threads = BLOCK_DIM_X * BLOCK_DIM_Y`. -/
def Params.num_threads (P : Params) : ℕ := P.BLOCK_DIM_X * P.BLOCK_DIM_Y

/-- The source line `items_per_thread_input = N / num_threads`. -/
def Params.items_per_thread_input (P : Params) : ℕ := P.N / P.num_threads

/-- Number of warps of a block: `warp_id = thread_id / WARP_SIZE` for `thread_id < num_threads`. -/
def Params.num_warps (P : Params) : ℕ := (P.num_threads + WARP_SIZE - 1) / WARP_SIZE

/-- Side of the matrices held in a `[MATMUL_WARP_WIDTH][MATMUL_WARP_WIDTH]` fragment array. -/
def Params.r (P : Params) : ℕ := WMMA_M * P.MATMUL_WARP_WIDTH

/-- The constant tables passed to the 16_16_16 kernels. -/
structure Tables (K : Type) where
  b : ℕ → K
  twiddle_factors_256_fft : ℕ → K
  twiddle_factors_16_fft : ℕ → K
  b_ifft : ℕ → K
  twiddle_factors_256_ifft : ℕ → K
  twiddle_factors_16_ifft : ℕ → K

/-- Every warp of the block runs `for (k_idx = 0; k_idx < n; k_idx++) body`; between two
barriers the warps work on disjoint tiles and are executed one after the other. -/
def forEachWarp {σ : Type} (num_warps n : ℕ) (body : ℕ → ℕ → σ → σ) (s : σ) : σ :=
  forRange num_warps (fun warp_id s => forRange n (fun k_idx s => body warp_id k_idx s) s) s

/-! ### Register fragments at entry to the channel loop (16_16_16 kernels)

The staging prologue copies each table, index for index, into the scratch plane named in the
`load_matrix_sync` call that follows it; the fragment is that load applied to the table. -/

/-- Fragment `b_frag_dft` (`matrix_b`, row major, from `b_real`/`b_imag` holding `b`). -/
def b_frag_dft {K : Type} (P : Params) (T : Tables K) : Frag K :=
  load_matrix_sync T.b 0 P.sqrt_N .row_major

/-- Fragment `a_frag_dft` (`matrix_a`, column major, `a_trans = true`, from `b`). -/
def a_frag_dft {K : Type} (P : Params) (T : Tables K) : Frag K :=
  load_matrix_sync T.b 0 P.sqrt_N .col_major

/-- Fragment `b_frag_idft` (`matrix_b`, row major, from `b_real_2`/`b_imag_2` holding `b_ifft`). -/
def b_frag_idft {K : Type} (P : Params) (T : Tables K) : Frag K :=
  load_matrix_sync T.b_ifft 0 P.sqrt_N .row_major

/-- Fragment `twiddle_256_dft_frag[k_idx]` of warp `warp_id` (row major, leading dimension
`sqrt_N`, from `a_real`/`a_imag` holding `twiddle_factors_256_fft`). -/
def twiddle_256_dft_frag {K : Type} (P : Params) (T : Tables K) (k_idx warp_id : ℕ) : Frag K :=
  load_matrix_sync T.twiddle_factors_256_fft
    (k_idx * P.WARP_TILE_SIZE * P.DFT_SIZE * P.DFT_SIZE + warp_id * P.DFT_SIZE * P.DFT_SIZE)
    P.sqrt_N .row_major

/-- Fragment `twiddle_256_idft_frag[k_idx]` of warp `warp_id` (column major, leading dimension
`256`, from `a_real`/`a_imag` holding `twiddle_factors_256_ifft`). -/
def twiddle_256_idft_frag {K : Type} (P : Params) (T : Tables K) (k_idx warp_id : ℕ) : Frag K :=
  load_matrix_sync T.twiddle_factors_256_ifft
    (k_idx * P.WARP_TILE_SIZE * P.DFT_SIZE + warp_id * P.DFT_SIZE) 256 .col_major

/-- Fragment `twiddle_16_dft_frag` (row major, from `b_real`/`b_imag` holding
`twiddle_factors_16_fft`). -/
def twiddle_16_dft_frag {K : Type} (P : Params) (T : Tables K) : Frag K :=
  load_matrix_sync T.twiddle_factors_16_fft 0 P.sqrt_N .row_major

/-- Fragment `twiddle_16_idft_frag` (row major, from `b_real_2`/`b_imag_2` holding
`twiddle_factors_16_ifft`). -/
def twiddle_16_idft_frag {K : Type} (P : Params) (T : Tables K) : Frag K :=
  load_matrix_sync T.twiddle_factors_16_ifft 0 P.sqrt_N .row_major

/-- Fragment `k_frag[k_idx]` of warp `warp_id` (row major, leading dimension `sqrt_N`, from the
scratch plane `a` holding the staged filter). -/
def k_frag {K : Type} (P : Params) (a : ℕ → K) (k_idx warp_id : ℕ) : Frag K :=
  load_matrix_sync a
    (k_idx * P.WARP_TILE_SIZE * P.DFT_SIZE * P.DFT_SIZE + warp_id * P.DFT_SIZE * P.DFT_SIZE)
    P.sqrt_N .row_major

/-! ## Forward kernel `monarch_conv_cuda_complex_kernel` -/

/-- State of a forward thread block: the scratch planes `a_real`/`a_imag` and the output
planes `out_real`/`out_imag`. -/
structure FwdState (K : Type) where
  a : ℕ → K
  out : ℕ → K

/-- Source lines 54-57 and 372: `input_offset` of the forward kernel, in 32-bit arithmetic. -/
def fwd_input_offset (P : Params) (blockIdx_x blockIdx_y h_tile_id b_tile_id : ℕ) : ℕ :=
  let b_offset := u32 (blockIdx_x * P.H * P.N * P.B_TILE_SIZE)
  let h_offset := u32 (blockIdx_y * P.N * P.H_TILE_SIZE)
  u32 (h_offset + b_offset + h_tile_id * P.N + u32 (b_tile_id * P.H * P.N))

/-- Source lines 57 and 327: offset of the filter read, `h_offset + h_tile_id * N`. -/
def fwd_k_f_offset (P : Params) (blockIdx_y h_tile_id : ℕ) : ℕ :=
  u32 (blockIdx_y * P.N * P.H_TILE_SIZE) + h_tile_id * P.N

/-- Source lines 392-407, one `(warp_id, k_idx)` iteration: outer DFT from the input planes
into the scratch planes. -/
def fwd_outer_dft {K : Type} [CommRing K] (P : Params) (T : Tables K) (a_inp : ℕ → K)
    (input_offset warp_id k_idx : ℕ) (s : FwdState K) : FwdState K :=
  let k_idx_offset := k_idx * P.WARP_TILE_SIZE * P.DFT_SIZE + warp_id * P.DFT_SIZE
  let a_1 := complex_matmul_c2c 256 P.r a_inp (input_offset + k_idx_offset) s.a k_idx_offset
    (b_frag_dft P T) .col_major
  { s with a := a_1 }

/-- Source lines 410-484, one `(warp_id, k_idx)` iteration: the two inner DFTs, the product
with `k_frag[k_idx]` and the two inner inverse DFTs on the block at `k_idx_offset`. -/
def fwd_inner {K : Type} [CommRing K] (P : Params) (T : Tables K) (kf : ℕ → ℕ → Frag K)
    (warp_id k_idx : ℕ) (s : FwdState K) : FwdState K :=
  let k_idx_offset :=
    k_idx * P.WARP_TILE_SIZE * P.DFT_SIZE * P.DFT_SIZE + warp_id * P.DFT_SIZE * P.DFT_SIZE
  let acc_1 := complex_matmul_load_b P.r P.sqrt_N s.a k_idx_offset (a_frag_dft P T)
    (twiddle_256_dft_frag P T k_idx warp_id)
  let r_2 := complex_matmul P.r P.sqrt_N true false s.a k_idx_offset (b_frag_dft P T) acc_1
    (twiddle_16_dft_frag P T) .row_major
  let r_3 := complex_matmul P.r P.sqrt_N true true r_2.1 k_idx_offset (b_frag_idft P T) r_2.2
    (kf k_idx warp_id) .col_major
  let r_4 := complex_matmul P.r P.sqrt_N false true r_3.1 k_idx_offset (b_frag_idft P T) r_3.2
    (twiddle_16_idft_frag P T) .col_major
  { s with a := r_4.1 }

/-- Source lines 488-504, one `(warp_id, k_idx)` iteration: outer inverse DFT from the scratch
planes into the output planes at `input_offset`. -/
def fwd_outer_idft {K : Type} [CommRing K] (P : Params) (T : Tables K)
    (input_offset warp_id k_idx : ℕ) (s : FwdState K) : FwdState K :=
  let k_idx_offset := k_idx * P.WARP_TILE_SIZE * P.DFT_SIZE + warp_id * P.DFT_SIZE
  let out_1 := complex_matmul_c2c_twiddle 256 P.r s.a k_idx_offset s.out
    (input_offset + k_idx_offset) (b_frag_idft P T) (twiddle_256_idft_frag P T k_idx warp_id)
    .col_major
  { s with out := out_1 }

/-- Source lines 369-534: the body of the `b_tile_id` loop, three barrier-delimited stages. -/
def fwd_batch_body {K : Type} [CommRing K] (P : Params) (T : Tables K) (a_inp : ℕ → K)
    (kf : ℕ → ℕ → Frag K) (input_offset : ℕ) (s : FwdState K) : FwdState K :=
  let s_1 := forEachWarp P.num_warps (16 / P.WARP_TILE_SIZE)
    (fun warp_id k_idx s => fwd_outer_dft P T a_inp input_offset warp_id k_idx s) s
  let s_2 := forEachWarp P.num_warps (16 / P.WARP_TILE_SIZE)
    (fun warp_id k_idx s => fwd_inner P T kf warp_id k_idx s) s_1
  forEachWarp P.num_warps (16 / P.WARP_TILE_SIZE)
    (fun warp_id k_idx s => fwd_outer_idft P T input_offset warp_id k_idx s) s_2

/-- Source lines 324-341: the filter of channel `h_tile_id` is loaded (striped) into
`a_input_data` and written to the scratch planes, both planes unchanged (no conjugation);
`regs` are the registers before the load. -/
def fwd_stage_k_f {K : Type} (P : Params) (k_f : ℕ → K) (regs : ℕ → ℕ → K)
    (blockIdx_y h_tile_id : ℕ) (a : ℕ → K) : ℕ → K :=
  let a_input_data := BlockLoad_striped P.num_threads (P.items_per_thread_input / 2) k_f
    (fwd_k_f_offset P blockIdx_y h_tile_id) regs
  regs_to_shared P.num_threads (P.items_per_thread_input / 2) a_input_data a

/-- Source lines 321-535: the body of the `h_tile_id` loop: the filter is staged into the
scratch planes (no conjugation), captured in `k_frag`, and the batch loop runs. -/
def fwd_channel_body {K : Type} [CommRing K] (P : Params) (T : Tables K) (a_inp k_f : ℕ → K)
    (regs : ℕ → ℕ → K) (blockIdx_x blockIdx_y h_tile_id : ℕ) (s : FwdState K) : FwdState K :=
  let a_k := fwd_stage_k_f P k_f regs blockIdx_y h_tile_id s.a
  forRange P.B_TILE_SIZE
    (fun b_tile_id s => fwd_batch_body P T a_inp (k_frag P a_k)
      (fwd_input_offset P blockIdx_x blockIdx_y h_tile_id b_tile_id) s)
    { s with a := a_k }

/-- The thread block `(blockIdx.x, blockIdx.y)` of `monarch_conv_cuda_complex_kernel`: its
effect on the output planes.  At entry to the channel loop the scratch planes hold
`twiddle_factors_256_ifft` (source lines 227-236) and the registers `a_input_data` hold
`regs`. -/
def monarch_conv_cuda_complex_kernel {K : Type} [CommRing K] (P : Params) (T : Tables K)
    (a_inp k_f : ℕ → K) (regs : ℕ → ℕ → K) (blockIdx_x blockIdx_y : ℕ) (out : ℕ → K) :
    ℕ → K :=
  (forRange P.H_TILE_SIZE
    (fun h_tile_id s => fwd_channel_body P T a_inp k_f regs blockIdx_x blockIdx_y h_tile_id s)
    { a := T.twiddle_factors_256_ifft, out := out }).out

/-- The launch of the forward kernel on a `gridDim_x × gridDim_y` grid; thread blocks do not
communicate and are executed one after the other. -/
def launch_fwd {K : Type} [CommRing K] (P : Params) (T : Tables K) (a_inp k_f : ℕ → K)
    (regs : ℕ → ℕ → K) (gridDim_x gridDim_y : ℕ) (out : ℕ → K) : ℕ → K :=
  forRange gridDim_x (fun blockIdx_x out =>
    forRange gridDim_y (fun blockIdx_y out =>
      monarch_conv_cuda_complex_kernel P T a_inp k_f regs blockIdx_x blockIdx_y out) out) out

/-! ## Backward kernel `monarch_conv_bwd_cuda_complex_kernel` (16_16_16) -/

/-- State of a backward thread block: the scratch planes `a_real`/`a_imag` (field `a`) and
`a_real_2`/`a_imag_2` (field `a_2`), the per-thread registers `a_input_data` and `temp`
(thread, slot), and the outputs `dx_out_real`/`dx_out_imag` and `dk_f_out`. -/
structure BwdState (K : Type) where
  a : ℕ → K
  a_2 : ℕ → K
  a_input_data : ℕ → ℕ → K
  temp : ℕ → ℕ → K
  dx_out : ℕ → K
  dk_f_out : ℕ → K

/-- The fields of the state that a stage of the backward kernel does not write. -/
def BwdState.sameOut {K : Type} (s s1 : BwdState K) : Prop :=
  s1.a_input_data = s.a_input_data ∧ s1.temp = s.temp ∧ s1.dx_out = s.dx_out ∧
    s1.dk_f_out = s.dk_f_out

/-- Source lines 61-64 and 384 (16_16_16), 69-72 and 446 (16_32_32): `input_offset` of the
backward kernels, in 32-bit arithmetic. -/
def bwd_input_offset (H signal_size B_TILE_SIZE H_TILE_SIZE : ℕ)
    (blockIdx_x blockIdx_y h_tile_id b_tile_id : ℕ) : ℕ :=
  let b_offset := u32 (blockIdx_x * H * signal_size * B_TILE_SIZE)
  let h_offset_signal := u32 (blockIdx_y * signal_size * H_TILE_SIZE)
  u32 (h_offset_signal + b_offset + h_tile_id * signal_size + u32 (b_tile_id * H * signal_size))

/-- Source lines 65 and 337: offset of the filter read, `h_offset_kernel + h_tile_id * N`. -/
def bwd_k_f_offset (N H_TILE_SIZE : ℕ) (blockIdx_y h_tile_id : ℕ) : ℕ :=
  u32 (blockIdx_y * N * H_TILE_SIZE) + h_tile_id * N

/-- Source line 612 (16_16_16), 665 (16_32_32): offset of the `dk_f` store,
`h_offset_kernel + blockIdx.x * H * N + h_tile_id * N`. -/
def bwd_dk_f_offset (N H H_TILE_SIZE : ℕ) (blockIdx_x blockIdx_y h_tile_id : ℕ) : ℕ :=
  u32 (blockIdx_y * N * H_TILE_SIZE) + u32 (blockIdx_x * H * N) + h_tile_id * N

/-- The loop `x = x * N` of a warp (source lines 476-486): the `__half2` at index
`k_idx_offset / 2 + i * 32 + thread_id % 32`, `i < count`, is multiplied by `c`. -/
def scale_block {K : Type} [CommRing K] (k_idx_offset count : ℕ) (c : K) (plane : ℕ → K) :
    ℕ → K :=
  fun idx =>
    if k_idx_offset / 2 ≤ idx / 2 ∧ (idx / 2 - k_idx_offset / 2) / 32 < count then plane idx * c
    else plane idx

/-- The loop `dk_f = dout * x.conj()` of a warp (source lines 490-501): the same `__half2`
indices of the second scratch plane receive `complex_mul_conj_half2` of the two planes. -/
def mul_conj_block {K : Type} [CommRing K] [StarRing K] (k_idx_offset count : ℕ)
    (a a_2 : ℕ → K) : ℕ → K :=
  fun idx =>
    if k_idx_offset / 2 ≤ idx / 2 ∧ (idx / 2 - k_idx_offset / 2) / 32 < count then
      complex_mul_conj_half2 (a idx) (a_2 idx)
    else a_2 idx

/-- Source lines 340-351 (16_16_16), 400-411 (16_32_32): "load k_f.conj() into shared
memory": the real plane receives the real parts, the imaginary plane the negated (`__hneg2`)
imaginary parts of `a_input_data`, i.e. the scratch planes receive the conjugates. -/
def bwd_stage_k_f {K : Type} [CommRing K] [StarRing K] (num_threads items_per_thread_input : ℕ)
    (a_input_data : ℕ → ℕ → K) (a : ℕ → K) : ℕ → K :=
  regs_to_shared num_threads (items_per_thread_input / 2) (fun t m => star (a_input_data t m)) a

/-- Source lines 390-416, one `(warp_id, k_idx)` iteration: outer DFT of `dout` into `a` and of
`x` into `a_2`. -/
def bwd_outer_dft {K : Type} [CommRing K] (P : Params) (T : Tables K) (dout_inp a_inp : ℕ → K)
    (input_offset warp_id k_idx : ℕ) (s : BwdState K) : BwdState K :=
  let k_idx_offset := k_idx * P.WARP_TILE_SIZE * P.DFT_SIZE + warp_id * P.DFT_SIZE
  let a_1 := complex_matmul_c2c 256 P.r dout_inp (input_offset + k_idx_offset) s.a k_idx_offset
    (b_frag_dft P T) .col_major
  let a_2_1 := complex_matmul_c2c 256 P.r a_inp (input_offset + k_idx_offset) s.a_2 k_idx_offset
    (b_frag_dft P T) .col_major
  { s with a := a_1, a_2 := a_2_1 }

/-- Source lines 419-541, one `(warp_id, k_idx)` iteration on the block at `k_idx_offset`:
inner DFTs of `dout` (kept in `a`) and of `x` (kept in `a_2`), `x = x * N`,
`dk_f = dout * x.conj()` into `a_2`, then the product with `k_frag` (the conjugated filter) and
the two inner inverse DFTs on `a`. -/
def bwd_inner {K : Type} [CommRing K] [StarRing K] (P : Params) (T : Tables K)
    (kf : ℕ → ℕ → Frag K) (warp_id k_idx : ℕ) (s : BwdState K) : BwdState K :=
  let k_idx_offset :=
    k_idx * P.WARP_TILE_SIZE * P.DFT_SIZE * P.DFT_SIZE + warp_id * P.DFT_SIZE * P.DFT_SIZE
  let acc_1 := complex_matmul_load_b P.r P.sqrt_N s.a k_idx_offset (a_frag_dft P T)
    (twiddle_256_dft_frag P T k_idx warp_id)
  let r_2 := complex_matmul P.r P.sqrt_N true true s.a k_idx_offset (b_frag_dft P T) acc_1
    (twiddle_16_dft_frag P T) .row_major
  let acc_3 := complex_matmul_load_b P.r P.sqrt_N s.a_2 k_idx_offset (a_frag_dft P T)
    (twiddle_256_dft_frag P T k_idx warp_id)
  let r_4 := complex_matmul P.r P.sqrt_N true true s.a_2 k_idx_offset (b_frag_dft P T) acc_3
    (twiddle_16_dft_frag P T) .row_major
  let a_2_5 := scale_block k_idx_offset (256 / 32 / 2) (P.N : K) r_4.1
  let a_2_6 := mul_conj_block k_idx_offset (256 / 32 / 2) r_2.1 a_2_5
  let r_7 := complex_matmul P.r P.sqrt_N false true r_2.1 k_idx_offset (b_frag_idft P T) r_4.2
    (kf k_idx warp_id) .col_major
  let r_8 := complex_matmul P.r P.sqrt_N false true r_7.1 k_idx_offset (b_frag_idft P T) r_7.2
    (twiddle_16_idft_frag P T) .col_major
  { s with a := r_8.1, a_2 := a_2_6 }

/-- Source lines 545-562, one `(warp_id, k_idx)` iteration: outer inverse DFT, in place on the
scratch planes `a`. -/
def bwd_outer_idft {K : Type} [CommRing K] (P : Params) (T : Tables K)
    (warp_id k_idx : ℕ) (s : BwdState K) : BwdState K :=
  let k_idx_offset := k_idx * P.WARP_TILE_SIZE * P.DFT_SIZE + warp_id * P.DFT_SIZE
  let a_1 := complex_matmul_c2c_twiddle 256 P.r s.a k_idx_offset s.a k_idx_offset
    (b_frag_idft P T) (twiddle_256_idft_frag P T k_idx warp_id) .col_major
  { s with a := a_1 }

/-- Source lines 565-604 (16_16_16), 616-658 (16_32_32): `dx` is copied from the scratch planes
`a` to `dx_out + input_offset` (no scale), the `dk_f` contribution of this batch element is
gathered from `a_2` into `a_input_data` and added to `temp`. -/
def bwd_write_back {K : Type} [CommRing K] (num_threads items_per_thread_input : ℕ)
    (input_offset : ℕ) (s : BwdState K) : BwdState K :=
  let x_input_data := shared_to_regs num_threads (items_per_thread_input / 2) s.a
    s.a_input_data
  let dx_out_1 := BlockStore_striped num_threads (items_per_thread_input / 2) x_input_data
    s.dx_out input_offset
  let a_input_data_1 := shared_to_regs num_threads (items_per_thread_input / 2) s.a_2
    s.a_input_data
  let temp_1 : ℕ → ℕ → K := fun t m =>
    if m < items_per_thread_input then s.temp t m + a_input_data_1 t m else s.temp t m
  { s with dx_out := dx_out_1, a_input_data := a_input_data_1, temp := temp_1 }

/-- Source lines 381-608: the body of the `b_tile_id` loop. -/
def bwd_batch_body {K : Type} [CommRing K] [StarRing K] (P : Params) (T : Tables K)
    (dout_inp a_inp : ℕ → K) (kf : ℕ → ℕ → Frag K) (input_offset : ℕ) (s : BwdState K) :
    BwdState K :=
  let s_1 := forEachWarp P.num_warps (16 / P.WARP_TILE_SIZE)
    (fun warp_id k_idx s => bwd_outer_dft P T dout_inp a_inp input_offset warp_id k_idx s) s
  let s_2 := forEachWarp P.num_warps (16 / P.WARP_TILE_SIZE)
    (fun warp_id k_idx s => bwd_inner P T kf warp_id k_idx s) s_1
  let s_3 := forEachWarp P.num_warps (16 / P.WARP_TILE_SIZE)
    (fun warp_id k_idx s => bwd_outer_idft P T warp_id k_idx s) s_2
  bwd_write_back P.num_threads P.items_per_thread_input input_offset s_3

/-- Source lines 331-614: the body of the `h_tile_id` loop: the filter is staged conjugated
(`__hneg2` on the imaginary plane), captured in `k_frag`, `temp` is cleared, the batch loop
runs, and `temp` is stored to `dk_f_out`. -/
def bwd_channel_body {K : Type} [CommRing K] [StarRing K] (P : Params) (T : Tables K)
    (dout_inp a_inp k_f : ℕ → K) (blockIdx_x blockIdx_y h_tile_id : ℕ) (s : BwdState K) :
    BwdState K :=
  let a_input_data := BlockLoad_striped P.num_threads (P.items_per_thread_input / 2) k_f
    (bwd_k_f_offset P.N P.H_TILE_SIZE blockIdx_y h_tile_id) s.a_input_data
  let a_k := bwd_stage_k_f P.num_threads P.items_per_thread_input a_input_data s.a
  let temp_0 : ℕ → ℕ → K := fun t m => if m < P.items_per_thread_input then 0 else s.temp t m
  let s_1 := forRange P.B_TILE_SIZE
    (fun b_tile_id s => bwd_batch_body P T dout_inp a_inp (k_frag P a_k)
      (bwd_input_offset P.H P.signal_size P.B_TILE_SIZE P.H_TILE_SIZE
        blockIdx_x blockIdx_y h_tile_id b_tile_id) s)
    { s with a := a_k, a_input_data := a_input_data, temp := temp_0 }
  let dk_f_out_1 := BlockStore_striped P.num_threads (P.items_per_thread_input / 2) s_1.temp
    s_1.dk_f_out (bwd_dk_f_offset P.N P.H P.H_TILE_SIZE blockIdx_x blockIdx_y h_tile_id)
  { s_1 with dk_f_out := dk_f_out_1 }

/-- The outputs of a backward kernel: `dx_out_real`/`dx_out_imag` and `dk_f_out`. -/
structure BwdOut (K : Type) where
  dx_out : ℕ → K
  dk_f_out : ℕ → K

/-- The thread block `(blockIdx.x, blockIdx.y)` of `monarch_conv_bwd_cuda_complex_kernel`: its
effect on the outputs.  At entry to the channel loop the scratch planes `a` hold
`twiddle_factors_256_ifft`; the planes `a_2` and the registers are not initialised
(`junk`, `regs`). -/
def monarch_conv_bwd_cuda_complex_kernel {K : Type} [CommRing K] [StarRing K] (P : Params)
    (T : Tables K) (dout_inp a_inp k_f : ℕ → K) (junk : ℕ → K) (regs : ℕ → ℕ → K)
    (blockIdx_x blockIdx_y : ℕ) (o : BwdOut K) : BwdOut K :=
  let s := forRange P.H_TILE_SIZE
    (fun h_tile_id s => bwd_channel_body P T dout_inp a_inp k_f blockIdx_x blockIdx_y h_tile_id s)
    { a := T.twiddle_factors_256_ifft, a_2 := junk, a_input_data := regs, temp := regs,
      dx_out := o.dx_out, dk_f_out := o.dk_f_out }
  { dx_out := s.dx_out, dk_f_out := s.dk_f_out }

/-- The launch of the 16_16_16 backward kernel on a `gridDim_x × gridDim_y` grid. -/
def launch_bwd {K : Type} [CommRing K] [StarRing K] (P : Params) (T : Tables K)
    (dout_inp a_inp k_f : ℕ → K) (junk : ℕ → K) (regs : ℕ → ℕ → K)
    (gridDim_x gridDim_y : ℕ) (o : BwdOut K) : BwdOut K :=
  forRange gridDim_x (fun blockIdx_x o =>
    forRange gridDim_y (fun blockIdx_y o =>
      monarch_conv_bwd_cuda_complex_kernel P T dout_inp a_inp k_f junk regs
        blockIdx_x blockIdx_y o) o) o

/-! ## Backward kernel `monarch_conv_bwd_cuda_16_32_32_complex_kernel` -/

/-- Template and run-time parameters of the 16_32_32 backward kernel. -/
structure Params32 where
  BLOCK_DIM_X : ℕ
  BLOCK_DIM_Y : ℕ
  N : ℕ
  MATMUL_WARP_WIDTH_1 : ℕ
  MATMUL_WARP_WIDTH_2 : ℕ
  DFT_SIZE : ℕ
  B_TILE_SIZE : ℕ
  H_TILE_SIZE : ℕ
  WARP_TILE_SIZE : ℕ
  B : ℕ
  H : ℕ
  signal_size : ℕ

/-- Source line 37: `sqrt_N_1 = 16`. -/
def sqrt_N_1 : ℕ := 16

/-- Source line 38: `sqrt_N_2 = 32`. -/
def sqrt_N_2 : ℕ := 32

/-- Source line 51: `num_threads = BLOCK_DIM_X * BLOCK_DIM_Y`. -/
def Params32.num_threads (P : Params32) : ℕ := P.BLOCK_DIM_X * P.BLOCK_DIM_Y

/-- Source line 54: `items_per_thread_input = N / num_threads`. -/
def Params32.items_per_thread_input (P : Params32) : ℕ := P.N / P.num_threads

/-- Number of warps of a block. -/
def Params32.num_warps (P : Params32) : ℕ := (P.num_threads + WARP_SIZE - 1) / WARP_SIZE

/-- Side of the matrices held in a `[MATMUL_WARP_WIDTH_1][MATMUL_WARP_WIDTH_1]` fragment array. -/
def Params32.r_1 (P : Params32) : ℕ := WMMA_M * P.MATMUL_WARP_WIDTH_1

/-- Side of the matrices held in a `[MATMUL_WARP_WIDTH_2][MATMUL_WARP_WIDTH_2]` fragment array. -/
def Params32.r_2 (P : Params32) : ℕ := WMMA_M * P.MATMUL_WARP_WIDTH_2

/-- The constant tables passed to the 16_32_32 kernel. -/
structure Tables32 (K : Type) where
  b_16 : ℕ → K
  b_32 : ℕ → K
  twiddle_factors_N_fft : ℕ → K
  twiddle_factors_32_fft : ℕ → K
  b_16_ifft : ℕ → K
  b_32_ifft : ℕ → K
  twiddle_factors_N_ifft : ℕ → K
  twiddle_factors_32_ifft : ℕ → K

/-- Fragment `b_frag_dft_N_1` (row major, leading dimension `sqrt_N_1`, from `b_16`). -/
def b_frag_dft_N_1 {K : Type} (T : Tables32 K) : Frag K :=
  load_matrix_sync T.b_16 0 sqrt_N_1 .row_major

/-- Fragment `b_frag_idft_N_1` (row major, leading dimension `sqrt_N_1`, from `b_16_ifft`). -/
def b_frag_idft_N_1 {K : Type} (T : Tables32 K) : Frag K :=
  load_matrix_sync T.b_16_ifft 0 sqrt_N_1 .row_major

/-- Fragment `b_frag_dft_N_2` (row major, leading dimension `sqrt_N_2`, from `b_32`). -/
def b_frag_dft_N_2 {K : Type} (T : Tables32 K) : Frag K :=
  load_matrix_sync T.b_32 0 sqrt_N_2 .row_major

/-- Fragment `b_frag_idft_N_2` (row major, leading dimension `sqrt_N_2`, from `b_32_ifft`). -/
def b_frag_idft_N_2 {K : Type} (T : Tables32 K) : Frag K :=
  load_matrix_sync T.b_32_ifft 0 sqrt_N_2 .row_major

/-- Fragment `a_frag_dft_N_2` (`matrix_a`, column major, `a_trans = true`, from `b_32`). -/
def a_frag_dft_N_2 {K : Type} (T : Tables32 K) : Frag K :=
  load_matrix_sync T.b_32 0 sqrt_N_2 .col_major

/-- Fragment `twiddle_32_dft_frag` (row major, from `twiddle_factors_32_fft`). -/
def twiddle_32_dft_frag {K : Type} (T : Tables32 K) : Frag K :=
  load_matrix_sync T.twiddle_factors_32_fft 0 sqrt_N_2 .row_major

/-- Fragment `twiddle_32_idft_frag` (row major, from `twiddle_factors_32_ifft`). -/
def twiddle_32_idft_frag {K : Type} (T : Tables32 K) : Frag K :=
  load_matrix_sync T.twiddle_factors_32_ifft 0 sqrt_N_2 .row_major

/-- Fragment `twiddle_1024_dft_frag[k_idx]` of warp `warp_id` (row major, leading dimension
`sqrt_N_2`, from the scratch planes holding `twiddle_factors_N_fft`). -/
def twiddle_1024_dft_frag {K : Type} (P : Params32) (T : Tables32 K) (k_idx warp_id : ℕ) :
    Frag K :=
  load_matrix_sync T.twiddle_factors_N_fft
    (k_idx * P.WARP_TILE_SIZE * sqrt_N_2 * sqrt_N_2 + warp_id * sqrt_N_2 * sqrt_N_2)
    sqrt_N_2 .row_major

/-- Fragment `twiddle_1024_idft_frag[k_idx]` of warp `warp_id` (column major, leading dimension
`1024`, from the scratch planes holding `twiddle_factors_N_ifft`). -/
def twiddle_1024_idft_frag {K : Type} (P : Params32) (T : Tables32 K) (k_idx warp_id : ℕ) :
    Frag K :=
  load_matrix_sync T.twiddle_factors_N_ifft
    (k_idx * P.WARP_TILE_SIZE * sqrt_N_1 + warp_id * sqrt_N_1) 1024 .col_major

/-- Fragment `k_frag[k_idx]` of warp `warp_id` of the 16_32_32 kernel (row major, leading
dimension `sqrt_N_2`, from the scratch planes holding the staged filter). -/
def k_frag32 {K : Type} (P : Params32) (a : ℕ → K) (k_idx warp_id : ℕ) : Frag K :=
  load_matrix_sync a
    (k_idx * P.WARP_TILE_SIZE * sqrt_N_2 * sqrt_N_2 + warp_id * sqrt_N_2 * sqrt_N_2)
    sqrt_N_2 .row_major

/-- Source lines 451-477, one `(warp_id, k_idx)` iteration: outer DFT of `dout` into `a` and of
`x` into `a_2` (16 rows with stride 1024). -/
def bwd32_outer_dft {K : Type} [CommRing K] (P : Params32) (T : Tables32 K)
    (dout_inp a_inp : ℕ → K) (input_offset warp_id k_idx : ℕ) (s : BwdState K) : BwdState K :=
  let k_idx_offset := k_idx * P.WARP_TILE_SIZE * sqrt_N_1 + warp_id * sqrt_N_1
  let a_1 := complex_matmul_c2c 1024 P.r_1 dout_inp (input_offset + k_idx_offset) s.a
    k_idx_offset (b_frag_dft_N_1 T) .col_major
  let a_2_1 := complex_matmul_c2c 1024 P.r_1 a_inp (input_offset + k_idx_offset) s.a_2
    k_idx_offset (b_frag_dft_N_1 T) .col_major
  { s with a := a_1, a_2 := a_2_1 }

/-- Source lines 481-591, one `(warp_id, k_idx)` iteration on the 32×32 block at
`k_idx_offset`. -/
def bwd32_inner {K : Type} [CommRing K] [StarRing K] (P : Params32) (T : Tables32 K)
    (kf : ℕ → ℕ → Frag K) (warp_id k_idx : ℕ) (s : BwdState K) : BwdState K :=
  let k_idx_offset :=
    k_idx * P.WARP_TILE_SIZE * sqrt_N_2 * sqrt_N_2 + warp_id * sqrt_N_2 * sqrt_N_2
  let acc_1 := complex_matmul_load_b P.r_2 sqrt_N_2 s.a k_idx_offset (a_frag_dft_N_2 T)
    (twiddle_1024_dft_frag P T k_idx warp_id)
  let r_2 := complex_matmul P.r_2 sqrt_N_2 true true s.a k_idx_offset (b_frag_dft_N_2 T) acc_1
    (twiddle_32_dft_frag T) .row_major
  let acc_3 := complex_matmul_load_b P.r_2 sqrt_N_2 s.a_2 k_idx_offset (a_frag_dft_N_2 T)
    (twiddle_1024_dft_frag P T k_idx warp_id)
  let r_4 := complex_matmul P.r_2 sqrt_N_2 true true s.a_2 k_idx_offset (b_frag_dft_N_2 T) acc_3
    (twiddle_32_dft_frag T) .row_major
  let a_2_5 := scale_block k_idx_offset (1024 / 32 / 2) (P.N : K) r_4.1
  let a_2_6 := mul_conj_block k_idx_offset (1024 / 32 / 2) r_2.1 a_2_5
  let r_7 := complex_matmul P.r_2 sqrt_N_2 false true r_2.1 k_idx_offset (b_frag_idft_N_2 T)
    r_4.2 (kf k_idx warp_id) .col_major
  let r_8 := complex_matmul P.r_2 sqrt_N_2 false true r_7.1 k_idx_offset (b_frag_idft_N_2 T)
    r_7.2 (twiddle_32_idft_frag T) .col_major
  { s with a := r_8.1, a_2 := a_2_6 }

/-- Source lines 597-613, one `(warp_id, k_idx)` iteration: outer inverse DFT, in place. -/
def bwd32_outer_idft {K : Type} [CommRing K] (P : Params32) (T : Tables32 K)
    (warp_id k_idx : ℕ) (s : BwdState K) : BwdState K :=
  let k_idx_offset := k_idx * P.WARP_TILE_SIZE * sqrt_N_1 + warp_id * sqrt_N_1
  let a_1 := complex_matmul_c2c_twiddle 1024 P.r_1 s.a k_idx_offset s.a k_idx_offset
    (b_frag_idft_N_1 T) (twiddle_1024_idft_frag P T k_idx warp_id) .col_major
  { s with a := a_1 }

/-- Source lines 443-661: the body of the `b_tile_id` loop of the 16_32_32 kernel. -/
def bwd32_batch_body {K : Type} [CommRing K] [StarRing K] (P : Params32) (T : Tables32 K)
    (dout_inp a_inp : ℕ → K) (kf : ℕ → ℕ → Frag K) (input_offset : ℕ) (s : BwdState K) :
    BwdState K :=
  let s_1 := forEachWarp P.num_warps (64 / P.WARP_TILE_SIZE)
    (fun warp_id k_idx s => bwd32_outer_dft P T dout_inp a_inp input_offset warp_id k_idx s) s
  let s_2 := forEachWarp P.num_warps (16 / P.WARP_TILE_SIZE)
    (fun warp_id k_idx s => bwd32_inner P T kf warp_id k_idx s) s_1
  let s_3 := forEachWarp P.num_warps (64 / P.WARP_TILE_SIZE)
    (fun warp_id k_idx s => bwd32_outer_idft P T warp_id k_idx s) s_2
  bwd_write_back P.num_threads P.items_per_thread_input input_offset s_3

/-- Source lines 391-668: the body of the `h_tile_id` loop of the 16_32_32 kernel. -/
def bwd32_channel_body {K : Type} [CommRing K] [StarRing K] (P : Params32) (T : Tables32 K)
    (dout_inp a_inp k_f : ℕ → K) (blockIdx_x blockIdx_y h_tile_id : ℕ) (s : BwdState K) :
    BwdState K :=
  let a_input_data := BlockLoad_striped P.num_threads (P.items_per_thread_input / 2) k_f
    (bwd_k_f_offset P.N P.H_TILE_SIZE blockIdx_y h_tile_id) s.a_input_data
  let a_k := bwd_stage_k_f P.num_threads P.items_per_thread_input a_input_data s.a
  let temp_0 : ℕ → ℕ → K := fun t m => if m < P.items_per_thread_input then 0 else s.temp t m
  let s_1 := forRange P.B_TILE_SIZE
    (fun b_tile_id s => bwd32_batch_body P T dout_inp a_inp (k_frag32 P a_k)
      (bwd_input_offset P.H P.signal_size P.B_TILE_SIZE P.H_TILE_SIZE
        blockIdx_x blockIdx_y h_tile_id b_tile_id) s)
    { s with a := a_k, a_input_data := a_input_data, temp := temp_0 }
  let dk_f_out_1 := BlockStore_striped P.num_threads (P.items_per_thread_input / 2) s_1.temp
    s_1.dk_f_out (bwd_dk_f_offset P.N P.H P.H_TILE_SIZE blockIdx_x blockIdx_y h_tile_id)
  { s_1 with dk_f_out := dk_f_out_1 }

/-- The thread block `(blockIdx.x, blockIdx.y)` of
`monarch_conv_bwd_cuda_16_32_32_complex_kernel`: its effect on the outputs.  At entry to the
channel loop the scratch planes `a` hold `twiddle_factors_N_ifft`. -/
def monarch_conv_bwd_cuda_16_32_32_complex_kernel {K : Type} [CommRing K] [StarRing K]
    (P : Params32) (T : Tables32 K) (dout_inp a_inp k_f : ℕ → K) (junk : ℕ → K)
    (regs : ℕ → ℕ → K) (blockIdx_x blockIdx_y : ℕ) (o : BwdOut K) : BwdOut K :=
  let s := forRange P.H_TILE_SIZE
    (fun h_tile_id s =>
      bwd32_channel_body P T dout_inp a_inp k_f blockIdx_x blockIdx_y h_tile_id s)
    { a := T.twiddle_factors_N_ifft, a_2 := junk, a_input_data := regs, temp := regs,
      dx_out := o.dx_out, dk_f_out := o.dk_f_out }
  { dx_out := s.dx_out, dk_f_out := s.dk_f_out }

/-- The launch of the 16_32_32 backward kernel on a `gridDim_x × gridDim_y` grid. -/
def launch_bwd32 {K : Type} [CommRing K] [StarRing K] (P : Params32) (T : Tables32 K)
    (dout_inp a_inp k_f : ℕ → K) (junk : ℕ → K) (regs : ℕ → ℕ → K)
    (gridDim_x gridDim_y : ℕ) (o : BwdOut K) : BwdOut K :=
  forRange gridDim_x (fun blockIdx_x o =>
    forRange gridDim_y (fun blockIdx_y o =>
      monarch_conv_bwd_cuda_16_32_32_complex_kernel P T dout_inp a_inp k_f junk regs
        blockIdx_x blockIdx_y o) o) o

/-! ## The Monarch factorisation, stage by stage

The six stages of a transform pair on a sequence of length `p * q * q`, written on the digits
of the index `q * q * d1 + q * d2 + d3` (`d1 < p`, `d2, d3 < q`), for arbitrary tables. -/

/-- The digits view of an array: entry `(d1, d2, d3)` is element `q * q * d1 + q * d2 + d3`. -/
def digits {K : Type} (q : ℕ) (x : ℕ → K) : ℕ → ℕ → ℕ → K :=
  fun d1 d2 d3 => x (q * q * d1 + q * d2 + d3)

/-- Outer DFT: the radix-`p` matrix along the outermost digit. -/
def mfwd1 {K : Type} [CommRing K] (p : ℕ) (b_p : ℕ → K) (v : ℕ → ℕ → ℕ → K) :
    ℕ → ℕ → ℕ → K :=
  fun f1 n2 n3 => ∑ n1 ∈ Finset.range p, v n1 n2 n3 * b_p (p * n1 + f1)

/-- First inner DFT: coarse twiddle, then the radix-`q` matrix along the middle digit. -/
def mfwd2 {K : Type} [CommRing K] (q : ℕ) (b_q tw_N : ℕ → K) (v : ℕ → ℕ → ℕ → K) :
    ℕ → ℕ → ℕ → K :=
  fun f1 f2 n3 =>
    ∑ n2 ∈ Finset.range q, b_q (q * n2 + f2) * (v f1 n2 n3 * tw_N (q * q * f1 + q * n2 + n3))

/-- Second inner DFT: fine twiddle, then the radix-`q` matrix along the innermost digit. -/
def mfwd3 {K : Type} [CommRing K] (q : ℕ) (b_q tw_q : ℕ → K) (v : ℕ → ℕ → ℕ → K) :
    ℕ → ℕ → ℕ → K :=
  fun f1 f2 f3 => ∑ n3 ∈ Finset.range q, (v f1 f2 n3 * tw_q (q * f2 + n3)) * b_q (q * n3 + f3)

/-- First inner inverse DFT: the inverse radix-`q` matrix along the innermost digit. -/
def minv1 {K : Type} [CommRing K] (q : ℕ) (b_q_ifft : ℕ → K) (v : ℕ → ℕ → ℕ → K) :
    ℕ → ℕ → ℕ → K :=
  fun f1 f2 n3 => ∑ f3 ∈ Finset.range q, v f1 f2 f3 * b_q_ifft (q * f3 + n3)

/-- Second inner inverse DFT: fine inverse twiddle, then the inverse radix-`q` matrix along
the middle digit. -/
def minv2 {K : Type} [CommRing K] (q : ℕ) (b_q_ifft tw_q_ifft : ℕ → K)
    (v : ℕ → ℕ → ℕ → K) : ℕ → ℕ → ℕ → K :=
  fun f1 n2 n3 =>
    ∑ f2 ∈ Finset.range q, (v f1 f2 n3 * tw_q_ifft (q * n3 + f2)) * b_q_ifft (q * f2 + n2)

/-- Outer inverse DFT: coarse inverse twiddle, then the inverse radix-`p` matrix along the
outermost digit. -/
def minv3 {K : Type} [CommRing K] (p q : ℕ) (b_p_ifft tw_N_ifft : ℕ → K)
    (v : ℕ → ℕ → ℕ → K) : ℕ → ℕ → ℕ → K :=
  fun n1 n2 n3 =>
    ∑ f1 ∈ Finset.range p,
      (v f1 n2 n3 * tw_N_ifft (q * q * f1 + q * n2 + n3)) * b_p_ifft (p * f1 + n1)

/-- The flat view of a function of the digits: element `j` is the entry at the digits of `j`. -/
def flat {K : Type} (q : ℕ) (v : ℕ → ℕ → ℕ → K) : ℕ → K :=
  fun j => v (j / (q * q)) (j / q % q) (j % q)

/-- The tables of a Monarch transform pair of length `p * q * q`. -/
structure MTables (K : Type) where
  p : ℕ
  q : ℕ
  b_p : ℕ → K
  b_q : ℕ → K
  tw_N : ℕ → K
  tw_q : ℕ → K
  b_p_ifft : ℕ → K
  b_q_ifft : ℕ → K
  tw_N_ifft : ℕ → K
  tw_q_ifft : ℕ → K

/-- The forward stage sequence of the kernels (outer DFT, two inner DFTs) on a sequence `x`;
the value at digits `(f1, f2, f3)` is what the kernels hold at scratch index
`q * q * f1 + q * f2 + f3`. -/
def MTables.fwd {K : Type} [CommRing K] (M : MTables K) (x : ℕ → K) : ℕ → ℕ → ℕ → K :=
  mfwd3 M.q M.b_q M.tw_q (mfwd2 M.q M.b_q M.tw_N (mfwd1 M.p M.b_p (digits M.q x)))

/-- The inverse stage sequence of the kernels (two inner inverse DFTs, outer inverse DFT) on a
spectrum given on digits; the value at digits `(n1, n2, n3)` is what the kernels write at
position `q * q * n1 + q * n2 + n3`. -/
def MTables.inv {K : Type} [CommRing K] (M : MTables K) (v : ℕ → ℕ → ℕ → K) :
    ℕ → ℕ → ℕ → K :=
  minv3 M.p M.q M.b_p_ifft M.tw_N_ifft
    (minv2 M.q M.b_q_ifft M.tw_q_ifft (minv1 M.q M.b_q_ifft v))

/-- The tables of the 16_16_16 kernels as a Monarch transform pair with `p = q = 16`. -/
def Tables.toM {K : Type} (T : Tables K) : MTables K :=
  { p := 16, q := 16, b_p := T.b, b_q := T.b, tw_N := T.twiddle_factors_256_fft,
    tw_q := T.twiddle_factors_16_fft, b_p_ifft := T.b_ifft, b_q_ifft := T.b_ifft,
    tw_N_ifft := T.twiddle_factors_256_ifft, tw_q_ifft := T.twiddle_factors_16_ifft }

/-- The tables of the 16_32_32 kernel as a Monarch transform pair with `p = 16`, `q = 32`. -/
def Tables32.toM {K : Type} (T : Tables32 K) : MTables K :=
  { p := 16, q := 32, b_p := T.b_16, b_q := T.b_32, tw_N := T.twiddle_factors_N_fft,
    tw_q := T.twiddle_factors_32_fft, b_p_ifft := T.b_16_ifft, b_q_ifft := T.b_32_ifft,
    tw_N_ifft := T.twiddle_factors_N_ifft, tw_q_ifft := T.twiddle_factors_32_ifft }

/-- The `dk_f` contribution of one batch element, on frequency digits:
`T(dout) * conj(T(x) * N)` with `T` the forward stage sequence. -/
def dk_f_term {K : Type} [CommRing K] [StarRing K] (M : MTables K) (N : ℕ) (dout x : ℕ → K) : ℕ → ℕ → ℕ → K :=
  fun f1 f2 f3 => M.fwd dout f1 f2 f3 * star (M.fwd x f1 f2 f3 * (N : K))

/-- The tables are those of a length-`p * q * q` DFT pair on a primitive root `ω`: the radix
matrices are `ω ^ (stride * n * f)` and their inverses, the twiddle tables are the
Cooley-Tukey corrections, and the normalisation is carried by the coarse twiddle tables
(`c_fwd` on the forward one, `c_inv` on the inverse one). -/
structure MTables.IsDFT {K : Type} [Field K] (M : MTables K) (ω c_fwd c_inv : K) : Prop where
  hp : 0 < M.p
  hq : 0 < M.q
  root : IsPrimitiveRoot ω (M.p * M.q * M.q)
  b_p : ∀ n f, n < M.p → f < M.p → M.b_p (M.p * n + f) = ω ^ (M.q * M.q * n * f)
  b_q : ∀ n f, n < M.q → f < M.q → M.b_q (M.q * n + f) = ω ^ (M.p * M.q * n * f)
  tw_N : ∀ f m, f < M.p → m < M.q * M.q → M.tw_N (M.q * M.q * f + m) = c_fwd * ω ^ (f * m)
  tw_q : ∀ f n, f < M.q → n < M.q → M.tw_q (M.q * f + n) = ω ^ (M.p * f * n)
  b_p_ifft : ∀ f n, f < M.p → n < M.p → M.b_p_ifft (M.p * f + n) = ω⁻¹ ^ (M.q * M.q * f * n)
  b_q_ifft : ∀ f n, f < M.q → n < M.q → M.b_q_ifft (M.q * f + n) = ω⁻¹ ^ (M.p * M.q * f * n)
  tw_N_ifft : ∀ f m, f < M.p → m < M.q * M.q →
    M.tw_N_ifft (M.q * M.q * f + m) = c_inv * ω⁻¹ ^ (f * m)
  tw_q_ifft : ∀ n f, n < M.q → f < M.q → M.tw_q_ifft (M.q * n + f) = ω⁻¹ ^ (M.p * n * f)

/-- The frequency held at digits `(f1, f2, f3)` of the kernels' spectrum: the kernels' fixed
output order is the digit reversal `f1 + p * f2 + p * q * f3`. -/
def freq (p q f1 f2 f3 : ℕ) : ℕ := f1 + p * f2 + p * q * f3

/-- The unnormalised length-`N` DFT sum of `x` at frequency `f` on the root `ω`. -/
def dft_sum {K : Type} [CommRing K] (N : ℕ) (ω : K) (x : ℕ → K) (f : ℕ) : K :=
  ∑ n ∈ Finset.range N, x n * ω ^ (n * f)

/-- Length-`N` circular convolution of `x` and `k` at position `n`. -/
def circ_conv {K : Type} [CommRing K] (N : ℕ) (x k : ℕ → K) (n : ℕ) : K :=
  ∑ m ∈ Finset.range N, x m * k ((n + N - m) % N)

/-- The sesquilinear pairing `<u, v> = sum_j u_j * conj(v_j)` of two sequences of length `N`. -/
def pairing {K : Type} [CommRing K] [StarRing K] (N : ℕ) (u v : ℕ → K) : K :=
  ∑ j ∈ Finset.range N, u j * star (v j)

/-- Modelled from the spec: the host-side precomputation of the tables of the 16_16_16
kernels ("precomputed radix-DFT matrices and twiddle-factor tables"), on a root `ω` of order
`4096`, with the normalisations `c_fwd`, `c_inv` on the coarse twiddle tables. -/
def dft_tables {K : Type} [Field K] (ω c_fwd c_inv : K) : Tables K :=
  { b := fun i => ω ^ (16 * 16 * (i / 16) * (i % 16)),
    twiddle_factors_256_fft := fun i => c_fwd * ω ^ (i / 256 * (i % 256)),
    twiddle_factors_16_fft := fun i => ω ^ (16 * (i / 16) * (i % 16)),
    b_ifft := fun i => ω⁻¹ ^ (16 * 16 * (i / 16) * (i % 16)),
    twiddle_factors_256_ifft := fun i => c_inv * ω⁻¹ ^ (i / 256 * (i % 256)),
    twiddle_factors_16_ifft := fun i => ω⁻¹ ^ (16 * (i / 16) * (i % 16)) }

/-- Modelled from the spec: the host-side precomputation of the tables of the 16_32_32 kernel,
on a root `ω` of order `16384`, with the normalisations `c_fwd`, `c_inv` on the coarse twiddle
tables. -/
def dft_tables32 {K : Type} [Field K] (ω c_fwd c_inv : K) : Tables32 K :=
  { b_16 := fun i => ω ^ (32 * 32 * (i / 16) * (i % 16)),
    b_32 := fun i => ω ^ (16 * 32 * (i / 32) * (i % 32)),
    twiddle_factors_N_fft := fun i => c_fwd * ω ^ (i / 1024 * (i % 1024)),
    twiddle_factors_32_fft := fun i => ω ^ (16 * (i / 32) * (i % 32)),
    b_16_ifft := fun i => ω⁻¹ ^ (32 * 32 * (i / 16) * (i % 16)),
    b_32_ifft := fun i => ω⁻¹ ^ (16 * 32 * (i / 32) * (i % 32)),
    twiddle_factors_N_ifft := fun i => c_inv * ω⁻¹ ^ (i / 1024 * (i % 1024)),
    twiddle_factors_32_ifft := fun i => ω⁻¹ ^ (16 * (i / 32) * (i % 32)) }

/-- Element `idx` of the forward output planes in the row-major `[B, H, N]` layout: position
`idx % N` of the inverse transform of (forward transform of input row `idx / N`) times the
filter spectrum of channel `idx / N % H`. -/
def fwd_out_spec {K : Type} [CommRing K] (T : Tables K) (H N : ℕ) (a_inp k_f : ℕ → K)
    (idx : ℕ) : K :=
  flat 16 (T.toM.inv (fun f1 f2 f3 =>
    T.toM.fwd (fun i => a_inp (idx / N * N + i)) f1 f2 f3
      * k_f (idx / N % H * N + (256 * f1 + 16 * f2 + f3)))) (idx % N)

/-- Element `idx` of `dx` in the row-major `[B, H, N]` layout: position `idx % N` of the inverse
transform of (forward transform of `dout` row `idx / N`) times the conjugate filter spectrum
of channel `idx / N % H`. -/
def bwd_dx_spec {K : Type} [CommRing K] [StarRing K] (T : Tables K) (H N : ℕ)
    (dout_inp k_f : ℕ → K) (idx : ℕ) : K :=
  flat 16 (T.toM.inv (fun f1 f2 f3 =>
    T.toM.fwd (fun i => dout_inp (idx / N * N + i)) f1 f2 f3
      * star (k_f (idx / N % H * N + (256 * f1 + 16 * f2 + f3))))) (idx % N)

/-- Element `idx` of `dk_f_out` in the layout `[gridDim.x, H, N]`: for batch tile
`idx / N / H`, channel `idx / N % H` and frequency slot `idx % N`, the sum over the
`B_TILE_SIZE` batch elements of the tile of `T(dout) * conj(N * T(x))`. -/
def dk_f_spec {K : Type} [CommRing K] [StarRing K] (M : MTables K) (B_TILE_SIZE H N : ℕ)
    (dout_inp a_inp : ℕ → K) (idx : ℕ) : K :=
  ∑ b ∈ Finset.range B_TILE_SIZE,
    flat M.q (M.fwd (fun i =>
        dout_inp (((idx / N / H * B_TILE_SIZE + b) * H + idx / N % H) * N + i))) (idx % N)
      * star ((N : K) * flat M.q (M.fwd (fun i =>
        a_inp (((idx / N / H * B_TILE_SIZE + b) * H + idx / N % H) * N + i))) (idx % N))

/-- The array `1, 1, 1, ...`. -/
def all_ones (K : Type) [CommRing K] : ℕ → K :=
  fun _ => 1

/-- The unit impulse `1, 0, 0, ...` as an array. -/
def unit_impulse (K : Type) [CommRing K] : ℕ → K :=
  fun i => if i = 0 then 1 else 0

/-- Tables of ones: every radix matrix and twiddle entry is `1` (each stage sums its inputs). -/
def ones_tables (K : Type) [CommRing K] : Tables K :=
  { b := fun _ => 1, twiddle_factors_256_fft := fun _ => 1, twiddle_factors_16_fft := fun _ => 1,
    b_ifft := fun _ => 1, twiddle_factors_256_ifft := fun _ => 1,
    twiddle_factors_16_ifft := fun _ => 1 }

/-- Tables of ones for the 16_32_32 kernel. -/
def ones_tables32 (K : Type) [CommRing K] : Tables32 K :=
  { b_16 := fun _ => 1, b_32 := fun _ => 1, twiddle_factors_N_fft := fun _ => 1,
    twiddle_factors_32_fft := fun _ => 1, b_16_ifft := fun _ => 1, b_32_ifft := fun _ => 1,
    twiddle_factors_N_ifft := fun _ => 1, twiddle_factors_32_ifft := fun _ => 1 }

/-- A launch configuration of the 16_16_16 kernels: 32 × 8 threads, `WARP_TILE_SIZE = 8`,
batch `B`, `H` channels, tiles of `B_TILE_SIZE` batch elements and `H_TILE_SIZE` channels. -/
def config (B H B_TILE_SIZE H_TILE_SIZE : ℕ) : Params :=
  { BLOCK_DIM_X := 32, BLOCK_DIM_Y := 8, N := 4096, MATMUL_WARP_WIDTH := 1, DFT_SIZE := 16,
    B_TILE_SIZE := B_TILE_SIZE, H_TILE_SIZE := H_TILE_SIZE, WARP_TILE_SIZE := 8,
    B := B, H := H, signal_size := 4096, sqrt_N := 16 }

/-- A launch configuration of the 16_32_32 kernel: 32 × 8 threads, `WARP_TILE_SIZE = 8`. -/
def config32 (B H B_TILE_SIZE H_TILE_SIZE : ℕ) : Params32 :=
  { BLOCK_DIM_X := 32, BLOCK_DIM_Y := 8, N := 16384, MATMUL_WARP_WIDTH_1 := 1,
    MATMUL_WARP_WIDTH_2 := 2, DFT_SIZE := 16, B_TILE_SIZE := B_TILE_SIZE,
    H_TILE_SIZE := H_TILE_SIZE, WARP_TILE_SIZE := 8, B := B, H := H, signal_size := 16384 }

/-! ## Instantiations -/

/-- The instantiation of the 16_16_16 kernels: `N = 16 * 16 * 16`, one 16×16 fragment per
matrix, `WARP_TILE_SIZE` warps of 32 threads per block. -/
structure Params.Valid (P : Params) : Prop where
  hN : P.N = 4096
  hDFT : P.DFT_SIZE = 16
  hsqrt : P.sqrt_N = 16
  hW : P.MATMUL_WARP_WIDTH = 1
  hwarp : P.WARP_TILE_SIZE ∣ 16
  hthreads : P.num_threads = 32 * P.WARP_TILE_SIZE

/-- The instantiation of the 16_32_32 kernel: `N = 16 * 32 * 32`, one 16×16 fragment for the
radix-16 matrices, a 2×2 array of fragments for the radix-32 matrices, `WARP_TILE_SIZE` warps
of 32 threads per block. -/
structure Params32.Valid (P : Params32) : Prop where
  hN : P.N = 16384
  hW1 : P.MATMUL_WARP_WIDTH_1 = 1
  hW2 : P.MATMUL_WARP_WIDTH_2 = 2
  hwarp : P.WARP_TILE_SIZE ∣ 16
  hthreads : P.num_threads = 32 * P.WARP_TILE_SIZE

/-! ## The loops of the cooperative copies and of the scaling, as written in the source -/

/-- One store `reinterpret_cast<__half2 *>(plane)[a_idx] = __half2(v0, v1)`: the elements
`2 * a_idx` and `2 * a_idx + 1` of the plane receive `v0` and `v1`. -/
def write_half2 {K : Type} (a_idx : ℕ) (v0 v1 : K) (plane : ℕ → K) : ℕ → K :=
  fun idx => if idx = 2 * a_idx then v0 else if idx = 2 * a_idx + 1 then v1 else plane idx

/-- The staging loop as the source writes it (forward kernel lines 141-150), the threads of
the block executed one after the other: thread `thread_id` runs
`for i < items: a_idx = i * num_threads + thread_id; plane[a_idx] = (regs[2 i], regs[2 i + 1])`. -/
def regs_to_shared_loop {K : Type} (num_threads items : ℕ) (regs : ℕ → ℕ → K)
    (plane : ℕ → K) : ℕ → K :=
  forRange num_threads (fun thread_id plane =>
    forRange items (fun i plane =>
      write_half2 (i * num_threads + thread_id) (regs thread_id (2 * i))
        (regs thread_id (2 * i + 1)) plane) plane) plane

/-- One update `plane[a_idx] = __hmul2(plane[a_idx], __half2(c, c))` on the `__half2` at index
`a_idx`: both of its elements are multiplied by `c`. -/
def scale_half2 {K : Type} [CommRing K] (a_idx : ℕ) (c : K) (plane : ℕ → K) : ℕ → K :=
  fun idx => if idx / 2 = a_idx then plane idx * c else plane idx

/-- The loop `x = x * N` as the source writes it (16_16_16 backward lines 477-486, 16_32_32
lines 539-548), the 32 lanes of the warp executed one after the other: lane `thread_id % 32`
runs `for i < count: a_idx = k_idx_offset / 2 + i * 32 + thread_id % 32; plane[a_idx] *= c`. -/
def scale_loop {K : Type} [CommRing K] (k_idx_offset count : ℕ) (c : K) (plane : ℕ → K) :
    ℕ → K :=
  forRange WARP_SIZE (fun lane plane =>
    forRange count (fun i plane =>
      scale_half2 (k_idx_offset / 2 + i * 32 + lane) c plane) plane) plane

/-! ## Block offsets of the warps -/

/-- Source lines 395 and 491 (forward), 393 and 549 (backward): `k_idx_offset` of the outer
stages of the 16_16_16 kernels, the first column of the 16×16 tile of `(k_idx, warp_id)`. -/
def k_idx_offset_outer (P : Params) (k_idx warp_id : ℕ) : ℕ :=
  k_idx * P.WARP_TILE_SIZE * P.DFT_SIZE + warp_id * P.DFT_SIZE

/-- Source line 413 (forward), 422 (backward): `k_idx_offset` of the inner stage of the
16_16_16 kernels, the start of the block of `DFT_SIZE * DFT_SIZE` elements of
`(k_idx, warp_id)`. -/
def k_idx_offset_inner (P : Params) (k_idx warp_id : ℕ) : ℕ :=
  k_idx * P.WARP_TILE_SIZE * P.DFT_SIZE * P.DFT_SIZE + warp_id * P.DFT_SIZE * P.DFT_SIZE

/-- Source line 39: `N_1 = 256`. -/
def N_1 : ℕ := 256

/-- Source line 40: `N_2 = 1024`. -/
def N_2 : ℕ := 1024

/-- Source lines 454 and 600 (16_32_32): `k_idx_offset` of the outer stages, the first column
of the tile of 16 rows (stride 1024) by 16 columns of `(k_idx, warp_id)`. -/
def k_idx_offset_outer32 (P : Params32) (k_idx warp_id : ℕ) : ℕ :=
  k_idx * P.WARP_TILE_SIZE * sqrt_N_1 + warp_id * sqrt_N_1

/-- Source line 484 (16_32_32): `k_idx_offset` of the inner stage, the start of the block of
`sqrt_N_2 * sqrt_N_2` elements of `(k_idx, warp_id)`. -/
def k_idx_offset_inner32 (P : Params32) (k_idx warp_id : ℕ) : ℕ :=
  k_idx * P.WARP_TILE_SIZE * sqrt_N_2 * sqrt_N_2 + warp_id * sqrt_N_2 * sqrt_N_2

/-! ## The staging prologue (source lines 85-318 of the forward kernel, 95-328 of the
16_16_16 backward kernel, 110-388 of the 16_32_32 kernel)

The prologue is executed stage by stage, a stage being the code between two
`__syncthreads()`; within a stage the statements are executed in source order. -/

/-- The guarded striped `cub::BlockLoad` (`Load(src, regs, valid_items)`) of `items` packed
items per thread: register slot `m` of thread `t` receives element
`2 * ((m / 2) * num_threads + t) + m % 2` of `src + ptr` when the packed item
`(m / 2) * num_threads + t` is below `valid_items`; the other slots keep their contents. -/
def BlockLoad_striped_guarded {K : Type} (num_threads items valid_items : ℕ) (src : ℕ → K)
    (ptr : ℕ) (regs : ℕ → ℕ → K) : ℕ → ℕ → K :=
  fun t m =>
    if m / 2 < items ∧ (m / 2) * num_threads + t < valid_items then
      src (ptr + 2 * ((m / 2) * num_threads + t) + m % 2)
    else regs t m

/-- Source line 45: `items_per_thread_matrix = num_threads <= 128 ? DFT_SIZE * DFT_SIZE /
num_threads : 2`. -/
def Params.items_per_thread_matrix (P : Params) : ℕ :=
  if P.num_threads ≤ 128 then P.DFT_SIZE * P.DFT_SIZE / P.num_threads else 2

/-- Source lines 118-148 (forward), 135-165 (16_32_32): the registers holding a 16×16 table
are written to a matrix plane.  With at most 128 threads every thread runs
`for i < items_per_thread_matrix / 2: b_idx = i * num_threads + thread_id`; with more threads
only `thread_id < 128` writes, at `b_idx = thread_id`, its register slots 0 and 1. -/
def stage_matrix {K : Type} (num_threads items_per_thread_matrix : ℕ)
    (b_input_data : ℕ → ℕ → K) (b_plane : ℕ → K) : ℕ → K :=
  if num_threads ≤ 128 then
    regs_to_shared num_threads (items_per_thread_matrix / 2) b_input_data b_plane
  else
    fun idx => if idx / 2 < 128 then b_input_data (idx / 2) (idx % 2) else b_plane idx

/-- State of the staging prologue of the 16_16_16 kernels: the scratch planes
`a_real`/`a_imag` (field `a`), `b_real`/`b_imag` (field `b`), `b_real_2`/`b_imag_2` (field
`b_2`), the per-thread registers (thread, slot), and the register fragments; the fragments
`twiddle_256_dft_frag[k_idx]` and `twiddle_256_idft_frag[k_idx]` are per warp
(`k_idx`, `warp_id`), the others are loaded alike by every warp. -/
structure PrologueState (K : Type) where
  a : ℕ → K
  b : ℕ → K
  b_2 : ℕ → K
  a_input_data : ℕ → ℕ → K
  b_input_data : ℕ → ℕ → K
  b_input_data_2 : ℕ → ℕ → K
  a_frag_dft : Frag K
  b_frag_dft : Frag K
  b_frag_idft : Frag K
  twiddle_256_dft_frag : ℕ → ℕ → Frag K
  twiddle_256_idft_frag : ℕ → ℕ → Frag K
  twiddle_16_dft_frag : Frag K
  twiddle_16_idft_frag : Frag K

/-- Source lines 85-150 (forward): `twiddle_factors_256_fft`, `b` and `b_ifft` are loaded into
registers and written to the planes `a`, `b` and `b_2`. -/
def prologue_stage_1 {K : Type} (P : Params) (T : Tables K) (s : PrologueState K) :
    PrologueState K :=
  let a_input_data := BlockLoad_striped P.num_threads (P.items_per_thread_input / 2)
    T.twiddle_factors_256_fft 0 s.a_input_data
  let b_input_data := BlockLoad_striped_guarded P.num_threads (P.items_per_thread_matrix / 2)
    (P.DFT_SIZE * P.DFT_SIZE / 2) T.b 0 s.b_input_data
  let b_input_data_2 := BlockLoad_striped_guarded P.num_threads (P.items_per_thread_matrix / 2)
    (P.DFT_SIZE * P.DFT_SIZE / 2) T.b_ifft 0 s.b_input_data_2
  { s with
    a_input_data := a_input_data
    b_input_data := b_input_data
    b_input_data_2 := b_input_data_2
    b := stage_matrix P.num_threads P.items_per_thread_matrix b_input_data s.b
    b_2 := stage_matrix P.num_threads P.items_per_thread_matrix b_input_data_2 s.b_2
    a := regs_to_shared P.num_threads (P.items_per_thread_input / 2) a_input_data s.a }

/-- Source lines 152-222 (forward): the fine twiddle tables are loaded into registers; the
fragments `a_frag_dft`, `b_frag_dft` (from `b`), `b_frag_idft` (from `b_2`) and
`twiddle_256_dft_frag[k_idx]` (from `a`) are captured. -/
def prologue_stage_2 {K : Type} (P : Params) (T : Tables K) (s : PrologueState K) :
    PrologueState K :=
  { s with
    b_input_data := BlockLoad_striped_guarded P.num_threads (P.items_per_thread_matrix / 2)
      (P.DFT_SIZE * P.DFT_SIZE / 2) T.twiddle_factors_16_fft 0 s.b_input_data
    b_input_data_2 := BlockLoad_striped_guarded P.num_threads (P.items_per_thread_matrix / 2)
      (P.DFT_SIZE * P.DFT_SIZE / 2) T.twiddle_factors_16_ifft 0 s.b_input_data_2
    a_frag_dft := load_matrix_sync s.b 0 P.sqrt_N .col_major
    b_frag_dft := load_matrix_sync s.b 0 P.sqrt_N .row_major
    b_frag_idft := load_matrix_sync s.b_2 0 P.sqrt_N .row_major
    twiddle_256_dft_frag := fun k_idx warp_id =>
      if k_idx < 16 / P.WARP_TILE_SIZE ∧ warp_id < P.num_warps then
        load_matrix_sync s.a (k_idx_offset_inner P k_idx warp_id) P.sqrt_N .row_major
      else s.twiddle_256_dft_frag k_idx warp_id }

/-- Source lines 224-270 (forward): `twiddle_factors_256_ifft` is loaded and written over the
planes `a`; the fine twiddle tables held in registers are written over the planes `b` and
`b_2`. -/
def prologue_stage_3 {K : Type} (P : Params) (T : Tables K) (s : PrologueState K) :
    PrologueState K :=
  let a_input_data := BlockLoad_striped P.num_threads (P.items_per_thread_input / 2)
    T.twiddle_factors_256_ifft 0 s.a_input_data
  { s with
    a_input_data := a_input_data
    a := regs_to_shared P.num_threads (P.items_per_thread_input / 2) a_input_data s.a
    b := stage_matrix P.num_threads P.items_per_thread_matrix s.b_input_data s.b
    b_2 := stage_matrix P.num_threads P.items_per_thread_matrix s.b_input_data_2 s.b_2 }

/-- Source lines 272-318 (forward): the fragments `twiddle_256_idft_frag[k_idx]` (from `a`,
leading dimension 256, column major), `twiddle_16_dft_frag` (from `b`) and
`twiddle_16_idft_frag` (from `b_2`) are captured. -/
def prologue_stage_4 {K : Type} (P : Params) (s : PrologueState K) : PrologueState K :=
  { s with
    twiddle_256_idft_frag := fun k_idx warp_id =>
      if k_idx < 16 / P.WARP_TILE_SIZE ∧ warp_id < P.num_warps then
        load_matrix_sync s.a (k_idx_offset_outer P k_idx warp_id) 256 .col_major
      else s.twiddle_256_idft_frag k_idx warp_id
    twiddle_16_dft_frag := load_matrix_sync s.b 0 P.sqrt_N .row_major
    twiddle_16_idft_frag := load_matrix_sync s.b_2 0 P.sqrt_N .row_major }

/-- The staging prologue of the 16_16_16 kernels, from kernel entry to the channel loop. -/
def prologue {K : Type} (P : Params) (T : Tables K) (s : PrologueState K) : PrologueState K :=
  prologue_stage_4 P (prologue_stage_3 P T (prologue_stage_2 P T (prologue_stage_1 P T s)))

/-- Source line 56 (16_32_32): `items_per_thread_matrix_N_1 = num_threads <= 128 ? N_1 /
num_threads : 2`. -/
def Params32.items_per_thread_matrix_N_1 (P : Params32) : ℕ :=
  if P.num_threads ≤ 128 then N_1 / P.num_threads else 2

/-- Source line 57 (16_32_32): `items_per_thread_matrix_N_2 = N_2 / num_threads`. -/
def Params32.items_per_thread_matrix_N_2 (P : Params32) : ℕ := N_2 / P.num_threads

/-- State of the staging prologue of the 16_32_32 kernel: the scratch planes
`a_real`/`a_imag` (field `a`), `b_real`/`b_imag` (field `b`), `b_real_2`/`b_imag_2` (field
`b_2`), the per-thread registers, and the register fragments; `twiddle_1024_dft_frag[k_idx]`
and `twiddle_1024_idft_frag[k_idx]` are per warp (`k_idx`, `warp_id`). -/
structure PrologueState32 (K : Type) where
  a : ℕ → K
  b : ℕ → K
  b_2 : ℕ → K
  a_input_data : ℕ → ℕ → K
  b_input_data : ℕ → ℕ → K
  b_input_data_2 : ℕ → ℕ → K
  b_frag_dft_N_1 : Frag K
  b_frag_idft_N_1 : Frag K
  b_frag_dft_N_2 : Frag K
  b_frag_idft_N_2 : Frag K
  a_frag_dft_N_2 : Frag K
  twiddle_32_dft_frag : Frag K
  twiddle_32_idft_frag : Frag K
  twiddle_1024_dft_frag : ℕ → ℕ → Frag K
  twiddle_1024_idft_frag : ℕ → ℕ → Frag K

/-- Source lines 110-178 (16_32_32): `twiddle_factors_N_fft`, `b_16` and `b_16_ifft` are loaded
into registers and written to the planes `a`, `b` and `b_2`. -/
def prologue32_stage_1 {K : Type} (P : Params32) (T : Tables32 K) (s : PrologueState32 K) :
    PrologueState32 K :=
  let a_input_data := BlockLoad_striped P.num_threads (P.items_per_thread_input / 2)
    T.twiddle_factors_N_fft 0 s.a_input_data
  let b_input_data := BlockLoad_striped_guarded P.num_threads
    (P.items_per_thread_matrix_N_1 / 2) (N_1 / 2) T.b_16 0 s.b_input_data
  let b_input_data_2 := BlockLoad_striped_guarded P.num_threads
    (P.items_per_thread_matrix_N_1 / 2) (N_1 / 2) T.b_16_ifft 0 s.b_input_data_2
  { s with
    a_input_data := a_input_data
    b_input_data := b_input_data
    b_input_data_2 := b_input_data_2
    b := stage_matrix P.num_threads P.items_per_thread_matrix_N_1 b_input_data s.b
    b_2 := stage_matrix P.num_threads P.items_per_thread_matrix_N_1 b_input_data_2 s.b_2
    a := regs_to_shared P.num_threads (P.items_per_thread_input / 2) a_input_data s.a }

/-- Source lines 180-241 (16_32_32): the 32×32 twiddle tables are loaded into registers; the
fragments `b_frag_dft_N_1` (from `b`), `b_frag_idft_N_1` (from `b_2`) and
`twiddle_1024_dft_frag[k_idx]` (from `a`) are captured. -/
def prologue32_stage_2 {K : Type} (P : Params32) (T : Tables32 K) (s : PrologueState32 K) :
    PrologueState32 K :=
  { s with
    b_input_data := BlockLoad_striped_guarded P.num_threads
      (P.items_per_thread_matrix_N_2 / 2) (N_2 / 2) T.twiddle_factors_32_fft 0 s.b_input_data
    b_input_data_2 := BlockLoad_striped_guarded P.num_threads
      (P.items_per_thread_matrix_N_2 / 2) (N_2 / 2) T.twiddle_factors_32_ifft 0
      s.b_input_data_2
    b_frag_dft_N_1 := load_matrix_sync s.b 0 sqrt_N_1 .row_major
    b_frag_idft_N_1 := load_matrix_sync s.b_2 0 sqrt_N_1 .row_major
    twiddle_1024_dft_frag := fun k_idx warp_id =>
      if k_idx < 16 / P.WARP_TILE_SIZE ∧ warp_id < P.num_warps then
        load_matrix_sync s.a (k_idx_offset_inner32 P k_idx warp_id) sqrt_N_2 .row_major
      else s.twiddle_1024_dft_frag k_idx warp_id }

/-- Source lines 243-280 (16_32_32): `twiddle_factors_N_ifft` is loaded and written over the
planes `a`; the 32×32 twiddle tables held in registers are written over the planes `b` and
`b_2` by the unbranched loop `for i < items_per_thread_matrix_N_2 / 2`. -/
def prologue32_stage_3 {K : Type} (P : Params32) (T : Tables32 K) (s : PrologueState32 K) :
    PrologueState32 K :=
  let a_input_data := BlockLoad_striped P.num_threads (P.items_per_thread_input / 2)
    T.twiddle_factors_N_ifft 0 s.a_input_data
  { s with
    a_input_data := a_input_data
    a := regs_to_shared P.num_threads (P.items_per_thread_input / 2) a_input_data s.a
    b := regs_to_shared P.num_threads (P.items_per_thread_matrix_N_2 / 2) s.b_input_data s.b
    b_2 := regs_to_shared P.num_threads (P.items_per_thread_matrix_N_2 / 2) s.b_input_data_2
      s.b_2 }

/-- Source lines 282-340 (16_32_32): `b_32` and `b_32_ifft` are loaded into registers; the
fragments `twiddle_1024_idft_frag[k_idx]` (from `a`, leading dimension 1024, column major),
`twiddle_32_dft_frag` (from `b`) and `twiddle_32_idft_frag` (from `b_2`) are captured. -/
def prologue32_stage_4 {K : Type} (P : Params32) (T : Tables32 K) (s : PrologueState32 K) :
    PrologueState32 K :=
  { s with
    b_input_data := BlockLoad_striped_guarded P.num_threads
      (P.items_per_thread_matrix_N_2 / 2) (N_2 / 2) T.b_32 0 s.b_input_data
    b_input_data_2 := BlockLoad_striped_guarded P.num_threads
      (P.items_per_thread_matrix_N_2 / 2) (N_2 / 2) T.b_32_ifft 0 s.b_input_data_2
    twiddle_1024_idft_frag := fun k_idx warp_id =>
      if k_idx < 64 / P.WARP_TILE_SIZE ∧ warp_id < P.num_warps then
        load_matrix_sync s.a (k_idx_offset_outer32 P k_idx warp_id) 1024 .col_major
      else s.twiddle_1024_idft_frag k_idx warp_id
    twiddle_32_dft_frag := load_matrix_sync s.b 0 sqrt_N_2 .row_major
    twiddle_32_idft_frag := load_matrix_sync s.b_2 0 sqrt_N_2 .row_major }

/-- Source lines 342-360 (16_32_32): the 32×32 DFT matrices held in registers are written over
the planes `b` and `b_2`. -/
def prologue32_stage_5 {K : Type} (P : Params32) (s : PrologueState32 K) : PrologueState32 K :=
  { s with
    b := regs_to_shared P.num_threads (P.items_per_thread_matrix_N_2 / 2) s.b_input_data s.b
    b_2 := regs_to_shared P.num_threads (P.items_per_thread_matrix_N_2 / 2) s.b_input_data_2
      s.b_2 }

/-- Source lines 362-388 (16_32_32): the fragments `a_frag_dft_N_2`, `b_frag_dft_N_2` (from
`b`) and `b_frag_idft_N_2` (from `b_2`) are captured. -/
def prologue32_stage_6 {K : Type} (s : PrologueState32 K) : PrologueState32 K :=
  { s with
    a_frag_dft_N_2 := load_matrix_sync s.b 0 sqrt_N_2 .col_major
    b_frag_dft_N_2 := load_matrix_sync s.b 0 sqrt_N_2 .row_major
    b_frag_idft_N_2 := load_matrix_sync s.b_2 0 sqrt_N_2 .row_major }

/-- The staging prologue of the 16_32_32 kernel, from kernel entry to the channel loop. -/
def prologue32 {K : Type} (P : Params32) (T : Tables32 K) (s : PrologueState32 K) :
    PrologueState32 K :=
  prologue32_stage_6 (prologue32_stage_5 P (prologue32_stage_4 P T
    (prologue32_stage_3 P T (prologue32_stage_2 P T (prologue32_stage_1 P T s)))))

/-- A prologue state of zeros: scratch planes, registers and fragments before the kernel has
written them. -/
def PrologueState.zero (K : Type) [CommRing K] : PrologueState K :=
  { a := fun _ => 0
    b := fun _ => 0
    b_2 := fun _ => 0
    a_input_data := fun _ _ => 0
    b_input_data := fun _ _ => 0
    b_input_data_2 := fun _ _ => 0
    a_frag_dft := fun _ _ => 0
    b_frag_dft := fun _ _ => 0
    b_frag_idft := fun _ _ => 0
    twiddle_256_dft_frag := fun _ _ _ _ => 0
    twiddle_256_idft_frag := fun _ _ _ _ => 0
    twiddle_16_dft_frag := fun _ _ => 0
    twiddle_16_idft_frag := fun _ _ => 0 }

/-- A prologue state of zeros for the 16_32_32 kernel. -/
def PrologueState32.zero (K : Type) [CommRing K] : PrologueState32 K :=
  { a := fun _ => 0
    b := fun _ => 0
    b_2 := fun _ => 0
    a_input_data := fun _ _ => 0
    b_input_data := fun _ _ => 0
    b_input_data_2 := fun _ _ => 0
    b_frag_dft_N_1 := fun _ _ => 0
    b_frag_idft_N_1 := fun _ _ => 0
    b_frag_dft_N_2 := fun _ _ => 0
    b_frag_idft_N_2 := fun _ _ => 0
    a_frag_dft_N_2 := fun _ _ => 0
    twiddle_32_dft_frag := fun _ _ => 0
    twiddle_32_idft_frag := fun _ _ => 0
    twiddle_1024_dft_frag := fun _ _ _ _ => 0
    twiddle_1024_idft_frag := fun _ _ _ _ => 0 }

/-! ## Invocation through the host-side orchestration layer -/

/-- Modelled from the spec: the status reported by an invocation; "configuration error" is
the "configuration-time failure" of an invalid configuration. -/
inductive Status where
  | ok : Status
  | configuration_error : Status

/-- Modelled from the spec: invocation of the forward kernel by the orchestration layer (host
code, not under `src/`): "invoking with an N not equal to a supported radix product must be
rejected prior to any computation"; the 16_16_16 kernels are instantiated for the radix
product `16 * 16 * 16` only.  A rejected invocation launches nothing, so the output buffer is
returned as it was. -/
def invoke_fwd {K : Type} [CommRing K] (P : Params) (T : Tables K) (a_inp k_f : ℕ → K)
    (regs : ℕ → ℕ → K) (gridDim_x gridDim_y : ℕ) (out : ℕ → K) : Status × (ℕ → K) :=
  if P.N = 16 * 16 * 16 then
    (Status.ok, launch_fwd P T a_inp k_f regs gridDim_x gridDim_y out)
  else (Status.configuration_error, out)

/-- Modelled from the spec: invocation of the 16_16_16 backward kernel by the orchestration
layer, rejected unless `N = 16 * 16 * 16`. -/
def invoke_bwd {K : Type} [CommRing K] [StarRing K] (P : Params) (T : Tables K)
    (dout_inp a_inp k_f junk : ℕ → K) (regs : ℕ → ℕ → K) (gridDim_x gridDim_y : ℕ)
    (o : BwdOut K) : Status × BwdOut K :=
  if P.N = 16 * 16 * 16 then
    (Status.ok, launch_bwd P T dout_inp a_inp k_f junk regs gridDim_x gridDim_y o)
  else (Status.configuration_error, o)

/-- Modelled from the spec: invocation of the 16_32_32 backward kernel by the orchestration
layer, rejected unless `N = 16 * 32 * 32`. -/
def invoke_bwd32 {K : Type} [CommRing K] [StarRing K] (P : Params32) (T : Tables32 K)
    (dout_inp a_inp k_f junk : ℕ → K) (regs : ℕ → ℕ → K) (gridDim_x gridDim_y : ℕ)
    (o : BwdOut K) : Status × BwdOut K :=
  if P.N = 16 * 32 * 32 then
    (Status.ok, launch_bwd32 P T dout_inp a_inp k_f junk regs gridDim_x gridDim_y o)
  else (Status.configuration_error, o)

/-! ## 32-bit offsets stored in `int` variables -/

/-- The value of a 32-bit pattern stored in an `int` variable (two's complement): the offsets
`b_offset`, `h_offset` and `input_offset` are computed in unsigned 32-bit arithmetic and
assigned to `int` variables. -/
def as_int (x : ℕ) : ℤ :=
  if x % 4294967296 < 2147483648 then ((x % 4294967296 : ℕ) : ℤ)
  else ((x % 4294967296 : ℕ) : ℤ) - 4294967296

/-- Source line 55 (forward kernel): `b_offset = blockIdx.x * H * N * B_TILE_SIZE`. -/
def fwd_b_offset (P : Params) (blockIdx_x : ℕ) : ℕ :=
  u32 (blockIdx_x * P.H * P.N * P.B_TILE_SIZE)

/-- Source line 57 (forward kernel): `h_offset = blockIdx.y * N * H_TILE_SIZE`. -/
def fwd_h_offset (P : Params) (blockIdx_y : ℕ) : ℕ :=
  u32 (blockIdx_y * P.N * P.H_TILE_SIZE)

/-! ## Matrix staging as the source writes it -/

/-- Source lines 118-148 (forward), 128-158 (16_16_16 backward), 132-165 (16_32_32): the
staging of a 16×16 table, the threads of the block executed one after the other.  With
`num_threads <= 128` thread `thread_id` runs
`for i < items_per_thread_matrix / 2: b_idx = i * num_threads + thread_id;
plane[b_idx] = (regs[2 i], regs[2 i + 1])`; otherwise a thread with `thread_id < 128` stores
its register slots 0 and 1 at `b_idx = thread_id` and the other threads store nothing. -/
def stage_matrix_loop {K : Type} (num_threads items_per_thread_matrix : ℕ)
    (b_input_data : ℕ → ℕ → K) (b_plane : ℕ → K) : ℕ → K :=
  if num_threads ≤ 128 then
    forRange num_threads (fun thread_id plane =>
      forRange (items_per_thread_matrix / 2) (fun i plane =>
        write_half2 (i * num_threads + thread_id) (b_input_data thread_id (2 * i))
          (b_input_data thread_id (2 * i + 1)) plane) plane) b_plane
  else
    forRange num_threads (fun thread_id plane =>
      if thread_id < 128 then
        write_half2 thread_id (b_input_data thread_id 0) (b_input_data thread_id 1) plane
      else plane) b_plane

/-- A launch configuration of the 16_16_16 kernels with 128 threads: 32 × 4 threads,
`WARP_TILE_SIZE = 4`. -/
def config128 (B H B_TILE_SIZE H_TILE_SIZE : ℕ) : Params :=
  { BLOCK_DIM_X := 32, BLOCK_DIM_Y := 4, N := 4096, MATMUL_WARP_WIDTH := 1, DFT_SIZE := 16,
    B_TILE_SIZE := B_TILE_SIZE, H_TILE_SIZE := H_TILE_SIZE, WARP_TILE_SIZE := 4,
    B := B, H := H, signal_size := 4096, sqrt_N := 16 }

/-! ## Layout of the shared buffer -/

/-- A named sub-region of the flat shared buffer `a_real[]`: index of its first element and
number of elements (`at::Half`). -/
structure Region where
  base : ℕ
  len : ℕ

/-- Source lines 33-38 (forward kernel): `a_real`, `a_imag = &a_real[N]`,
`b_real = &a_real[2 * N]`, `b_imag = &a_real[2 * N + 256]`,
`b_real_2 = &a_real[2 * N + 2 * 256]`, `b_imag_2 = &a_real[2 * N + 3 * 256]`; the sequence
planes hold `N` elements, the matrix planes `DFT_SIZE * DFT_SIZE = 256`. -/
def fwd_regions (N : ℕ) : List Region :=
  [⟨0, N⟩, ⟨N, N⟩, ⟨2 * N, 256⟩, ⟨2 * N + 256, 256⟩, ⟨2 * N + 2 * 256, 256⟩,
    ⟨2 * N + 3 * 256, 256⟩]

/-- Source lines 36-43 (16_16_16 backward kernel): `a_real`, `a_imag = &a_real[N]`,
`a_real_2 = &a_real[2 * N]`, `a_imag_2 = &a_real[3 * N]`, `b_real = &a_real[4 * N]`,
`b_imag = &a_real[4 * N + 256]`, `b_real_2 = &a_real[4 * N + 2 * 256]`,
`b_imag_2 = &a_real[4 * N + 3 * 256]`. -/
def bwd_regions (N : ℕ) : List Region :=
  [⟨0, N⟩, ⟨N, N⟩, ⟨2 * N, N⟩, ⟨3 * N, N⟩, ⟨4 * N, 256⟩, ⟨4 * N + 256, 256⟩,
    ⟨4 * N + 2 * 256, 256⟩, ⟨4 * N + 3 * 256, 256⟩]

/-- Source lines 42-49 (16_32_32 backward kernel): as in the 16_16_16 backward kernel with
matrix planes of `N_2 = 1024` elements: `b_real = &a_real[4 * N]`,
`b_imag = &a_real[4 * N + N_2]`, `b_real_2 = &a_real[4 * N + 2 * N_2]`,
`b_imag_2 = &a_real[4 * N + 3 * N_2]`. -/
def bwd32_regions (N : ℕ) : List Region :=
  [⟨0, N⟩, ⟨N, N⟩, ⟨2 * N, N⟩, ⟨3 * N, N⟩, ⟨4 * N, N_2⟩, ⟨4 * N + N_2, N_2⟩,
    ⟨4 * N + 2 * N_2, N_2⟩, ⟨4 * N + 3 * N_2, N_2⟩]

/-- The store `reinterpret_cast<__half2 *>(plane)[a_idx] = ...` on a plane that starts at
element `base` of the flat buffer: the two elements of the flat buffer it writes. -/
def half2_elems (base a_idx : ℕ) : ℕ × ℕ :=
  (base + 2 * a_idx, base + 2 * a_idx + 1)

/-! ## Statements and barriers of the channel loops

The channel loop of each kernel as the sequence of its statements that load, store or
compute, with the `__syncthreads()` between them, each with its source line.  A helper call
is one statement; the parts of the scratch planes it reads and writes are read off its
pointer arguments (`a_real + k_idx_offset`, ...) and template flags. -/

/-- The pairs of scratch planes of the channel loops: `a_real`/`a_imag` and
`a_real_2`/`a_imag_2`. -/
inductive Plane where
  | a : Plane
  | a_2 : Plane

/-- The elements of a plane that a thread touches in one statement: `striped` - the
`__half2` at `i * num_threads + thread_id` (the thread's own elements); `inner` - the block of
`DFT_SIZE * DFT_SIZE` (resp. `sqrt_N_2 * sqrt_N_2`) elements at the inner `k_idx_offset` of the
warp; `outer` - the tile of 16 columns at the outer `k_idx_offset` of the warp. -/
inductive Scope where
  | striped : Scope
  | inner : Scope
  | outer : Scope

/-- One access of a statement to the scratch planes. -/
structure Access where
  plane : Plane
  write : Bool
  scope : Scope

/-- The kinds of statements: bulk load (`BlockLoad` and the staging loop), fragment load,
matrix-multiply helper call (with its fused twiddle or filter product), element-wise loop,
bulk store (the write-back loops and `BlockStore`). -/
inductive Kind where
  | load : Kind
  | frag_load : Kind
  | matmul : Kind
  | elementwise : Kind
  | store : Kind

/-- A statement of a kernel at a source line: a barrier `__syncthreads()` or an operation
with its accesses to the scratch planes. -/
inductive Stmt where
  | sync (line : ℕ) : Stmt
  | op (line : ℕ) (kind : Kind) (acc : List Access) : Stmt

/-- Two consecutive iterations of a `for` loop: every two statements that follow one another
in an execution of the loop (with at least one iteration) follow one another here. -/
def two_iterations (body : List Stmt) : List Stmt :=
  body ++ body

def Plane.same : Plane → Plane → Bool
  | .a, .a => true
  | .a_2, .a_2 => true
  | _, _ => false

def Scope.same : Scope → Scope → Bool
  | .striped, .striped => true
  | .inner, .inner => true
  | .outer, .outer => true
  | _, _ => false

/-- Two accesses can involve the same element from different warps: same plane, one of them
a write, and not both confined to the same per-thread or per-warp partition of the plane. -/
def Access.conflicts (x y : Access) : Bool :=
  x.plane.same y.plane && (x.write || y.write) && !(x.scope.same y.scope)

def Stmt.line : Stmt → ℕ
  | .sync l => l
  | .op l _ _ => l

def Stmt.acc : Stmt → List Access
  | .sync _ => []
  | .op _ _ acc => acc

/-- Two statements have a pair of conflicting accesses. -/
def Stmt.conflicts (s t : Stmt) : Bool :=
  s.acc.any (fun x => t.acc.any (fun y => x.conflicts y))

/-- The transitions without a barrier: the pairs of source lines `(l1, l2)` of statements
touching the scratch planes such that `l2` is the next such statement after `l1` and no
`__syncthreads()` stands between them; `last` is the last such statement since the last
barrier. -/
def unsynced_from : Option ℕ → List Stmt → List (ℕ × ℕ)
  | _, [] => []
  | _, .sync _ :: rest => unsynced_from none rest
  | last, .op l _ acc :: rest =>
    if acc.isEmpty then unsynced_from last rest
    else
      match last with
      | none => unsynced_from (some l) rest
      | some l0 => (l0, l) :: unsynced_from (some l) rest

/-- The transitions without a barrier of a statement sequence. -/
def unsynced_transitions (p : List Stmt) : List (ℕ × ℕ) :=
  unsynced_from none p

/-- The pairs of source lines of statements that stand between the same two barriers and
have conflicting accesses; `pending` holds the statements since the last barrier. -/
def races_from : List Stmt → List Stmt → List (ℕ × ℕ)
  | _, [] => []
  | _, .sync _ :: rest => races_from [] rest
  | pending, .op l k acc :: rest =>
    ((pending.filter (fun t => t.conflicts (.op l k acc))).map (fun t => (t.line, l)))
      ++ races_from (.op l k acc :: pending) rest

/-- The conflicting pairs of a statement sequence. -/
def races (p : List Stmt) : List (ℕ × ℕ) :=
  races_from [] p

/-- Forward kernel, source lines 410-484: the body of the inner loop; the barriers of lines
426, 448, 470 and 483 are commented out.  The call of line 429 keeps its result in the
accumulator fragments. -/
def fwd_inner_loop_body : List Stmt :=
  [.op 416 .matmul [⟨.a, false, .inner⟩],
   .op 429 .matmul [],
   .op 451 .matmul [⟨.a, true, .inner⟩],
   .op 472 .matmul [⟨.a, false, .inner⟩, ⟨.a, true, .inner⟩]]

/-- Forward kernel, source lines 369-534: the body of the batch loop (the input load of line
377, the store of line 527 and the barriers of lines 390 and 533 are commented out). -/
def fwd_batch_loop_body : List Stmt :=
  two_iterations [.op 397 .matmul [⟨.a, true, .outer⟩]] ++ [.sync 408]
    ++ two_iterations fwd_inner_loop_body ++ [.sync 486]
    ++ two_iterations [.op 493 .matmul [⟨.a, false, .outer⟩]] ++ [.sync 505]

/-- Forward kernel, source lines 321-535: the body of the channel loop. -/
def fwd_channel_loop_body : List Stmt :=
  [.op 326 .load [], .op 332 .load [⟨.a, true, .striped⟩], .sync 343]
    ++ two_iterations [.op 360 .frag_load [⟨.a, false, .inner⟩]] ++ [.sync 366]
    ++ two_iterations fwd_batch_loop_body

/-- 16_16_16 backward kernel, source lines 419-541: the body of the inner loop; the barriers
of lines 436, 462, 526 and 540 are commented out. -/
def bwd_inner_loop_body : List Stmt :=
  [.op 426 .matmul [⟨.a, false, .inner⟩],
   .op 440 .matmul [⟨.a, true, .inner⟩],
   .op 452 .matmul [⟨.a_2, false, .inner⟩],
   .op 466 .matmul [⟨.a_2, true, .inner⟩],
   .op 477 .elementwise [⟨.a_2, false, .inner⟩, ⟨.a_2, true, .inner⟩],
   .sync 488,
   .op 491 .elementwise [⟨.a, false, .inner⟩, ⟨.a_2, false, .inner⟩, ⟨.a_2, true, .inner⟩],
   .sync 503,
   .op 507 .matmul [⟨.a, false, .inner⟩, ⟨.a, true, .inner⟩],
   .op 529 .matmul [⟨.a, false, .inner⟩, ⟨.a, true, .inner⟩]]

/-- 16_16_16 backward kernel, source lines 381-608: the body of the batch loop. -/
def bwd_batch_loop_body : List Stmt :=
  two_iterations [.op 395 .matmul [⟨.a, true, .outer⟩], .op 406 .matmul [⟨.a_2, true, .outer⟩]]
    ++ [.sync 417] ++ two_iterations bwd_inner_loop_body ++ [.sync 543]
    ++ two_iterations [.op 551 .matmul [⟨.a, false, .outer⟩, ⟨.a, true, .outer⟩]]
    ++ [.sync 563, .op 566 .store [⟨.a, false, .striped⟩], .op 578 .store [],
      .op 582 .store [], .sync 587, .op 593 .store [⟨.a_2, false, .striped⟩],
      .op 603 .elementwise [], .sync 606]

/-- 16_16_16 backward kernel, source lines 331-613: the body of the channel loop. -/
def bwd_channel_loop_body : List Stmt :=
  [.op 336 .load [], .op 342 .load [⟨.a, true, .striped⟩], .sync 353]
    ++ two_iterations [.op 369 .frag_load [⟨.a, false, .inner⟩]]
    ++ [.sync 375, .op 378 .elementwise []]
    ++ two_iterations bwd_batch_loop_body ++ [.op 611 .store []]

/-- 16_32_32 backward kernel, source lines 481-591: the body of the inner loop; the barriers
of lines 498, 524 and 590 are commented out. -/
def bwd32_inner_loop_body : List Stmt :=
  [.op 488 .matmul [⟨.a, false, .inner⟩],
   .op 502 .matmul [⟨.a, true, .inner⟩],
   .op 514 .matmul [⟨.a_2, false, .inner⟩],
   .op 528 .matmul [⟨.a_2, true, .inner⟩],
   .op 539 .elementwise [⟨.a_2, false, .inner⟩, ⟨.a_2, true, .inner⟩],
   .sync 550,
   .op 553 .elementwise [⟨.a, false, .inner⟩, ⟨.a_2, false, .inner⟩, ⟨.a_2, true, .inner⟩],
   .sync 565,
   .op 569 .matmul [⟨.a, false, .inner⟩, ⟨.a, true, .inner⟩],
   .op 580 .matmul [⟨.a, false, .inner⟩, ⟨.a, true, .inner⟩]]

/-- 16_32_32 backward kernel, source lines 443-661: the body of the batch loop. -/
def bwd32_batch_loop_body : List Stmt :=
  two_iterations [.op 456 .matmul [⟨.a, true, .outer⟩], .op 467 .matmul [⟨.a_2, true, .outer⟩]]
    ++ [.sync 478] ++ two_iterations bwd32_inner_loop_body ++ [.sync 593]
    ++ two_iterations [.op 602 .matmul [⟨.a, false, .outer⟩, ⟨.a, true, .outer⟩]]
    ++ [.sync 614, .op 617 .store [⟨.a, false, .striped⟩], .op 632 .store [],
      .op 636 .store [], .sync 641, .op 647 .store [⟨.a_2, false, .striped⟩],
      .op 657 .elementwise [], .sync 659]

/-- 16_32_32 backward kernel, source lines 391-668: the body of the channel loop. -/
def bwd32_channel_loop_body : List Stmt :=
  [.op 396 .load [], .op 402 .load [⟨.a, true, .striped⟩], .sync 413]
    ++ two_iterations [.op 430 .frag_load [⟨.a, false, .inner⟩]]
    ++ [.op 437 .elementwise [], .sync 440]
    ++ two_iterations bwd32_batch_loop_body ++ [.op 664 .store [], .sync 667]

/-! ## Loops over tiles -/

theorem forRange_zero {σ : Type} (body : ℕ → σ → σ) (s : σ) : forRange 0 body s = s := rfl

theorem forRange_succ {σ : Type} (n : ℕ) (body : ℕ → σ → σ) (s : σ) :
    forRange (n + 1) body s = body n (forRange n body s) := by
  simp [forRange, List.range_succ, List.foldl_append]

/-- A property kept by every iteration is kept by the loop. -/
theorem forRange_inv {σ : Type} (Q : σ → Prop) (n : ℕ) (body : ℕ → σ → σ)
    (h : ∀ t, t < n → ∀ s, Q s → Q (body t s)) (s : σ) (hs : Q s) :
    Q (forRange n body s) := by
  induction n with
  | zero => exact hs
  | succ n ih =>
    rw [forRange_succ]
    exact h n (Nat.lt_succ_self n) _ (ih (fun t ht => h t (Nat.lt_succ_of_lt ht)))

/-- A loop whose iterations only change their own tile leaves a foreign tile as it was. -/
theorem forRange_frame {σ : Type} (R : σ → σ → Prop) (hrefl : ∀ s, R s s)
    (htrans : ∀ s1 s2 s3, R s1 s2 → R s2 s3 → R s1 s3) (n : ℕ) (body : ℕ → σ → σ)
    (h : ∀ t, t < n → ∀ s, R (body t s) s) (s : σ) :
    R (forRange n body s) s := by
  induction n with
  | zero => exact hrefl s
  | succ n ih =>
    rw [forRange_succ]
    exact htrans _ _ _ (h n (Nat.lt_succ_self n) _) (ih (fun t ht => h t (Nat.lt_succ_of_lt ht)))

/-- Tile-local iterations: if iteration `t` changes only tile `t` and its result on tile `t`
depends only on tile `t`, then after the loop tile `t` holds what iteration `t` alone produces. -/
theorem forRange_local {σ : Type} (E : ℕ → σ → σ → Prop) (hrefl : ∀ t s, E t s s)
    (htrans : ∀ t s1 s2 s3, E t s1 s2 → E t s2 s3 → E t s1 s3)
    (n : ℕ) (body : ℕ → σ → σ)
    (frame : ∀ t t1, t < n → t1 < n → t ≠ t1 → ∀ s, E t1 (body t s) s)
    (loc : ∀ t, t < n → ∀ s s1, E t s s1 → E t (body t s) (body t s1))
    (s : σ) (t : ℕ) (ht : t < n) : E t (forRange n body s) (body t s) := by
  induction n with
  | zero => exact absurd ht (Nat.not_lt_zero t)
  | succ n ih =>
    rw [forRange_succ]
    rcases Nat.lt_succ_iff_lt_or_eq.mp ht with h | h
    · have h1 := ih (fun a b ha hb => frame a b (Nat.lt_succ_of_lt ha) (Nat.lt_succ_of_lt hb))
        (fun a ha => loc a (Nat.lt_succ_of_lt ha)) h
      exact htrans _ _ _ _ (frame n t (Nat.lt_succ_self n) ht (by omega) _) h1
    · subst h
      apply loc t ht
      exact forRange_frame (E t) (hrefl t) (htrans t) t body
        (fun a ha s => frame a t (Nat.lt_succ_of_lt ha) ht (by omega) s) s

/-- Tile-local iterations of the warps of a block, see `forRange_local`. -/
theorem forEachWarp_local {σ : Type} (E : ℕ → ℕ → σ → σ → Prop) (hrefl : ∀ w k s, E w k s s)
    (hsymm : ∀ w k s1 s2, E w k s1 s2 → E w k s2 s1)
    (htrans : ∀ w k s1 s2 s3, E w k s1 s2 → E w k s2 s3 → E w k s1 s3)
    (W n : ℕ) (body : ℕ → ℕ → σ → σ)
    (frame : ∀ w k w1 k1, w < W → k < n → w1 < W → k1 < n → (w ≠ w1 ∨ k ≠ k1) →
      ∀ s, E w1 k1 (body w k s) s)
    (loc : ∀ w k, w < W → k < n → ∀ s s1, E w k s s1 → E w k (body w k s) (body w k s1))
    (s : σ) (w k : ℕ) (hw : w < W) (hk : k < n) :
    E w k (forEachWarp W n body s) (body w k s) := by
  have inner : ∀ w, w < W → ∀ k, k < n → ∀ s,
      E w k (forRange n (fun k s => body w k s) s) (body w k s) := by
    intro w hw k hk s
    exact forRange_local (E w) (hrefl w) (htrans w) n (fun k s => body w k s)
      (fun a b ha hb hab s => frame w a w b hw ha hw hb (Or.inr hab) s)
      (fun a ha => loc w a hw ha) s k hk
  have outer := forRange_local (fun w s s1 => ∀ k, k < n → E w k s s1)
    (fun w s k _ => hrefl w k s)
    (fun w s1 s2 s3 h12 h23 k hk => htrans w k _ _ _ (h12 k hk) (h23 k hk))
    W (fun w s => forRange n (fun k s => body w k s) s)
    (fun a b ha hb hab s k hk =>
      forRange_frame (E b k) (hrefl b k) (htrans b k) n (fun k s => body a k s)
        (fun c hc s => frame a c b k ha hc hb hk (Or.inl hab) s) s)
    (fun a ha s s1 h k hk =>
      htrans a k _ _ _ (inner a ha k hk s)
        (htrans a k _ _ _ (loc a k ha hk s s1 (h k hk)) (hsymm a k _ _ (inner a ha k hk s1))))
    s w hw
  exact htrans w k _ _ _ (outer k hk) (inner w hw k hk s)

/-- A property kept by every iteration is kept by the loops of all warps. -/
theorem forEachWarp_inv {σ : Type} (Q : σ → Prop) (W n : ℕ) (body : ℕ → ℕ → σ → σ)
    (h : ∀ w k, w < W → k < n → ∀ s, Q s → Q (body w k s)) (s : σ) (hs : Q s) :
    Q (forEachWarp W n body s) := by
  unfold forEachWarp
  apply forRange_inv Q W _ _ s hs
  intro w hw s1 hs1
  exact forRange_inv Q n _ (fun k hk s2 hs2 => h w k hw hk s2 hs2) s1 hs1

/-! ## Tile arithmetic -/

theorem warp_tile_cases {W : ℕ} (h : W ∣ 16) : W = 1 ∨ W = 2 ∨ W = 4 ∨ W = 8 ∨ W = 16 := by
  have h1 : W ≤ 16 := Nat.le_of_dvd (by norm_num) h
  interval_cases W <;> simp_all <;> omega

theorem tile_lt {W w k : ℕ} (h : W ∣ 16) (hw : w < W) (hk : k < 16 / W) : k * W + w < 16 := by
  rcases warp_tile_cases h with h | h | h | h | h <;> subst h <;> omega

theorem tile_lt64 {W w k : ℕ} (h : W ∣ 16) (hw : w < W) (hk : k < 64 / W) :
    k * W + w < 64 := by
  rcases warp_tile_cases h with h | h | h | h | h <;> subst h <;> omega

theorem tile_inj {W w k w1 k1 : ℕ} (hw : w < W) (hw1 : w1 < W)
    (h : k * W + w = k1 * W + w1) : w = w1 ∧ k = k1 := by
  have e1 : (k * W + w) % W = w := by
    rw [Nat.add_comm, Nat.add_mul_mod_self_right]; exact Nat.mod_eq_of_lt hw
  have e2 : (k1 * W + w1) % W = w1 := by
    rw [Nat.add_comm, Nat.add_mul_mod_self_right]; exact Nat.mod_eq_of_lt hw1
  have hww : w = w1 := by rw [← e1, ← e2, h]
  subst hww
  have hpos : 0 < W := by omega
  have : k * W = k1 * W := by omega
  exact ⟨rfl, Nat.eq_of_mul_eq_mul_right hpos this⟩

theorem tile_ne {W w k w1 k1 : ℕ} (hw : w < W) (hw1 : w1 < W) (h : w ≠ w1 ∨ k ≠ k1) :
    k * W + w ≠ k1 * W + w1 := by
  intro he
  obtain ⟨h1, h2⟩ := tile_inj hw hw1 he
  rcases h with h | h
  · exact h h1
  · exact h h2

theorem tile_exists {W t : ℕ} (h : W ∣ 16) (ht : t < 16) :
    ∃ w k, w < W ∧ k < 16 / W ∧ k * W + w = t := by
  have hpos : 0 < W := Nat.pos_of_dvd_of_pos h (by norm_num)
  refine ⟨t % W, t / W, Nat.mod_lt _ hpos, ?_, Nat.div_add_mod' t W⟩
  rcases warp_tile_cases h with h | h | h | h | h <;> subst h <;> omega

theorem tile_exists64 {W t : ℕ} (h : W ∣ 16) (ht : t < 64) :
    ∃ w k, w < W ∧ k < 64 / W ∧ k * W + w = t := by
  have hpos : 0 < W := Nat.pos_of_dvd_of_pos h (by norm_num)
  refine ⟨t % W, t / W, Nat.mod_lt _ hpos, ?_, Nat.div_add_mod' t W⟩
  rcases warp_tile_cases h with h | h | h | h | h <;> subst h <;> omega

theorem Params.Valid.num_warps_eq {P : Params} (hv : P.Valid) :
    P.num_warps = P.WARP_TILE_SIZE := by
  unfold Params.num_warps WARP_SIZE
  rw [hv.hthreads]
  omega

theorem Params.Valid.r_eq {P : Params} (hv : P.Valid) : P.r = 16 := by
  unfold Params.r WMMA_M
  rw [hv.hW]

/-! ## Stage functions depend only on the digits they read -/

section congr
variable {K : Type} [CommRing K]

theorem mfwd1_congr (p : ℕ) (b : ℕ → K) (v v1 : ℕ → ℕ → ℕ → K) (f1 n2 n3 : ℕ)
    (h : ∀ n1, n1 < p → v n1 n2 n3 = v1 n1 n2 n3) :
    mfwd1 p b v f1 n2 n3 = mfwd1 p b v1 f1 n2 n3 := by
  unfold mfwd1
  exact Finset.sum_congr rfl (fun n1 hn => by rw [h n1 (Finset.mem_range.mp hn)])

theorem mfwd2_congr (q : ℕ) (b tw : ℕ → K) (v v1 : ℕ → ℕ → ℕ → K) (f1 f2 n3 : ℕ)
    (h : ∀ n2, n2 < q → v f1 n2 n3 = v1 f1 n2 n3) :
    mfwd2 q b tw v f1 f2 n3 = mfwd2 q b tw v1 f1 f2 n3 := by
  unfold mfwd2
  exact Finset.sum_congr rfl (fun n2 hn => by rw [h n2 (Finset.mem_range.mp hn)])

theorem mfwd3_congr (q : ℕ) (b tw : ℕ → K) (v v1 : ℕ → ℕ → ℕ → K) (f1 f2 f3 : ℕ)
    (h : ∀ n3, n3 < q → v f1 f2 n3 = v1 f1 f2 n3) :
    mfwd3 q b tw v f1 f2 f3 = mfwd3 q b tw v1 f1 f2 f3 := by
  unfold mfwd3
  exact Finset.sum_congr rfl (fun n3 hn => by rw [h n3 (Finset.mem_range.mp hn)])

theorem minv1_congr (q : ℕ) (b : ℕ → K) (v v1 : ℕ → ℕ → ℕ → K) (f1 f2 n3 : ℕ)
    (h : ∀ f3, f3 < q → v f1 f2 f3 = v1 f1 f2 f3) :
    minv1 q b v f1 f2 n3 = minv1 q b v1 f1 f2 n3 := by
  unfold minv1
  exact Finset.sum_congr rfl (fun f3 hn => by rw [h f3 (Finset.mem_range.mp hn)])

theorem minv2_congr (q : ℕ) (b tw : ℕ → K) (v v1 : ℕ → ℕ → ℕ → K) (f1 n2 n3 : ℕ)
    (h : ∀ f2, f2 < q → v f1 f2 n3 = v1 f1 f2 n3) :
    minv2 q b tw v f1 n2 n3 = minv2 q b tw v1 f1 n2 n3 := by
  unfold minv2
  exact Finset.sum_congr rfl (fun f2 hn => by rw [h f2 (Finset.mem_range.mp hn)])

theorem minv3_congr (p q : ℕ) (b tw : ℕ → K) (v v1 : ℕ → ℕ → ℕ → K) (n1 n2 n3 : ℕ)
    (h : ∀ f1, f1 < p → v f1 n2 n3 = v1 f1 n2 n3) :
    minv3 p q b tw v n1 n2 n3 = minv3 p q b tw v1 n1 n2 n3 := by
  unfold minv3
  exact Finset.sum_congr rfl (fun f1 hn => by rw [h f1 (Finset.mem_range.mp hn)])

/-- The forward stage sequence reads its input only at digits below `(p, q, q)`. -/
theorem MTables.fwd_congr (M : MTables K) (x x1 : ℕ → K)
    (h : ∀ n1 n2 n3, n1 < M.p → n2 < M.q → n3 < M.q →
      x (M.q * M.q * n1 + M.q * n2 + n3) = x1 (M.q * M.q * n1 + M.q * n2 + n3))
    (f1 f2 f3 : ℕ) : M.fwd x f1 f2 f3 = M.fwd x1 f1 f2 f3 := by
  unfold MTables.fwd
  apply mfwd3_congr
  intro n3 h3
  apply mfwd2_congr
  intro n2 h2
  apply mfwd1_congr
  intro n1 h1
  exact h n1 n2 n3 h1 h2 h3

/-- The inverse stage sequence reads its input only at digits below `(p, q, q)`. -/
theorem MTables.inv_congr (M : MTables K) (v v1 : ℕ → ℕ → ℕ → K)
    (h : ∀ f1 f2 f3, f1 < M.p → f2 < M.q → f3 < M.q → v f1 f2 f3 = v1 f1 f2 f3)
    (n1 n2 n3 : ℕ) : M.inv v n1 n2 n3 = M.inv v1 n1 n2 n3 := by
  unfold MTables.inv
  apply minv3_congr
  intro f1 h1
  apply minv2_congr
  intro f2 h2
  apply minv1_congr
  intro f3 h3
  exact h f1 f2 f3 h1 h2 h3

end congr

/-! ## Forward kernel, stage by stage -/

section fwd
variable {K : Type} [CommRing K]

/-- Stage 1 of the forward kernel (outer DFT): the scratch planes hold the outer DFT of the
`N` input elements at `input_offset`. -/
theorem fwd_stage1_a (P : Params) (hv : P.Valid) (T : Tables K) (a_inp : ℕ → K) (off : ℕ)
    (s : FwdState K) (f1 n2 n3 : ℕ) (h1 : f1 < 16) (h2 : n2 < 16) (h3 : n3 < 16) :
    (forEachWarp P.num_warps (16 / P.WARP_TILE_SIZE)
      (fun warp_id k_idx s => fwd_outer_dft P T a_inp off warp_id k_idx s) s).a
        (256 * f1 + 16 * n2 + n3)
      = mfwd1 16 T.b (digits 16 (fun i => a_inp (off + i))) f1 n2 n3 := by
  obtain ⟨w, k, hw, hk, rfl⟩ := tile_exists hv.hwarp h2
  have key := forEachWarp_local
    (fun w k (s s1 : FwdState K) => ∀ i j, i < 16 → j < 16 →
      s.a (256 * j + 16 * (k * P.WARP_TILE_SIZE + w) + i)
        = s1.a (256 * j + 16 * (k * P.WARP_TILE_SIZE + w) + i))
    (fun _ _ _ _ _ _ _ => rfl)
    (fun _ _ _ _ h i j hi hj => (h i j hi hj).symm)
    (fun _ _ _ _ _ h1 h2 i j hi hj => (h1 i j hi hj).trans (h2 i j hi hj))
    P.num_warps (16 / P.WARP_TILE_SIZE)
    (fun warp_id k_idx s => fwd_outer_dft P T a_inp off warp_id k_idx s)
    ?_ ?_ s w k (by rw [hv.num_warps_eq]; exact hw) hk n3 f1 h3 h1
  · rw [key]
    simp only [fwd_outer_dft, complex_matmul_c2c, store_matrix_sync, hv.r_eq, hv.hDFT]
    rw [if_pos (by omega)]
    simp only [mma, load_matrix_sync, b_frag_dft, hv.hsqrt, mfwd1, digits]
    have e1 : (256 * f1 + 16 * (k * P.WARP_TILE_SIZE + w) + n3
        - (k * P.WARP_TILE_SIZE * 16 + w * 16)) % 256 = n3 := by omega
    have e2 : (256 * f1 + 16 * (k * P.WARP_TILE_SIZE + w) + n3
        - (k * P.WARP_TILE_SIZE * 16 + w * 16)) / 256 = f1 := by omega
    rw [e1, e2]
    apply Finset.sum_congr rfl
    intro x _
    congr 2 <;> omega
  · intro w k w1 k1 hw hk hw1 hk1 hne s i j hi hj
    rw [hv.num_warps_eq] at hw hw1
    have h1 := tile_ne hw hw1 hne
    have h2 := tile_lt hv.hwarp hw hk
    have h3 := tile_lt hv.hwarp hw1 hk1
    simp only [fwd_outer_dft, complex_matmul_c2c, store_matrix_sync, hv.r_eq, hv.hDFT]
    rw [if_neg (by omega)]
  · intro w k hw hk s s1 h i j hi hj
    simp only [fwd_outer_dft, complex_matmul_c2c, store_matrix_sync, hv.r_eq, hv.hDFT]
    rw [if_pos (by omega), if_pos (by omega)]

theorem fwd_stage1_out (P : Params) (T : Tables K) (a_inp : ℕ → K) (off : ℕ)
    (s : FwdState K) :
    (forEachWarp P.num_warps (16 / P.WARP_TILE_SIZE)
      (fun warp_id k_idx s => fwd_outer_dft P T a_inp off warp_id k_idx s) s).out = s.out :=
  forEachWarp_inv (fun s1 : FwdState K => s1.out = s.out) P.num_warps (16 / P.WARP_TILE_SIZE)
    (fun warp_id k_idx s => fwd_outer_dft P T a_inp off warp_id k_idx s)
    (fun _ _ _ _ _ h => h) s rfl

omit [CommRing K] in
theorem store_col_apply (mem : ℕ → K) (ptr ldm r : ℕ) (M : Frag K) (i j : ℕ) (hi : i < r)
    (hj : j < r) (hr : r ≤ ldm) :
    store_matrix_sync mem ptr ldm r M .col_major (ptr + j * ldm + i) = M i j := by
  have hl : 0 < ldm := by omega
  have e0 : ptr + j * ldm + i - ptr = i + j * ldm := by omega
  have e1 : (i + j * ldm) / ldm = j := by
    rw [Nat.add_mul_div_right _ _ hl, Nat.div_eq_of_lt (by omega), Nat.zero_add]
  have e2 : (i + j * ldm) % ldm = i := by
    rw [Nat.add_mul_mod_self_right, Nat.mod_eq_of_lt (by omega)]
  simp only [store_matrix_sync, e0, e1, e2]
  rw [if_pos ⟨by omega, hj, hi⟩]

omit [CommRing K] in
theorem store_row_apply (mem : ℕ → K) (ptr ldm r : ℕ) (M : Frag K) (i j : ℕ) (hi : i < r)
    (hj : j < r) (hr : r ≤ ldm) :
    store_matrix_sync mem ptr ldm r M .row_major (ptr + i * ldm + j) = M i j := by
  have hl : 0 < ldm := by omega
  have e0 : ptr + i * ldm + j - ptr = j + i * ldm := by omega
  have e1 : (j + i * ldm) / ldm = i := by
    rw [Nat.add_mul_div_right _ _ hl, Nat.div_eq_of_lt (by omega), Nat.zero_add]
  have e2 : (j + i * ldm) % ldm = j := by
    rw [Nat.add_mul_mod_self_right, Nat.mod_eq_of_lt (by omega)]
  simp only [store_matrix_sync, e0, e1, e2]
  rw [if_pos ⟨by omega, hi, hj⟩]

/-- One iteration of the inner stage of the forward kernel, on its own block. -/
theorem fwd_inner_apply (P : Params) (hv : P.Valid) (T : Tables K) (a_k : ℕ → K)
    (w k : ℕ) (s : FwdState K) (n2 n3 : ℕ) (h2 : n2 < 16) (h3 : n3 < 16) :
    (fwd_inner P T (k_frag P a_k) w k s).a (256 * (k * P.WARP_TILE_SIZE + w) + 16 * n2 + n3)
      = minv2 16 T.b_ifft T.twiddle_factors_16_ifft (minv1 16 T.b_ifft
          (fun f1 f2 f3 => mfwd3 16 T.b T.twiddle_factors_16_fft
            (mfwd2 16 T.b T.twiddle_factors_256_fft (digits 16 s.a)) f1 f2 f3
              * digits 16 a_k f1 f2 f3)) (k * P.WARP_TILE_SIZE + w) n2 n3 := by
  have hB : k * P.WARP_TILE_SIZE * 16 * 16 + w * 16 * 16 = 256 * (k * P.WARP_TILE_SIZE + w) := by
    ring
  generalize k * P.WARP_TILE_SIZE + w = t at hB
  have hidx : 256 * t + 16 * n2 + n3 = 256 * t + n2 * 16 + n3 := by ring
  simp only [fwd_inner, complex_matmul, complex_matmul_load_b, hv.r_eq, hv.hDFT, hv.hsqrt,
    if_true, if_false, Bool.false_eq_true, k_frag, twiddle_256_dft_frag, hB]
  rw [hidx, store_col_apply _ _ _ _ _ _ _ h3 h2 le_rfl]
  simp only [mma, frag_mul, minv2]
  apply Finset.sum_congr rfl
  intro f2 hf2
  have hf2 := Finset.mem_range.mp hf2
  simp only [load_matrix_sync]
  rw [store_col_apply _ _ _ _ _ _ _ hf2 h3 le_rfl]
  simp only [mma, frag_mul, load_matrix_sync, minv1, mfwd3, mfwd2, digits, b_frag_idft,
    twiddle_16_idft_frag, b_frag_dft, twiddle_16_dft_frag, a_frag_dft, hv.hsqrt]
  simp only [Nat.zero_add, fun x : ℕ => Nat.mul_comm x 16, show (16 * 16 : ℕ) = 256 from rfl]

theorem fwd_inner_frame (P : Params) (hv : P.Valid) (T : Tables K) (kf : ℕ → ℕ → Frag K)
    (w k : ℕ) (s : FwdState K) (idx : ℕ)
    (h : ¬ (256 * (k * P.WARP_TILE_SIZE + w) ≤ idx ∧ idx < 256 * (k * P.WARP_TILE_SIZE + w) + 256)) :
    (fwd_inner P T kf w k s).a idx = s.a idx := by
  have hB : k * P.WARP_TILE_SIZE * 16 * 16 + w * 16 * 16 = 256 * (k * P.WARP_TILE_SIZE + w) := by
    ring
  generalize k * P.WARP_TILE_SIZE + w = t at hB h
  simp only [fwd_inner, complex_matmul, hv.r_eq, hv.hDFT, hv.hsqrt,
    if_true, if_false, Bool.false_eq_true, hB]
  simp only [store_matrix_sync]
  rw [if_neg (by omega), if_neg (by omega)]

/-- Stage 2 of the forward kernel: inner DFTs, product with the staged filter, inner inverse
DFTs, block by block. -/
theorem fwd_stage2_a (P : Params) (hv : P.Valid) (T : Tables K) (a_k : ℕ → K)
    (s : FwdState K) (f1 n2 n3 : ℕ) (h1 : f1 < 16) (h2 : n2 < 16) (h3 : n3 < 16) :
    (forEachWarp P.num_warps (16 / P.WARP_TILE_SIZE)
      (fun warp_id k_idx s => fwd_inner P T (k_frag P a_k) warp_id k_idx s) s).a
        (256 * f1 + 16 * n2 + n3)
      = minv2 16 T.b_ifft T.twiddle_factors_16_ifft (minv1 16 T.b_ifft
          (fun f1 f2 f3 => mfwd3 16 T.b T.twiddle_factors_16_fft
            (mfwd2 16 T.b T.twiddle_factors_256_fft (digits 16 s.a)) f1 f2 f3
              * digits 16 a_k f1 f2 f3)) f1 n2 n3 := by
  obtain ⟨w, k, hw, hk, rfl⟩ := tile_exists hv.hwarp h1
  have key := forEachWarp_local
    (fun w k (s s1 : FwdState K) => ∀ i j, i < 16 → j < 16 →
      s.a (256 * (k * P.WARP_TILE_SIZE + w) + 16 * i + j)
        = s1.a (256 * (k * P.WARP_TILE_SIZE + w) + 16 * i + j))
    (fun _ _ _ _ _ _ _ => rfl)
    (fun _ _ _ _ h i j hi hj => (h i j hi hj).symm)
    (fun _ _ _ _ _ h1 h2 i j hi hj => (h1 i j hi hj).trans (h2 i j hi hj))
    P.num_warps (16 / P.WARP_TILE_SIZE)
    (fun warp_id k_idx s => fwd_inner P T (k_frag P a_k) warp_id k_idx s)
    ?_ ?_ s w k (by rw [hv.num_warps_eq]; exact hw) hk n2 n3 h2 h3
  · rw [key]
    exact fwd_inner_apply P hv T a_k w k s n2 n3 h2 h3
  · intro w k w1 k1 hw hk hw1 hk1 hne s i j hi hj
    rw [hv.num_warps_eq] at hw hw1
    have h1 := tile_ne hw hw1 hne
    exact fwd_inner_frame P hv T _ w k s _ (by omega)
  · intro w k hw hk s s1 h i j hi hj
    rw [fwd_inner_apply P hv T a_k w k s i j hi hj, fwd_inner_apply P hv T a_k w k s1 i j hi hj]
    apply minv2_congr
    intro f2 hf2
    apply minv1_congr
    intro f3 hf3
    congr 1
    apply mfwd3_congr
    intro m3 hm3
    apply mfwd2_congr
    intro m2 hm2
    simp only [digits, show (16 * 16 : ℕ) = 256 from rfl]
    exact h m2 m3 hm2 hm3

theorem fwd_stage2_out (P : Params) (T : Tables K) (kf : ℕ → ℕ → Frag K) (s : FwdState K) :
    (forEachWarp P.num_warps (16 / P.WARP_TILE_SIZE)
      (fun warp_id k_idx s => fwd_inner P T kf warp_id k_idx s) s).out = s.out :=
  forEachWarp_inv (fun s1 : FwdState K => s1.out = s.out) P.num_warps (16 / P.WARP_TILE_SIZE)
    (fun warp_id k_idx s => fwd_inner P T kf warp_id k_idx s)
    (fun _ _ _ _ _ h => h) s rfl

theorem fwd_stage3_a (P : Params) (T : Tables K) (off : ℕ) (s : FwdState K) :
    (forEachWarp P.num_warps (16 / P.WARP_TILE_SIZE)
      (fun warp_id k_idx s => fwd_outer_idft P T off warp_id k_idx s) s).a = s.a :=
  forEachWarp_inv (fun s1 : FwdState K => s1.a = s.a) P.num_warps (16 / P.WARP_TILE_SIZE)
    (fun warp_id k_idx s => fwd_outer_idft P T off warp_id k_idx s)
    (fun _ _ _ _ _ h => h) s rfl

/-- Stage 3 of the forward kernel leaves the output planes outside
`[input_offset, input_offset + N)` as they were. -/
theorem fwd_stage3_frame (P : Params) (hv : P.Valid) (T : Tables K) (off : ℕ)
    (s : FwdState K) (idx : ℕ) (h : ¬ (off ≤ idx ∧ idx < off + 4096)) :
    (forEachWarp P.num_warps (16 / P.WARP_TILE_SIZE)
      (fun warp_id k_idx s => fwd_outer_idft P T off warp_id k_idx s) s).out idx = s.out idx := by
  apply forEachWarp_inv (fun s1 : FwdState K => s1.out idx = s.out idx) P.num_warps
    (16 / P.WARP_TILE_SIZE) (fun warp_id k_idx s => fwd_outer_idft P T off warp_id k_idx s)
    _ s rfl
  intro w k hw hk s1 hs1
  rw [hv.num_warps_eq] at hw
  have h2 := tile_lt hv.hwarp hw hk
  simp only [fwd_outer_idft, complex_matmul_c2c_twiddle, store_matrix_sync, hv.r_eq, hv.hDFT]
  rw [if_neg (by omega)]
  exact hs1

/-- Stage 3 of the forward kernel (outer inverse DFT): the output planes at `input_offset`
hold the outer inverse DFT of the scratch planes. -/
theorem fwd_stage3_out (P : Params) (hv : P.Valid) (T : Tables K) (off : ℕ)
    (s : FwdState K) (n1 n2 n3 : ℕ) (h1 : n1 < 16) (h2 : n2 < 16) (h3 : n3 < 16) :
    (forEachWarp P.num_warps (16 / P.WARP_TILE_SIZE)
      (fun warp_id k_idx s => fwd_outer_idft P T off warp_id k_idx s) s).out
        (off + (256 * n1 + 16 * n2 + n3))
      = minv3 16 16 T.b_ifft T.twiddle_factors_256_ifft (digits 16 s.a) n1 n2 n3 := by
  obtain ⟨w, k, hw, hk, rfl⟩ := tile_exists hv.hwarp h2
  have key := forEachWarp_local
    (fun w k (s s1 : FwdState K) => s.a = s1.a ∧ ∀ i j, i < 16 → j < 16 →
      s.out (off + (256 * j + 16 * (k * P.WARP_TILE_SIZE + w) + i))
        = s1.out (off + (256 * j + 16 * (k * P.WARP_TILE_SIZE + w) + i)))
    (fun _ _ _ => ⟨rfl, fun _ _ _ _ => rfl⟩)
    (fun _ _ _ _ h => ⟨h.1.symm, fun i j hi hj => (h.2 i j hi hj).symm⟩)
    (fun _ _ _ _ _ h1 h2 => ⟨h1.1.trans h2.1, fun i j hi hj => (h1.2 i j hi hj).trans (h2.2 i j hi hj)⟩)
    P.num_warps (16 / P.WARP_TILE_SIZE)
    (fun warp_id k_idx s => fwd_outer_idft P T off warp_id k_idx s)
    ?_ ?_ s w k (by rw [hv.num_warps_eq]; exact hw) hk
  · rw [key.2 n3 n1 h3 h1]
    have hB : k * P.WARP_TILE_SIZE * 16 + w * 16 = 16 * (k * P.WARP_TILE_SIZE + w) := by ring
    generalize k * P.WARP_TILE_SIZE + w = t at hB
    have hidx : off + (256 * n1 + 16 * t + n3) = off + 16 * t + n1 * 256 + n3 := by ring
    simp only [fwd_outer_idft, complex_matmul_c2c_twiddle, hv.r_eq, hv.hDFT, hB,
      twiddle_256_idft_frag]
    rw [hidx, store_col_apply _ _ _ _ _ _ _ h3 h1 (by norm_num)]
    simp only [mma, frag_mul, load_matrix_sync, minv3, digits, b_frag_idft, hv.hsqrt]
    have e : ∀ x : ℕ, 16 * t + x * 256 + n3 = 256 * x + 16 * t + n3 := fun x => by ring
    simp only [e, Nat.zero_add, fun x : ℕ => Nat.mul_comm x 16, show (16 * 16 : ℕ) = 256 from rfl]
  · intro w k w1 k1 hw hk hw1 hk1 hne s
    refine ⟨rfl, ?_⟩
    intro i j hi hj
    rw [hv.num_warps_eq] at hw hw1
    have h1 := tile_ne hw hw1 hne
    have h2 := tile_lt hv.hwarp hw hk
    have h3 := tile_lt hv.hwarp hw1 hk1
    simp only [fwd_outer_idft, complex_matmul_c2c_twiddle, store_matrix_sync, hv.r_eq, hv.hDFT]
    rw [if_neg (by omega)]
  · intro w k hw hk s s1 h
    refine ⟨h.1, ?_⟩
    intro i j hi hj
    simp only [fwd_outer_idft, complex_matmul_c2c_twiddle, store_matrix_sync, hv.r_eq, hv.hDFT]
    rw [if_pos (by omega), if_pos (by omega), h.1]

/-- The body of the batch loop of the forward kernel writes, at `input_offset`, the inverse
stage sequence applied to the product of the forward stage sequence of the input with the
staged filter. -/
theorem fwd_batch_body_out (P : Params) (hv : P.Valid) (T : Tables K) (a_inp a_k : ℕ → K)
    (off : ℕ) (s : FwdState K) (n1 n2 n3 : ℕ) (h1 : n1 < 16) (h2 : n2 < 16) (h3 : n3 < 16) :
    (fwd_batch_body P T a_inp (k_frag P a_k) off s).out (off + (256 * n1 + 16 * n2 + n3))
      = T.toM.inv (fun f1 f2 f3 =>
          T.toM.fwd (fun i => a_inp (off + i)) f1 f2 f3 * digits 16 a_k f1 f2 f3) n1 n2 n3 := by
  unfold fwd_batch_body
  rw [fwd_stage3_out P hv T off _ n1 n2 n3 h1 h2 h3]
  simp only [MTables.inv, MTables.fwd, Tables.toM]
  apply minv3_congr
  intro f1 hf1
  simp only [digits, show (16 * 16 : ℕ) = 256 from rfl]
  rw [fwd_stage2_a P hv T a_k _ f1 n2 n3 hf1 h2 h3]
  apply minv2_congr
  intro f2 hf2
  apply minv1_congr
  intro f3 hf3
  congr 1
  apply mfwd3_congr
  intro m3 hm3
  apply mfwd2_congr
  intro m2 hm2
  simp only [digits, show (16 * 16 : ℕ) = 256 from rfl]
  rw [fwd_stage1_a P hv T a_inp off _ f1 m2 m3 hf1 hm2 hm3]

/-- The body of the batch loop of the forward kernel writes only
`[input_offset, input_offset + N)`. -/
theorem fwd_batch_body_frame (P : Params) (hv : P.Valid) (T : Tables K) (a_inp : ℕ → K)
    (kf : ℕ → ℕ → Frag K) (off : ℕ) (s : FwdState K) (idx : ℕ)
    (h : ¬ (off ≤ idx ∧ idx < off + 4096)) :
    (fwd_batch_body P T a_inp kf off s).out idx = s.out idx := by
  unfold fwd_batch_body
  rw [fwd_stage3_frame P hv T off _ idx h, fwd_stage2_out, fwd_stage1_out]

end fwd

/-! ## Sums over digits -/

section sums
variable {K : Type} [CommRing K]

theorem sum_digits2 (m n : ℕ) (g : ℕ → K) :
    ∑ a ∈ Finset.range m, ∑ b ∈ Finset.range n, g (n * a + b)
      = ∑ i ∈ Finset.range (m * n), g i := by
  induction m with
  | zero => simp
  | succ m ih =>
    rw [Finset.sum_range_succ, ih, Nat.succ_mul, Finset.sum_range_add]
    congr 1
    apply Finset.sum_congr rfl
    intro b _
    rw [Nat.mul_comm n m]

/-- Summing over the three position digits is summing over the positions. -/
theorem sum_pos_digits (p q : ℕ) (g : ℕ → K) :
    ∑ n1 ∈ Finset.range p, ∑ n2 ∈ Finset.range q, ∑ n3 ∈ Finset.range q,
        g (q * q * n1 + q * n2 + n3)
      = ∑ n ∈ Finset.range (p * q * q), g n := by
  have h1 : ∀ n1, ∑ n2 ∈ Finset.range q, ∑ n3 ∈ Finset.range q, g (q * q * n1 + q * n2 + n3)
      = ∑ m ∈ Finset.range (q * q), g (q * q * n1 + m) := by
    intro n1
    rw [← sum_digits2 q q (fun m => g (q * q * n1 + m))]
    apply Finset.sum_congr rfl
    intro n2 _
    apply Finset.sum_congr rfl
    intro n3 _
    rw [Nat.add_assoc]
  simp only [h1]
  rw [sum_digits2 p (q * q) g, Nat.mul_assoc]

/-- Summing over the three frequency digits is summing over the frequencies. -/
theorem sum_freq_digits (p q : ℕ) (g : ℕ → K) :
    ∑ f1 ∈ Finset.range p, ∑ f2 ∈ Finset.range q, ∑ f3 ∈ Finset.range q,
        g (freq p q f1 f2 f3)
      = ∑ f ∈ Finset.range (p * q * q), g f := by
  have h1 : ∀ f1, ∑ f2 ∈ Finset.range q, ∑ f3 ∈ Finset.range q, g (freq p q f1 f2 f3)
      = ∑ m ∈ Finset.range (q * q), g (p * m + f1) := by
    intro f1
    rw [← sum_digits2 q q (fun m => g (p * m + f1)), Finset.sum_comm]
    apply Finset.sum_congr rfl
    intro f3 _
    apply Finset.sum_congr rfl
    intro f2 _
    congr 1
    unfold freq
    ring
  simp only [h1]
  rw [Finset.sum_comm, sum_digits2 (q * q) p g]
  congr 2
  ring

end sums

/-! ## The stage sequences on DFT tables -/

section dft
variable {K : Type} [Field K]

theorem pow_pos_freq {ω : K} {p q : ℕ} (hω : ω ^ (p * q * q) = 1) (n1 n2 n3 f1 f2 f3 : ℕ) :
    ω ^ ((q * q * n1 + q * n2 + n3) * freq p q f1 f2 f3)
      = ω ^ (q * q * n1 * f1) * ω ^ (p * q * n2 * f2) * ω ^ (f1 * (q * n2 + n3))
          * ω ^ (p * f2 * n3) * ω ^ (p * q * n3 * f3) := by
  have e : (q * q * n1 + q * n2 + n3) * freq p q f1 f2 f3
      = q * q * n1 * f1 + p * q * n2 * f2 + f1 * (q * n2 + n3) + p * f2 * n3 + p * q * n3 * f3
        + (p * q * q) * (n1 * f2 + q * n1 * f3 + n2 * f3) := by
    unfold freq
    ring
  rw [e, pow_add, pow_mul, hω, one_pow, mul_one]
  simp only [pow_add]

theorem IsDFT_pow_N {M : MTables K} {ω c_fwd c_inv : K} (h : M.IsDFT ω c_fwd c_inv) :
    ω ^ (M.p * M.q * M.q) = 1 := h.root.pow_eq_one

theorem IsDFT_inv_pow_N {M : MTables K} {ω c_fwd c_inv : K} (h : M.IsDFT ω c_fwd c_inv) :
    ω⁻¹ ^ (M.p * M.q * M.q) = 1 := by
  rw [inv_pow, h.root.pow_eq_one, inv_one]

/-- On DFT tables the forward stage sequence is the length-`N` DFT, scaled by `c_fwd`, in the
kernels' frequency order. -/
theorem MTables.fwd_eq_dft {M : MTables K} {ω c_fwd c_inv : K} (h : M.IsDFT ω c_fwd c_inv)
    (x : ℕ → K) (f1 f2 f3 : ℕ) (h1 : f1 < M.p) (h2 : f2 < M.q) (h3 : f3 < M.q) :
    M.fwd x f1 f2 f3 = c_fwd * dft_sum (M.p * M.q * M.q) ω x (freq M.p M.q f1 f2 f3) := by
  unfold dft_sum
  rw [← sum_pos_digits M.p M.q (fun n => x n * ω ^ (n * freq M.p M.q f1 f2 f3))]
  simp only [MTables.fwd, mfwd3, mfwd2, mfwd1, digits, Finset.sum_mul, Finset.mul_sum]
  rw [Finset.sum_comm]
  conv_rhs => rw [Finset.sum_comm]
  apply Finset.sum_congr rfl
  intro n2 hn2
  conv_rhs => rw [Finset.sum_comm]
  apply Finset.sum_congr rfl
  intro n3 hn3
  apply Finset.sum_congr rfl
  intro n1 hn1
  have hn1 := Finset.mem_range.mp hn1
  have hn2 := Finset.mem_range.mp hn2
  have hn3 := Finset.mem_range.mp hn3
  have hm : M.q * n2 + n3 < M.q * M.q := by nlinarith
  rw [h.b_p n1 f1 hn1 h1, h.b_q n2 f2 hn2 h2, h.b_q n3 f3 hn3 h3, h.tw_q f2 n3 h2 hn3,
    Nat.add_assoc (M.q * M.q * f1), h.tw_N f1 (M.q * n2 + n3) h1 hm,
    pow_pos_freq (IsDFT_pow_N h)]
  ring

/-- On DFT tables the inverse stage sequence is the conjugate length-`N` DFT sum over the
kernels' frequency digits, scaled by `c_inv`. -/
theorem MTables.inv_eq_dft {M : MTables K} {ω c_fwd c_inv : K} (h : M.IsDFT ω c_fwd c_inv)
    (v : ℕ → ℕ → ℕ → K) (n1 n2 n3 : ℕ) (h1 : n1 < M.p) (h2 : n2 < M.q) (h3 : n3 < M.q) :
    M.inv v n1 n2 n3
      = c_inv * ∑ f1 ∈ Finset.range M.p, ∑ f2 ∈ Finset.range M.q, ∑ f3 ∈ Finset.range M.q,
          v f1 f2 f3 * ω⁻¹ ^ ((M.q * M.q * n1 + M.q * n2 + n3) * freq M.p M.q f1 f2 f3) := by
  simp only [MTables.inv, minv3, minv2, minv1, Finset.sum_mul, Finset.mul_sum]
  apply Finset.sum_congr rfl
  intro f1 hf1
  apply Finset.sum_congr rfl
  intro f2 hf2
  apply Finset.sum_congr rfl
  intro f3 hf3
  have hf1 := Finset.mem_range.mp hf1
  have hf2 := Finset.mem_range.mp hf2
  have hf3 := Finset.mem_range.mp hf3
  have hm : M.q * n2 + n3 < M.q * M.q := by nlinarith
  rw [h.b_p_ifft f1 n1 hf1 h1, h.b_q_ifft f2 n2 hf2 h2, h.b_q_ifft f3 n3 hf3 h3,
    h.tw_q_ifft n3 f2 h3 hf2, Nat.add_assoc (M.q * M.q * f1),
    h.tw_N_ifft f1 (M.q * n2 + n3) hf1 hm, pow_pos_freq (IsDFT_inv_pow_N h)]
  have e1 : M.q * M.q * f1 * n1 = M.q * M.q * n1 * f1 := by ring
  have e2 : M.p * M.q * f2 * n2 = M.p * M.q * n2 * f2 := by ring
  have e3 : M.p * M.q * f3 * n3 = M.p * M.q * n3 * f3 := by ring
  have e4 : M.p * n3 * f2 = M.p * f2 * n3 := by ring
  rw [e1, e2, e3, e4]
  ring

end dft

section conv
variable {K : Type} [Field K]

theorem geom_sum_of_pow_eq_one {ζ : K} {N : ℕ} (h : ζ ^ N = 1) (h1 : ζ ≠ 1) :
    ∑ f ∈ Finset.range N, ζ ^ f = 0 := by
  have h2 := geom_sum_mul ζ N
  rw [h, sub_self] at h2
  rcases mul_eq_zero.mp h2 with h3 | h3
  · exact h3
  · exact absurd (sub_eq_zero.mp h3) h1

theorem mod_shift_iff {N m l n : ℕ} (hm : m < N) (hl : l < N) (hn : n < N) :
    (m + l) % N = n ↔ l = (n + N - m) % N := by
  rcases Nat.lt_or_ge (m + l) N with h | h
  · rw [Nat.mod_eq_of_lt h]
    rcases Nat.lt_or_ge n m with h1 | h1
    · rw [Nat.mod_eq_of_lt (by omega)]
      omega
    · rw [Nat.mod_eq_sub_mod (by omega), Nat.mod_eq_of_lt (by omega)]
      omega
  · rw [Nat.mod_eq_sub_mod h, Nat.mod_eq_of_lt (by omega)]
    rcases Nat.lt_or_ge n m with h1 | h1
    · rw [Nat.mod_eq_of_lt (by omega)]
      omega
    · rw [Nat.mod_eq_sub_mod (by omega), Nat.mod_eq_of_lt (by omega)]
      omega

theorem root_prod_eq_one_iff {ω : K} {N : ℕ} (hω : IsPrimitiveRoot ω N) {m l n : ℕ}
    (hm : m < N) (hl : l < N) (hn : n < N) :
    ω ^ m * ω ^ l * ω⁻¹ ^ n = 1 ↔ l = (n + N - m) % N := by
  have hN : 0 < N := by omega
  have h0 : ω ≠ 0 := hω.ne_zero (by omega)
  have hpn : ω ^ n ≠ 0 := pow_ne_zero n h0
  rw [← mod_shift_iff hm hl hn, inv_pow, ← pow_add, mul_inv_eq_one₀ hpn]
  have hmod : ω ^ (m + l) = ω ^ ((m + l) % N) := by
    conv_lhs => rw [← Nat.div_add_mod (m + l) N, pow_add, pow_mul, hω.pow_eq_one, one_pow, one_mul]
  rw [hmod]
  constructor
  · intro h
    exact hω.pow_inj (Nat.mod_lt _ hN) hn h
  · intro h
    rw [h]

theorem character_pow {ω : K} (m l n f : ℕ) :
    ω ^ (m * f) * ω ^ (l * f) * ω⁻¹ ^ (n * f) = (ω ^ m * ω ^ l * ω⁻¹ ^ n) ^ f := by
  rw [mul_pow, mul_pow, ← pow_mul, ← pow_mul, ← pow_mul]

/-- Orthogonality of the characters: the sum over all frequencies of
`ω ^ (m f) ω ^ (l f) ω ^ (- n f)` is `N` when `l = n - m` modulo `N`. -/
theorem character_sum_eq {ω : K} {N : ℕ} (hω : IsPrimitiveRoot ω N) {m l n : ℕ}
    (hm : m < N) (hl : l < N) (hn : n < N) (h : l = (n + N - m) % N) :
    ∑ f ∈ Finset.range N, ω ^ (m * f) * ω ^ (l * f) * ω⁻¹ ^ (n * f) = (N : K) := by
  simp only [character_pow, (root_prod_eq_one_iff hω hm hl hn).mpr h, one_pow,
    Finset.sum_const, Finset.card_range, nsmul_eq_mul, mul_one]

/-- Orthogonality of the characters: the sum vanishes when `l ≠ n - m` modulo `N`. -/
theorem character_sum_ne {ω : K} {N : ℕ} (hω : IsPrimitiveRoot ω N) {m l n : ℕ}
    (hm : m < N) (hl : l < N) (hn : n < N) (h : l ≠ (n + N - m) % N) :
    ∑ f ∈ Finset.range N, ω ^ (m * f) * ω ^ (l * f) * ω⁻¹ ^ (n * f) = 0 := by
  have h2 : (ω ^ m * ω ^ l * ω⁻¹ ^ n) ^ N = 1 := by
    rw [mul_pow, mul_pow, ← pow_mul, ← pow_mul, ← pow_mul, Nat.mul_comm m, Nat.mul_comm l,
      Nat.mul_comm n, pow_mul, pow_mul, pow_mul, inv_pow, hω.pow_eq_one]
    simp
  simp only [character_pow]
  exact geom_sum_of_pow_eq_one h2 (fun h1 => h ((root_prod_eq_one_iff hω hm hl hn).mp h1))

/-- The convolution theorem for the length-`N` DFT sums on a primitive root. -/
theorem dft_conv {ω : K} {N : ℕ} (hω : IsPrimitiveRoot ω N) (x k : ℕ → K) (n : ℕ)
    (hn : n < N) :
    ∑ f ∈ Finset.range N, dft_sum N ω x f * dft_sum N ω k f * ω⁻¹ ^ (n * f)
      = (N : K) * circ_conv N x k n := by
  have step1 : ∀ f, dft_sum N ω x f * dft_sum N ω k f * ω⁻¹ ^ (n * f)
      = ∑ m ∈ Finset.range N, ∑ l ∈ Finset.range N,
          (x m * k l) * (ω ^ (m * f) * ω ^ (l * f) * ω⁻¹ ^ (n * f)) := by
    intro f
    unfold dft_sum
    rw [Finset.sum_mul_sum, Finset.sum_mul]
    apply Finset.sum_congr rfl
    intro m _
    rw [Finset.sum_mul]
    apply Finset.sum_congr rfl
    intro l _
    ring
  rw [Finset.sum_congr rfl (fun f _ => step1 f), Finset.sum_comm]
  unfold circ_conv
  rw [Finset.mul_sum]
  apply Finset.sum_congr rfl
  intro m hm
  have hm := Finset.mem_range.mp hm
  have hN : 0 < N := by omega
  rw [Finset.sum_comm]
  have hl0 : (n + N - m) % N < N := Nat.mod_lt _ hN
  rw [Finset.sum_eq_single ((n + N - m) % N)]
  · rw [← Finset.mul_sum, character_sum_eq hω hm hl0 hn rfl]
    ring
  · intro l hl hne
    have hl := Finset.mem_range.mp hl
    rw [← Finset.mul_sum, character_sum_ne hω hm hl hn hne, mul_zero]
  · intro h
    exact absurd (Finset.mem_range.mpr hl0) h

/-- On DFT tables, the inverse stage sequence applied to the product of the forward stage
sequence of `x` with a multiplier `g` (on frequency digits). -/
theorem MTables.inv_fwd_mul {M : MTables K} {ω c_fwd c_inv : K} (h : M.IsDFT ω c_fwd c_inv)
    (x : ℕ → K) (g : ℕ → ℕ → ℕ → K) (n1 n2 n3 : ℕ) (h1 : n1 < M.p) (h2 : n2 < M.q)
    (h3 : n3 < M.q) :
    M.inv (fun f1 f2 f3 => M.fwd x f1 f2 f3 * g f1 f2 f3) n1 n2 n3
      = c_inv * c_fwd * ∑ f1 ∈ Finset.range M.p, ∑ f2 ∈ Finset.range M.q,
          ∑ f3 ∈ Finset.range M.q,
            dft_sum (M.p * M.q * M.q) ω x (freq M.p M.q f1 f2 f3) * g f1 f2 f3
              * ω⁻¹ ^ ((M.q * M.q * n1 + M.q * n2 + n3) * freq M.p M.q f1 f2 f3) := by
  rw [MTables.inv_congr M _
    (fun f1 f2 f3 => c_fwd * dft_sum (M.p * M.q * M.q) ω x (freq M.p M.q f1 f2 f3) * g f1 f2 f3)
    (fun f1 f2 f3 hf1 hf2 hf3 => by rw [MTables.fwd_eq_dft h x f1 f2 f3 hf1 hf2 hf3]),
    MTables.inv_eq_dft h _ n1 n2 n3 h1 h2 h3]
  simp only [Finset.mul_sum]
  apply Finset.sum_congr rfl
  intro f1 _
  apply Finset.sum_congr rfl
  intro f2 _
  apply Finset.sum_congr rfl
  intro f3 _
  ring

theorem pos_lt {p q n1 n2 n3 : ℕ} (h1 : n1 < p) (h2 : n2 < q) (h3 : n3 < q) :
    q * q * n1 + q * n2 + n3 < p * q * q := by
  have e1 : q * n2 + n3 < q * q := by nlinarith
  have e2 : q * q * (n1 + 1) ≤ q * q * p := Nat.mul_le_mul_left _ h1
  nlinarith

/-- On DFT tables with `c_fwd * c_inv * N = 1`, multiplying the forward stage sequence by the
spectrum of `k` (in the kernels' frequency order) and applying the inverse stage sequence
gives the circular convolution of `x` and `k`. -/
theorem MTables.inv_fwd_conv {M : MTables K} {ω c_fwd c_inv : K} (h : M.IsDFT ω c_fwd c_inv)
    (hc : c_fwd * c_inv * ((M.p * M.q * M.q : ℕ) : K) = 1)
    (x k : ℕ → K) (n1 n2 n3 : ℕ) (h1 : n1 < M.p) (h2 : n2 < M.q) (h3 : n3 < M.q) :
    M.inv (fun f1 f2 f3 => M.fwd x f1 f2 f3
        * dft_sum (M.p * M.q * M.q) ω k (freq M.p M.q f1 f2 f3)) n1 n2 n3
      = circ_conv (M.p * M.q * M.q) x k (M.q * M.q * n1 + M.q * n2 + n3) := by
  rw [MTables.inv_fwd_mul h x _ n1 n2 n3 h1 h2 h3,
    sum_freq_digits M.p M.q (fun f => dft_sum (M.p * M.q * M.q) ω x f
      * dft_sum (M.p * M.q * M.q) ω k f * ω⁻¹ ^ ((M.q * M.q * n1 + M.q * n2 + n3) * f)),
    dft_conv h.root x k _ (pos_lt h1 h2 h3), ← mul_assoc, mul_comm c_inv c_fwd, hc, one_mul]

end conv

/-! ## Backward kernel (16_16_16), stage by stage -/

section bwd
variable {K : Type} [CommRing K] [StarRing K]

omit [StarRing K] in
/-- Stage 1 of the backward kernel: the scratch planes `a` and `a_2` hold the outer DFT of
`dout` and of `x` at `input_offset`. -/
theorem bwd_stage1 (P : Params) (hv : P.Valid) (T : Tables K) (dout_inp a_inp : ℕ → K)
    (off : ℕ) (s : BwdState K) (f1 n2 n3 : ℕ) (h1 : f1 < 16) (h2 : n2 < 16) (h3 : n3 < 16) :
    (forEachWarp P.num_warps (16 / P.WARP_TILE_SIZE)
      (fun warp_id k_idx s => bwd_outer_dft P T dout_inp a_inp off warp_id k_idx s) s).a
        (256 * f1 + 16 * n2 + n3)
      = mfwd1 16 T.b (digits 16 (fun i => dout_inp (off + i))) f1 n2 n3 ∧
    (forEachWarp P.num_warps (16 / P.WARP_TILE_SIZE)
      (fun warp_id k_idx s => bwd_outer_dft P T dout_inp a_inp off warp_id k_idx s) s).a_2
        (256 * f1 + 16 * n2 + n3)
      = mfwd1 16 T.b (digits 16 (fun i => a_inp (off + i))) f1 n2 n3 := by
  obtain ⟨w, k, hw, hk, rfl⟩ := tile_exists hv.hwarp h2
  have key := forEachWarp_local
    (fun w k (s s1 : BwdState K) => ∀ i j, i < 16 → j < 16 →
      s.a (256 * j + 16 * (k * P.WARP_TILE_SIZE + w) + i)
        = s1.a (256 * j + 16 * (k * P.WARP_TILE_SIZE + w) + i) ∧
      s.a_2 (256 * j + 16 * (k * P.WARP_TILE_SIZE + w) + i)
        = s1.a_2 (256 * j + 16 * (k * P.WARP_TILE_SIZE + w) + i))
    (fun _ _ _ _ _ _ _ => ⟨rfl, rfl⟩)
    (fun _ _ _ _ h i j hi hj => ⟨(h i j hi hj).1.symm, (h i j hi hj).2.symm⟩)
    (fun _ _ _ _ _ h1 h2 i j hi hj =>
      ⟨(h1 i j hi hj).1.trans (h2 i j hi hj).1, (h1 i j hi hj).2.trans (h2 i j hi hj).2⟩)
    P.num_warps (16 / P.WARP_TILE_SIZE)
    (fun warp_id k_idx s => bwd_outer_dft P T dout_inp a_inp off warp_id k_idx s)
    ?_ ?_ s w k (by rw [hv.num_warps_eq]; exact hw) hk n3 f1 h3 h1
  · rw [key.1, key.2]
    simp only [bwd_outer_dft, complex_matmul_c2c, store_matrix_sync, hv.r_eq, hv.hDFT]
    rw [if_pos (by omega), if_pos (by omega)]
    simp only [mma, load_matrix_sync, b_frag_dft, hv.hsqrt, mfwd1, digits]
    have e1 : (256 * f1 + 16 * (k * P.WARP_TILE_SIZE + w) + n3
        - (k * P.WARP_TILE_SIZE * 16 + w * 16)) % 256 = n3 := by omega
    have e2 : (256 * f1 + 16 * (k * P.WARP_TILE_SIZE + w) + n3
        - (k * P.WARP_TILE_SIZE * 16 + w * 16)) / 256 = f1 := by omega
    rw [e1, e2]
    constructor
    · apply Finset.sum_congr rfl
      intro x _
      congr 2 <;> omega
    · apply Finset.sum_congr rfl
      intro x _
      congr 2 <;> omega
  · intro w k w1 k1 hw hk hw1 hk1 hne s i j hi hj
    rw [hv.num_warps_eq] at hw hw1
    have h1 := tile_ne hw hw1 hne
    have h2 := tile_lt hv.hwarp hw hk
    have h3 := tile_lt hv.hwarp hw1 hk1
    simp only [bwd_outer_dft, complex_matmul_c2c, store_matrix_sync, hv.r_eq, hv.hDFT]
    rw [if_neg (by omega), if_neg (by omega)]
    exact ⟨rfl, rfl⟩
  · intro w k hw hk s s1 h i j hi hj
    simp only [bwd_outer_dft, complex_matmul_c2c, store_matrix_sync, hv.r_eq, hv.hDFT]
    rw [if_pos (by omega), if_pos (by omega), if_pos (by omega), if_pos (by omega)]
    exact ⟨rfl, rfl⟩

omit [StarRing K] in
theorem bwd_stage1_rest (P : Params) (T : Tables K) (dout_inp a_inp : ℕ → K) (off : ℕ)
    (s : BwdState K) :
    s.sameOut (forEachWarp P.num_warps (16 / P.WARP_TILE_SIZE)
      (fun warp_id k_idx s => bwd_outer_dft P T dout_inp a_inp off warp_id k_idx s) s) :=
  forEachWarp_inv (fun s1 : BwdState K => s.sameOut s1) P.num_warps (16 / P.WARP_TILE_SIZE)
    (fun warp_id k_idx s => bwd_outer_dft P T dout_inp a_inp off warp_id k_idx s)
    (fun _ _ _ _ _ h => h) s ⟨rfl, rfl, rfl, rfl⟩

/-- One iteration of the inner stage of the backward kernel, on its own block: the inverse
path on `a`. -/
theorem bwd_inner_apply_a (P : Params) (hv : P.Valid) (T : Tables K) (a_k : ℕ → K)
    (w k : ℕ) (s : BwdState K) (n2 n3 : ℕ) (h2 : n2 < 16) (h3 : n3 < 16) :
    (bwd_inner P T (k_frag P a_k) w k s).a (256 * (k * P.WARP_TILE_SIZE + w) + 16 * n2 + n3)
      = minv2 16 T.b_ifft T.twiddle_factors_16_ifft (minv1 16 T.b_ifft
          (fun f1 f2 f3 => mfwd3 16 T.b T.twiddle_factors_16_fft
            (mfwd2 16 T.b T.twiddle_factors_256_fft (digits 16 s.a)) f1 f2 f3
              * digits 16 a_k f1 f2 f3)) (k * P.WARP_TILE_SIZE + w) n2 n3 := by
  have hB : k * P.WARP_TILE_SIZE * 16 * 16 + w * 16 * 16 = 256 * (k * P.WARP_TILE_SIZE + w) := by
    ring
  generalize k * P.WARP_TILE_SIZE + w = t at hB
  have hidx : 256 * t + 16 * n2 + n3 = 256 * t + n2 * 16 + n3 := by ring
  simp only [bwd_inner, complex_matmul, complex_matmul_load_b, hv.r_eq, hv.hDFT, hv.hsqrt,
    if_true, if_false, Bool.false_eq_true, k_frag, twiddle_256_dft_frag, hB]
  rw [hidx, store_col_apply _ _ _ _ _ _ _ h3 h2 le_rfl]
  simp only [mma, frag_mul, minv2]
  apply Finset.sum_congr rfl
  intro f2 hf2
  have hf2 := Finset.mem_range.mp hf2
  simp only [load_matrix_sync]
  rw [store_col_apply _ _ _ _ _ _ _ hf2 h3 le_rfl]
  simp only [mma, frag_mul, minv1]
  have e16 : ∀ x : ℕ, x * 16 = 16 * x := fun x => Nat.mul_comm x 16
  congr 2
  · apply Finset.sum_congr rfl
    intro f3 hf3
    have hf3 := Finset.mem_range.mp hf3
    rw [store_row_apply _ _ _ _ _ _ _ hf2 hf3 le_rfl]
    simp only [mma, frag_mul, load_matrix_sync, mfwd3, mfwd2, digits, b_frag_idft,
      b_frag_dft, twiddle_16_dft_frag, a_frag_dft, hv.hsqrt]
    simp only [Nat.zero_add, e16, show (16 * 16 : ℕ) = 256 from rfl]
  · simp only [twiddle_16_idft_frag, load_matrix_sync, hv.hsqrt, Nat.zero_add, e16]
  · simp only [b_frag_idft, load_matrix_sync, hv.hsqrt, Nat.zero_add, e16]

/-- One iteration of the inner stage of the backward kernel, on its own block: the `dk_f`
contribution `dout * conj(x * N)` of the transformed planes, left in `a_2`. -/
theorem bwd_inner_apply_a2 (P : Params) (hv : P.Valid) (T : Tables K) (kf : ℕ → ℕ → Frag K)
    (w k : ℕ) (s : BwdState K) (f2 f3 : ℕ) (h2 : f2 < 16) (h3 : f3 < 16) :
    (bwd_inner P T kf w k s).a_2 (256 * (k * P.WARP_TILE_SIZE + w) + 16 * f2 + f3)
      = mfwd3 16 T.b T.twiddle_factors_16_fft
            (mfwd2 16 T.b T.twiddle_factors_256_fft (digits 16 s.a))
            (k * P.WARP_TILE_SIZE + w) f2 f3
          * star (mfwd3 16 T.b T.twiddle_factors_16_fft
            (mfwd2 16 T.b T.twiddle_factors_256_fft (digits 16 s.a_2))
            (k * P.WARP_TILE_SIZE + w) f2 f3 * (P.N : K)) := by
  have hB : k * P.WARP_TILE_SIZE * 16 * 16 + w * 16 * 16 = 256 * (k * P.WARP_TILE_SIZE + w) := by
    ring
  generalize k * P.WARP_TILE_SIZE + w = t at hB
  have hidx : 256 * t + 16 * f2 + f3 = 256 * t + f2 * 16 + f3 := by ring
  have e16 : ∀ x : ℕ, x * 16 = 16 * x := fun x => Nat.mul_comm x 16
  simp only [bwd_inner, complex_matmul, complex_matmul_load_b, hv.r_eq, hv.hDFT, hv.hsqrt,
    if_true, twiddle_256_dft_frag, hB, mul_conj_block, scale_block, complex_mul_conj_half2]
  rw [if_pos (by omega), if_pos (by omega), hidx,
    store_row_apply _ _ _ _ _ _ _ h2 h3 le_rfl, store_row_apply _ _ _ _ _ _ _ h2 h3 le_rfl]
  simp only [mma, frag_mul, load_matrix_sync, mfwd3, mfwd2, digits,
    b_frag_dft, twiddle_16_dft_frag, a_frag_dft, hv.hsqrt]
  simp only [Nat.zero_add, e16, show (16 * 16 : ℕ) = 256 from rfl]

theorem bwd_inner_frame (P : Params) (hv : P.Valid) (T : Tables K) (kf : ℕ → ℕ → Frag K)
    (w k : ℕ) (s : BwdState K) (idx : ℕ)
    (h : ¬ (256 * (k * P.WARP_TILE_SIZE + w) ≤ idx ∧ idx < 256 * (k * P.WARP_TILE_SIZE + w) + 256)) :
    (bwd_inner P T kf w k s).a idx = s.a idx ∧ (bwd_inner P T kf w k s).a_2 idx = s.a_2 idx := by
  have hB : k * P.WARP_TILE_SIZE * 16 * 16 + w * 16 * 16 = 256 * (k * P.WARP_TILE_SIZE + w) := by
    ring
  generalize k * P.WARP_TILE_SIZE + w = t at hB h
  simp only [bwd_inner, complex_matmul, hv.r_eq, hv.hDFT, hv.hsqrt,
    if_true, if_false, Bool.false_eq_true, hB, mul_conj_block, scale_block]
  simp only [store_matrix_sync]
  rw [if_neg (by omega), if_neg (by omega), if_neg (by omega), if_neg (by omega),
    if_neg (by omega), if_neg (by omega)]
  exact ⟨rfl, rfl⟩

/-- Stage 2 of the backward kernel, block by block. -/
theorem bwd_stage2 (P : Params) (hv : P.Valid) (T : Tables K) (a_k : ℕ → K)
    (s : BwdState K) (f1 n2 n3 : ℕ) (h1 : f1 < 16) (h2 : n2 < 16) (h3 : n3 < 16) :
    (forEachWarp P.num_warps (16 / P.WARP_TILE_SIZE)
      (fun warp_id k_idx s => bwd_inner P T (k_frag P a_k) warp_id k_idx s) s).a
        (256 * f1 + 16 * n2 + n3)
      = minv2 16 T.b_ifft T.twiddle_factors_16_ifft (minv1 16 T.b_ifft
          (fun f1 f2 f3 => mfwd3 16 T.b T.twiddle_factors_16_fft
            (mfwd2 16 T.b T.twiddle_factors_256_fft (digits 16 s.a)) f1 f2 f3
              * digits 16 a_k f1 f2 f3)) f1 n2 n3 ∧
    (forEachWarp P.num_warps (16 / P.WARP_TILE_SIZE)
      (fun warp_id k_idx s => bwd_inner P T (k_frag P a_k) warp_id k_idx s) s).a_2
        (256 * f1 + 16 * n2 + n3)
      = mfwd3 16 T.b T.twiddle_factors_16_fft
            (mfwd2 16 T.b T.twiddle_factors_256_fft (digits 16 s.a)) f1 n2 n3
          * star (mfwd3 16 T.b T.twiddle_factors_16_fft
            (mfwd2 16 T.b T.twiddle_factors_256_fft (digits 16 s.a_2)) f1 n2 n3 * (P.N : K)) := by
  obtain ⟨w, k, hw, hk, rfl⟩ := tile_exists hv.hwarp h1
  have key := forEachWarp_local
    (fun w k (s s1 : BwdState K) => ∀ i j, i < 16 → j < 16 →
      s.a (256 * (k * P.WARP_TILE_SIZE + w) + 16 * i + j)
        = s1.a (256 * (k * P.WARP_TILE_SIZE + w) + 16 * i + j) ∧
      s.a_2 (256 * (k * P.WARP_TILE_SIZE + w) + 16 * i + j)
        = s1.a_2 (256 * (k * P.WARP_TILE_SIZE + w) + 16 * i + j))
    (fun _ _ _ _ _ _ _ => ⟨rfl, rfl⟩)
    (fun _ _ _ _ h i j hi hj => ⟨(h i j hi hj).1.symm, (h i j hi hj).2.symm⟩)
    (fun _ _ _ _ _ h1 h2 i j hi hj =>
      ⟨(h1 i j hi hj).1.trans (h2 i j hi hj).1, (h1 i j hi hj).2.trans (h2 i j hi hj).2⟩)
    P.num_warps (16 / P.WARP_TILE_SIZE)
    (fun warp_id k_idx s => bwd_inner P T (k_frag P a_k) warp_id k_idx s)
    ?_ ?_ s w k (by rw [hv.num_warps_eq]; exact hw) hk n2 n3 h2 h3
  · rw [key.1, key.2]
    exact ⟨bwd_inner_apply_a P hv T a_k w k s n2 n3 h2 h3,
      bwd_inner_apply_a2 P hv T _ w k s n2 n3 h2 h3⟩
  · intro w k w1 k1 hw hk hw1 hk1 hne s i j hi hj
    rw [hv.num_warps_eq] at hw hw1
    have h1 := tile_ne hw hw1 hne
    exact bwd_inner_frame P hv T _ w k s _ (by omega)
  · intro w k hw hk s s1 h i j hi hj
    have hd : ∀ m2 m3, m2 < 16 → m3 < 16 →
        digits 16 s.a (k * P.WARP_TILE_SIZE + w) m2 m3
          = digits 16 s1.a (k * P.WARP_TILE_SIZE + w) m2 m3 := by
      intro m2 m3 hm2 hm3
      simp only [digits, show (16 * 16 : ℕ) = 256 from rfl]
      exact (h m2 m3 hm2 hm3).1
    have hd2 : ∀ m2 m3, m2 < 16 → m3 < 16 →
        digits 16 s.a_2 (k * P.WARP_TILE_SIZE + w) m2 m3
          = digits 16 s1.a_2 (k * P.WARP_TILE_SIZE + w) m2 m3 := by
      intro m2 m3 hm2 hm3
      simp only [digits, show (16 * 16 : ℕ) = 256 from rfl]
      exact (h m2 m3 hm2 hm3).2
    have hF : ∀ g2 g3, mfwd3 16 T.b T.twiddle_factors_16_fft
          (mfwd2 16 T.b T.twiddle_factors_256_fft (digits 16 s.a))
          (k * P.WARP_TILE_SIZE + w) g2 g3
        = mfwd3 16 T.b T.twiddle_factors_16_fft
          (mfwd2 16 T.b T.twiddle_factors_256_fft (digits 16 s1.a))
          (k * P.WARP_TILE_SIZE + w) g2 g3 := by
      intro g2 g3
      apply mfwd3_congr
      intro m3 hm3
      apply mfwd2_congr
      intro m2 hm2
      exact hd m2 m3 hm2 hm3
    have hF2 : ∀ g2 g3, mfwd3 16 T.b T.twiddle_factors_16_fft
          (mfwd2 16 T.b T.twiddle_factors_256_fft (digits 16 s.a_2))
          (k * P.WARP_TILE_SIZE + w) g2 g3
        = mfwd3 16 T.b T.twiddle_factors_16_fft
          (mfwd2 16 T.b T.twiddle_factors_256_fft (digits 16 s1.a_2))
          (k * P.WARP_TILE_SIZE + w) g2 g3 := by
      intro g2 g3
      apply mfwd3_congr
      intro m3 hm3
      apply mfwd2_congr
      intro m2 hm2
      exact hd2 m2 m3 hm2 hm3
    rw [bwd_inner_apply_a P hv T a_k w k s i j hi hj,
      bwd_inner_apply_a P hv T a_k w k s1 i j hi hj,
      bwd_inner_apply_a2 P hv T _ w k s i j hi hj,
      bwd_inner_apply_a2 P hv T _ w k s1 i j hi hj, hF, hF2]
    refine ⟨?_, rfl⟩
    apply minv2_congr
    intro g2 _
    apply minv1_congr
    intro g3 _
    rw [hF]

theorem bwd_stage2_rest (P : Params) (T : Tables K) (kf : ℕ → ℕ → Frag K) (s : BwdState K) :
    s.sameOut (forEachWarp P.num_warps (16 / P.WARP_TILE_SIZE)
      (fun warp_id k_idx s => bwd_inner P T kf warp_id k_idx s) s) :=
  forEachWarp_inv (fun s1 : BwdState K => s.sameOut s1) P.num_warps (16 / P.WARP_TILE_SIZE)
    (fun warp_id k_idx s => bwd_inner P T kf warp_id k_idx s)
    (fun _ _ _ _ _ h => h) s ⟨rfl, rfl, rfl, rfl⟩

omit [StarRing K] in
theorem bwd_stage3_rest (P : Params) (T : Tables K) (s : BwdState K) :
    s.sameOut (forEachWarp P.num_warps (16 / P.WARP_TILE_SIZE)
      (fun warp_id k_idx s => bwd_outer_idft P T warp_id k_idx s) s) ∧
    (forEachWarp P.num_warps (16 / P.WARP_TILE_SIZE)
      (fun warp_id k_idx s => bwd_outer_idft P T warp_id k_idx s) s).a_2 = s.a_2 :=
  forEachWarp_inv (fun s1 : BwdState K => s.sameOut s1 ∧ s1.a_2 = s.a_2) P.num_warps
    (16 / P.WARP_TILE_SIZE)
    (fun warp_id k_idx s => bwd_outer_idft P T warp_id k_idx s)
    (fun _ _ _ _ _ h => h) s ⟨⟨rfl, rfl, rfl, rfl⟩, rfl⟩

omit [StarRing K] in
/-- Stage 3 of the backward kernel (outer inverse DFT, in place on `a`). -/
theorem bwd_stage3_a (P : Params) (hv : P.Valid) (T : Tables K)
    (s : BwdState K) (n1 n2 n3 : ℕ) (h1 : n1 < 16) (h2 : n2 < 16) (h3 : n3 < 16) :
    (forEachWarp P.num_warps (16 / P.WARP_TILE_SIZE)
      (fun warp_id k_idx s => bwd_outer_idft P T warp_id k_idx s) s).a
        (256 * n1 + 16 * n2 + n3)
      = minv3 16 16 T.b_ifft T.twiddle_factors_256_ifft (digits 16 s.a) n1 n2 n3 := by
  obtain ⟨w, k, hw, hk, rfl⟩ := tile_exists hv.hwarp h2
  have hbody : ∀ (w k : ℕ) (s : BwdState K) (i j : ℕ), i < 16 → j < 16 →
      k * P.WARP_TILE_SIZE + w < 16 →
      (bwd_outer_idft P T w k s).a (256 * j + 16 * (k * P.WARP_TILE_SIZE + w) + i)
        = minv3 16 16 T.b_ifft T.twiddle_factors_256_ifft (digits 16 s.a) j
            (k * P.WARP_TILE_SIZE + w) i := by
    intro w k s i j hi hj ht
    have hB : k * P.WARP_TILE_SIZE * 16 + w * 16 = 16 * (k * P.WARP_TILE_SIZE + w) := by ring
    generalize k * P.WARP_TILE_SIZE + w = t at hB ht
    have hidx : 256 * j + 16 * t + i = 16 * t + j * 256 + i := by ring
    simp only [bwd_outer_idft, complex_matmul_c2c_twiddle, hv.r_eq, hv.hDFT, hB,
      twiddle_256_idft_frag]
    rw [hidx, store_col_apply _ _ _ _ _ _ _ hi hj (by norm_num)]
    simp only [mma, frag_mul, load_matrix_sync, minv3, digits, b_frag_idft, hv.hsqrt]
    have e : ∀ x : ℕ, 16 * t + x * 256 + i = 256 * x + 16 * t + i := fun x => by ring
    simp only [e, Nat.zero_add, fun x : ℕ => Nat.mul_comm x 16, show (16 * 16 : ℕ) = 256 from rfl]
  have key := forEachWarp_local
    (fun w k (s s1 : BwdState K) => ∀ i j, i < 16 → j < 16 →
      s.a (256 * j + 16 * (k * P.WARP_TILE_SIZE + w) + i)
        = s1.a (256 * j + 16 * (k * P.WARP_TILE_SIZE + w) + i))
    (fun _ _ _ _ _ _ _ => rfl)
    (fun _ _ _ _ h i j hi hj => (h i j hi hj).symm)
    (fun _ _ _ _ _ h1 h2 i j hi hj => (h1 i j hi hj).trans (h2 i j hi hj))
    P.num_warps (16 / P.WARP_TILE_SIZE)
    (fun warp_id k_idx s => bwd_outer_idft P T warp_id k_idx s)
    ?_ ?_ s w k (by rw [hv.num_warps_eq]; exact hw) hk n3 n1 h3 h1
  · rw [key]
    exact hbody w k s n3 n1 h3 h1 h2
  · intro w k w1 k1 hw hk hw1 hk1 hne s i j hi hj
    rw [hv.num_warps_eq] at hw hw1
    have h1 := tile_ne hw hw1 hne
    have h2 := tile_lt hv.hwarp hw hk
    have h3 := tile_lt hv.hwarp hw1 hk1
    simp only [bwd_outer_idft, complex_matmul_c2c_twiddle, store_matrix_sync, hv.r_eq, hv.hDFT]
    rw [if_neg (by omega)]
  · intro w k hw hk s s1 h i j hi hj
    rw [hv.num_warps_eq] at hw
    have ht := tile_lt hv.hwarp hw hk
    rw [hbody w k s i j hi hj ht, hbody w k s1 i j hi hj ht]
    apply minv3_congr
    intro f1 hf1
    simp only [digits, show (16 * 16 : ℕ) = 256 from rfl]
    exact h i f1 hi hf1

end bwd

/-! ## Striped staging and write-back -/

section striped
variable {K : Type}

theorem Params.Valid.threads_pos {P : Params} (hv : P.Valid) : 0 < P.num_threads := by
  rw [hv.hthreads]
  have := Nat.pos_of_dvd_of_pos hv.hwarp (by norm_num)
  omega

theorem Params.Valid.items_mul {P : Params} (hv : P.Valid) :
    P.items_per_thread_input / 2 * P.num_threads = 2048 := by
  unfold Params.items_per_thread_input
  rw [hv.hthreads, hv.hN]
  rcases warp_tile_cases hv.hwarp with h | h | h | h | h <;> rw [h]

theorem Params.Valid.items_even {P : Params} (hv : P.Valid) :
    2 * (P.items_per_thread_input / 2) = P.items_per_thread_input := by
  unfold Params.items_per_thread_input
  rw [hv.hthreads, hv.hN]
  rcases warp_tile_cases hv.hwarp with h | h | h | h | h <;> rw [h]

theorem striped_index (nt j : ℕ) : 2 * (j / 2 / nt * nt + j / 2 % nt) + j % 2 = j := by
  rw [Nat.div_add_mod']
  omega

theorem striped_covers {nt items j half : ℕ} (hnt : 0 < nt) (h : items * nt = half)
    (hj : j < 2 * half) : j / 2 / nt < items := by
  rw [Nat.div_lt_iff_lt_mul hnt, h]
  omega

theorem striped_elem_lt {nt items t m half : ℕ} (h : items * nt = half) (ht : t < nt)
    (hm : m / 2 < items) : 2 * (m / 2 * nt + t) + m % 2 < 2 * half := by
  have h1 : (m / 2 + 1) * nt ≤ items * nt := Nat.mul_le_mul_right _ hm
  have h2 : (m / 2 + 1) * nt = m / 2 * nt + nt := by ring
  omega

theorem striped_elem_thread {nt t m : ℕ} (ht : t < nt) :
    (2 * (m / 2 * nt + t) + m % 2) / 2 % nt = t := by
  have e : (2 * (m / 2 * nt + t) + m % 2) / 2 = t + m / 2 * nt := by omega
  rw [e, Nat.add_mul_mod_self_right, Nat.mod_eq_of_lt ht]

theorem striped_elem_slot {nt t m : ℕ} (ht : t < nt) :
    2 * ((2 * (m / 2 * nt + t) + m % 2) / 2 / nt) + (2 * (m / 2 * nt + t) + m % 2) % 2 = m := by
  have e : (2 * (m / 2 * nt + t) + m % 2) / 2 = t + m / 2 * nt := by omega
  have hnt : 0 < nt := by omega
  rw [e, Nat.add_mul_div_right _ _ hnt, Nat.div_eq_of_lt ht]
  omega

/-- Staging through the registers is index-preserving: after the striped load and the striped
write to the scratch planes, element `j` of the plane is element `j` of the source. -/
theorem fwd_stage_k_f_apply (P : Params) (hv : P.Valid) (k_f : ℕ → K) (regs : ℕ → ℕ → K)
    (blockIdx_y h_tile_id : ℕ) (a : ℕ → K) (j : ℕ) (hj : j < 4096) :
    fwd_stage_k_f P k_f regs blockIdx_y h_tile_id a j
      = k_f (fwd_k_f_offset P blockIdx_y h_tile_id + j) := by
  have hc := striped_covers hv.threads_pos hv.items_mul (show j < 2 * 2048 from hj)
  simp only [fwd_stage_k_f, regs_to_shared, BlockLoad_striped]
  rw [if_pos hc, if_pos (by omega)]
  congr 1
  have e : (2 * (j / 2 / P.num_threads) + j % 2) / 2 = j / 2 / P.num_threads := by omega
  have e2 : (2 * (j / 2 / P.num_threads) + j % 2) % 2 = j % 2 := by omega
  rw [e, e2, Nat.add_assoc, striped_index]

/-- The conjugating staging of the backward kernels: element `j` of the scratch planes is the
conjugate of element `j` of the filter. -/
theorem bwd_stage_k_f_apply [CommRing K] [StarRing K] {nt ipt half : ℕ} (hnt : 0 < nt)
    (hitems : ipt / 2 * nt = half) (k_f : ℕ → K) (off : ℕ)
    (regs : ℕ → ℕ → K) (a : ℕ → K) (j : ℕ) (hj : j < 2 * half) :
    bwd_stage_k_f nt ipt (BlockLoad_striped nt (ipt / 2) k_f off regs) a j
      = star (k_f (off + j)) := by
  have hc := striped_covers hnt hitems hj
  simp only [bwd_stage_k_f, regs_to_shared, BlockLoad_striped]
  rw [if_pos hc, if_pos (by omega)]
  congr 2
  have e : (2 * (j / 2 / nt) + j % 2) / 2 = j / 2 / nt := by omega
  have e2 : (2 * (j / 2 / nt) + j % 2) % 2 = j % 2 := by omega
  rw [e, e2, Nat.add_assoc, striped_index]

/-- The write-back of `dx`: element `j` of the scratch planes `a` goes to
`dx_out[input_offset + j]`. -/
theorem bwd_write_back_dx [CommRing K] {nt ipt half : ℕ} (hnt : 0 < nt)
    (hitems : ipt / 2 * nt = half) (off : ℕ) (s : BwdState K) (j : ℕ) (hj : j < 2 * half) :
    (bwd_write_back nt ipt off s).dx_out (off + j) = s.a j := by
  have hc := striped_covers hnt hitems hj
  simp only [bwd_write_back, BlockStore_striped, shared_to_regs, Nat.add_sub_cancel_left]
  rw [if_pos ⟨by omega, hc⟩, if_pos (by omega)]
  congr 1
  have e : (2 * (j / 2 / nt) + j % 2) / 2 = j / 2 / nt := by omega
  have e2 : (2 * (j / 2 / nt) + j % 2) % 2 = j % 2 := by omega
  rw [e, e2, striped_index]

theorem bwd_write_back_dx_frame [CommRing K] {nt ipt half : ℕ} (hnt : 0 < nt)
    (hitems : ipt / 2 * nt = half)
    (off : ℕ) (s : BwdState K) (idx : ℕ) (h : ¬ (off ≤ idx ∧ idx < off + 2 * half)) :
    (bwd_write_back nt ipt off s).dx_out idx = s.dx_out idx := by
  simp only [bwd_write_back, BlockStore_striped]
  rw [if_neg]
  rintro ⟨h1, h2⟩
  rw [Nat.div_lt_iff_lt_mul hnt, hitems] at h2
  omega

/-- The accumulation of `dk_f`: register slot `m` of thread `t` of `temp` receives element
`2 * ((m / 2) * num_threads + t) + m % 2` of the scratch planes `a_2`. -/
theorem bwd_write_back_temp [CommRing K] {nt ipt : ℕ} (heven : 2 * (ipt / 2) = ipt)
    (off : ℕ) (s : BwdState K) (t m : ℕ) (hm : m < ipt) :
    (bwd_write_back nt ipt off s).temp t m
      = s.temp t m + s.a_2 (2 * (m / 2 * nt + t) + m % 2) := by
  simp only [bwd_write_back, shared_to_regs]
  rw [if_pos hm, if_pos (by omega)]

theorem bwd_write_back_rest [CommRing K] (nt ipt : ℕ) (off : ℕ) (s : BwdState K) :
    (bwd_write_back nt ipt off s).dk_f_out = s.dk_f_out ∧
    (bwd_write_back nt ipt off s).a = s.a ∧ (bwd_write_back nt ipt off s).a_2 = s.a_2 :=
  ⟨rfl, rfl, rfl⟩

theorem flat_digits (v : ℕ → ℕ → ℕ → K) (n1 n2 n3 : ℕ) (h2 : n2 < 16) (h3 : n3 < 16) :
    flat 16 v (256 * n1 + 16 * n2 + n3) = v n1 n2 n3 := by
  unfold flat
  have e1 : (256 * n1 + 16 * n2 + n3) / (16 * 16) = n1 := by omega
  have e2 : (256 * n1 + 16 * n2 + n3) / 16 % 16 = n2 := by omega
  have e3 : (256 * n1 + 16 * n2 + n3) % 16 = n3 := by omega
  rw [e1, e2, e3]

theorem flat_index (j : ℕ) : 256 * (j / (16 * 16)) + 16 * (j / 16 % 16) + j % 16 = j := by
  omega

end striped

section bwd_body
variable {K : Type} [CommRing K] [StarRing K]

/-- The scratch planes `a` after the three transform stages of the backward batch body. -/
theorem bwd_stages_a (P : Params) (hv : P.Valid) (T : Tables K) (dout_inp a_inp a_k : ℕ → K)
    (off : ℕ) (s : BwdState K) (n1 n2 n3 : ℕ) (h1 : n1 < 16) (h2 : n2 < 16) (h3 : n3 < 16) :
    (forEachWarp P.num_warps (16 / P.WARP_TILE_SIZE)
      (fun warp_id k_idx s => bwd_outer_idft P T warp_id k_idx s)
      (forEachWarp P.num_warps (16 / P.WARP_TILE_SIZE)
        (fun warp_id k_idx s => bwd_inner P T (k_frag P a_k) warp_id k_idx s)
        (forEachWarp P.num_warps (16 / P.WARP_TILE_SIZE)
          (fun warp_id k_idx s => bwd_outer_dft P T dout_inp a_inp off warp_id k_idx s) s))).a
        (256 * n1 + 16 * n2 + n3)
      = T.toM.inv (fun f1 f2 f3 =>
          T.toM.fwd (fun i => dout_inp (off + i)) f1 f2 f3 * digits 16 a_k f1 f2 f3)
          n1 n2 n3 := by
  rw [bwd_stage3_a P hv T _ n1 n2 n3 h1 h2 h3]
  simp only [MTables.inv, MTables.fwd, Tables.toM]
  apply minv3_congr
  intro f1 hf1
  simp only [digits, show (16 * 16 : ℕ) = 256 from rfl]
  rw [(bwd_stage2 P hv T a_k _ f1 n2 n3 hf1 h2 h3).1]
  apply minv2_congr
  intro f2 hf2
  apply minv1_congr
  intro f3 hf3
  congr 1
  apply mfwd3_congr
  intro m3 hm3
  apply mfwd2_congr
  intro m2 hm2
  simp only [digits, show (16 * 16 : ℕ) = 256 from rfl]
  rw [(bwd_stage1 P hv T dout_inp a_inp off _ f1 m2 m3 hf1 hm2 hm3).1]

/-- The scratch planes `a_2` after the three transform stages of the backward batch body. -/
theorem bwd_stages_a2 (P : Params) (hv : P.Valid) (T : Tables K) (dout_inp a_inp : ℕ → K)
    (kf : ℕ → K) (off : ℕ) (s : BwdState K) (f1 f2 f3 : ℕ) (h1 : f1 < 16) (h2 : f2 < 16)
    (h3 : f3 < 16) :
    (forEachWarp P.num_warps (16 / P.WARP_TILE_SIZE)
      (fun warp_id k_idx s => bwd_outer_idft P T warp_id k_idx s)
      (forEachWarp P.num_warps (16 / P.WARP_TILE_SIZE)
        (fun warp_id k_idx s => bwd_inner P T (k_frag P kf) warp_id k_idx s)
        (forEachWarp P.num_warps (16 / P.WARP_TILE_SIZE)
          (fun warp_id k_idx s => bwd_outer_dft P T dout_inp a_inp off warp_id k_idx s) s))).a_2
        (256 * f1 + 16 * f2 + f3)
      = dk_f_term T.toM P.N (fun i => dout_inp (off + i)) (fun i => a_inp (off + i))
          f1 f2 f3 := by
  rw [(bwd_stage3_rest P T _).2, (bwd_stage2 P hv T kf _ f1 f2 f3 h1 h2 h3).2]
  simp only [dk_f_term, MTables.fwd, Tables.toM]
  have hA : ∀ (u : ℕ → K) (v : ℕ → ℕ → ℕ → K),
      (∀ m2 m3, m2 < 16 → m3 < 16 → u (256 * f1 + 16 * m2 + m3) = v f1 m2 m3) →
      mfwd3 16 T.b T.twiddle_factors_16_fft
          (mfwd2 16 T.b T.twiddle_factors_256_fft (digits 16 u)) f1 f2 f3
        = mfwd3 16 T.b T.twiddle_factors_16_fft
          (mfwd2 16 T.b T.twiddle_factors_256_fft v) f1 f2 f3 := by
    intro u v huv
    apply mfwd3_congr
    intro m3 hm3
    apply mfwd2_congr
    intro m2 hm2
    simp only [digits, show (16 * 16 : ℕ) = 256 from rfl]
    exact huv m2 m3 hm2 hm3
  rw [hA _ _ (fun m2 m3 hm2 hm3 =>
      (bwd_stage1 P hv T dout_inp a_inp off s f1 m2 m3 h1 hm2 hm3).1),
    hA _ _ (fun m2 m3 hm2 hm3 =>
      (bwd_stage1 P hv T dout_inp a_inp off s f1 m2 m3 h1 hm2 hm3).2)]

/-- The batch body of the backward kernel writes `dx`: at `input_offset + j`, element `j` of
the inverse stage sequence of the product of the forward stage sequence of `dout` with the
staged (conjugated) filter. -/
theorem bwd_batch_body_dx (P : Params) (hv : P.Valid) (T : Tables K) (dout_inp a_inp a_k : ℕ → K)
    (off : ℕ) (s : BwdState K) (j : ℕ) (hj : j < 4096) :
    (bwd_batch_body P T dout_inp a_inp (k_frag P a_k) off s).dx_out (off + j)
      = flat 16 (T.toM.inv (fun f1 f2 f3 =>
          T.toM.fwd (fun i => dout_inp (off + i)) f1 f2 f3 * digits 16 a_k f1 f2 f3)) j := by
  unfold bwd_batch_body
  rw [bwd_write_back_dx hv.threads_pos hv.items_mul off _ j (show j < 2 * 2048 from hj)]
  conv_lhs => rw [← flat_index j]
  rw [bwd_stages_a P hv T dout_inp a_inp a_k off s _ _ _ (by omega) (by omega) (by omega)]
  rfl

theorem bwd_batch_body_dx_frame (P : Params) (hv : P.Valid) (T : Tables K)
    (dout_inp a_inp : ℕ → K) (kf : ℕ → ℕ → Frag K) (off : ℕ) (s : BwdState K) (idx : ℕ)
    (h : ¬ (off ≤ idx ∧ idx < off + 4096)) :
    (bwd_batch_body P T dout_inp a_inp kf off s).dx_out idx = s.dx_out idx := by
  unfold bwd_batch_body
  rw [bwd_write_back_dx_frame hv.threads_pos hv.items_mul off _ idx h,
    (bwd_stage3_rest P T _).1.2.2.1, (bwd_stage2_rest P T kf _).2.2.1,
    (bwd_stage1_rest P T dout_inp a_inp off s).2.2.1]

theorem bwd_batch_body_dk_f_out (P : Params) (T : Tables K)
    (dout_inp a_inp : ℕ → K) (kf : ℕ → ℕ → Frag K) (off : ℕ) (s : BwdState K) :
    (bwd_batch_body P T dout_inp a_inp kf off s).dk_f_out = s.dk_f_out := by
  unfold bwd_batch_body
  rw [(bwd_write_back_rest _ _ off _).1,
    (bwd_stage3_rest P T _).1.2.2.2, (bwd_stage2_rest P T kf _).2.2.2,
    (bwd_stage1_rest P T dout_inp a_inp off s).2.2.2]

/-- The batch body of the backward kernel adds to `temp` the `dk_f` contribution of its batch
element, at the element the register slot stands for. -/
theorem bwd_batch_body_temp (P : Params) (hv : P.Valid) (T : Tables K)
    (dout_inp a_inp a_k : ℕ → K) (off : ℕ) (s : BwdState K) (t m : ℕ)
    (ht : t < P.num_threads) (hm : m < P.items_per_thread_input) :
    (bwd_batch_body P T dout_inp a_inp (k_frag P a_k) off s).temp t m
      = s.temp t m + flat 16 (dk_f_term T.toM P.N (fun i => dout_inp (off + i))
          (fun i => a_inp (off + i))) (2 * (m / 2 * P.num_threads + t) + m % 2) := by
  unfold bwd_batch_body
  rw [bwd_write_back_temp hv.items_even off _ t m hm, (bwd_stage3_rest P T _).1.2.1,
    (bwd_stage2_rest P T _ _).2.1, (bwd_stage1_rest P T dout_inp a_inp off s).2.1]
  congr 1
  have hlt : 2 * (m / 2 * P.num_threads + t) + m % 2 < 2 * 2048 :=
    striped_elem_lt hv.items_mul ht (by have := hv.items_even; omega)
  generalize 2 * (m / 2 * P.num_threads + t) + m % 2 = e at hlt
  conv_lhs => rw [← flat_index e]
  rw [bwd_stages_a2 P hv T dout_inp a_inp a_k off s _ _ _ (by omega) (by omega) (by omega)]
  rfl

/-- The batch loop of a channel: `temp` accumulates the `dk_f` contributions of the batch
elements of the tile. -/
theorem bwd_batch_loop_temp (P : Params) (hv : P.Valid) (T : Tables K)
    (dout_inp a_inp a_k : ℕ → K) (offs : ℕ → ℕ) (n : ℕ) (s : BwdState K) (t m : ℕ)
    (ht : t < P.num_threads) (hm : m < P.items_per_thread_input) :
    (forRange n (fun b_tile_id s =>
        bwd_batch_body P T dout_inp a_inp (k_frag P a_k) (offs b_tile_id) s) s).temp t m
      = s.temp t m + ∑ b ∈ Finset.range n,
          flat 16 (dk_f_term T.toM P.N (fun i => dout_inp (offs b + i))
            (fun i => a_inp (offs b + i))) (2 * (m / 2 * P.num_threads + t) + m % 2) := by
  induction n with
  | zero => simp [forRange_zero]
  | succ n ih =>
    rw [forRange_succ, bwd_batch_body_temp P hv T dout_inp a_inp a_k _ _ t m ht hm, ih,
      Finset.sum_range_succ, add_assoc]

theorem bwd_batch_loop_dk_f_out (P : Params) (T : Tables K)
    (dout_inp a_inp : ℕ → K) (kf : ℕ → ℕ → Frag K) (offs : ℕ → ℕ) (n : ℕ) (s : BwdState K) :
    (forRange n (fun b_tile_id s =>
        bwd_batch_body P T dout_inp a_inp kf (offs b_tile_id) s) s).dk_f_out = s.dk_f_out :=
  forRange_inv (fun s1 : BwdState K => s1.dk_f_out = s.dk_f_out) n _
    (fun _ _ s1 h => (bwd_batch_body_dk_f_out P T dout_inp a_inp kf _ s1).trans h) s rfl

/-- The `dk_f` store of a channel: `dk_f_out[base + j]` receives the sum over the batch
elements of the tile of their `dk_f` contributions at frequency index `j`. -/
theorem bwd_channel_body_dk_f (P : Params) (hv : P.Valid) (T : Tables K)
    (dout_inp a_inp k_f : ℕ → K) (bx bY ht : ℕ) (s : BwdState K) (j : ℕ) (hj : j < 4096) :
    (bwd_channel_body P T dout_inp a_inp k_f bx bY ht s).dk_f_out
        (bwd_dk_f_offset P.N P.H P.H_TILE_SIZE bx bY ht + j)
      = ∑ b ∈ Finset.range P.B_TILE_SIZE,
          flat 16 (dk_f_term T.toM P.N
            (fun i => dout_inp
              (bwd_input_offset P.H P.signal_size P.B_TILE_SIZE P.H_TILE_SIZE bx bY ht b + i))
            (fun i => a_inp
              (bwd_input_offset P.H P.signal_size P.B_TILE_SIZE P.H_TILE_SIZE bx bY ht b + i)))
            j := by
  have hc := striped_covers hv.threads_pos hv.items_mul (show j < 2 * 2048 from hj)
  have hnt := hv.threads_pos
  have hthr : j / 2 % P.num_threads < P.num_threads := Nat.mod_lt _ hnt
  have hslot : 2 * (j / 2 / P.num_threads) + j % 2 < P.items_per_thread_input := by
    have := hv.items_even
    omega
  simp only [bwd_channel_body, BlockStore_striped, Nat.add_sub_cancel_left]
  rw [if_pos ⟨by omega, hc⟩,
    bwd_batch_loop_temp P hv T dout_inp a_inp _ _ _ _ _ _ hthr hslot]
  simp only [if_pos hslot, zero_add]
  apply Finset.sum_congr rfl
  intro b _
  congr 1
  have e : (2 * (j / 2 / P.num_threads) + j % 2) / 2 = j / 2 / P.num_threads := by omega
  have e2 : (2 * (j / 2 / P.num_threads) + j % 2) % 2 = j % 2 := by omega
  rw [e, e2, striped_index]

theorem bwd_channel_body_dk_f_frame (P : Params) (hv : P.Valid) (T : Tables K)
    (dout_inp a_inp k_f : ℕ → K) (bx bY ht : ℕ) (s : BwdState K) (idx : ℕ)
    (h : ¬ (bwd_dk_f_offset P.N P.H P.H_TILE_SIZE bx bY ht ≤ idx ∧
      idx < bwd_dk_f_offset P.N P.H P.H_TILE_SIZE bx bY ht + 4096)) :
    (bwd_channel_body P T dout_inp a_inp k_f bx bY ht s).dk_f_out idx = s.dk_f_out idx := by
  simp only [bwd_channel_body, BlockStore_striped]
  rw [if_neg, bwd_batch_loop_dk_f_out]
  rintro ⟨h1, h2⟩
  rw [Nat.div_lt_iff_lt_mul hv.threads_pos, hv.items_mul] at h2
  omega

end bwd_body

/-! ## Backward kernel (16_32_32), stage by stage -/

theorem Params32.Valid.num_warps_eq32 {P : Params32} (hv : P.Valid) :
    P.num_warps = P.WARP_TILE_SIZE := by
  unfold Params32.num_warps WARP_SIZE
  rw [hv.hthreads]
  omega

theorem Params32.Valid.r_1_eq {P : Params32} (hv : P.Valid) : P.r_1 = 16 := by
  unfold Params32.r_1 WMMA_M
  rw [hv.hW1]

theorem Params32.Valid.r_2_eq {P : Params32} (hv : P.Valid) : P.r_2 = 32 := by
  unfold Params32.r_2 WMMA_M
  rw [hv.hW2]

theorem Params32.Valid.threads_pos32 {P : Params32} (hv : P.Valid) : 0 < P.num_threads := by
  rw [hv.hthreads]
  have := Nat.pos_of_dvd_of_pos hv.hwarp (by norm_num)
  omega

theorem Params32.Valid.items_mul32 {P : Params32} (hv : P.Valid) :
    P.items_per_thread_input / 2 * P.num_threads = 8192 := by
  unfold Params32.items_per_thread_input
  rw [hv.hthreads, hv.hN]
  rcases warp_tile_cases hv.hwarp with h | h | h | h | h <;> rw [h]

theorem Params32.Valid.items_even32 {P : Params32} (hv : P.Valid) :
    2 * (P.items_per_thread_input / 2) = P.items_per_thread_input := by
  unfold Params32.items_per_thread_input
  rw [hv.hthreads, hv.hN]
  rcases warp_tile_cases hv.hwarp with h | h | h | h | h <;> rw [h]

theorem flat_digits32 {K : Type} (v : ℕ → ℕ → ℕ → K) (n1 n2 n3 : ℕ) (h2 : n2 < 32)
    (h3 : n3 < 32) : flat 32 v (1024 * n1 + 32 * n2 + n3) = v n1 n2 n3 := by
  unfold flat
  have e1 : (1024 * n1 + 32 * n2 + n3) / (32 * 32) = n1 := by omega
  have e2 : (1024 * n1 + 32 * n2 + n3) / 32 % 32 = n2 := by omega
  have e3 : (1024 * n1 + 32 * n2 + n3) % 32 = n3 := by omega
  rw [e1, e2, e3]

theorem flat_index32 (j : ℕ) : 1024 * (j / (32 * 32)) + 32 * (j / 32 % 32) + j % 32 = j := by
  omega

section bwd32
variable {K : Type} [CommRing K] [StarRing K]

omit [StarRing K] in
theorem bwd32_stage1_tile (P : Params32) (hv : P.Valid) (T : Tables32 K)
    (dout_inp a_inp : ℕ → K) (off : ℕ) (s : BwdState K) (t i j : ℕ) (ht : t < 64)
    (hi : i < 16) (hj : j < 16) :
    (forEachWarp P.num_warps (64 / P.WARP_TILE_SIZE)
      (fun warp_id k_idx s => bwd32_outer_dft P T dout_inp a_inp off warp_id k_idx s) s).a
        (1024 * j + 16 * t + i)
      = ∑ x ∈ Finset.range 16, dout_inp (off + (1024 * x + 16 * t + i)) * T.b_16 (16 * x + j) ∧
    (forEachWarp P.num_warps (64 / P.WARP_TILE_SIZE)
      (fun warp_id k_idx s => bwd32_outer_dft P T dout_inp a_inp off warp_id k_idx s) s).a_2
        (1024 * j + 16 * t + i)
      = ∑ x ∈ Finset.range 16, a_inp (off + (1024 * x + 16 * t + i)) * T.b_16 (16 * x + j) := by
  obtain ⟨w, k, hw, hk, rfl⟩ := tile_exists64 hv.hwarp ht
  have key := forEachWarp_local
    (fun w k (s s1 : BwdState K) => ∀ i j, i < 16 → j < 16 →
      s.a (1024 * j + 16 * (k * P.WARP_TILE_SIZE + w) + i)
        = s1.a (1024 * j + 16 * (k * P.WARP_TILE_SIZE + w) + i) ∧
      s.a_2 (1024 * j + 16 * (k * P.WARP_TILE_SIZE + w) + i)
        = s1.a_2 (1024 * j + 16 * (k * P.WARP_TILE_SIZE + w) + i))
    (fun _ _ _ _ _ _ _ => ⟨rfl, rfl⟩)
    (fun _ _ _ _ h i j hi hj => ⟨(h i j hi hj).1.symm, (h i j hi hj).2.symm⟩)
    (fun _ _ _ _ _ h1 h2 i j hi hj =>
      ⟨(h1 i j hi hj).1.trans (h2 i j hi hj).1, (h1 i j hi hj).2.trans (h2 i j hi hj).2⟩)
    P.num_warps (64 / P.WARP_TILE_SIZE)
    (fun warp_id k_idx s => bwd32_outer_dft P T dout_inp a_inp off warp_id k_idx s)
    ?_ ?_ s w k (by rw [hv.num_warps_eq32]; exact hw) hk i j hi hj
  · rw [key.1, key.2]
    simp only [bwd32_outer_dft, complex_matmul_c2c, store_matrix_sync, hv.r_1_eq, sqrt_N_1]
    rw [if_pos (by omega), if_pos (by omega)]
    simp only [mma, load_matrix_sync, b_frag_dft_N_1, sqrt_N_1]
    have e1 : (1024 * j + 16 * (k * P.WARP_TILE_SIZE + w) + i
        - (k * P.WARP_TILE_SIZE * 16 + w * 16)) % 1024 = i := by omega
    have e2 : (1024 * j + 16 * (k * P.WARP_TILE_SIZE + w) + i
        - (k * P.WARP_TILE_SIZE * 16 + w * 16)) / 1024 = j := by omega
    rw [e1, e2]
    constructor
    · apply Finset.sum_congr rfl
      intro x _
      congr 2 <;> omega
    · apply Finset.sum_congr rfl
      intro x _
      congr 2 <;> omega
  · intro w k w1 k1 hw hk hw1 hk1 hne s i j hi hj
    rw [hv.num_warps_eq32] at hw hw1
    have h1 := tile_ne hw hw1 hne
    have h2 := tile_lt64 hv.hwarp hw hk
    have h3 := tile_lt64 hv.hwarp hw1 hk1
    simp only [bwd32_outer_dft, complex_matmul_c2c, store_matrix_sync, hv.r_1_eq, sqrt_N_1]
    rw [if_neg (by omega), if_neg (by omega)]
    exact ⟨rfl, rfl⟩
  · intro w k hw hk s s1 h i j hi hj
    simp only [bwd32_outer_dft, complex_matmul_c2c, store_matrix_sync, hv.r_1_eq, sqrt_N_1]
    rw [if_pos (by omega), if_pos (by omega), if_pos (by omega), if_pos (by omega)]
    exact ⟨rfl, rfl⟩

omit [StarRing K] in
/-- Stage 1 of the 16_32_32 backward kernel: the scratch planes `a` and `a_2` hold the outer
DFT of `dout` and of `x` at `input_offset`. -/
theorem bwd32_stage1 (P : Params32) (hv : P.Valid) (T : Tables32 K) (dout_inp a_inp : ℕ → K)
    (off : ℕ) (s : BwdState K) (f1 n2 n3 : ℕ) (h1 : f1 < 16) (h2 : n2 < 32) (h3 : n3 < 32) :
    (forEachWarp P.num_warps (64 / P.WARP_TILE_SIZE)
      (fun warp_id k_idx s => bwd32_outer_dft P T dout_inp a_inp off warp_id k_idx s) s).a
        (1024 * f1 + 32 * n2 + n3)
      = mfwd1 16 T.b_16 (digits 32 (fun i => dout_inp (off + i))) f1 n2 n3 ∧
    (forEachWarp P.num_warps (64 / P.WARP_TILE_SIZE)
      (fun warp_id k_idx s => bwd32_outer_dft P T dout_inp a_inp off warp_id k_idx s) s).a_2
        (1024 * f1 + 32 * n2 + n3)
      = mfwd1 16 T.b_16 (digits 32 (fun i => a_inp (off + i))) f1 n2 n3 := by
  have e : 1024 * f1 + 32 * n2 + n3
      = 1024 * f1 + 16 * ((32 * n2 + n3) / 16) + (32 * n2 + n3) % 16 := by omega
  have ht := bwd32_stage1_tile P hv T dout_inp a_inp off s ((32 * n2 + n3) / 16)
    ((32 * n2 + n3) % 16) f1 (by omega) (by omega) h1
  rw [e, ht.1, ht.2]
  simp only [mfwd1, digits]
  constructor
  · apply Finset.sum_congr rfl
    intro x _
    congr 2
    omega
  · apply Finset.sum_congr rfl
    intro x _
    congr 2
    omega

omit [StarRing K] in
theorem bwd32_stage1_rest (P : Params32) (T : Tables32 K) (dout_inp a_inp : ℕ → K) (off : ℕ)
    (s : BwdState K) :
    s.sameOut (forEachWarp P.num_warps (64 / P.WARP_TILE_SIZE)
      (fun warp_id k_idx s => bwd32_outer_dft P T dout_inp a_inp off warp_id k_idx s) s) :=
  forEachWarp_inv (fun s1 : BwdState K => s.sameOut s1) P.num_warps (64 / P.WARP_TILE_SIZE)
    (fun warp_id k_idx s => bwd32_outer_dft P T dout_inp a_inp off warp_id k_idx s)
    (fun _ _ _ _ _ h => h) s ⟨rfl, rfl, rfl, rfl⟩

/-- One iteration of the inner stage of the 16_32_32 backward kernel, on its own block: the
inverse path on `a`. -/
theorem bwd32_inner_apply_a (P : Params32) (hv : P.Valid) (T : Tables32 K) (a_k : ℕ → K)
    (w k : ℕ) (s : BwdState K) (n2 n3 : ℕ) (h2 : n2 < 32) (h3 : n3 < 32) :
    (bwd32_inner P T (k_frag32 P a_k) w k s).a
        (1024 * (k * P.WARP_TILE_SIZE + w) + 32 * n2 + n3)
      = minv2 32 T.b_32_ifft T.twiddle_factors_32_ifft (minv1 32 T.b_32_ifft
          (fun f1 f2 f3 => mfwd3 32 T.b_32 T.twiddle_factors_32_fft
            (mfwd2 32 T.b_32 T.twiddle_factors_N_fft (digits 32 s.a)) f1 f2 f3
              * digits 32 a_k f1 f2 f3)) (k * P.WARP_TILE_SIZE + w) n2 n3 := by
  have hB : k * P.WARP_TILE_SIZE * 32 * 32 + w * 32 * 32
      = 1024 * (k * P.WARP_TILE_SIZE + w) := by ring
  generalize k * P.WARP_TILE_SIZE + w = t at hB
  have hidx : 1024 * t + 32 * n2 + n3 = 1024 * t + n2 * 32 + n3 := by ring
  have e32 : ∀ x : ℕ, x * 32 = 32 * x := fun x => Nat.mul_comm x 32
  simp only [bwd32_inner, complex_matmul, complex_matmul_load_b, hv.r_2_eq, sqrt_N_2,
    if_true, if_false, Bool.false_eq_true, k_frag32, twiddle_1024_dft_frag, hB]
  rw [hidx, store_col_apply _ _ _ _ _ _ _ h3 h2 le_rfl]
  simp only [mma, frag_mul, minv2]
  apply Finset.sum_congr rfl
  intro f2 hf2
  have hf2 := Finset.mem_range.mp hf2
  simp only [load_matrix_sync]
  rw [store_col_apply _ _ _ _ _ _ _ hf2 h3 le_rfl]
  simp only [mma, frag_mul, minv1]
  congr 2
  · apply Finset.sum_congr rfl
    intro f3 hf3
    have hf3 := Finset.mem_range.mp hf3
    rw [store_row_apply _ _ _ _ _ _ _ hf2 hf3 le_rfl]
    simp only [mma, frag_mul, load_matrix_sync, mfwd3, mfwd2, digits, b_frag_idft_N_2,
      b_frag_dft_N_2, twiddle_32_dft_frag, a_frag_dft_N_2, sqrt_N_2]
    simp only [Nat.zero_add, e32, show (32 * 32 : ℕ) = 1024 from rfl]
  · simp only [twiddle_32_idft_frag, load_matrix_sync, sqrt_N_2, Nat.zero_add, e32]
  · simp only [b_frag_idft_N_2, load_matrix_sync, sqrt_N_2, Nat.zero_add, e32]

/-- One iteration of the inner stage of the 16_32_32 backward kernel, on its own block: the
`dk_f` contribution left in `a_2`. -/
theorem bwd32_inner_apply_a2 (P : Params32) (hv : P.Valid) (T : Tables32 K)
    (kf : ℕ → ℕ → Frag K) (w k : ℕ) (s : BwdState K) (f2 f3 : ℕ) (h2 : f2 < 32)
    (h3 : f3 < 32) :
    (bwd32_inner P T kf w k s).a_2 (1024 * (k * P.WARP_TILE_SIZE + w) + 32 * f2 + f3)
      = mfwd3 32 T.b_32 T.twiddle_factors_32_fft
            (mfwd2 32 T.b_32 T.twiddle_factors_N_fft (digits 32 s.a))
            (k * P.WARP_TILE_SIZE + w) f2 f3
          * star (mfwd3 32 T.b_32 T.twiddle_factors_32_fft
            (mfwd2 32 T.b_32 T.twiddle_factors_N_fft (digits 32 s.a_2))
            (k * P.WARP_TILE_SIZE + w) f2 f3 * (P.N : K)) := by
  have hB : k * P.WARP_TILE_SIZE * 32 * 32 + w * 32 * 32
      = 1024 * (k * P.WARP_TILE_SIZE + w) := by ring
  generalize k * P.WARP_TILE_SIZE + w = t at hB
  have hidx : 1024 * t + 32 * f2 + f3 = 1024 * t + f2 * 32 + f3 := by ring
  have e32 : ∀ x : ℕ, x * 32 = 32 * x := fun x => Nat.mul_comm x 32
  simp only [bwd32_inner, complex_matmul, complex_matmul_load_b, hv.r_2_eq, sqrt_N_2,
    if_true, twiddle_1024_dft_frag, hB, mul_conj_block, scale_block, complex_mul_conj_half2]
  rw [if_pos (by omega), if_pos (by omega), hidx,
    store_row_apply _ _ _ _ _ _ _ h2 h3 le_rfl, store_row_apply _ _ _ _ _ _ _ h2 h3 le_rfl]
  simp only [mma, frag_mul, load_matrix_sync, mfwd3, mfwd2, digits,
    b_frag_dft_N_2, twiddle_32_dft_frag, a_frag_dft_N_2, sqrt_N_2]
  simp only [Nat.zero_add, e32, show (32 * 32 : ℕ) = 1024 from rfl]

theorem bwd32_inner_frame (P : Params32) (hv : P.Valid) (T : Tables32 K)
    (kf : ℕ → ℕ → Frag K) (w k : ℕ) (s : BwdState K) (idx : ℕ)
    (h : ¬ (1024 * (k * P.WARP_TILE_SIZE + w) ≤ idx ∧
      idx < 1024 * (k * P.WARP_TILE_SIZE + w) + 1024)) :
    (bwd32_inner P T kf w k s).a idx = s.a idx ∧
      (bwd32_inner P T kf w k s).a_2 idx = s.a_2 idx := by
  have hB : k * P.WARP_TILE_SIZE * 32 * 32 + w * 32 * 32
      = 1024 * (k * P.WARP_TILE_SIZE + w) := by ring
  generalize k * P.WARP_TILE_SIZE + w = t at hB h
  simp only [bwd32_inner, complex_matmul, hv.r_2_eq, sqrt_N_2,
    if_true, if_false, Bool.false_eq_true, hB, mul_conj_block, scale_block]
  simp only [store_matrix_sync]
  rw [if_neg (by omega), if_neg (by omega), if_neg (by omega), if_neg (by omega),
    if_neg (by omega), if_neg (by omega)]
  exact ⟨rfl, rfl⟩

/-- Stage 2 of the 16_32_32 backward kernel, block by block. -/
theorem bwd32_stage2 (P : Params32) (hv : P.Valid) (T : Tables32 K) (a_k : ℕ → K)
    (s : BwdState K) (f1 n2 n3 : ℕ) (h1 : f1 < 16) (h2 : n2 < 32) (h3 : n3 < 32) :
    (forEachWarp P.num_warps (16 / P.WARP_TILE_SIZE)
      (fun warp_id k_idx s => bwd32_inner P T (k_frag32 P a_k) warp_id k_idx s) s).a
        (1024 * f1 + 32 * n2 + n3)
      = minv2 32 T.b_32_ifft T.twiddle_factors_32_ifft (minv1 32 T.b_32_ifft
          (fun f1 f2 f3 => mfwd3 32 T.b_32 T.twiddle_factors_32_fft
            (mfwd2 32 T.b_32 T.twiddle_factors_N_fft (digits 32 s.a)) f1 f2 f3
              * digits 32 a_k f1 f2 f3)) f1 n2 n3 ∧
    (forEachWarp P.num_warps (16 / P.WARP_TILE_SIZE)
      (fun warp_id k_idx s => bwd32_inner P T (k_frag32 P a_k) warp_id k_idx s) s).a_2
        (1024 * f1 + 32 * n2 + n3)
      = mfwd3 32 T.b_32 T.twiddle_factors_32_fft
            (mfwd2 32 T.b_32 T.twiddle_factors_N_fft (digits 32 s.a)) f1 n2 n3
          * star (mfwd3 32 T.b_32 T.twiddle_factors_32_fft
            (mfwd2 32 T.b_32 T.twiddle_factors_N_fft (digits 32 s.a_2)) f1 n2 n3
              * (P.N : K)) := by
  obtain ⟨w, k, hw, hk, rfl⟩ := tile_exists hv.hwarp h1
  have key := forEachWarp_local
    (fun w k (s s1 : BwdState K) => ∀ i j, i < 32 → j < 32 →
      s.a (1024 * (k * P.WARP_TILE_SIZE + w) + 32 * i + j)
        = s1.a (1024 * (k * P.WARP_TILE_SIZE + w) + 32 * i + j) ∧
      s.a_2 (1024 * (k * P.WARP_TILE_SIZE + w) + 32 * i + j)
        = s1.a_2 (1024 * (k * P.WARP_TILE_SIZE + w) + 32 * i + j))
    (fun _ _ _ _ _ _ _ => ⟨rfl, rfl⟩)
    (fun _ _ _ _ h i j hi hj => ⟨(h i j hi hj).1.symm, (h i j hi hj).2.symm⟩)
    (fun _ _ _ _ _ h1 h2 i j hi hj =>
      ⟨(h1 i j hi hj).1.trans (h2 i j hi hj).1, (h1 i j hi hj).2.trans (h2 i j hi hj).2⟩)
    P.num_warps (16 / P.WARP_TILE_SIZE)
    (fun warp_id k_idx s => bwd32_inner P T (k_frag32 P a_k) warp_id k_idx s)
    ?_ ?_ s w k (by rw [hv.num_warps_eq32]; exact hw) hk n2 n3 h2 h3
  · rw [key.1, key.2]
    exact ⟨bwd32_inner_apply_a P hv T a_k w k s n2 n3 h2 h3,
      bwd32_inner_apply_a2 P hv T _ w k s n2 n3 h2 h3⟩
  · intro w k w1 k1 hw hk hw1 hk1 hne s i j hi hj
    rw [hv.num_warps_eq32] at hw hw1
    have h1 := tile_ne hw hw1 hne
    exact bwd32_inner_frame P hv T _ w k s _ (by omega)
  · intro w k hw hk s s1 h i j hi hj
    have hd : ∀ m2 m3, m2 < 32 → m3 < 32 →
        digits 32 s.a (k * P.WARP_TILE_SIZE + w) m2 m3
          = digits 32 s1.a (k * P.WARP_TILE_SIZE + w) m2 m3 := by
      intro m2 m3 hm2 hm3
      simp only [digits, show (32 * 32 : ℕ) = 1024 from rfl]
      exact (h m2 m3 hm2 hm3).1
    have hd2 : ∀ m2 m3, m2 < 32 → m3 < 32 →
        digits 32 s.a_2 (k * P.WARP_TILE_SIZE + w) m2 m3
          = digits 32 s1.a_2 (k * P.WARP_TILE_SIZE + w) m2 m3 := by
      intro m2 m3 hm2 hm3
      simp only [digits, show (32 * 32 : ℕ) = 1024 from rfl]
      exact (h m2 m3 hm2 hm3).2
    have hF : ∀ g2 g3, mfwd3 32 T.b_32 T.twiddle_factors_32_fft
          (mfwd2 32 T.b_32 T.twiddle_factors_N_fft (digits 32 s.a))
          (k * P.WARP_TILE_SIZE + w) g2 g3
        = mfwd3 32 T.b_32 T.twiddle_factors_32_fft
          (mfwd2 32 T.b_32 T.twiddle_factors_N_fft (digits 32 s1.a))
          (k * P.WARP_TILE_SIZE + w) g2 g3 := by
      intro g2 g3
      apply mfwd3_congr
      intro m3 hm3
      apply mfwd2_congr
      intro m2 hm2
      exact hd m2 m3 hm2 hm3
    have hF2 : ∀ g2 g3, mfwd3 32 T.b_32 T.twiddle_factors_32_fft
          (mfwd2 32 T.b_32 T.twiddle_factors_N_fft (digits 32 s.a_2))
          (k * P.WARP_TILE_SIZE + w) g2 g3
        = mfwd3 32 T.b_32 T.twiddle_factors_32_fft
          (mfwd2 32 T.b_32 T.twiddle_factors_N_fft (digits 32 s1.a_2))
          (k * P.WARP_TILE_SIZE + w) g2 g3 := by
      intro g2 g3
      apply mfwd3_congr
      intro m3 hm3
      apply mfwd2_congr
      intro m2 hm2
      exact hd2 m2 m3 hm2 hm3
    rw [bwd32_inner_apply_a P hv T a_k w k s i j hi hj,
      bwd32_inner_apply_a P hv T a_k w k s1 i j hi hj,
      bwd32_inner_apply_a2 P hv T _ w k s i j hi hj,
      bwd32_inner_apply_a2 P hv T _ w k s1 i j hi hj, hF, hF2]
    refine ⟨?_, rfl⟩
    apply minv2_congr
    intro g2 _
    apply minv1_congr
    intro g3 _
    rw [hF]

theorem bwd32_stage2_rest (P : Params32) (T : Tables32 K) (kf : ℕ → ℕ → Frag K)
    (s : BwdState K) :
    s.sameOut (forEachWarp P.num_warps (16 / P.WARP_TILE_SIZE)
      (fun warp_id k_idx s => bwd32_inner P T kf warp_id k_idx s) s) :=
  forEachWarp_inv (fun s1 : BwdState K => s.sameOut s1) P.num_warps (16 / P.WARP_TILE_SIZE)
    (fun warp_id k_idx s => bwd32_inner P T kf warp_id k_idx s)
    (fun _ _ _ _ _ h => h) s ⟨rfl, rfl, rfl, rfl⟩

omit [StarRing K] in
theorem bwd32_stage3_rest (P : Params32) (T : Tables32 K) (s : BwdState K) :
    s.sameOut (forEachWarp P.num_warps (64 / P.WARP_TILE_SIZE)
      (fun warp_id k_idx s => bwd32_outer_idft P T warp_id k_idx s) s) ∧
    (forEachWarp P.num_warps (64 / P.WARP_TILE_SIZE)
      (fun warp_id k_idx s => bwd32_outer_idft P T warp_id k_idx s) s).a_2 = s.a_2 :=
  forEachWarp_inv (fun s1 : BwdState K => s.sameOut s1 ∧ s1.a_2 = s.a_2) P.num_warps
    (64 / P.WARP_TILE_SIZE)
    (fun warp_id k_idx s => bwd32_outer_idft P T warp_id k_idx s)
    (fun _ _ _ _ _ h => h) s ⟨⟨rfl, rfl, rfl, rfl⟩, rfl⟩

omit [StarRing K] in
theorem bwd32_stage3_tile (P : Params32) (hv : P.Valid) (T : Tables32 K)
    (s : BwdState K) (t i j : ℕ) (ht : t < 64) (hi : i < 16) (hj : j < 16) :
    (forEachWarp P.num_warps (64 / P.WARP_TILE_SIZE)
      (fun warp_id k_idx s => bwd32_outer_idft P T warp_id k_idx s) s).a
        (1024 * j + 16 * t + i)
      = ∑ x ∈ Finset.range 16, (s.a (1024 * x + 16 * t + i)
          * T.twiddle_factors_N_ifft (1024 * x + 16 * t + i)) * T.b_16_ifft (16 * x + j) := by
  obtain ⟨w, k, hw, hk, rfl⟩ := tile_exists64 hv.hwarp ht
  have hbody : ∀ (w k : ℕ) (s : BwdState K) (i j : ℕ), i < 16 → j < 16 →
      k * P.WARP_TILE_SIZE + w < 64 →
      (bwd32_outer_idft P T w k s).a (1024 * j + 16 * (k * P.WARP_TILE_SIZE + w) + i)
        = ∑ x ∈ Finset.range 16, (s.a (1024 * x + 16 * (k * P.WARP_TILE_SIZE + w) + i)
          * T.twiddle_factors_N_ifft (1024 * x + 16 * (k * P.WARP_TILE_SIZE + w) + i))
            * T.b_16_ifft (16 * x + j) := by
    intro w k s i j hi hj ht
    have hB : k * P.WARP_TILE_SIZE * 16 + w * 16 = 16 * (k * P.WARP_TILE_SIZE + w) := by ring
    generalize k * P.WARP_TILE_SIZE + w = t at hB ht
    have hidx : 1024 * j + 16 * t + i = 16 * t + j * 1024 + i := by ring
    simp only [bwd32_outer_idft, complex_matmul_c2c_twiddle, hv.r_1_eq, sqrt_N_1, hB,
      twiddle_1024_idft_frag]
    rw [hidx, store_col_apply _ _ _ _ _ _ _ hi hj (by norm_num)]
    simp only [mma, frag_mul, load_matrix_sync, b_frag_idft_N_1, sqrt_N_1]
    have e : ∀ x : ℕ, 16 * t + x * 1024 + i = 1024 * x + 16 * t + i := fun x => by ring
    simp only [e, Nat.zero_add, fun x : ℕ => Nat.mul_comm x 16]
  have key := forEachWarp_local
    (fun w k (s s1 : BwdState K) => ∀ i j, i < 16 → j < 16 →
      s.a (1024 * j + 16 * (k * P.WARP_TILE_SIZE + w) + i)
        = s1.a (1024 * j + 16 * (k * P.WARP_TILE_SIZE + w) + i))
    (fun _ _ _ _ _ _ _ => rfl)
    (fun _ _ _ _ h i j hi hj => (h i j hi hj).symm)
    (fun _ _ _ _ _ h1 h2 i j hi hj => (h1 i j hi hj).trans (h2 i j hi hj))
    P.num_warps (64 / P.WARP_TILE_SIZE)
    (fun warp_id k_idx s => bwd32_outer_idft P T warp_id k_idx s)
    ?_ ?_ s w k (by rw [hv.num_warps_eq32]; exact hw) hk i j hi hj
  · rw [key]
    exact hbody w k s i j hi hj ht
  · intro w k w1 k1 hw hk hw1 hk1 hne s i j hi hj
    rw [hv.num_warps_eq32] at hw hw1
    have h1 := tile_ne hw hw1 hne
    have h2 := tile_lt64 hv.hwarp hw hk
    have h3 := tile_lt64 hv.hwarp hw1 hk1
    simp only [bwd32_outer_idft, complex_matmul_c2c_twiddle, store_matrix_sync, hv.r_1_eq,
      sqrt_N_1]
    rw [if_neg (by omega)]
  · intro w k hw hk s s1 h i j hi hj
    rw [hv.num_warps_eq32] at hw
    have ht := tile_lt64 hv.hwarp hw hk
    rw [hbody w k s i j hi hj ht, hbody w k s1 i j hi hj ht]
    apply Finset.sum_congr rfl
    intro x hx
    rw [h i x hi (Finset.mem_range.mp hx)]

omit [StarRing K] in
/-- Stage 3 of the 16_32_32 backward kernel (outer inverse DFT, in place on `a`). -/
theorem bwd32_stage3_a (P : Params32) (hv : P.Valid) (T : Tables32 K)
    (s : BwdState K) (n1 n2 n3 : ℕ) (h1 : n1 < 16) (h2 : n2 < 32) (h3 : n3 < 32) :
    (forEachWarp P.num_warps (64 / P.WARP_TILE_SIZE)
      (fun warp_id k_idx s => bwd32_outer_idft P T warp_id k_idx s) s).a
        (1024 * n1 + 32 * n2 + n3)
      = minv3 16 32 T.b_16_ifft T.twiddle_factors_N_ifft (digits 32 s.a) n1 n2 n3 := by
  have e : 1024 * n1 + 32 * n2 + n3
      = 1024 * n1 + 16 * ((32 * n2 + n3) / 16) + (32 * n2 + n3) % 16 := by omega
  rw [e, bwd32_stage3_tile P hv T s ((32 * n2 + n3) / 16) ((32 * n2 + n3) % 16) n1
    (by omega) (by omega) h1]
  simp only [minv3, digits]
  apply Finset.sum_congr rfl
  intro x _
  have e2 : 1024 * x + 16 * ((32 * n2 + n3) / 16) + (32 * n2 + n3) % 16
      = 32 * 32 * x + 32 * n2 + n3 := by omega
  rw [e2]

end bwd32

section bwd32_body
variable {K : Type} [CommRing K] [StarRing K]

/-- The scratch planes `a` after the three transform stages of the backward batch body. -/
theorem bwd32_stages_a (P : Params32) (hv : P.Valid) (T : Tables32 K) (dout_inp a_inp a_k : ℕ → K)
    (off : ℕ) (s : BwdState K) (n1 n2 n3 : ℕ) (h1 : n1 < 16) (h2 : n2 < 32) (h3 : n3 < 32) :
    (forEachWarp P.num_warps (64 / P.WARP_TILE_SIZE)
      (fun warp_id k_idx s => bwd32_outer_idft P T warp_id k_idx s)
      (forEachWarp P.num_warps (16 / P.WARP_TILE_SIZE)
        (fun warp_id k_idx s => bwd32_inner P T (k_frag32 P a_k) warp_id k_idx s)
        (forEachWarp P.num_warps (64 / P.WARP_TILE_SIZE)
          (fun warp_id k_idx s => bwd32_outer_dft P T dout_inp a_inp off warp_id k_idx s) s))).a
        (1024 * n1 + 32 * n2 + n3)
      = T.toM.inv (fun f1 f2 f3 =>
          T.toM.fwd (fun i => dout_inp (off + i)) f1 f2 f3 * digits 32 a_k f1 f2 f3)
          n1 n2 n3 := by
  rw [bwd32_stage3_a P hv T _ n1 n2 n3 h1 h2 h3]
  simp only [MTables.inv, MTables.fwd, Tables32.toM]
  apply minv3_congr
  intro f1 hf1
  simp only [digits, show (32 * 32 : ℕ) = 1024 from rfl]
  rw [(bwd32_stage2 P hv T a_k _ f1 n2 n3 hf1 h2 h3).1]
  apply minv2_congr
  intro f2 hf2
  apply minv1_congr
  intro f3 hf3
  congr 1
  apply mfwd3_congr
  intro m3 hm3
  apply mfwd2_congr
  intro m2 hm2
  simp only [digits, show (32 * 32 : ℕ) = 1024 from rfl]
  rw [(bwd32_stage1 P hv T dout_inp a_inp off _ f1 m2 m3 hf1 hm2 hm3).1]

/-- The scratch planes `a_2` after the three transform stages of the backward batch body. -/
theorem bwd32_stages_a2 (P : Params32) (hv : P.Valid) (T : Tables32 K) (dout_inp a_inp : ℕ → K)
    (kf : ℕ → K) (off : ℕ) (s : BwdState K) (f1 f2 f3 : ℕ) (h1 : f1 < 16) (h2 : f2 < 32)
    (h3 : f3 < 32) :
    (forEachWarp P.num_warps (64 / P.WARP_TILE_SIZE)
      (fun warp_id k_idx s => bwd32_outer_idft P T warp_id k_idx s)
      (forEachWarp P.num_warps (16 / P.WARP_TILE_SIZE)
        (fun warp_id k_idx s => bwd32_inner P T (k_frag32 P kf) warp_id k_idx s)
        (forEachWarp P.num_warps (64 / P.WARP_TILE_SIZE)
          (fun warp_id k_idx s => bwd32_outer_dft P T dout_inp a_inp off warp_id k_idx s) s))).a_2
        (1024 * f1 + 32 * f2 + f3)
      = dk_f_term T.toM P.N (fun i => dout_inp (off + i)) (fun i => a_inp (off + i))
          f1 f2 f3 := by
  rw [(bwd32_stage3_rest P T _).2, (bwd32_stage2 P hv T kf _ f1 f2 f3 h1 h2 h3).2]
  simp only [dk_f_term, MTables.fwd, Tables32.toM]
  have hA : ∀ (u : ℕ → K) (v : ℕ → ℕ → ℕ → K),
      (∀ m2 m3, m2 < 32 → m3 < 32 → u (1024 * f1 + 32 * m2 + m3) = v f1 m2 m3) →
      mfwd3 32 T.b_32 T.twiddle_factors_32_fft
          (mfwd2 32 T.b_32 T.twiddle_factors_N_fft (digits 32 u)) f1 f2 f3
        = mfwd3 32 T.b_32 T.twiddle_factors_32_fft
          (mfwd2 32 T.b_32 T.twiddle_factors_N_fft v) f1 f2 f3 := by
    intro u v huv
    apply mfwd3_congr
    intro m3 hm3
    apply mfwd2_congr
    intro m2 hm2
    simp only [digits, show (32 * 32 : ℕ) = 1024 from rfl]
    exact huv m2 m3 hm2 hm3
  rw [hA _ _ (fun m2 m3 hm2 hm3 =>
      (bwd32_stage1 P hv T dout_inp a_inp off s f1 m2 m3 h1 hm2 hm3).1),
    hA _ _ (fun m2 m3 hm2 hm3 =>
      (bwd32_stage1 P hv T dout_inp a_inp off s f1 m2 m3 h1 hm2 hm3).2)]

/-- The batch body of the backward kernel writes `dx`: at `input_offset + j`, element `j` of
the inverse stage sequence of the product of the forward stage sequence of `dout` with the
staged (conjugated) filter. -/
theorem bwd32_batch_body_dx (P : Params32) (hv : P.Valid) (T : Tables32 K) (dout_inp a_inp a_k : ℕ → K)
    (off : ℕ) (s : BwdState K) (j : ℕ) (hj : j < 16384) :
    (bwd32_batch_body P T dout_inp a_inp (k_frag32 P a_k) off s).dx_out (off + j)
      = flat 32 (T.toM.inv (fun f1 f2 f3 =>
          T.toM.fwd (fun i => dout_inp (off + i)) f1 f2 f3 * digits 32 a_k f1 f2 f3)) j := by
  unfold bwd32_batch_body
  rw [bwd_write_back_dx hv.threads_pos32 hv.items_mul32 off _ j (show j < 2 * 8192 from hj)]
  conv_lhs => rw [← flat_index32 j]
  rw [bwd32_stages_a P hv T dout_inp a_inp a_k off s _ _ _ (by omega) (by omega) (by omega)]
  rfl

theorem bwd32_batch_body_dx_frame (P : Params32) (hv : P.Valid) (T : Tables32 K)
    (dout_inp a_inp : ℕ → K) (kf : ℕ → ℕ → Frag K) (off : ℕ) (s : BwdState K) (idx : ℕ)
    (h : ¬ (off ≤ idx ∧ idx < off + 16384)) :
    (bwd32_batch_body P T dout_inp a_inp kf off s).dx_out idx = s.dx_out idx := by
  unfold bwd32_batch_body
  rw [bwd_write_back_dx_frame hv.threads_pos32 hv.items_mul32 off _ idx h,
    (bwd32_stage3_rest P T _).1.2.2.1, (bwd32_stage2_rest P T kf _).2.2.1,
    (bwd32_stage1_rest P T dout_inp a_inp off s).2.2.1]

theorem bwd32_batch_body_dk_f_out (P : Params32) (T : Tables32 K)
    (dout_inp a_inp : ℕ → K) (kf : ℕ → ℕ → Frag K) (off : ℕ) (s : BwdState K) :
    (bwd32_batch_body P T dout_inp a_inp kf off s).dk_f_out = s.dk_f_out := by
  unfold bwd32_batch_body
  rw [(bwd_write_back_rest _ _ off _).1,
    (bwd32_stage3_rest P T _).1.2.2.2, (bwd32_stage2_rest P T kf _).2.2.2,
    (bwd32_stage1_rest P T dout_inp a_inp off s).2.2.2]

/-- The batch body of the backward kernel adds to `temp` the `dk_f` contribution of its batch
element, at the element the register slot stands for. -/
theorem bwd32_batch_body_temp (P : Params32) (hv : P.Valid) (T : Tables32 K)
    (dout_inp a_inp a_k : ℕ → K) (off : ℕ) (s : BwdState K) (t m : ℕ)
    (ht : t < P.num_threads) (hm : m < P.items_per_thread_input) :
    (bwd32_batch_body P T dout_inp a_inp (k_frag32 P a_k) off s).temp t m
      = s.temp t m + flat 32 (dk_f_term T.toM P.N (fun i => dout_inp (off + i))
          (fun i => a_inp (off + i))) (2 * (m / 2 * P.num_threads + t) + m % 2) := by
  unfold bwd32_batch_body
  rw [bwd_write_back_temp hv.items_even32 off _ t m hm, (bwd32_stage3_rest P T _).1.2.1,
    (bwd32_stage2_rest P T _ _).2.1, (bwd32_stage1_rest P T dout_inp a_inp off s).2.1]
  congr 1
  have hlt : 2 * (m / 2 * P.num_threads + t) + m % 2 < 2 * 8192 :=
    striped_elem_lt hv.items_mul32 ht (by have := hv.items_even32; omega)
  generalize 2 * (m / 2 * P.num_threads + t) + m % 2 = e at hlt
  conv_lhs => rw [← flat_index32 e]
  rw [bwd32_stages_a2 P hv T dout_inp a_inp a_k off s _ _ _ (by omega) (by omega) (by omega)]
  rfl

/-- The batch loop of a channel: `temp` accumulates the `dk_f` contributions of the batch
elements of the tile. -/
theorem bwd32_batch_loop_temp (P : Params32) (hv : P.Valid) (T : Tables32 K)
    (dout_inp a_inp a_k : ℕ → K) (offs : ℕ → ℕ) (n : ℕ) (s : BwdState K) (t m : ℕ)
    (ht : t < P.num_threads) (hm : m < P.items_per_thread_input) :
    (forRange n (fun b_tile_id s =>
        bwd32_batch_body P T dout_inp a_inp (k_frag32 P a_k) (offs b_tile_id) s) s).temp t m
      = s.temp t m + ∑ b ∈ Finset.range n,
          flat 32 (dk_f_term T.toM P.N (fun i => dout_inp (offs b + i))
            (fun i => a_inp (offs b + i))) (2 * (m / 2 * P.num_threads + t) + m % 2) := by
  induction n with
  | zero => simp [forRange_zero]
  | succ n ih =>
    rw [forRange_succ, bwd32_batch_body_temp P hv T dout_inp a_inp a_k _ _ t m ht hm, ih,
      Finset.sum_range_succ, add_assoc]

theorem bwd32_batch_loop_dk_f_out (P : Params32) (T : Tables32 K)
    (dout_inp a_inp : ℕ → K) (kf : ℕ → ℕ → Frag K) (offs : ℕ → ℕ) (n : ℕ) (s : BwdState K) :
    (forRange n (fun b_tile_id s =>
        bwd32_batch_body P T dout_inp a_inp kf (offs b_tile_id) s) s).dk_f_out = s.dk_f_out :=
  forRange_inv (fun s1 : BwdState K => s1.dk_f_out = s.dk_f_out) n _
    (fun _ _ s1 h => (bwd32_batch_body_dk_f_out P T dout_inp a_inp kf _ s1).trans h) s rfl

/-- The `dk_f` store of a channel: `dk_f_out[base + j]` receives the sum over the batch
elements of the tile of their `dk_f` contributions at frequency index `j`. -/
theorem bwd32_channel_body_dk_f (P : Params32) (hv : P.Valid) (T : Tables32 K)
    (dout_inp a_inp k_f : ℕ → K) (bx bY ht : ℕ) (s : BwdState K) (j : ℕ) (hj : j < 16384) :
    (bwd32_channel_body P T dout_inp a_inp k_f bx bY ht s).dk_f_out
        (bwd_dk_f_offset P.N P.H P.H_TILE_SIZE bx bY ht + j)
      = ∑ b ∈ Finset.range P.B_TILE_SIZE,
          flat 32 (dk_f_term T.toM P.N
            (fun i => dout_inp
              (bwd_input_offset P.H P.signal_size P.B_TILE_SIZE P.H_TILE_SIZE bx bY ht b + i))
            (fun i => a_inp
              (bwd_input_offset P.H P.signal_size P.B_TILE_SIZE P.H_TILE_SIZE bx bY ht b + i)))
            j := by
  have hc := striped_covers hv.threads_pos32 hv.items_mul32 (show j < 2 * 8192 from hj)
  have hnt := hv.threads_pos32
  have hthr : j / 2 % P.num_threads < P.num_threads := Nat.mod_lt _ hnt
  have hslot : 2 * (j / 2 / P.num_threads) + j % 2 < P.items_per_thread_input := by
    have := hv.items_even32
    omega
  simp only [bwd32_channel_body, BlockStore_striped, Nat.add_sub_cancel_left]
  rw [if_pos ⟨by omega, hc⟩,
    bwd32_batch_loop_temp P hv T dout_inp a_inp _ _ _ _ _ _ hthr hslot]
  simp only [if_pos hslot, zero_add]
  apply Finset.sum_congr rfl
  intro b _
  congr 1
  have e : (2 * (j / 2 / P.num_threads) + j % 2) / 2 = j / 2 / P.num_threads := by omega
  have e2 : (2 * (j / 2 / P.num_threads) + j % 2) % 2 = j % 2 := by omega
  rw [e, e2, striped_index]

theorem bwd32_channel_body_dk_f_frame (P : Params32) (hv : P.Valid) (T : Tables32 K)
    (dout_inp a_inp k_f : ℕ → K) (bx bY ht : ℕ) (s : BwdState K) (idx : ℕ)
    (h : ¬ (bwd_dk_f_offset P.N P.H P.H_TILE_SIZE bx bY ht ≤ idx ∧
      idx < bwd_dk_f_offset P.N P.H P.H_TILE_SIZE bx bY ht + 16384)) :
    (bwd32_channel_body P T dout_inp a_inp k_f bx bY ht s).dk_f_out idx = s.dk_f_out idx := by
  simp only [bwd32_channel_body, BlockStore_striped]
  rw [if_neg, bwd32_batch_loop_dk_f_out]
  rintro ⟨h1, h2⟩
  rw [Nat.div_lt_iff_lt_mul hv.threads_pos32, hv.items_mul32] at h2
  omega

end bwd32_body

/-! ## DFT tables and launch configurations -/

section tables
variable {K : Type} [Field K]

theorem dft_tables_isDFT {ω : K} (hω : IsPrimitiveRoot ω 4096) (c_fwd c_inv : K) :
    (dft_tables ω c_fwd c_inv).toM.IsDFT ω c_fwd c_inv where
  hp := by simp [Tables.toM]
  hq := by simp [Tables.toM]
  root := by simpa [Tables.toM] using hω
  b_p := by
    intro n f hn hf
    simp only [Tables.toM] at hn hf ⊢
    simp only [dft_tables]
    have e1 : (16 * n + f) / 16 = n := by omega
    have e2 : (16 * n + f) % 16 = f := by omega
    rw [e1, e2]
  b_q := by
    intro n f hn hf
    simp only [Tables.toM] at hn hf ⊢
    simp only [dft_tables]
    have e1 : (16 * n + f) / 16 = n := by omega
    have e2 : (16 * n + f) % 16 = f := by omega
    rw [e1, e2]
  tw_N := by
    intro f m hf hm
    simp only [Tables.toM] at hf hm ⊢
    simp only [dft_tables]
    have e1 : (16 * 16 * f + m) / 256 = f := by omega
    have e2 : (16 * 16 * f + m) % 256 = m := by omega
    rw [e1, e2]
  tw_q := by
    intro f n hf hn
    simp only [Tables.toM] at hn hf ⊢
    simp only [dft_tables]
    have e1 : (16 * f + n) / 16 = f := by omega
    have e2 : (16 * f + n) % 16 = n := by omega
    rw [e1, e2]
  b_p_ifft := by
    intro n f hn hf
    simp only [Tables.toM] at hn hf ⊢
    simp only [dft_tables]
    have e1 : (16 * n + f) / 16 = n := by omega
    have e2 : (16 * n + f) % 16 = f := by omega
    rw [e1, e2]
  b_q_ifft := by
    intro n f hn hf
    simp only [Tables.toM] at hn hf ⊢
    simp only [dft_tables]
    have e1 : (16 * n + f) / 16 = n := by omega
    have e2 : (16 * n + f) % 16 = f := by omega
    rw [e1, e2]
  tw_N_ifft := by
    intro f m hf hm
    simp only [Tables.toM] at hf hm ⊢
    simp only [dft_tables]
    have e1 : (16 * 16 * f + m) / 256 = f := by omega
    have e2 : (16 * 16 * f + m) % 256 = m := by omega
    rw [e1, e2]
  tw_q_ifft := by
    intro f n hf hn
    simp only [Tables.toM] at hn hf ⊢
    simp only [dft_tables]
    have e1 : (16 * f + n) / 16 = f := by omega
    have e2 : (16 * f + n) % 16 = n := by omega
    rw [e1, e2]

theorem dft_tables32_isDFT {ω : K} (hω : IsPrimitiveRoot ω 16384) (c_fwd c_inv : K) :
    (dft_tables32 ω c_fwd c_inv).toM.IsDFT ω c_fwd c_inv where
  hp := by simp [Tables32.toM]
  hq := by simp [Tables32.toM]
  root := by simpa [Tables32.toM] using hω
  b_p := by
    intro n f hn hf
    simp only [Tables32.toM] at hn hf ⊢
    simp only [dft_tables32]
    have e1 : (16 * n + f) / 16 = n := by omega
    have e2 : (16 * n + f) % 16 = f := by omega
    rw [e1, e2]
  b_q := by
    intro n f hn hf
    simp only [Tables32.toM] at hn hf ⊢
    simp only [dft_tables32]
    have e1 : (32 * n + f) / 32 = n := by omega
    have e2 : (32 * n + f) % 32 = f := by omega
    rw [e1, e2]
  tw_N := by
    intro f m hf hm
    simp only [Tables32.toM] at hf hm ⊢
    simp only [dft_tables32]
    have e1 : (32 * 32 * f + m) / 1024 = f := by omega
    have e2 : (32 * 32 * f + m) % 1024 = m := by omega
    rw [e1, e2]
  tw_q := by
    intro f n hf hn
    simp only [Tables32.toM] at hn hf ⊢
    simp only [dft_tables32]
    have e1 : (32 * f + n) / 32 = f := by omega
    have e2 : (32 * f + n) % 32 = n := by omega
    rw [e1, e2]
  b_p_ifft := by
    intro n f hn hf
    simp only [Tables32.toM] at hn hf ⊢
    simp only [dft_tables32]
    have e1 : (16 * n + f) / 16 = n := by omega
    have e2 : (16 * n + f) % 16 = f := by omega
    rw [e1, e2]
  b_q_ifft := by
    intro n f hn hf
    simp only [Tables32.toM] at hn hf ⊢
    simp only [dft_tables32]
    have e1 : (32 * n + f) / 32 = n := by omega
    have e2 : (32 * n + f) % 32 = f := by omega
    rw [e1, e2]
  tw_N_ifft := by
    intro f m hf hm
    simp only [Tables32.toM] at hf hm ⊢
    simp only [dft_tables32]
    have e1 : (32 * 32 * f + m) / 1024 = f := by omega
    have e2 : (32 * 32 * f + m) % 1024 = m := by omega
    rw [e1, e2]
  tw_q_ifft := by
    intro f n hf hn
    simp only [Tables32.toM] at hn hf ⊢
    simp only [dft_tables32]
    have e1 : (32 * f + n) / 32 = f := by omega
    have e2 : (32 * f + n) % 32 = n := by omega
    rw [e1, e2]

end tables

theorem config_valid (B H B_TILE_SIZE H_TILE_SIZE : ℕ) :
    (config B H B_TILE_SIZE H_TILE_SIZE).Valid where
  hN := rfl
  hDFT := rfl
  hsqrt := rfl
  hW := rfl
  hwarp := ⟨2, rfl⟩
  hthreads := rfl

theorem config32_valid (B H B_TILE_SIZE H_TILE_SIZE : ℕ) :
    (config32 B H B_TILE_SIZE H_TILE_SIZE).Valid where
  hN := rfl
  hW1 := rfl
  hW2 := rfl
  hwarp := ⟨2, rfl⟩
  hthreads := rfl

theorem primitive_root_4096 :
    IsPrimitiveRoot (Complex.exp (2 * Real.pi * Complex.I / (4096 : ℕ))) 4096 :=
  Complex.isPrimitiveRoot_exp 4096 (by norm_num)

theorem primitive_root_16384 :
    IsPrimitiveRoot (Complex.exp (2 * Real.pi * Complex.I / (16384 : ℕ))) 16384 :=
  Complex.isPrimitiveRoot_exp 16384 (by norm_num)

/-! ## Forward kernel: convolution and round trip -/

section fwd_results
variable {K : Type} [Field K]

omit [Field K] in
/-- The body of the batch loop of the forward kernel, with the filter staged by the channel
loop: at `input_offset + j` it writes element `j` of the inverse stage sequence applied to the
product of the forward stage sequence of the input with the filter. -/
theorem fwd_unit_out [CommRing K] (P : Params) (hv : P.Valid) (T : Tables K) (a_inp k_f : ℕ → K)
    (regs : ℕ → ℕ → K) (bY ht : ℕ) (a_0 : ℕ → K) (off : ℕ) (s : FwdState K)
    (n1 n2 n3 : ℕ) (h1 : n1 < 16) (h2 : n2 < 16) (h3 : n3 < 16) :
    (fwd_batch_body P T a_inp (k_frag P (fwd_stage_k_f P k_f regs bY ht a_0)) off s).out
        (off + (256 * n1 + 16 * n2 + n3))
      = T.toM.inv (fun f1 f2 f3 => T.toM.fwd (fun i => a_inp (off + i)) f1 f2 f3
          * k_f (fwd_k_f_offset P bY ht + (256 * f1 + 16 * f2 + f3))) n1 n2 n3 := by
  rw [fwd_batch_body_out P hv T a_inp _ off s n1 n2 n3 h1 h2 h3]
  apply MTables.inv_congr
  intro f1 f2 f3 hf1 hf2 hf3
  simp only [Tables.toM] at hf1 hf2 hf3
  simp only [digits, show (16 * 16 : ℕ) = 256 from rfl]
  rw [fwd_stage_k_f_apply P hv k_f regs bY ht a_0 _ (by omega)]

theorem circ_conv_delta (N : ℕ) (x : ℕ → K) (n : ℕ) (hn : n < N) :
    circ_conv N x (fun i => if i = 0 then 1 else 0) n = x n := by
  unfold circ_conv
  rw [Finset.sum_eq_single n]
  · have e : (n + N - n) % N = 0 := by
      rw [Nat.add_sub_cancel_left, Nat.mod_self]
    simp only [e, if_true, mul_one]
  · intro m hm hne
    have hm := Finset.mem_range.mp hm
    have e : (n + N - m) % N ≠ 0 := by
      rcases Nat.lt_or_ge n m with h | h
      · rw [Nat.mod_eq_of_lt (by omega)]
        omega
      · rw [Nat.mod_eq_sub_mod (by omega), Nat.mod_eq_of_lt (by omega)]
        omega
    simp only [e, if_false, mul_zero]
  · intro h
    exact absurd (Finset.mem_range.mpr hn) h

theorem dft_sum_delta (N : ℕ) (hN : 0 < N) (ω : K) (f : ℕ) :
    dft_sum N ω (fun i => if i = 0 then 1 else 0) f = 1 := by
  unfold dft_sum
  rw [Finset.sum_eq_single 0]
  · simp
  · intro m _ hne
    simp only [hne, if_false, zero_mul]
  · intro h
    exact absurd (Finset.mem_range.mpr hN) h

end fwd_results

/-- The tile of the forward kernel computes a circular convolution when the tables are a DFT
pair and the filter spectrum is the DFT of `k` in the kernel's frequency order. -/
theorem fwd_unit_conv {K : Type} [Field K] (P : Params) (hv : P.Valid)
    (T : Tables K) (ω c_fwd c_inv : K) (hT : T.toM.IsDFT ω c_fwd c_inv)
    (hc : c_fwd * c_inv * ((4096 : ℕ) : K) = 1)
    (a_inp k_f k : ℕ → K) (regs : ℕ → ℕ → K) (a_0 : ℕ → K) (bx bY ht bt : ℕ)
    (hk : ∀ f1 f2 f3, f1 < 16 → f2 < 16 → f3 < 16 →
      k_f (fwd_k_f_offset P bY ht + (256 * f1 + 16 * f2 + f3))
        = dft_sum 4096 ω k (freq 16 16 f1 f2 f3))
    (s : FwdState K) (j : ℕ) (hj : j < 4096) :
    (fwd_batch_body P T a_inp (k_frag P (fwd_stage_k_f P k_f regs bY ht a_0))
        (fwd_input_offset P bx bY ht bt) s).out (fwd_input_offset P bx bY ht bt + j)
      = circ_conv 4096 (fun i => a_inp (fwd_input_offset P bx bY ht bt + i)) k j := by
  have e := flat_index j
  have hc1 : c_fwd * c_inv * ((T.toM.p * T.toM.q * T.toM.q : ℕ) : K) = 1 := by
    simpa only [Tables.toM] using hc
  have h := MTables.inv_fwd_conv hT hc1 (fun i => a_inp (fwd_input_offset P bx bY ht bt + i)) k
    (j / (16 * 16)) (j / 16 % 16) (j % 16) (by simp only [Tables.toM]; omega)
    (by simp only [Tables.toM]; omega) (by simp only [Tables.toM]; omega)
  simp only [Tables.toM] at h
  have e1 : 16 * 16 * (j / (16 * 16)) + 16 * (j / 16 % 16) + j % 16 = j := by omega
  rw [e1] at h
  rw [← h]
  conv_lhs => rw [← e]
  rw [fwd_unit_out P hv T a_inp k_f regs bY ht a_0 _ s _ _ _
    (by omega) (by omega) (by omega)]
  apply MTables.inv_congr
  intro f1 f2 f3 hf1 hf2 hf3
  simp only [Tables.toM] at hf1 hf2 hf3
  rw [hk f1 f2 f3 hf1 hf2 hf3]
  rfl

/-- C1: the forward kernel, in exact arithmetic, with tables of a length-4096 DFT pair
(`c_fwd * c_inv * N = 1`) and with the filter spectrum `k_f` of the channel the DFT of a
time-domain filter `k` in the kernel's frequency order: the tile handling a (batch, channel)
pair writes at `input_offset + j` the length-`N` circular convolution of the input it reads at
`input_offset` with `k`, for every `j < N`. -/
theorem C1_forward_circular_convolution {K : Type} [Field K] (P : Params) (hv : P.Valid)
    (T : Tables K) (ω c_fwd c_inv : K) (hT : T.toM.IsDFT ω c_fwd c_inv)
    (hc : c_fwd * c_inv * ((4096 : ℕ) : K) = 1)
    (a_inp k_f k : ℕ → K) (regs : ℕ → ℕ → K) (a_0 : ℕ → K) (bx bY ht bt : ℕ)
    (hk : ∀ f1 f2 f3, f1 < 16 → f2 < 16 → f3 < 16 →
      k_f (fwd_k_f_offset P bY ht + (256 * f1 + 16 * f2 + f3))
        = dft_sum 4096 ω k (freq 16 16 f1 f2 f3))
    (s : FwdState K) (j : ℕ) (hj : j < 4096) :
    (fwd_batch_body P T a_inp (k_frag P (fwd_stage_k_f P k_f regs bY ht a_0))
        (fwd_input_offset P bx bY ht bt) s).out (fwd_input_offset P bx bY ht bt + j)
      = circ_conv 4096 (fun i => a_inp (fwd_input_offset P bx bY ht bt + i)) k j :=
  fwd_unit_conv P hv T ω c_fwd c_inv hT hc a_inp k_f k regs a_0 bx bY ht bt hk s j hj

/-- Witness of C1: the complex DFT tables on `exp(2 pi i / 4096)`, normalised on the forward
coarse twiddle, and the filter spectrum of `k = 1, 1, 1, ...`. -/
theorem C1_forward_circular_convolution_witness :
    (fwd_batch_body (config 1 1 1 1)
        (dft_tables (Complex.exp (2 * Real.pi * Complex.I / (4096 : ℕ))) (1 / 4096) 1)
        (fun _ => 1)
        (k_frag (config 1 1 1 1) (fwd_stage_k_f (config 1 1 1 1)
          (fun i => dft_sum 4096 (Complex.exp (2 * Real.pi * Complex.I / (4096 : ℕ)))
            (fun _ => 1) (freq 16 16 (i / 256) (i / 16 % 16) (i % 16)))
          (fun _ _ => 0) 0 0 (fun _ => 0)))
        (fwd_input_offset (config 1 1 1 1) 0 0 0 0) ⟨fun _ => 0, fun _ => 0⟩).out
        (fwd_input_offset (config 1 1 1 1) 0 0 0 0 + 5)
      = circ_conv 4096 (fun _ => (1 : ℂ)) (fun _ => 1) 5 :=
  C1_forward_circular_convolution (config 1 1 1 1) (config_valid 1 1 1 1) _ _ _ _
    (dft_tables_isDFT primitive_root_4096 _ _) (by norm_num) (fun _ => 1) _ (fun _ => 1)
    (fun _ _ => 0) (fun _ => 0) 0 0 0 0
    (by
      intro f1 f2 f3 h1 h2 h3
      have e0 : fwd_k_f_offset (config 1 1 1 1) 0 0 = 0 := by
        simp [fwd_k_f_offset, u32]
      have e1 : (256 * f1 + 16 * f2 + f3) / 256 = f1 := by omega
      have e2 : (256 * f1 + 16 * f2 + f3) / 16 % 16 = f2 := by omega
      have e3 : (256 * f1 + 16 * f2 + f3) % 16 = f3 := by omega
      simp only [e0, Nat.zero_add, e1, e2, e3])
    ⟨fun _ => 0, fun _ => 0⟩ 5 (by norm_num)

/-- With an all-ones filter spectrum the forward tile writes its input back. -/
theorem fwd_unit_round_trip {K : Type} [Field K] (P : Params) (hv : P.Valid)
    (T : Tables K) (ω c_fwd c_inv : K) (hT : T.toM.IsDFT ω c_fwd c_inv)
    (hc : c_fwd * c_inv * ((4096 : ℕ) : K) = 1)
    (a_inp k_f : ℕ → K) (regs : ℕ → ℕ → K) (a_0 : ℕ → K) (bx bY ht bt : ℕ)
    (hk : ∀ i, i < 4096 → k_f (fwd_k_f_offset P bY ht + i) = 1)
    (s : FwdState K) (j : ℕ) (hj : j < 4096) :
    (fwd_batch_body P T a_inp (k_frag P (fwd_stage_k_f P k_f regs bY ht a_0))
        (fwd_input_offset P bx bY ht bt) s).out (fwd_input_offset P bx bY ht bt + j)
      = a_inp (fwd_input_offset P bx bY ht bt + j) := by
  rw [fwd_unit_conv P hv T ω c_fwd c_inv hT hc a_inp k_f
    (fun i => if i = 0 then 1 else 0) regs a_0 bx bY ht bt _ s j hj,
    circ_conv_delta 4096 _ j hj]
  intro f1 f2 f3 h1 h2 h3
  rw [hk _ (by omega), dft_sum_delta 4096 (by norm_num)]

/-- C7: round trip.  With tables of a length-4096 DFT pair (`c_fwd * c_inv * N = 1`) and a
filter spectrum that is identically `1` on the channel, the forward kernel writes, at
`input_offset + j`, the input element it read at `input_offset + j`: the inverse stage
sequence undoes the forward stage sequence with no extra scale. -/
theorem C7_round_trip {K : Type} [Field K] (P : Params) (hv : P.Valid)
    (T : Tables K) (ω c_fwd c_inv : K) (hT : T.toM.IsDFT ω c_fwd c_inv)
    (hc : c_fwd * c_inv * ((4096 : ℕ) : K) = 1)
    (a_inp k_f : ℕ → K) (regs : ℕ → ℕ → K) (a_0 : ℕ → K) (bx bY ht bt : ℕ)
    (hk : ∀ i, i < 4096 → k_f (fwd_k_f_offset P bY ht + i) = 1)
    (s : FwdState K) (j : ℕ) (hj : j < 4096) :
    (fwd_batch_body P T a_inp (k_frag P (fwd_stage_k_f P k_f regs bY ht a_0))
        (fwd_input_offset P bx bY ht bt) s).out (fwd_input_offset P bx bY ht bt + j)
      = a_inp (fwd_input_offset P bx bY ht bt + j) :=
  fwd_unit_round_trip P hv T ω c_fwd c_inv hT hc a_inp k_f regs a_0 bx bY ht bt hk s j hj

/-- Witness of C7: the complex DFT tables on `exp(2 pi i / 4096)` with the `1/N` on the inverse
side, and the all-ones filter spectrum. -/
theorem C7_round_trip_witness :
    (fwd_batch_body (config 1 1 1 1)
        (dft_tables (Complex.exp (2 * Real.pi * Complex.I / (4096 : ℕ))) 1 (1 / 4096))
        (fun i => (i : ℂ))
        (k_frag (config 1 1 1 1) (fwd_stage_k_f (config 1 1 1 1) (fun _ => 1)
          (fun _ _ => 0) 0 0 (fun _ => 0)))
        (fwd_input_offset (config 1 1 1 1) 0 0 0 0) ⟨fun _ => 0, fun _ => 0⟩).out
        (fwd_input_offset (config 1 1 1 1) 0 0 0 0 + 7)
      = ((fwd_input_offset (config 1 1 1 1) 0 0 0 0 + 7 : ℕ) : ℂ) :=
  C7_round_trip (config 1 1 1 1) (config_valid 1 1 1 1) _ _ _ _
    (dft_tables_isDFT primitive_root_4096 _ _) (by norm_num) (fun i => (i : ℂ)) (fun _ => 1)
    (fun _ _ => 0) (fun _ => 0) 0 0 0 0 (fun _ _ => rfl) ⟨fun _ => 0, fun _ => 0⟩ 7
    (by norm_num)

/-! ## Backward kernels: `dx`, `dk_f` and batch additivity -/

section bwd_results
variable {K : Type} [CommRing K] [StarRing K]

/-- The batch body of the 16_16_16 backward kernel, with the filter staged by the channel
loop (conjugated): what it stores to `dx_out`. -/
theorem bwd_unit_dx (P : Params) (hv : P.Valid) (T : Tables K) (dout_inp a_inp k_f : ℕ → K)
    (regs : ℕ → ℕ → K) (a_0 : ℕ → K) (kf_off off : ℕ) (s : BwdState K) (j : ℕ)
    (hj : j < 4096) :
    (bwd_batch_body P T dout_inp a_inp
        (k_frag P (bwd_stage_k_f P.num_threads P.items_per_thread_input
          (BlockLoad_striped P.num_threads (P.items_per_thread_input / 2) k_f kf_off regs) a_0))
        off s).dx_out (off + j)
      = flat 16 (T.toM.inv (fun f1 f2 f3 =>
          T.toM.fwd (fun i => dout_inp (off + i)) f1 f2 f3
            * star (k_f (kf_off + (256 * f1 + 16 * f2 + f3))))) j := by
  rw [bwd_batch_body_dx P hv T dout_inp a_inp _ off s j hj]
  unfold flat
  apply MTables.inv_congr
  intro f1 f2 f3 hf1 hf2 hf3
  simp only [Tables.toM] at hf1 hf2 hf3
  simp only [digits, show (16 * 16 : ℕ) = 256 from rfl]
  rw [bwd_stage_k_f_apply hv.threads_pos hv.items_mul k_f kf_off regs a_0 _
    (show 256 * f1 + 16 * f2 + f3 < 2 * 2048 by omega)]

/-- The batch body of the 16_32_32 backward kernel, with the filter staged by the channel
loop (conjugated): what it stores to `dx_out`. -/
theorem bwd32_unit_dx (P : Params32) (hv : P.Valid) (T : Tables32 K)
    (dout_inp a_inp k_f : ℕ → K) (regs : ℕ → ℕ → K) (a_0 : ℕ → K) (kf_off off : ℕ)
    (s : BwdState K) (j : ℕ) (hj : j < 16384) :
    (bwd32_batch_body P T dout_inp a_inp
        (k_frag32 P (bwd_stage_k_f P.num_threads P.items_per_thread_input
          (BlockLoad_striped P.num_threads (P.items_per_thread_input / 2) k_f kf_off regs) a_0))
        off s).dx_out (off + j)
      = flat 32 (T.toM.inv (fun f1 f2 f3 =>
          T.toM.fwd (fun i => dout_inp (off + i)) f1 f2 f3
            * star (k_f (kf_off + (1024 * f1 + 32 * f2 + f3))))) j := by
  rw [bwd32_batch_body_dx P hv T dout_inp a_inp _ off s j hj]
  unfold flat
  apply MTables.inv_congr
  intro f1 f2 f3 hf1 hf2 hf3
  simp only [Tables32.toM] at hf1 hf2 hf3
  simp only [digits, show (32 * 32 : ℕ) = 1024 from rfl]
  rw [bwd_stage_k_f_apply hv.threads_pos32 hv.items_mul32 k_f kf_off regs a_0 _
    (show 1024 * f1 + 32 * f2 + f3 < 2 * 8192 by omega)]

theorem flat_dk_f_term (q : ℕ) (M : MTables K) (N : ℕ) (dout x : ℕ → K) (j : ℕ) :
    flat q (dk_f_term M N dout x) j
      = flat q (M.fwd dout) j * star ((N : K) * flat q (M.fwd x) j) := by
  simp only [flat, dk_f_term, mul_comm]

/-- The channel body of the 16_16_16 backward kernel: the sum it stores to `dk_f_out`. -/
theorem bwd_channel_dk_f (P : Params) (hv : P.Valid) (T : Tables K)
    (dout_inp a_inp k_f : ℕ → K) (bx bY ht : ℕ) (s : BwdState K) (j : ℕ) (hj : j < 4096) :
    (bwd_channel_body P T dout_inp a_inp k_f bx bY ht s).dk_f_out
        (bwd_dk_f_offset P.N P.H P.H_TILE_SIZE bx bY ht + j)
      = ∑ b ∈ Finset.range P.B_TILE_SIZE,
          flat 16 (T.toM.fwd (fun i => dout_inp
            (bwd_input_offset P.H P.signal_size P.B_TILE_SIZE P.H_TILE_SIZE bx bY ht b + i))) j
          * star ((P.N : K) * flat 16 (T.toM.fwd (fun i => a_inp
            (bwd_input_offset P.H P.signal_size P.B_TILE_SIZE P.H_TILE_SIZE bx bY ht b + i)))
              j) := by
  rw [bwd_channel_body_dk_f P hv T dout_inp a_inp k_f bx bY ht s j hj]
  apply Finset.sum_congr rfl
  intro b _
  rw [flat_dk_f_term]

/-- The channel body of the 16_32_32 backward kernel: the sum it stores to `dk_f_out`. -/
theorem bwd32_channel_dk_f (P : Params32) (hv : P.Valid) (T : Tables32 K)
    (dout_inp a_inp k_f : ℕ → K) (bx bY ht : ℕ) (s : BwdState K) (j : ℕ) (hj : j < 16384) :
    (bwd32_channel_body P T dout_inp a_inp k_f bx bY ht s).dk_f_out
        (bwd_dk_f_offset P.N P.H P.H_TILE_SIZE bx bY ht + j)
      = ∑ b ∈ Finset.range P.B_TILE_SIZE,
          flat 32 (T.toM.fwd (fun i => dout_inp
            (bwd_input_offset P.H P.signal_size P.B_TILE_SIZE P.H_TILE_SIZE bx bY ht b + i))) j
          * star ((P.N : K) * flat 32 (T.toM.fwd (fun i => a_inp
            (bwd_input_offset P.H P.signal_size P.B_TILE_SIZE P.H_TILE_SIZE bx bY ht b + i)))
              j) := by
  rw [bwd32_channel_body_dk_f P hv T dout_inp a_inp k_f bx bY ht s j hj]
  apply Finset.sum_congr rfl
  intro b _
  rw [flat_dk_f_term]

end bwd_results

/-- C2: both backward kernels, in exact arithmetic and for arbitrary tables: for the batch
element and channel a tile handles and every `j < N`, the value stored at
`dx_out[input_offset + j]` is element `j` of the kernel's inverse stage sequence applied to
(forward stage sequence of `dout` read at `input_offset`) times `conj(k_f)`.  The right-hand
side does not mention the incoming state `s` (neither earlier batch elements nor the old
`dx_out`), and carries no scale factor. -/
theorem C2_backward_dx {K : Type} [CommRing K] [StarRing K]
    (P : Params) (hv : P.Valid) (T : Tables K) (P2 : Params32) (hv2 : P2.Valid)
    (T2 : Tables32 K) (dout_inp a_inp k_f : ℕ → K) (regs : ℕ → ℕ → K) (a_0 : ℕ → K)
    (bx bY ht bt : ℕ) (s : BwdState K) :
    (∀ j, j < 4096 →
      (bwd_batch_body P T dout_inp a_inp
          (k_frag P (bwd_stage_k_f P.num_threads P.items_per_thread_input
            (BlockLoad_striped P.num_threads (P.items_per_thread_input / 2) k_f
              (bwd_k_f_offset P.N P.H_TILE_SIZE bY ht) regs) a_0))
          (bwd_input_offset P.H P.signal_size P.B_TILE_SIZE P.H_TILE_SIZE bx bY ht bt) s).dx_out
          (bwd_input_offset P.H P.signal_size P.B_TILE_SIZE P.H_TILE_SIZE bx bY ht bt + j)
        = flat 16 (T.toM.inv (fun f1 f2 f3 =>
            T.toM.fwd (fun i => dout_inp
              (bwd_input_offset P.H P.signal_size P.B_TILE_SIZE P.H_TILE_SIZE bx bY ht bt + i))
              f1 f2 f3
            * star (k_f (bwd_k_f_offset P.N P.H_TILE_SIZE bY ht + (256 * f1 + 16 * f2 + f3)))))
            j) ∧
    (∀ j, j < 16384 →
      (bwd32_batch_body P2 T2 dout_inp a_inp
          (k_frag32 P2 (bwd_stage_k_f P2.num_threads P2.items_per_thread_input
            (BlockLoad_striped P2.num_threads (P2.items_per_thread_input / 2) k_f
              (bwd_k_f_offset P2.N P2.H_TILE_SIZE bY ht) regs) a_0))
          (bwd_input_offset P2.H P2.signal_size P2.B_TILE_SIZE P2.H_TILE_SIZE bx bY ht bt)
          s).dx_out
          (bwd_input_offset P2.H P2.signal_size P2.B_TILE_SIZE P2.H_TILE_SIZE bx bY ht bt + j)
        = flat 32 (T2.toM.inv (fun f1 f2 f3 =>
            T2.toM.fwd (fun i => dout_inp
              (bwd_input_offset P2.H P2.signal_size P2.B_TILE_SIZE P2.H_TILE_SIZE bx bY ht bt
                + i)) f1 f2 f3
            * star (k_f (bwd_k_f_offset P2.N P2.H_TILE_SIZE bY ht
                + (1024 * f1 + 32 * f2 + f3))))) j) :=
  ⟨fun j hj => bwd_unit_dx P hv T dout_inp a_inp k_f regs a_0 _ _ s j hj,
   fun j hj => bwd32_unit_dx P2 hv2 T2 dout_inp a_inp k_f regs a_0 _ _ s j hj⟩

/-- Witness of C2: both kernels on tables of ones and all-ones inputs. -/
theorem C2_backward_dx_witness :
    (
      (bwd_batch_body (config 1 1 1 1) (ones_tables ℤ) (fun _ => 1) (fun _ => 1)
          (k_frag (config 1 1 1 1) (bwd_stage_k_f (config 1 1 1 1).num_threads (config 1 1 1 1).items_per_thread_input
            (BlockLoad_striped (config 1 1 1 1).num_threads ((config 1 1 1 1).items_per_thread_input / 2) (fun _ => 1)
              (bwd_k_f_offset (config 1 1 1 1).N (config 1 1 1 1).H_TILE_SIZE 0 0) (fun _ _ => 0)) (fun _ => 0)))
          (bwd_input_offset (config 1 1 1 1).H (config 1 1 1 1).signal_size (config 1 1 1 1).B_TILE_SIZE (config 1 1 1 1).H_TILE_SIZE 0 0 0 0) ⟨fun _ => 0, fun _ => 0, fun _ _ => 0, fun _ _ => 0, fun _ => 0, fun _ => 0⟩).dx_out
          (bwd_input_offset (config 1 1 1 1).H (config 1 1 1 1).signal_size (config 1 1 1 1).B_TILE_SIZE (config 1 1 1 1).H_TILE_SIZE 0 0 0 0 + 5)
        = flat 16 ((ones_tables ℤ).toM.inv (fun f1 f2 f3 =>
            (ones_tables ℤ).toM.fwd (fun i => (fun _ => 1)
              (bwd_input_offset (config 1 1 1 1).H (config 1 1 1 1).signal_size (config 1 1 1 1).B_TILE_SIZE (config 1 1 1 1).H_TILE_SIZE 0 0 0 0 + i))
              f1 f2 f3
            * star ((fun _ => 1) (bwd_k_f_offset (config 1 1 1 1).N (config 1 1 1 1).H_TILE_SIZE 0 0 + (256 * f1 + 16 * f2 + f3)))))
            5) ∧
    (
      (bwd32_batch_body (config32 1 1 1 1) (ones_tables32 ℤ) (fun _ => 1) (fun _ => 1)
          (k_frag32 (config32 1 1 1 1) (bwd_stage_k_f (config32 1 1 1 1).num_threads (config32 1 1 1 1).items_per_thread_input
            (BlockLoad_striped (config32 1 1 1 1).num_threads ((config32 1 1 1 1).items_per_thread_input / 2) (fun _ => 1)
              (bwd_k_f_offset (config32 1 1 1 1).N (config32 1 1 1 1).H_TILE_SIZE 0 0) (fun _ _ => 0)) (fun _ => 0)))
          (bwd_input_offset (config32 1 1 1 1).H (config32 1 1 1 1).signal_size (config32 1 1 1 1).B_TILE_SIZE (config32 1 1 1 1).H_TILE_SIZE 0 0 0 0)
          ⟨fun _ => 0, fun _ => 0, fun _ _ => 0, fun _ _ => 0, fun _ => 0, fun _ => 0⟩).dx_out
          (bwd_input_offset (config32 1 1 1 1).H (config32 1 1 1 1).signal_size (config32 1 1 1 1).B_TILE_SIZE (config32 1 1 1 1).H_TILE_SIZE 0 0 0 0 + 7)
        = flat 32 ((ones_tables32 ℤ).toM.inv (fun f1 f2 f3 =>
            (ones_tables32 ℤ).toM.fwd (fun i => (fun _ => 1)
              (bwd_input_offset (config32 1 1 1 1).H (config32 1 1 1 1).signal_size (config32 1 1 1 1).B_TILE_SIZE (config32 1 1 1 1).H_TILE_SIZE 0 0 0 0
                + i)) f1 f2 f3
            * star ((fun _ => 1) (bwd_k_f_offset (config32 1 1 1 1).N (config32 1 1 1 1).H_TILE_SIZE 0 0
                + (1024 * f1 + 32 * f2 + f3))))) 7) :=
  ⟨(C2_backward_dx (config 1 1 1 1) (config_valid 1 1 1 1) (ones_tables ℤ) (config32 1 1 1 1)
      (config32_valid 1 1 1 1) (ones_tables32 ℤ) (fun _ => 1) (fun _ => 1) (fun _ => 1)
      (fun _ _ => 0) (fun _ => 0) 0 0 0 0 ⟨fun _ => 0, fun _ => 0, fun _ _ => 0, fun _ _ => 0, fun _ => 0, fun _ => 0⟩).1 5 (by norm_num),
   (C2_backward_dx (config 1 1 1 1) (config_valid 1 1 1 1) (ones_tables ℤ) (config32 1 1 1 1)
      (config32_valid 1 1 1 1) (ones_tables32 ℤ) (fun _ => 1) (fun _ => 1) (fun _ => 1)
      (fun _ _ => 0) (fun _ => 0) 0 0 0 0 ⟨fun _ => 0, fun _ => 0, fun _ _ => 0, fun _ _ => 0, fun _ => 0, fun _ => 0⟩).2 7 (by norm_num)⟩

/-- C3: both backward kernels, in exact arithmetic and for arbitrary tables: for every tile
`(blockIdx.x, blockIdx.y)`, channel-in-tile `h_tile_id` and `j < N`, the value the channel
body stores at `dk_f_out[base + j]` is the sum over `b_tile_id < B_TILE_SIZE` of
`T(dout)[j] * conj(N * T(x)[j])`, with `T` the forward stage sequence of the kernel on the
batch element's `dout` and `x`; the same `j` indexes the scratch planes and the output. -/
theorem C3_backward_dk_f {K : Type} [CommRing K] [StarRing K]
    (P : Params) (hv : P.Valid) (T : Tables K) (P2 : Params32) (hv2 : P2.Valid)
    (T2 : Tables32 K) (dout_inp a_inp k_f : ℕ → K) (bx bY ht : ℕ) (s : BwdState K) :
    (∀ j, j < 4096 →
      (bwd_channel_body P T dout_inp a_inp k_f bx bY ht s).dk_f_out
          (bwd_dk_f_offset P.N P.H P.H_TILE_SIZE bx bY ht + j)
        = ∑ b ∈ Finset.range P.B_TILE_SIZE,
            flat 16 (T.toM.fwd (fun i => dout_inp
              (bwd_input_offset P.H P.signal_size P.B_TILE_SIZE P.H_TILE_SIZE bx bY ht b + i)))
              j
            * star ((P.N : K) * flat 16 (T.toM.fwd (fun i => a_inp
              (bwd_input_offset P.H P.signal_size P.B_TILE_SIZE P.H_TILE_SIZE bx bY ht b + i)))
                j)) ∧
    (∀ j, j < 16384 →
      (bwd32_channel_body P2 T2 dout_inp a_inp k_f bx bY ht s).dk_f_out
          (bwd_dk_f_offset P2.N P2.H P2.H_TILE_SIZE bx bY ht + j)
        = ∑ b ∈ Finset.range P2.B_TILE_SIZE,
            flat 32 (T2.toM.fwd (fun i => dout_inp
              (bwd_input_offset P2.H P2.signal_size P2.B_TILE_SIZE P2.H_TILE_SIZE bx bY ht b
                + i))) j
            * star ((P2.N : K) * flat 32 (T2.toM.fwd (fun i => a_inp
              (bwd_input_offset P2.H P2.signal_size P2.B_TILE_SIZE P2.H_TILE_SIZE bx bY ht b
                + i))) j)) :=
  ⟨fun j hj => bwd_channel_dk_f P hv T dout_inp a_inp k_f bx bY ht s j hj,
   fun j hj => bwd32_channel_dk_f P2 hv2 T2 dout_inp a_inp k_f bx bY ht s j hj⟩

/-- Witness of C3: both kernels with a batch tile of two elements, on tables of ones. -/
theorem C3_backward_dk_f_witness :
    (
      (bwd_channel_body (config 2 1 2 1) (ones_tables ℤ) (fun _ => 1) (fun _ => 1) (fun _ => 1) 0 0 0 ⟨fun _ => 0, fun _ => 0, fun _ _ => 0, fun _ _ => 0, fun _ => 0, fun _ => 0⟩).dk_f_out
          (bwd_dk_f_offset (config 2 1 2 1).N (config 2 1 2 1).H (config 2 1 2 1).H_TILE_SIZE 0 0 0 + 5)
        = ∑ b ∈ Finset.range (config 2 1 2 1).B_TILE_SIZE,
            flat 16 ((ones_tables ℤ).toM.fwd (fun i => (fun _ => 1)
              (bwd_input_offset (config 2 1 2 1).H (config 2 1 2 1).signal_size (config 2 1 2 1).B_TILE_SIZE (config 2 1 2 1).H_TILE_SIZE 0 0 0 b + i)))
              5
            * star (((config 2 1 2 1).N : ℤ) * flat 16 ((ones_tables ℤ).toM.fwd (fun i => (fun _ => 1)
              (bwd_input_offset (config 2 1 2 1).H (config 2 1 2 1).signal_size (config 2 1 2 1).B_TILE_SIZE (config 2 1 2 1).H_TILE_SIZE 0 0 0 b + i)))
                5)) ∧
    (
      (bwd32_channel_body (config32 2 1 2 1) (ones_tables32 ℤ) (fun _ => 1) (fun _ => 1) (fun _ => 1) 0 0 0 ⟨fun _ => 0, fun _ => 0, fun _ _ => 0, fun _ _ => 0, fun _ => 0, fun _ => 0⟩).dk_f_out
          (bwd_dk_f_offset (config32 2 1 2 1).N (config32 2 1 2 1).H (config32 2 1 2 1).H_TILE_SIZE 0 0 0 + 7)
        = ∑ b ∈ Finset.range (config32 2 1 2 1).B_TILE_SIZE,
            flat 32 ((ones_tables32 ℤ).toM.fwd (fun i => (fun _ => 1)
              (bwd_input_offset (config32 2 1 2 1).H (config32 2 1 2 1).signal_size (config32 2 1 2 1).B_TILE_SIZE (config32 2 1 2 1).H_TILE_SIZE 0 0 0 b
                + i))) 7
            * star (((config32 2 1 2 1).N : ℤ) * flat 32 ((ones_tables32 ℤ).toM.fwd (fun i => (fun _ => 1)
              (bwd_input_offset (config32 2 1 2 1).H (config32 2 1 2 1).signal_size (config32 2 1 2 1).B_TILE_SIZE (config32 2 1 2 1).H_TILE_SIZE 0 0 0 b
                + i))) 7)) :=
  ⟨(C3_backward_dk_f (config 2 1 2 1) (config_valid 2 1 2 1) (ones_tables ℤ) (config32 2 1 2 1)
      (config32_valid 2 1 2 1) (ones_tables32 ℤ) (fun _ => 1) (fun _ => 1) (fun _ => 1)
      0 0 0 ⟨fun _ => 0, fun _ => 0, fun _ _ => 0, fun _ _ => 0, fun _ => 0, fun _ => 0⟩).1 5 (by norm_num),
   (C3_backward_dk_f (config 2 1 2 1) (config_valid 2 1 2 1) (ones_tables ℤ) (config32 2 1 2 1)
      (config32_valid 2 1 2 1) (ones_tables32 ℤ) (fun _ => 1) (fun _ => 1) (fun _ => 1)
      0 0 0 ⟨fun _ => 0, fun _ => 0, fun _ _ => 0, fun _ _ => 0, fun _ => 0, fun _ => 0⟩).2 7 (by norm_num)⟩

/-! ## Batch additivity of `dk_f` -/

section additivity
variable {K : Type} [CommRing K] [StarRing K]

omit [StarRing K] in
theorem fwd_window_congr16 (T : Tables K) (x x1 : ℕ → K) (off off1 : ℕ)
    (h : ∀ i, i < 4096 → x (off + i) = x1 (off1 + i)) (j : ℕ) :
    flat 16 (T.toM.fwd (fun i => x (off + i))) j
      = flat 16 (T.toM.fwd (fun i => x1 (off1 + i))) j := by
  unfold flat
  apply MTables.fwd_congr
  intro n1 n2 n3 h1 h2 h3
  simp only [Tables.toM] at h1 h2 h3 ⊢
  exact h _ (by omega)

omit [StarRing K] in
theorem fwd_window_congr32 (T : Tables32 K) (x x1 : ℕ → K) (off off1 : ℕ)
    (h : ∀ i, i < 16384 → x (off + i) = x1 (off1 + i)) (j : ℕ) :
    flat 32 (T.toM.fwd (fun i => x (off + i))) j
      = flat 32 (T.toM.fwd (fun i => x1 (off1 + i))) j := by
  unfold flat
  apply MTables.fwd_congr
  intro n1 n2 n3 h1 h2 h3
  simp only [Tables32.toM] at h1 h2 h3 ⊢
  exact h _ (by omega)

/-- With one channel per tile the 16_16_16 backward kernel is one run of the channel body. -/
theorem bwd_kernel_one_channel (P : Params) (hH : P.H_TILE_SIZE = 1) (T : Tables K)
    (dout_inp a_inp k_f junk : ℕ → K) (regs : ℕ → ℕ → K) (bx bY : ℕ) (o : BwdOut K) :
    (monarch_conv_bwd_cuda_complex_kernel P T dout_inp a_inp k_f junk regs bx bY o).dk_f_out
      = (bwd_channel_body P T dout_inp a_inp k_f bx bY 0
          { a := T.twiddle_factors_256_ifft, a_2 := junk, a_input_data := regs, temp := regs,
            dx_out := o.dx_out, dk_f_out := o.dk_f_out }).dk_f_out := by
  simp only [monarch_conv_bwd_cuda_complex_kernel, hH, forRange_succ, forRange_zero]

/-- With one channel per tile the 16_32_32 backward kernel is one run of the channel body. -/
theorem bwd32_kernel_one_channel (P : Params32) (hH : P.H_TILE_SIZE = 1) (T : Tables32 K)
    (dout_inp a_inp k_f junk : ℕ → K) (regs : ℕ → ℕ → K) (bx bY : ℕ) (o : BwdOut K) :
    (monarch_conv_bwd_cuda_16_32_32_complex_kernel P T dout_inp a_inp k_f junk regs bx bY
        o).dk_f_out
      = (bwd32_channel_body P T dout_inp a_inp k_f bx bY 0
          { a := T.twiddle_factors_N_ifft, a_2 := junk, a_input_data := regs, temp := regs,
            dx_out := o.dx_out, dk_f_out := o.dk_f_out }).dk_f_out := by
  simp only [monarch_conv_bwd_cuda_16_32_32_complex_kernel, hH, forRange_succ, forRange_zero]

theorem bwd_additive16 (P P1 : Params) (hv : P.Valid) (hv1 : P1.Valid)
    (hB : P.B_TILE_SIZE = 2) (hB1 : P1.B_TILE_SIZE = 1)
    (hH : P.H_TILE_SIZE = 1) (hH1 : P1.H_TILE_SIZE = 1) (T : Tables K)
    (dout_inp a_inp dout_0 a_0 dout_1 a_1 k_f junk : ℕ → K) (regs : ℕ → ℕ → K)
    (o o_0 o_1 : BwdOut K)
    (h0 : ∀ i, i < 4096 →
      dout_inp (bwd_input_offset P.H P.signal_size 2 1 0 0 0 0 + i)
          = dout_0 (bwd_input_offset P1.H P1.signal_size 1 1 0 0 0 0 + i) ∧
      a_inp (bwd_input_offset P.H P.signal_size 2 1 0 0 0 0 + i)
          = a_0 (bwd_input_offset P1.H P1.signal_size 1 1 0 0 0 0 + i))
    (h1 : ∀ i, i < 4096 →
      dout_inp (bwd_input_offset P.H P.signal_size 2 1 0 0 0 1 + i)
          = dout_1 (bwd_input_offset P1.H P1.signal_size 1 1 0 0 0 0 + i) ∧
      a_inp (bwd_input_offset P.H P.signal_size 2 1 0 0 0 1 + i)
          = a_1 (bwd_input_offset P1.H P1.signal_size 1 1 0 0 0 0 + i))
    (j : ℕ) (hj : j < 4096) :
    (monarch_conv_bwd_cuda_complex_kernel P T dout_inp a_inp k_f junk regs 0 0 o).dk_f_out
        (bwd_dk_f_offset P.N P.H P.H_TILE_SIZE 0 0 0 + j)
      = (monarch_conv_bwd_cuda_complex_kernel P1 T dout_0 a_0 k_f junk regs 0 0 o_0).dk_f_out
          (bwd_dk_f_offset P1.N P1.H P1.H_TILE_SIZE 0 0 0 + j)
        + (monarch_conv_bwd_cuda_complex_kernel P1 T dout_1 a_1 k_f junk regs 0 0 o_1).dk_f_out
          (bwd_dk_f_offset P1.N P1.H P1.H_TILE_SIZE 0 0 0 + j) := by
  rw [bwd_kernel_one_channel P hH, bwd_kernel_one_channel P1 hH1,
    bwd_kernel_one_channel P1 hH1, bwd_channel_dk_f P hv T _ _ _ _ _ _ _ j hj,
    bwd_channel_dk_f P1 hv1 T _ _ _ _ _ _ _ j hj, bwd_channel_dk_f P1 hv1 T _ _ _ _ _ _ _ j hj]
  simp only [hB, hB1, hH, hH1, Finset.sum_range_succ, Finset.sum_range_zero, zero_add,
    hv.hN, hv1.hN]
  rw [fwd_window_congr16 T dout_inp dout_0 _ _ (fun i hi => (h0 i hi).1),
    fwd_window_congr16 T a_inp a_0 _ _ (fun i hi => (h0 i hi).2),
    fwd_window_congr16 T dout_inp dout_1 _ _ (fun i hi => (h1 i hi).1),
    fwd_window_congr16 T a_inp a_1 _ _ (fun i hi => (h1 i hi).2)]

theorem bwd_additive32 (P P1 : Params32) (hv : P.Valid) (hv1 : P1.Valid)
    (hB : P.B_TILE_SIZE = 2) (hB1 : P1.B_TILE_SIZE = 1)
    (hH : P.H_TILE_SIZE = 1) (hH1 : P1.H_TILE_SIZE = 1) (T : Tables32 K)
    (dout_inp a_inp dout_0 a_0 dout_1 a_1 k_f junk : ℕ → K) (regs : ℕ → ℕ → K)
    (o o_0 o_1 : BwdOut K)
    (h0 : ∀ i, i < 16384 →
      dout_inp (bwd_input_offset P.H P.signal_size 2 1 0 0 0 0 + i)
          = dout_0 (bwd_input_offset P1.H P1.signal_size 1 1 0 0 0 0 + i) ∧
      a_inp (bwd_input_offset P.H P.signal_size 2 1 0 0 0 0 + i)
          = a_0 (bwd_input_offset P1.H P1.signal_size 1 1 0 0 0 0 + i))
    (h1 : ∀ i, i < 16384 →
      dout_inp (bwd_input_offset P.H P.signal_size 2 1 0 0 0 1 + i)
          = dout_1 (bwd_input_offset P1.H P1.signal_size 1 1 0 0 0 0 + i) ∧
      a_inp (bwd_input_offset P.H P.signal_size 2 1 0 0 0 1 + i)
          = a_1 (bwd_input_offset P1.H P1.signal_size 1 1 0 0 0 0 + i))
    (j : ℕ) (hj : j < 16384) :
    (monarch_conv_bwd_cuda_16_32_32_complex_kernel P T dout_inp a_inp k_f junk regs 0 0
        o).dk_f_out (bwd_dk_f_offset P.N P.H P.H_TILE_SIZE 0 0 0 + j)
      = (monarch_conv_bwd_cuda_16_32_32_complex_kernel P1 T dout_0 a_0 k_f junk regs 0 0
          o_0).dk_f_out (bwd_dk_f_offset P1.N P1.H P1.H_TILE_SIZE 0 0 0 + j)
        + (monarch_conv_bwd_cuda_16_32_32_complex_kernel P1 T dout_1 a_1 k_f junk regs 0 0
          o_1).dk_f_out (bwd_dk_f_offset P1.N P1.H P1.H_TILE_SIZE 0 0 0 + j) := by
  rw [bwd32_kernel_one_channel P hH, bwd32_kernel_one_channel P1 hH1,
    bwd32_kernel_one_channel P1 hH1, bwd32_channel_dk_f P hv T _ _ _ _ _ _ _ j hj,
    bwd32_channel_dk_f P1 hv1 T _ _ _ _ _ _ _ j hj,
    bwd32_channel_dk_f P1 hv1 T _ _ _ _ _ _ _ j hj]
  simp only [hB, hB1, hH, hH1, Finset.sum_range_succ, Finset.sum_range_zero, zero_add,
    hv.hN, hv1.hN]
  rw [fwd_window_congr32 T dout_inp dout_0 _ _ (fun i hi => (h0 i hi).1),
    fwd_window_congr32 T a_inp a_0 _ _ (fun i hi => (h0 i hi).2),
    fwd_window_congr32 T dout_inp dout_1 _ _ (fun i hi => (h1 i hi).1),
    fwd_window_congr32 T a_inp a_1 _ _ (fun i hi => (h1 i hi).2)]

end additivity

/-- C8: batch additivity of `dk_f`, both backward kernels, in exact arithmetic and for
arbitrary tables.  A run with one tile of two batch elements (`B_TILE_SIZE = 2`, one channel
per tile) stores at `dk_f_out[base + j]` the sum of what two runs with `B_TILE_SIZE = 1`
store there, one run on each of the two elements (the runs read the same `dout` and `x`
values in their length-`N` windows). -/
theorem C8_batch_additivity {K : Type} [CommRing K] [StarRing K]
    (P P1 : Params) (hv : P.Valid) (hv1 : P1.Valid)
    (hB : P.B_TILE_SIZE = 2) (hB1 : P1.B_TILE_SIZE = 1)
    (hH : P.H_TILE_SIZE = 1) (hH1 : P1.H_TILE_SIZE = 1) (T : Tables K)
    (Q Q1 : Params32) (hq : Q.Valid) (hq1 : Q1.Valid)
    (hQB : Q.B_TILE_SIZE = 2) (hQB1 : Q1.B_TILE_SIZE = 1)
    (hQH : Q.H_TILE_SIZE = 1) (hQH1 : Q1.H_TILE_SIZE = 1) (T2 : Tables32 K)
    (dout_inp a_inp dout_0 a_0 dout_1 a_1 k_f junk : ℕ → K) (regs : ℕ → ℕ → K)
    (o o_0 o_1 : BwdOut K)
    (h0 : ∀ i, i < 4096 →
      dout_inp (bwd_input_offset P.H P.signal_size 2 1 0 0 0 0 + i)
          = dout_0 (bwd_input_offset P1.H P1.signal_size 1 1 0 0 0 0 + i) ∧
      a_inp (bwd_input_offset P.H P.signal_size 2 1 0 0 0 0 + i)
          = a_0 (bwd_input_offset P1.H P1.signal_size 1 1 0 0 0 0 + i))
    (h1 : ∀ i, i < 4096 →
      dout_inp (bwd_input_offset P.H P.signal_size 2 1 0 0 0 1 + i)
          = dout_1 (bwd_input_offset P1.H P1.signal_size 1 1 0 0 0 0 + i) ∧
      a_inp (bwd_input_offset P.H P.signal_size 2 1 0 0 0 1 + i)
          = a_1 (bwd_input_offset P1.H P1.signal_size 1 1 0 0 0 0 + i))
    (g0 : ∀ i, i < 16384 →
      dout_inp (bwd_input_offset Q.H Q.signal_size 2 1 0 0 0 0 + i)
          = dout_0 (bwd_input_offset Q1.H Q1.signal_size 1 1 0 0 0 0 + i) ∧
      a_inp (bwd_input_offset Q.H Q.signal_size 2 1 0 0 0 0 + i)
          = a_0 (bwd_input_offset Q1.H Q1.signal_size 1 1 0 0 0 0 + i))
    (g1 : ∀ i, i < 16384 →
      dout_inp (bwd_input_offset Q.H Q.signal_size 2 1 0 0 0 1 + i)
          = dout_1 (bwd_input_offset Q1.H Q1.signal_size 1 1 0 0 0 0 + i) ∧
      a_inp (bwd_input_offset Q.H Q.signal_size 2 1 0 0 0 1 + i)
          = a_1 (bwd_input_offset Q1.H Q1.signal_size 1 1 0 0 0 0 + i)) :
    (∀ j, j < 4096 →
      (monarch_conv_bwd_cuda_complex_kernel P T dout_inp a_inp k_f junk regs 0 0 o).dk_f_out
          (bwd_dk_f_offset P.N P.H P.H_TILE_SIZE 0 0 0 + j)
        = (monarch_conv_bwd_cuda_complex_kernel P1 T dout_0 a_0 k_f junk regs 0 0 o_0).dk_f_out
            (bwd_dk_f_offset P1.N P1.H P1.H_TILE_SIZE 0 0 0 + j)
          + (monarch_conv_bwd_cuda_complex_kernel P1 T dout_1 a_1 k_f junk regs 0 0 o_1).dk_f_out
            (bwd_dk_f_offset P1.N P1.H P1.H_TILE_SIZE 0 0 0 + j)) ∧
    (∀ j, j < 16384 →
      (monarch_conv_bwd_cuda_16_32_32_complex_kernel Q T2 dout_inp a_inp k_f junk regs 0 0
          o).dk_f_out (bwd_dk_f_offset Q.N Q.H Q.H_TILE_SIZE 0 0 0 + j)
        = (monarch_conv_bwd_cuda_16_32_32_complex_kernel Q1 T2 dout_0 a_0 k_f junk regs 0 0
            o_0).dk_f_out (bwd_dk_f_offset Q1.N Q1.H Q1.H_TILE_SIZE 0 0 0 + j)
          + (monarch_conv_bwd_cuda_16_32_32_complex_kernel Q1 T2 dout_1 a_1 k_f junk regs 0 0
            o_1).dk_f_out (bwd_dk_f_offset Q1.N Q1.H Q1.H_TILE_SIZE 0 0 0 + j)) :=
  ⟨fun j hj => bwd_additive16 P P1 hv hv1 hB hB1 hH hH1 T dout_inp a_inp dout_0 a_0 dout_1 a_1
      k_f junk regs o o_0 o_1 h0 h1 j hj,
   fun j hj => bwd_additive32 Q Q1 hq hq1 hQB hQB1 hQH hQH1 T2 dout_inp a_inp dout_0 a_0
      dout_1 a_1 k_f junk regs o o_0 o_1 g0 g1 j hj⟩

/-- Witness of C8: both kernels on tables of ones and all-ones data. -/
theorem C8_batch_additivity_witness :
    (
      (monarch_conv_bwd_cuda_complex_kernel (config 2 1 2 1) (ones_tables ℤ) (all_ones ℤ) (all_ones ℤ) (all_ones ℤ) (fun _ => 0) (fun _ _ => 0) 0 0 ⟨fun _ => 0, fun _ => 0⟩).dk_f_out
          (bwd_dk_f_offset (config 2 1 2 1).N (config 2 1 2 1).H (config 2 1 2 1).H_TILE_SIZE 0 0 0 + 5)
        = (monarch_conv_bwd_cuda_complex_kernel (config 1 1 1 1) (ones_tables ℤ) (all_ones ℤ) (all_ones ℤ) (all_ones ℤ) (fun _ => 0) (fun _ _ => 0) 0 0 ⟨fun _ => 0, fun _ => 0⟩).dk_f_out
            (bwd_dk_f_offset (config 1 1 1 1).N (config 1 1 1 1).H (config 1 1 1 1).H_TILE_SIZE 0 0 0 + 5)
          + (monarch_conv_bwd_cuda_complex_kernel (config 1 1 1 1) (ones_tables ℤ) (all_ones ℤ) (all_ones ℤ) (all_ones ℤ) (fun _ => 0) (fun _ _ => 0) 0 0 ⟨fun _ => 0, fun _ => 0⟩).dk_f_out
            (bwd_dk_f_offset (config 1 1 1 1).N (config 1 1 1 1).H (config 1 1 1 1).H_TILE_SIZE 0 0 0 + 5)) ∧
    (
      (monarch_conv_bwd_cuda_16_32_32_complex_kernel (config32 2 1 2 1) (ones_tables32 ℤ) (all_ones ℤ) (all_ones ℤ) (all_ones ℤ) (fun _ => 0) (fun _ _ => 0) 0 0
          ⟨fun _ => 0, fun _ => 0⟩).dk_f_out (bwd_dk_f_offset (config32 2 1 2 1).N (config32 2 1 2 1).H (config32 2 1 2 1).H_TILE_SIZE 0 0 0 + 7)
        = (monarch_conv_bwd_cuda_16_32_32_complex_kernel (config32 1 1 1 1) (ones_tables32 ℤ) (all_ones ℤ) (all_ones ℤ) (all_ones ℤ) (fun _ => 0) (fun _ _ => 0) 0 0
            ⟨fun _ => 0, fun _ => 0⟩).dk_f_out (bwd_dk_f_offset (config32 1 1 1 1).N (config32 1 1 1 1).H (config32 1 1 1 1).H_TILE_SIZE 0 0 0 + 7)
          + (monarch_conv_bwd_cuda_16_32_32_complex_kernel (config32 1 1 1 1) (ones_tables32 ℤ) (all_ones ℤ) (all_ones ℤ) (all_ones ℤ) (fun _ => 0) (fun _ _ => 0) 0 0
            ⟨fun _ => 0, fun _ => 0⟩).dk_f_out (bwd_dk_f_offset (config32 1 1 1 1).N (config32 1 1 1 1).H (config32 1 1 1 1).H_TILE_SIZE 0 0 0 + 7)) :=
  ⟨(C8_batch_additivity (config 2 1 2 1) (config 1 1 1 1) (config_valid 2 1 2 1)
      (config_valid 1 1 1 1) rfl rfl rfl rfl (ones_tables ℤ) (config32 2 1 2 1) (config32 1 1 1 1)
      (config32_valid 2 1 2 1) (config32_valid 1 1 1 1) rfl rfl rfl rfl (ones_tables32 ℤ)
      (all_ones ℤ) (all_ones ℤ) (all_ones ℤ) (all_ones ℤ) (all_ones ℤ) (all_ones ℤ) (all_ones ℤ)
      (fun _ => 0) (fun _ _ => 0) ⟨fun _ => 0, fun _ => 0⟩ ⟨fun _ => 0, fun _ => 0⟩ ⟨fun _ => 0, fun _ => 0⟩
      (fun _ _ => ⟨rfl, rfl⟩) (fun _ _ => ⟨rfl, rfl⟩) (fun _ _ => ⟨rfl, rfl⟩)
      (fun _ _ => ⟨rfl, rfl⟩)).1 5 (by norm_num),
   (C8_batch_additivity (config 2 1 2 1) (config 1 1 1 1) (config_valid 2 1 2 1)
      (config_valid 1 1 1 1) rfl rfl rfl rfl (ones_tables ℤ) (config32 2 1 2 1) (config32 1 1 1 1)
      (config32_valid 2 1 2 1) (config32_valid 1 1 1 1) rfl rfl rfl rfl (ones_tables32 ℤ)
      (all_ones ℤ) (all_ones ℤ) (all_ones ℤ) (all_ones ℤ) (all_ones ℤ) (all_ones ℤ) (all_ones ℤ)
      (fun _ => 0) (fun _ _ => 0) ⟨fun _ => 0, fun _ => 0⟩ ⟨fun _ => 0, fun _ => 0⟩ ⟨fun _ => 0, fun _ => 0⟩
      (fun _ _ => ⟨rfl, rfl⟩) (fun _ _ => ⟨rfl, rfl⟩) (fun _ _ => ⟨rfl, rfl⟩)
      (fun _ _ => ⟨rfl, rfl⟩)).2 7 (by norm_num)⟩

/-! ## Adjoint identities of the transform pair -/

section adjoint
variable {K : Type} [Field K] [StarRing K]

omit [StarRing K] in
theorem sum_comm3 (N p q : ℕ) (g : ℕ → ℕ → ℕ → ℕ → K) :
    ∑ n ∈ Finset.range N, ∑ f1 ∈ Finset.range p, ∑ f2 ∈ Finset.range q,
        ∑ f3 ∈ Finset.range q, g n f1 f2 f3
      = ∑ f1 ∈ Finset.range p, ∑ f2 ∈ Finset.range q, ∑ f3 ∈ Finset.range q,
          ∑ n ∈ Finset.range N, g n f1 f2 f3 := by
  rw [Finset.sum_comm]
  apply Finset.sum_congr rfl
  intro f1 _
  rw [Finset.sum_comm]
  apply Finset.sum_congr rfl
  intro f2 _
  rw [Finset.sum_comm]

omit [StarRing K] in
/-- Element `n` of the inverse stage sequence of the 16_16_16 kernels on DFT tables. -/
theorem flat_inv16 {T : Tables K} {ω c_fwd c_inv : K} (hT : T.toM.IsDFT ω c_fwd c_inv)
    (v : ℕ → ℕ → ℕ → K) (n : ℕ) (hn : n < 4096) :
    flat 16 (T.toM.inv v) n
      = c_inv * ∑ f1 ∈ Finset.range 16, ∑ f2 ∈ Finset.range 16, ∑ f3 ∈ Finset.range 16,
          v f1 f2 f3 * ω⁻¹ ^ (n * freq 16 16 f1 f2 f3) := by
  have h := MTables.inv_eq_dft hT v (n / (16 * 16)) (n / 16 % 16) (n % 16)
    (by simp only [Tables.toM]; omega) (by simp only [Tables.toM]; omega)
    (by simp only [Tables.toM]; omega)
  simp only [Tables.toM] at h
  have e : 16 * 16 * (n / (16 * 16)) + 16 * (n / 16 % 16) + n % 16 = n := by omega
  rw [e] at h
  unfold flat
  exact h

omit [StarRing K] in
/-- The forward stage sequence of the 16_16_16 kernels on DFT tables, inside a sum over the
frequency digits. -/
theorem sum_fwd16 {T : Tables K} {ω c_fwd c_inv : K} (hT : T.toM.IsDFT ω c_fwd c_inv)
    (x : ℕ → K) (g : K → ℕ → ℕ → ℕ → K) :
    ∑ f1 ∈ Finset.range 16, ∑ f2 ∈ Finset.range 16, ∑ f3 ∈ Finset.range 16,
        g (T.toM.fwd x f1 f2 f3) f1 f2 f3
      = ∑ f1 ∈ Finset.range 16, ∑ f2 ∈ Finset.range 16, ∑ f3 ∈ Finset.range 16,
          g (c_fwd * dft_sum 4096 ω x (freq 16 16 f1 f2 f3)) f1 f2 f3 := by
  apply Finset.sum_congr rfl
  intro f1 h1
  apply Finset.sum_congr rfl
  intro f2 h2
  apply Finset.sum_congr rfl
  intro f3 h3
  have h0 := MTables.fwd_eq_dft hT x f1 f2 f3 (Finset.mem_range.mp h1)
    (Finset.mem_range.mp h2) (Finset.mem_range.mp h3)
  have h : T.toM.fwd x f1 f2 f3 = c_fwd * dft_sum 4096 ω x (freq 16 16 f1 f2 f3) := by
    rw [h0]
    simp only [Tables.toM]
  rw [h]

/-- Pairing against the inverse stage sequence: `<u, inv v> = conj(c_inv) sum_f conj(v f) U f`
with `U` the DFT of `u`. -/
theorem pairing_inv_right {T : Tables K} {ω c_fwd c_inv : K}
    (hT : T.toM.IsDFT ω c_fwd c_inv) (hstar : star ω = ω⁻¹) (u : ℕ → K)
    (v : ℕ → ℕ → ℕ → K) :
    pairing 4096 u (flat 16 (T.toM.inv v))
      = star c_inv * ∑ f1 ∈ Finset.range 16, ∑ f2 ∈ Finset.range 16, ∑ f3 ∈ Finset.range 16,
          star (v f1 f2 f3) * dft_sum 4096 ω u (freq 16 16 f1 f2 f3) := by
  have hs : star ω⁻¹ = ω := by rw [star_inv₀, hstar, inv_inv]
  unfold pairing
  have h1 : ∀ n ∈ Finset.range 4096, u n * star (flat 16 (T.toM.inv v) n)
      = ∑ f1 ∈ Finset.range 16, ∑ f2 ∈ Finset.range 16, ∑ f3 ∈ Finset.range 16,
          star c_inv * (star (v f1 f2 f3) * (u n * ω ^ (n * freq 16 16 f1 f2 f3))) := by
    intro n hn
    rw [flat_inv16 hT v n (Finset.mem_range.mp hn)]
    simp only [star_mul', star_sum, star_pow, hs, Finset.mul_sum]
    apply Finset.sum_congr rfl
    intro f1 _
    apply Finset.sum_congr rfl
    intro f2 _
    apply Finset.sum_congr rfl
    intro f3 _
    ring
  rw [Finset.sum_congr rfl h1, sum_comm3]
  simp only [dft_sum, Finset.mul_sum]

/-- Pairing of the inverse stage sequence against `d`:
`<inv v, d> = c_inv sum_f v f conj(D f)` with `D` the DFT of `d`. -/
theorem pairing_inv_left {T : Tables K} {ω c_fwd c_inv : K}
    (hT : T.toM.IsDFT ω c_fwd c_inv) (hstar : star ω = ω⁻¹) (d : ℕ → K)
    (v : ℕ → ℕ → ℕ → K) :
    pairing 4096 (flat 16 (T.toM.inv v)) d
      = c_inv * ∑ f1 ∈ Finset.range 16, ∑ f2 ∈ Finset.range 16, ∑ f3 ∈ Finset.range 16,
          v f1 f2 f3 * star (dft_sum 4096 ω d (freq 16 16 f1 f2 f3)) := by
  unfold pairing
  have h1 : ∀ n ∈ Finset.range 4096, flat 16 (T.toM.inv v) n * star (d n)
      = ∑ f1 ∈ Finset.range 16, ∑ f2 ∈ Finset.range 16, ∑ f3 ∈ Finset.range 16,
          c_inv * (v f1 f2 f3 * (star (d n) * ω⁻¹ ^ (n * freq 16 16 f1 f2 f3))) := by
    intro n hn
    rw [flat_inv16 hT v n (Finset.mem_range.mp hn)]
    simp only [Finset.mul_sum, Finset.sum_mul]
    apply Finset.sum_congr rfl
    intro f1 _
    apply Finset.sum_congr rfl
    intro f2 _
    apply Finset.sum_congr rfl
    intro f3 _
    ring
  rw [Finset.sum_congr rfl h1, sum_comm3]
  simp only [dft_sum, star_sum, star_mul', star_pow, hstar, Finset.mul_sum]

/-- The adjoint identity behind the `dx` gradient check, on sequences. -/
theorem adjoint_dx {T : Tables K} {ω c_fwd c_inv : K}
    (hT : T.toM.IsDFT ω c_fwd c_inv) (hstar : star ω = ω⁻¹)
    (hreal : star (c_fwd * c_inv) = c_fwd * c_inv) (dout d : ℕ → K) (kf : ℕ → ℕ → ℕ → K) :
    pairing 4096 dout (flat 16 (T.toM.inv (fun f1 f2 f3 => T.toM.fwd d f1 f2 f3 * kf f1 f2 f3)))
      = pairing 4096
          (flat 16 (T.toM.inv (fun f1 f2 f3 => T.toM.fwd dout f1 f2 f3 * star (kf f1 f2 f3))))
          d := by
  rw [pairing_inv_right hT hstar, pairing_inv_left hT hstar,
    sum_fwd16 hT d (fun z f1 f2 f3 => star (z * kf f1 f2 f3)
      * dft_sum 4096 ω dout (freq 16 16 f1 f2 f3)),
    sum_fwd16 hT dout (fun z f1 f2 f3 => z * star (kf f1 f2 f3)
      * star (dft_sum 4096 ω d (freq 16 16 f1 f2 f3)))]
  simp only [Finset.mul_sum]
  apply Finset.sum_congr rfl
  intro f1 _
  apply Finset.sum_congr rfl
  intro f2 _
  apply Finset.sum_congr rfl
  intro f3 _
  simp only [star_mul'] at hreal ⊢
  linear_combination (star (dft_sum 4096 ω d (freq 16 16 f1 f2 f3)) * star (kf f1 f2 f3)
    * dft_sum 4096 ω dout (freq 16 16 f1 f2 f3)) * hreal

omit [StarRing K] in
theorem sum_flat16 (w : ℕ → ℕ → ℕ → K) (g : K → ℕ → K) :
    ∑ j ∈ Finset.range 4096, g (flat 16 w j) j
      = ∑ f1 ∈ Finset.range 16, ∑ f2 ∈ Finset.range 16, ∑ f3 ∈ Finset.range 16,
          g (w f1 f2 f3) (256 * f1 + 16 * f2 + f3) := by
  rw [show (4096 : ℕ) = 16 * 16 * 16 from rfl,
    ← sum_pos_digits 16 16 (fun j => g (flat 16 w j) j)]
  apply Finset.sum_congr rfl
  intro f1 _
  apply Finset.sum_congr rfl
  intro f2 h2
  apply Finset.sum_congr rfl
  intro f3 h3
  have e : 16 * 16 * f1 + 16 * f2 + f3 = 256 * f1 + 16 * f2 + f3 := by omega
  rw [e, flat_digits w f1 f2 f3 (Finset.mem_range.mp h2) (Finset.mem_range.mp h3)]

/-- The adjoint identity behind the `dk_f` gradient check, on sequences: it holds when
`conj(c_inv) = c_fwd * N`. -/
theorem adjoint_dk_f {T : Tables K} {ω c_fwd c_inv : K}
    (hT : T.toM.IsDFT ω c_fwd c_inv) (hstar : star ω = ω⁻¹)
    (hnorm : star c_inv = c_fwd * ((4096 : ℕ) : K)) (dout x q : ℕ → K) :
    pairing 4096 dout
        (flat 16 (T.toM.inv (fun f1 f2 f3 =>
          T.toM.fwd x f1 f2 f3 * q (256 * f1 + 16 * f2 + f3))))
      = pairing 4096
          (fun j => flat 16 (T.toM.fwd dout) j
            * star (((4096 : ℕ) : K) * flat 16 (T.toM.fwd x) j)) q := by
  rw [pairing_inv_right hT hstar]
  unfold pairing
  rw [sum_flat16 (T.toM.fwd dout)
      (fun z j => z * star (((4096 : ℕ) : K) * flat 16 (T.toM.fwd x) j) * star (q j)),
    sum_fwd16 hT dout (fun z f1 f2 f3 =>
      z * star (((4096 : ℕ) : K) * flat 16 (T.toM.fwd x) (256 * f1 + 16 * f2 + f3))
        * star (q (256 * f1 + 16 * f2 + f3)))]
  have hx : ∀ f1 f2 f3, f2 < 16 → f3 < 16 →
      flat 16 (T.toM.fwd x) (256 * f1 + 16 * f2 + f3) = T.toM.fwd x f1 f2 f3 :=
    fun f1 f2 f3 h2 h3 => flat_digits _ f1 f2 f3 h2 h3
  rw [Finset.mul_sum]
  apply Finset.sum_congr rfl
  intro f1 h1
  rw [Finset.mul_sum]
  apply Finset.sum_congr rfl
  intro f2 h2
  rw [Finset.mul_sum]
  apply Finset.sum_congr rfl
  intro f3 h3
  have h0 := MTables.fwd_eq_dft hT x f1 f2 f3 (Finset.mem_range.mp h1)
    (Finset.mem_range.mp h2) (Finset.mem_range.mp h3)
  have h : T.toM.fwd x f1 f2 f3 = c_fwd * dft_sum 4096 ω x (freq 16 16 f1 f2 f3) := by
    rw [h0]
    simp only [Tables.toM]
  rw [hx f1 f2 f3 (Finset.mem_range.mp h2) (Finset.mem_range.mp h3), h]
  simp only [star_mul', star_natCast]
  linear_combination (star c_fwd * star (dft_sum 4096 ω x (freq 16 16 f1 f2 f3))
    * star (q (256 * f1 + 16 * f2 + f3)) * dft_sum 4096 ω dout (freq 16 16 f1 f2 f3)) * hnorm

end adjoint

/-! ## Gradient checks -/

section gradient

theorem pairing_congr {K : Type} [CommRing K] [StarRing K] (N : ℕ) (u u1 v v1 : ℕ → K)
    (hu : ∀ j, j < N → u j = u1 j) (hv : ∀ j, j < N → v j = v1 j) :
    pairing N u v = pairing N u1 v1 := by
  unfold pairing
  apply Finset.sum_congr rfl
  intro j hj
  rw [hu j (Finset.mem_range.mp hj), hv j (Finset.mem_range.mp hj)]

/-- The forward tile output as a sequence: the inverse stage sequence of the product. -/
theorem fwd_unit_flat {K : Type} [CommRing K] (P : Params) (hv : P.Valid) (T : Tables K)
    (a_inp k_f : ℕ → K) (regs : ℕ → ℕ → K) (bY ht : ℕ) (a_0 : ℕ → K) (off : ℕ)
    (s : FwdState K) (j : ℕ) (hj : j < 4096) :
    (fwd_batch_body P T a_inp (k_frag P (fwd_stage_k_f P k_f regs bY ht a_0)) off s).out
        (off + j)
      = flat 16 (T.toM.inv (fun f1 f2 f3 => T.toM.fwd (fun i => a_inp (off + i)) f1 f2 f3
          * k_f (fwd_k_f_offset P bY ht + (256 * f1 + 16 * f2 + f3)))) j := by
  conv_lhs => rw [← flat_index j]
  rw [fwd_unit_out P hv T a_inp k_f regs bY ht a_0 off s _ _ _ (by omega) (by omega)
    (by omega)]
  rfl

theorem complex_star_root {ω : ℂ} {N : ℕ} (hN : N ≠ 0) (h : ω ^ N = 1) : star ω = ω⁻¹ := by
  have h1 : ‖ω‖ = 1 := Complex.norm_eq_one_of_pow_eq_one h hN
  rw [Complex.inv_eq_conj h1]
  rfl

theorem star_norm_pair {K : Type} [Field K] [StarRing K] {c_fwd c_inv : K} {N : ℕ}
    (hc : c_fwd * c_inv * (N : K) = 1) : star (c_fwd * c_inv) = c_fwd * c_inv := by
  have h := eq_inv_of_mul_eq_one_left hc
  rw [h, star_inv₀, star_natCast]

/-- The `dx` gradient check on the tiles of the two kernels, as an equality of pairings. -/
theorem dx_adjoint_unit {K : Type} [Field K] [StarRing K] (P : Params) (hv : P.Valid)
    (T : Tables K) (ω c_fwd c_inv : K)
    (hT : T.toM.IsDFT ω c_fwd c_inv) (hstar : star ω = ω⁻¹)
    (hc : c_fwd * c_inv * ((4096 : ℕ) : K) = 1)
    (a_inp dout_inp x_inp k_f : ℕ → K) (regs regs_b : ℕ → ℕ → K) (a_0 a_b : ℕ → K)
    (bY ht off off_b : ℕ) (s : FwdState K) (s_b : BwdState K) :
    pairing 4096 (fun j => dout_inp (off_b + j))
        (fun j => (fwd_batch_body P T a_inp
          (k_frag P (fwd_stage_k_f P k_f regs bY ht a_0)) off s).out (off + j))
      = pairing 4096
          (fun j => (bwd_batch_body P T dout_inp x_inp
            (k_frag P (bwd_stage_k_f P.num_threads P.items_per_thread_input
              (BlockLoad_striped P.num_threads (P.items_per_thread_input / 2) k_f
                (bwd_k_f_offset P.N P.H_TILE_SIZE bY ht) regs_b) a_b))
            off_b s_b).dx_out (off_b + j))
          (fun j => a_inp (off + j)) := by
  rw [pairing_congr 4096 _ _ _ _ (fun _ _ => rfl)
      (fun j hj => fwd_unit_flat P hv T a_inp k_f regs bY ht a_0 off s j hj),
    pairing_congr 4096 (fun j => (bwd_batch_body P T dout_inp x_inp _ off_b s_b).dx_out
        (off_b + j)) _ (fun j => a_inp (off + j)) _
      (fun j hj => bwd_unit_dx P hv T dout_inp x_inp k_f regs_b a_b _ off_b s_b j hj)
      (fun _ _ => rfl)]
  exact adjoint_dx hT hstar (star_norm_pair hc) (fun j => dout_inp (off_b + j))
    (fun i => a_inp (off + i))
    (fun f1 f2 f3 => k_f (fwd_k_f_offset P bY ht + (256 * f1 + 16 * f2 + f3)))

end gradient

/-- C5: gradient correctness for `dx`, in exact complex arithmetic, with tables of a
length-4096 DFT pair (`c_fwd * c_inv * N = 1`; in particular the unnormalised forward DFT
with its exact inverse).  For every signal perturbation `d` (the input window of the forward
tile), filter spectrum `k_f` and output gradient `dout` (the `dout` window of the backward
tile): `Re <dout, forward(d; k_f)> = Re <dx(dout; k_f), d>`. -/
theorem C5_dx_gradient (P : Params) (hv : P.Valid) (T : Tables ℂ) (ω c_fwd c_inv : ℂ)
    (hT : T.toM.IsDFT ω c_fwd c_inv) (hc : c_fwd * c_inv * ((4096 : ℕ) : ℂ) = 1)
    (a_inp dout_inp x_inp k_f : ℕ → ℂ) (regs regs_b : ℕ → ℕ → ℂ) (a_0 a_b : ℕ → ℂ)
    (bx bY ht bt : ℕ) (s : FwdState ℂ) (s_b : BwdState ℂ) :
    (pairing 4096
        (fun j => dout_inp
          (bwd_input_offset P.H P.signal_size P.B_TILE_SIZE P.H_TILE_SIZE bx bY ht bt + j))
        (fun j => (fwd_batch_body P T a_inp (k_frag P (fwd_stage_k_f P k_f regs bY ht a_0))
          (fwd_input_offset P bx bY ht bt) s).out (fwd_input_offset P bx bY ht bt + j))).re
      = (pairing 4096
          (fun j => (bwd_batch_body P T dout_inp x_inp
            (k_frag P (bwd_stage_k_f P.num_threads P.items_per_thread_input
              (BlockLoad_striped P.num_threads (P.items_per_thread_input / 2) k_f
                (bwd_k_f_offset P.N P.H_TILE_SIZE bY ht) regs_b) a_b))
            (bwd_input_offset P.H P.signal_size P.B_TILE_SIZE P.H_TILE_SIZE bx bY ht bt)
            s_b).dx_out
            (bwd_input_offset P.H P.signal_size P.B_TILE_SIZE P.H_TILE_SIZE bx bY ht bt + j))
          (fun j => a_inp (fwd_input_offset P bx bY ht bt + j))).re :=
  congrArg Complex.re
    (dx_adjoint_unit P hv T ω c_fwd c_inv hT
      (complex_star_root (show (4096 : ℕ) ≠ 0 by norm_num)
        (by simpa [Tables.toM] using hT.root.pow_eq_one)) hc
      a_inp dout_inp x_inp k_f regs regs_b a_0 a_b bY ht _ _ s s_b)

section gradient_dk
variable {K : Type} [Field K] [StarRing K]

/-- The `dk_f` gradient check on the tiles of the two kernels (one batch element per tile),
as an equality of pairings: it holds when `conj(c_inv) = c_fwd * N`. -/
theorem dk_f_adjoint_unit (P : Params) (hv : P.Valid) (hB : P.B_TILE_SIZE = 1)
    (T : Tables K) (ω c_fwd c_inv : K)
    (hT : T.toM.IsDFT ω c_fwd c_inv) (hstar : star ω = ω⁻¹)
    (hnorm : star c_inv = c_fwd * ((4096 : ℕ) : K))
    (a_inp dout_inp x_inp k_f q : ℕ → K) (regs : ℕ → ℕ → K) (a_0 : ℕ → K)
    (bx bY ht : ℕ) (s : FwdState K) (s_b : BwdState K)
    (hx : ∀ i, i < 4096 → a_inp (fwd_input_offset P bx bY ht 0 + i)
      = x_inp (bwd_input_offset P.H P.signal_size P.B_TILE_SIZE P.H_TILE_SIZE bx bY ht 0 + i)) :
    pairing 4096
        (fun j => dout_inp
          (bwd_input_offset P.H P.signal_size P.B_TILE_SIZE P.H_TILE_SIZE bx bY ht 0 + j))
        (fun j => (fwd_batch_body P T a_inp (k_frag P (fwd_stage_k_f P q regs bY ht a_0))
          (fwd_input_offset P bx bY ht 0) s).out (fwd_input_offset P bx bY ht 0 + j))
      = pairing 4096
          (fun j => (bwd_channel_body P T dout_inp x_inp k_f bx bY ht s_b).dk_f_out
            (bwd_dk_f_offset P.N P.H P.H_TILE_SIZE bx bY ht + j))
          (fun j => q (fwd_k_f_offset P bY ht + j)) := by
  have hdk : ∀ j, j < 4096 →
      (bwd_channel_body P T dout_inp x_inp k_f bx bY ht s_b).dk_f_out
          (bwd_dk_f_offset P.N P.H P.H_TILE_SIZE bx bY ht + j)
        = flat 16 (T.toM.fwd (fun i => dout_inp
            (bwd_input_offset P.H P.signal_size P.B_TILE_SIZE P.H_TILE_SIZE bx bY ht 0 + i))) j
          * star (((4096 : ℕ) : K) * flat 16 (T.toM.fwd (fun i => a_inp
            (fwd_input_offset P bx bY ht 0 + i))) j) := by
    intro j hj
    rw [bwd_channel_dk_f P hv T dout_inp x_inp k_f bx bY ht s_b j hj, hB,
      Finset.sum_range_one, hv.hN, ← hB,
      fwd_window_congr16 T a_inp x_inp _ _ hx j]
  rw [pairing_congr 4096 _ _ _ _ (fun _ _ => rfl)
      (fun j hj => fwd_unit_flat P hv T a_inp q regs bY ht a_0 _ s j hj),
    pairing_congr 4096 (fun j => (bwd_channel_body P T dout_inp x_inp k_f bx bY ht
        s_b).dk_f_out (bwd_dk_f_offset P.N P.H P.H_TILE_SIZE bx bY ht + j)) _
      (fun j => q (fwd_k_f_offset P bY ht + j)) _ hdk (fun _ _ => rfl)]
  exact adjoint_dk_f hT hstar hnorm _ (fun i => a_inp (fwd_input_offset P bx bY ht 0 + i))
    (fun j => q (fwd_k_f_offset P bY ht + j))

end gradient_dk

section delta

/-- On DFT tables the forward stage sequence of the unit impulse is the constant `c_fwd`. -/
theorem fwd_flat_delta {K : Type} [Field K] {T : Tables K} {ω c_fwd c_inv : K}
    (hT : T.toM.IsDFT ω c_fwd c_inv) (j : ℕ) (hj : j < 4096) :
    flat 16 (T.toM.fwd (unit_impulse K)) j = c_fwd := by
  unfold flat unit_impulse
  rw [MTables.fwd_eq_dft hT _ _ _ _ (by simp only [Tables.toM]; omega)
    (by simp only [Tables.toM]; omega) (by simp only [Tables.toM]; omega),
    dft_sum_delta _ (by simp only [Tables.toM]; norm_num), mul_one]

theorem pairing_delta {K : Type} [CommRing K] [StarRing K] (N : ℕ) (hN : 0 < N) :
    pairing N (unit_impulse K) (unit_impulse K) = 1 := by
  unfold pairing unit_impulse
  rw [Finset.sum_eq_single 0]
  · simp
  · intro m _ hne
    simp [hne]
  · intro h
    exact absurd (Finset.mem_range.mpr hN) h

theorem pairing_const {K : Type} [CommRing K] [StarRing K] (N : ℕ) (c : K) :
    pairing N (fun _ => c) (fun _ => 1) = (N : K) * c := by
  unfold pairing
  simp [Finset.sum_const, Finset.card_range, nsmul_eq_mul]

theorem fwd_input_offset_zero (P : Params) (ht bt : ℕ) (hht : ht = 0) (hbt : bt = 0) :
    fwd_input_offset P 0 0 ht bt = 0 := by
  subst hht hbt
  simp [fwd_input_offset, u32]

theorem bwd_input_offset_zero (H ss BT HT : ℕ) :
    bwd_input_offset H ss BT HT 0 0 0 0 = 0 := by
  simp [bwd_input_offset, u32]

end delta

/-- Witness of C5: the unnormalised complex DFT on `exp(2 pi i / 4096)` with its exact
inverse, all-ones data. -/
theorem C5_dx_gradient_witness :
    (pairing 4096
        (fun j => (all_ones ℂ)
          (bwd_input_offset (config 1 1 1 1).H (config 1 1 1 1).signal_size (config 1 1 1 1).B_TILE_SIZE (config 1 1 1 1).H_TILE_SIZE 0 0 0 0 + j))
        (fun j => (fwd_batch_body (config 1 1 1 1) (dft_tables (Complex.exp (2 * Real.pi * Complex.I / (4096 : ℕ))) 1 (1 / 4096)) (all_ones ℂ) (k_frag (config 1 1 1 1) (fwd_stage_k_f (config 1 1 1 1) (all_ones ℂ) (fun _ _ => 0) 0 0 (fun _ => 0)))
          (fwd_input_offset (config 1 1 1 1) 0 0 0 0) ⟨fun _ => 0, fun _ => 0⟩).out (fwd_input_offset (config 1 1 1 1) 0 0 0 0 + j))).re
      = (pairing 4096
          (fun j => (bwd_batch_body (config 1 1 1 1) (dft_tables (Complex.exp (2 * Real.pi * Complex.I / (4096 : ℕ))) 1 (1 / 4096)) (all_ones ℂ) (all_ones ℂ)
            (k_frag (config 1 1 1 1) (bwd_stage_k_f (config 1 1 1 1).num_threads (config 1 1 1 1).items_per_thread_input
              (BlockLoad_striped (config 1 1 1 1).num_threads ((config 1 1 1 1).items_per_thread_input / 2) (all_ones ℂ)
                (bwd_k_f_offset (config 1 1 1 1).N (config 1 1 1 1).H_TILE_SIZE 0 0) (fun _ _ => 0)) (fun _ => 0)))
            (bwd_input_offset (config 1 1 1 1).H (config 1 1 1 1).signal_size (config 1 1 1 1).B_TILE_SIZE (config 1 1 1 1).H_TILE_SIZE 0 0 0 0)
            ⟨fun _ => 0, fun _ => 0, fun _ _ => 0, fun _ _ => 0, fun _ => 0, fun _ => 0⟩).dx_out
            (bwd_input_offset (config 1 1 1 1).H (config 1 1 1 1).signal_size (config 1 1 1 1).B_TILE_SIZE (config 1 1 1 1).H_TILE_SIZE 0 0 0 0 + j))
          (fun j => (all_ones ℂ) (fwd_input_offset (config 1 1 1 1) 0 0 0 0 + j))).re :=
  C5_dx_gradient (config 1 1 1 1) (config_valid 1 1 1 1) _ _ _ _
    (dft_tables_isDFT primitive_root_4096 1 (1 / 4096)) (by norm_num) (all_ones ℂ) (all_ones ℂ)
    (all_ones ℂ) (all_ones ℂ) (fun _ _ => 0) (fun _ _ => 0) (fun _ => 0) (fun _ => 0) 0 0 0 0
    ⟨fun _ => 0, fun _ => 0⟩
    ⟨fun _ => 0, fun _ => 0, fun _ _ => 0, fun _ _ => 0, fun _ => 0, fun _ => 0⟩

/-- C6, amended: gradient correctness for `dk_f` with one batch element per tile
(`B_TILE_SIZE = 1`), in exact complex arithmetic, with tables of a length-4096 DFT pair whose
normalisations satisfy `conj(c_inv) = N * c_fwd` (in particular `c_fwd = 1/N`, `c_inv = 1`:
the forward transform carries the `1/N`, the inverse transform is unnormalised).  For every
filter spectrum `q`, signal `x` and output gradient `dout`:
`Re <dout, forward(x; q)> = Re <dk_f(dout, x), q>`. -/
theorem C6_dk_f_gradient_amended (P : Params) (hv : P.Valid) (hB : P.B_TILE_SIZE = 1)
    (T : Tables ℂ) (ω c_fwd c_inv : ℂ) (hT : T.toM.IsDFT ω c_fwd c_inv)
    (hnorm : star c_inv = c_fwd * ((4096 : ℕ) : ℂ))
    (a_inp dout_inp x_inp k_f q : ℕ → ℂ) (regs : ℕ → ℕ → ℂ) (a_0 : ℕ → ℂ)
    (bx bY ht : ℕ) (s : FwdState ℂ) (s_b : BwdState ℂ)
    (hx : ∀ i, i < 4096 → a_inp (fwd_input_offset P bx bY ht 0 + i)
      = x_inp (bwd_input_offset P.H P.signal_size P.B_TILE_SIZE P.H_TILE_SIZE bx bY ht 0 + i)) :
    (pairing 4096
        (fun j => dout_inp
          (bwd_input_offset P.H P.signal_size P.B_TILE_SIZE P.H_TILE_SIZE bx bY ht 0 + j))
        (fun j => (fwd_batch_body P T a_inp (k_frag P (fwd_stage_k_f P q regs bY ht a_0))
          (fwd_input_offset P bx bY ht 0) s).out (fwd_input_offset P bx bY ht 0 + j))).re
      = (pairing 4096
          (fun j => (bwd_channel_body P T dout_inp x_inp k_f bx bY ht s_b).dk_f_out
            (bwd_dk_f_offset P.N P.H P.H_TILE_SIZE bx bY ht + j))
          (fun j => q (fwd_k_f_offset P bY ht + j))).re :=
  congrArg Complex.re
    (dk_f_adjoint_unit P hv hB T ω c_fwd c_inv hT
      (complex_star_root (show (4096 : ℕ) ≠ 0 by norm_num)
        (by simpa [Tables.toM] using hT.root.pow_eq_one)) hnorm
      a_inp dout_inp x_inp k_f q regs a_0 bx bY ht s s_b hx)

/-- Witness of C6 (amended): the complex DFT tables on `exp(2 pi i / 4096)` with the `1/N` on
the forward coarse twiddle, all-ones data. -/
theorem C6_dk_f_gradient_amended_witness :
    (pairing 4096
        (fun j => (all_ones ℂ)
          (bwd_input_offset (config 1 1 1 1).H (config 1 1 1 1).signal_size (config 1 1 1 1).B_TILE_SIZE (config 1 1 1 1).H_TILE_SIZE 0 0 0 0 + j))
        (fun j => (fwd_batch_body (config 1 1 1 1) (dft_tables (Complex.exp (2 * Real.pi * Complex.I / (4096 : ℕ))) (1 / 4096) 1) (all_ones ℂ) (k_frag (config 1 1 1 1) (fwd_stage_k_f (config 1 1 1 1) (all_ones ℂ) (fun _ _ => 0) 0 0 (fun _ => 0)))
          (fwd_input_offset (config 1 1 1 1) 0 0 0 0) ⟨fun _ => 0, fun _ => 0⟩).out (fwd_input_offset (config 1 1 1 1) 0 0 0 0 + j))).re
      = (pairing 4096
          (fun j => (bwd_channel_body (config 1 1 1 1) (dft_tables (Complex.exp (2 * Real.pi * Complex.I / (4096 : ℕ))) (1 / 4096) 1) (all_ones ℂ) (all_ones ℂ) (all_ones ℂ) 0 0 0 ⟨fun _ => 0, fun _ => 0, fun _ _ => 0, fun _ _ => 0, fun _ => 0, fun _ => 0⟩).dk_f_out
            (bwd_dk_f_offset (config 1 1 1 1).N (config 1 1 1 1).H (config 1 1 1 1).H_TILE_SIZE 0 0 0 + j))
          (fun j => (all_ones ℂ) (fwd_k_f_offset (config 1 1 1 1) 0 0 + j))).re :=
  C6_dk_f_gradient_amended (config 1 1 1 1) (config_valid 1 1 1 1) rfl _ _ _ _
    (dft_tables_isDFT primitive_root_4096 (1 / 4096) 1) (by norm_num) (all_ones ℂ)
    (all_ones ℂ) (all_ones ℂ) (all_ones ℂ) (all_ones ℂ) (fun _ _ => 0) (fun _ => 0) 0 0 0
    ⟨fun _ => 0, fun _ => 0⟩
    ⟨fun _ => 0, fun _ => 0, fun _ _ => 0, fun _ _ => 0, fun _ => 0, fun _ => 0⟩ (fun _ _ => rfl)

/-- Counterexample to C6 as stated: with the unnormalised forward DFT and its exact inverse
(`c_fwd = 1`, `c_inv = 1/N`), `x = dout` the unit impulse and `q` identically `1`, the forward
output is the unit impulse, so `Re <dout, forward(x; q)> = 1`, while `dk_f` is identically
`N = 4096`, so `Re <dk_f, q> = N * N = 16777216`. -/
theorem C6_dk_f_gradient_counterexample :
    (pairing 4096
        (fun j => unit_impulse ℂ
          (bwd_input_offset (config 1 1 1 1).H (config 1 1 1 1).signal_size (config 1 1 1 1).B_TILE_SIZE (config 1 1 1 1).H_TILE_SIZE 0 0 0 0 + j))
        (fun j => (fwd_batch_body (config 1 1 1 1) (dft_tables (Complex.exp (2 * Real.pi * Complex.I / (4096 : ℕ))) 1 (1 / 4096)) (unit_impulse ℂ) (k_frag (config 1 1 1 1) (fwd_stage_k_f (config 1 1 1 1) (fun _ => 1) (fun _ _ => 0) 0 0 (fun _ => 0)))
          (fwd_input_offset (config 1 1 1 1) 0 0 0 0) ⟨fun _ => 0, fun _ => 0⟩).out (fwd_input_offset (config 1 1 1 1) 0 0 0 0 + j))).re
      ≠ (pairing 4096
          (fun j => (bwd_channel_body (config 1 1 1 1) (dft_tables (Complex.exp (2 * Real.pi * Complex.I / (4096 : ℕ))) 1 (1 / 4096)) (unit_impulse ℂ) (unit_impulse ℂ) (fun _ => 1) 0 0 0 ⟨fun _ => 0, fun _ => 0, fun _ _ => 0, fun _ _ => 0, fun _ => 0, fun _ => 0⟩).dk_f_out
            (bwd_dk_f_offset (config 1 1 1 1).N (config 1 1 1 1).H (config 1 1 1 1).H_TILE_SIZE 0 0 0 + j))
          (fun _ => 1)).re := by
  have hT := dft_tables_isDFT primitive_root_4096 (1 : ℂ) (1 / 4096)
  have hA : pairing 4096
        (fun j => unit_impulse ℂ
          (bwd_input_offset (config 1 1 1 1).H (config 1 1 1 1).signal_size (config 1 1 1 1).B_TILE_SIZE (config 1 1 1 1).H_TILE_SIZE 0 0 0 0 + j))
        (fun j => (fwd_batch_body (config 1 1 1 1) (dft_tables (Complex.exp (2 * Real.pi * Complex.I / (4096 : ℕ))) 1 (1 / 4096)) (unit_impulse ℂ) (k_frag (config 1 1 1 1) (fwd_stage_k_f (config 1 1 1 1) (fun _ => 1) (fun _ _ => 0) 0 0 (fun _ => 0)))
          (fwd_input_offset (config 1 1 1 1) 0 0 0 0) ⟨fun _ => 0, fun _ => 0⟩).out (fwd_input_offset (config 1 1 1 1) 0 0 0 0 + j)) = 1 := by
    rw [pairing_congr 4096 _ (unit_impulse ℂ) _ (unit_impulse ℂ)
      (fun j _ => by rw [bwd_input_offset_zero, Nat.zero_add])
      (fun j hj => by
        rw [fwd_unit_round_trip (config 1 1 1 1) (config_valid 1 1 1 1) _ _ _ _ hT (by norm_num) _ _ _ _
          0 0 0 0 (fun _ _ => rfl) _ j hj, fwd_input_offset_zero _ 0 0 rfl rfl, Nat.zero_add])]
    exact pairing_delta 4096 (by norm_num)
  have hB : pairing 4096
          (fun j => (bwd_channel_body (config 1 1 1 1) (dft_tables (Complex.exp (2 * Real.pi * Complex.I / (4096 : ℕ))) 1 (1 / 4096)) (unit_impulse ℂ) (unit_impulse ℂ) (fun _ => 1) 0 0 0 ⟨fun _ => 0, fun _ => 0, fun _ _ => 0, fun _ _ => 0, fun _ => 0, fun _ => 0⟩).dk_f_out
            (bwd_dk_f_offset (config 1 1 1 1).N (config 1 1 1 1).H (config 1 1 1 1).H_TILE_SIZE 0 0 0 + j))
          (fun _ => 1) = 16777216 := by
    rw [pairing_congr 4096 _ (fun _ => 4096) _ (fun _ => 1)
      (fun j hj => by
        rw [bwd_channel_dk_f (config 1 1 1 1) (config_valid 1 1 1 1) _ _ _ _ 0 0 0 _ j hj]
        simp only [config, Finset.sum_range_one, bwd_input_offset_zero, Nat.zero_add]
        rw [fwd_flat_delta hT j hj]
        simp)
      (fun _ _ => rfl), pairing_const]
    norm_num
  rw [hA, hB]
  norm_num

/-! ## Offsets without 32-bit overflow, and loops that write each element once -/

section offsets

theorem tile_id_lt {e c B H : ℕ} (he : e < B) (hc : c < H) : e * H + c < B * H := by
  calc e * H + c < e * H + H := by omega
    _ = (e + 1) * H := by ring
    _ ≤ B * H := Nat.mul_le_mul_right H he

/-- Without 32-bit overflow `input_offset` is the row-major offset of (batch, channel). -/
theorem bwd_input_offset_eq {B H ss BT HT bx bY ht bt : ℕ} (hb : bx * BT + bt < B)
    (hh : bY * HT + ht < H) (hnov : B * H * ss ≤ 2147483648) :
    bwd_input_offset H ss BT HT bx bY ht bt
      = ((bx * BT + bt) * H + (bY * HT + ht)) * ss := by
  have key : bx * H * ss * BT + bY * ss * HT + ht * ss + bt * H * ss
      = ((bx * BT + bt) * H + (bY * HT + ht)) * ss := by ring
  have hlt : ((bx * BT + bt) * H + (bY * HT + ht)) * ss ≤ B * H * ss :=
    Nat.mul_le_mul_right ss (Nat.le_of_lt (tile_id_lt hb hh))
  simp only [bwd_input_offset, u32]
  omega

theorem fwd_input_offset_eq (P : Params) {bx bY ht bt : ℕ}
    (hb : bx * P.B_TILE_SIZE + bt < P.B) (hh : bY * P.H_TILE_SIZE + ht < P.H)
    (hnov : P.B * P.H * P.N ≤ 2147483648) :
    fwd_input_offset P bx bY ht bt
      = ((bx * P.B_TILE_SIZE + bt) * P.H + (bY * P.H_TILE_SIZE + ht)) * P.N :=
  bwd_input_offset_eq hb hh hnov

/-- Without 32-bit overflow the filter is read at the row of its channel. -/
theorem bwd_k_f_offset_eq {N H HT bY ht : ℕ} (hh : bY * HT + ht < H)
    (hnov : H * N ≤ 2147483648) :
    bwd_k_f_offset N HT bY ht = (bY * HT + ht) * N := by
  have key : bY * N * HT + ht * N = (bY * HT + ht) * N := by ring
  have hlt : (bY * HT + ht) * N ≤ H * N := Nat.mul_le_mul_right N (Nat.le_of_lt hh)
  simp only [bwd_k_f_offset, u32]
  omega

/-- Without 32-bit overflow `dk_f` is stored at row `blockIdx.x * H + channel`. -/
theorem bwd_dk_f_offset_eq {N H HT gx bx bY ht : ℕ} (hb : bx < gx) (hh : bY * HT + ht < H)
    (hnov : gx * H * N ≤ 2147483648) :
    bwd_dk_f_offset N H HT bx bY ht = (bx * H + (bY * HT + ht)) * N := by
  have key : bY * N * HT + bx * H * N + ht * N = (bx * H + (bY * HT + ht)) * N := by ring
  have hlt : (bx * H + (bY * HT + ht)) * N ≤ gx * H * N :=
    Nat.mul_le_mul_right N (Nat.le_of_lt (tile_id_lt hb hh))
  simp only [bwd_dk_f_offset, u32]
  omega

/-- Decoding an element index `r * N + j` of a row-major array of rows of length `N`. -/
theorem row_decode {N r j : ℕ} (hj : j < N) :
    (r * N + j) / N = r ∧ (r * N + j) % N = j := by
  have hN : 0 < N := by omega
  constructor
  · rw [Nat.add_comm, Nat.add_mul_div_right _ _ hN, Nat.div_eq_of_lt hj, Nat.zero_add]
  · rw [Nat.add_comm, Nat.add_mul_mod_self_right, Nat.mod_eq_of_lt hj]

theorem chan_decode {H e c : ℕ} (hc : c < H) : (e * H + c) / H = e ∧ (e * H + c) % H = c :=
  row_decode hc

end offsets

section write_once

/-- A loop whose iteration `u` writes `val idx` at every index of its region `R u` and leaves
the other indices alone: after the loop every index of some region holds `val idx`, the
others are unchanged. -/
theorem forRange_write_once {σ K : Type} (get : σ → ℕ → K) (val : ℕ → K)
    (R : ℕ → ℕ → Prop) (n : ℕ) (body : ℕ → σ → σ)
    (hin : ∀ u, u < n → ∀ s idx, R u idx → get (body u s) idx = val idx)
    (hout : ∀ u, u < n → ∀ s idx, ¬ R u idx → get (body u s) idx = get s idx)
    (s : σ) (idx : ℕ) :
    ((∃ u, u < n ∧ R u idx) → get (forRange n body s) idx = val idx) ∧
    ((∀ u, u < n → ¬ R u idx) → get (forRange n body s) idx = get s idx) := by
  induction n with
  | zero =>
    constructor
    · rintro ⟨u, hu, _⟩
      omega
    · intro _
      rfl
  | succ n ih =>
    have ih1 := ih (fun u hu => hin u (by omega)) (fun u hu => hout u (by omega))
    rw [forRange_succ]
    constructor
    · rintro ⟨u, hu, hR⟩
      by_cases hn : R n idx
      · exact hin n (by omega) _ idx hn
      · rw [hout n (by omega) _ idx hn]
        have hne : u ≠ n := fun h => hn (h ▸ hR)
        exact ih1.1 ⟨u, by omega, hR⟩
    · intro h
      rw [hout n (by omega) _ idx (h n (by omega))]
      exact ih1.2 (fun u hu => h u (by omega))

end write_once

/-! ## The forward launch writes the `[B, H, N]` output, whatever the tiling -/

section fwd_launch
variable {K : Type} [CommRing K]

/-- A valid tile of the forward kernel writes the specified values on its output range. -/
theorem fwd_unit_spec (P : Params) (hv : P.Valid) (T : Tables K) (a_inp k_f : ℕ → K)
    (regs : ℕ → ℕ → K) (a_0 : ℕ → K) (hnov : P.B * P.H * P.N ≤ 2147483648)
    (bx bY ht bt : ℕ) (hb : bx * P.B_TILE_SIZE + bt < P.B)
    (hh : bY * P.H_TILE_SIZE + ht < P.H) (s : FwdState K) (idx : ℕ)
    (hidx : fwd_input_offset P bx bY ht bt ≤ idx ∧ idx < fwd_input_offset P bx bY ht bt + 4096) :
    (fwd_batch_body P T a_inp (k_frag P (fwd_stage_k_f P k_f regs bY ht a_0))
        (fwd_input_offset P bx bY ht bt) s).out idx
      = fwd_out_spec T P.H P.N a_inp k_f idx := by
  obtain ⟨j, rfl⟩ : ∃ j, idx = fwd_input_offset P bx bY ht bt + j :=
    ⟨idx - fwd_input_offset P bx bY ht bt, by omega⟩
  have hj : j < 4096 := by omega
  have hBpos : 1 ≤ P.B := by omega
  have hHN : P.H * P.N ≤ 2147483648 := by
    have := Nat.mul_le_mul_right (P.H * P.N) hBpos
    rw [one_mul, ← Nat.mul_assoc] at this
    omega
  have hk : fwd_k_f_offset P bY ht = (bY * P.H_TILE_SIZE + ht) * P.N :=
    bwd_k_f_offset_eq hh hHN
  have hjN : j < P.N := by rw [hv.hN]; exact hj
  have hoff := fwd_input_offset_eq P hb hh hnov
  have hd := row_decode (r := (bx * P.B_TILE_SIZE + bt) * P.H + (bY * P.H_TILE_SIZE + ht)) hjN
  have hc := chan_decode (e := bx * P.B_TILE_SIZE + bt) hh
  rw [fwd_unit_flat P hv T a_inp k_f regs bY ht a_0 _ s j hj]
  unfold fwd_out_spec
  rw [hoff, hd.1, hd.2, hc.2, hk]

/-- The channel loop body of the forward kernel: written region and values. -/
theorem fwd_channel_spec (P : Params) (hv : P.Valid) (T : Tables K) (a_inp k_f : ℕ → K)
    (regs : ℕ → ℕ → K) (hnov : P.B * P.H * P.N ≤ 2147483648)
    (bx bY ht : ℕ) (hb : ∀ bt, bt < P.B_TILE_SIZE → bx * P.B_TILE_SIZE + bt < P.B)
    (hh : bY * P.H_TILE_SIZE + ht < P.H) (s : FwdState K) (idx : ℕ) :
    ((∃ bt, bt < P.B_TILE_SIZE ∧ (fwd_input_offset P bx bY ht bt ≤ idx ∧
        idx < fwd_input_offset P bx bY ht bt + 4096)) →
      (fwd_channel_body P T a_inp k_f regs bx bY ht s).out idx
        = fwd_out_spec T P.H P.N a_inp k_f idx) ∧
    ((∀ bt, bt < P.B_TILE_SIZE → ¬ (fwd_input_offset P bx bY ht bt ≤ idx ∧
        idx < fwd_input_offset P bx bY ht bt + 4096)) →
      (fwd_channel_body P T a_inp k_f regs bx bY ht s).out idx = s.out idx) := by
  unfold fwd_channel_body
  exact forRange_write_once FwdState.out (fwd_out_spec T P.H P.N a_inp k_f)
    (fun bt idx => fwd_input_offset P bx bY ht bt ≤ idx ∧
      idx < fwd_input_offset P bx bY ht bt + 4096) P.B_TILE_SIZE _
    (fun bt hbt s1 idx1 hR =>
      fwd_unit_spec P hv T a_inp k_f regs s.a hnov bx bY ht bt (hb bt hbt) hh s1 idx1 hR)
    (fun bt _ s1 idx1 hR => fwd_batch_body_frame P hv T a_inp _ _ s1 idx1 hR)
    { s with a := fwd_stage_k_f P k_f regs bY ht s.a } idx

/-- One thread block of the forward kernel: written region and values. -/
theorem fwd_kernel_spec (P : Params) (hv : P.Valid) (T : Tables K) (a_inp k_f : ℕ → K)
    (regs : ℕ → ℕ → K) (hnov : P.B * P.H * P.N ≤ 2147483648)
    (bx bY : ℕ) (hb : ∀ bt, bt < P.B_TILE_SIZE → bx * P.B_TILE_SIZE + bt < P.B)
    (hh : ∀ ht, ht < P.H_TILE_SIZE → bY * P.H_TILE_SIZE + ht < P.H) (out : ℕ → K) (idx : ℕ) :
    ((∃ ht, ht < P.H_TILE_SIZE ∧ ∃ bt, bt < P.B_TILE_SIZE ∧
        (fwd_input_offset P bx bY ht bt ≤ idx ∧
          idx < fwd_input_offset P bx bY ht bt + 4096)) →
      monarch_conv_cuda_complex_kernel P T a_inp k_f regs bx bY out idx
        = fwd_out_spec T P.H P.N a_inp k_f idx) ∧
    ((∀ ht, ht < P.H_TILE_SIZE → ¬ ∃ bt, bt < P.B_TILE_SIZE ∧
        (fwd_input_offset P bx bY ht bt ≤ idx ∧
          idx < fwd_input_offset P bx bY ht bt + 4096)) →
      monarch_conv_cuda_complex_kernel P T a_inp k_f regs bx bY out idx = out idx) := by
  unfold monarch_conv_cuda_complex_kernel
  exact forRange_write_once FwdState.out (fwd_out_spec T P.H P.N a_inp k_f)
    (fun ht idx => ∃ bt, bt < P.B_TILE_SIZE ∧ (fwd_input_offset P bx bY ht bt ≤ idx ∧
      idx < fwd_input_offset P bx bY ht bt + 4096)) P.H_TILE_SIZE _
    (fun ht hht s1 idx1 hR =>
      (fwd_channel_spec P hv T a_inp k_f regs hnov bx bY ht hb (hh ht hht) s1 idx1).1 hR)
    (fun ht hht s1 idx1 hR =>
      (fwd_channel_spec P hv T a_inp k_f regs hnov bx bY ht hb (hh ht hht) s1 idx1).2
        (fun bt hbt hin => hR ⟨bt, hbt, hin⟩))
    { a := T.twiddle_factors_256_ifft, out := out } idx

/-- The forward launch: written region and values. -/
theorem fwd_launch_regions (P : Params) (hv : P.Valid) (T : Tables K) (a_inp k_f : ℕ → K)
    (regs : ℕ → ℕ → K) (hnov : P.B * P.H * P.N ≤ 2147483648) (gx gy : ℕ)
    (hB : P.B = gx * P.B_TILE_SIZE) (hH : P.H = gy * P.H_TILE_SIZE) (out : ℕ → K) (idx : ℕ) :
    ((∃ bx, bx < gx ∧ ∃ bY, bY < gy ∧ ∃ ht, ht < P.H_TILE_SIZE ∧ ∃ bt, bt < P.B_TILE_SIZE ∧
        (fwd_input_offset P bx bY ht bt ≤ idx ∧
          idx < fwd_input_offset P bx bY ht bt + 4096)) →
      launch_fwd P T a_inp k_f regs gx gy out idx = fwd_out_spec T P.H P.N a_inp k_f idx) ∧
    ((∀ bx, bx < gx → ¬ ∃ bY, bY < gy ∧ ∃ ht, ht < P.H_TILE_SIZE ∧ ∃ bt,
        bt < P.B_TILE_SIZE ∧ (fwd_input_offset P bx bY ht bt ≤ idx ∧
          idx < fwd_input_offset P bx bY ht bt + 4096)) →
      launch_fwd P T a_inp k_f regs gx gy out idx = out idx) := by
  have hbt : ∀ bx, bx < gx → ∀ bt, bt < P.B_TILE_SIZE → bx * P.B_TILE_SIZE + bt < P.B :=
    fun bx hbx bt hbt => hB ▸ tile_id_lt hbx hbt
  have hht : ∀ bY, bY < gy → ∀ ht, ht < P.H_TILE_SIZE → bY * P.H_TILE_SIZE + ht < P.H :=
    fun bY hbY ht hht => hH ▸ tile_id_lt hbY hht
  have inner : ∀ bx, bx < gx → ∀ (o : ℕ → K) (i : ℕ),
      ((∃ bY, bY < gy ∧ ∃ ht, ht < P.H_TILE_SIZE ∧ ∃ bt, bt < P.B_TILE_SIZE ∧
          (fwd_input_offset P bx bY ht bt ≤ i ∧ i < fwd_input_offset P bx bY ht bt + 4096)) →
        forRange gy (fun blockIdx_y out =>
          monarch_conv_cuda_complex_kernel P T a_inp k_f regs bx blockIdx_y out) o i
          = fwd_out_spec T P.H P.N a_inp k_f i) ∧
      ((∀ bY, bY < gy → ¬ ∃ ht, ht < P.H_TILE_SIZE ∧ ∃ bt, bt < P.B_TILE_SIZE ∧
          (fwd_input_offset P bx bY ht bt ≤ i ∧ i < fwd_input_offset P bx bY ht bt + 4096)) →
        forRange gy (fun blockIdx_y out =>
          monarch_conv_cuda_complex_kernel P T a_inp k_f regs bx blockIdx_y out) o i
          = o i) := by
    intro bx hbx o i
    exact forRange_write_once (fun (o : ℕ → K) => o) (fwd_out_spec T P.H P.N a_inp k_f)
      (fun bY i => ∃ ht, ht < P.H_TILE_SIZE ∧ ∃ bt, bt < P.B_TILE_SIZE ∧
        (fwd_input_offset P bx bY ht bt ≤ i ∧ i < fwd_input_offset P bx bY ht bt + 4096))
      gy _
      (fun bY hbY o1 i1 hR =>
        (fwd_kernel_spec P hv T a_inp k_f regs hnov bx bY (hbt bx hbx) (hht bY hbY) o1 i1).1
          hR)
      (fun bY hbY o1 i1 hR =>
        (fwd_kernel_spec P hv T a_inp k_f regs hnov bx bY (hbt bx hbx) (hht bY hbY) o1 i1).2
          (fun ht hht1 hin => hR ⟨ht, hht1, hin⟩))
      o i
  unfold launch_fwd
  exact forRange_write_once (fun (o : ℕ → K) => o) (fwd_out_spec T P.H P.N a_inp k_f)
    (fun bx i => ∃ bY, bY < gy ∧ ∃ ht, ht < P.H_TILE_SIZE ∧ ∃ bt, bt < P.B_TILE_SIZE ∧
      (fwd_input_offset P bx bY ht bt ≤ i ∧ i < fwd_input_offset P bx bY ht bt + 4096))
    gx _
    (fun bx hbx o1 i1 hR => (inner bx hbx o1 i1).1 hR)
    (fun bx hbx o1 i1 hR => (inner bx hbx o1 i1).2 (fun bY hbY hin => hR ⟨bY, hbY, hin⟩))
    out idx

end fwd_launch

section units

/-- Every element of a `[B, H, N]` array lies in the row of exactly one tile coordinate
`(blockIdx.x, blockIdx.y, h_tile_id, b_tile_id)`: existence. -/
theorem unit_exists {gx gy BT HT N idx : ℕ}
    (h : idx < gx * BT * (gy * HT) * N) :
    ∃ bx, bx < gx ∧ ∃ bY, bY < gy ∧ ∃ ht, ht < HT ∧ ∃ bt, bt < BT ∧
      (((bx * BT + bt) * (gy * HT) + (bY * HT + ht)) * N ≤ idx ∧
        idx < ((bx * BT + bt) * (gy * HT) + (bY * HT + ht)) * N + N) := by
  have hN : 0 < N := by
    rcases Nat.eq_zero_or_pos N with h0 | h0
    · rw [h0] at h
      simp at h
    · exact h0
  have hH : 0 < gy * HT := by
    rcases Nat.eq_zero_or_pos (gy * HT) with h0 | h0
    · rw [h0] at h
      simp at h
    · exact h0
  have hBT : 0 < BT := by
    rcases Nat.eq_zero_or_pos BT with h0 | h0
    · rw [h0] at h
      simp at h
    · exact h0
  have hHT : 0 < HT := by
    rcases Nat.eq_zero_or_pos HT with h0 | h0
    · rw [h0] at hH
      simp at hH
    · exact h0
  have h1 : idx / N < gx * BT * (gy * HT) := (Nat.div_lt_iff_lt_mul hN).mpr h
  have h2 : idx / N / (gy * HT) < gx * BT := (Nat.div_lt_iff_lt_mul hH).mpr h1
  have h3 : idx / N / (gy * HT) / BT < gx := (Nat.div_lt_iff_lt_mul hBT).mpr h2
  have h4 : idx / N % (gy * HT) < gy * HT := Nat.mod_lt _ hH
  have h5 : idx / N % (gy * HT) / HT < gy := (Nat.div_lt_iff_lt_mul hHT).mpr h4
  refine ⟨idx / N / (gy * HT) / BT, h3, idx / N % (gy * HT) / HT, h5,
    idx / N % (gy * HT) % HT, Nat.mod_lt _ hHT, idx / N / (gy * HT) % BT, Nat.mod_lt _ hBT, ?_⟩
  have e1 : idx / N / (gy * HT) / BT * BT + idx / N / (gy * HT) % BT = idx / N / (gy * HT) :=
    Nat.div_add_mod' _ _
  have e2 : idx / N % (gy * HT) / HT * HT + idx / N % (gy * HT) % HT = idx / N % (gy * HT) :=
    Nat.div_add_mod' _ _
  have e3 : idx / N / (gy * HT) * (gy * HT) + idx / N % (gy * HT) = idx / N :=
    Nat.div_add_mod' _ _
  have e4 : idx / N * N + idx % N = idx := Nat.div_add_mod' _ _
  have e5 : idx % N < N := Nat.mod_lt _ hN
  rw [e1, e2, e3]
  omega

/-- The row of a valid tile coordinate lies inside the `[B, H, N]` array. -/
theorem unit_range_le {B H N e c : ℕ} (he : e < B) (hc : c < H) :
    (e * H + c) * N + N ≤ B * H * N := by
  have h := tile_id_lt he hc
  calc (e * H + c) * N + N = (e * H + c + 1) * N := by ring
    _ ≤ B * H * N := Nat.mul_le_mul_right N h

end units

section fwd_launch_spec
variable {K : Type} [CommRing K]

/-- The forward launch on the grid `(B / B_TILE_SIZE, H / H_TILE_SIZE)`, without 32-bit
overflow: every element of the `[B, H, N]` output holds the specified value, which does not
depend on the tiling, and nothing else is written. -/
theorem fwd_launch_spec (P : Params) (hv : P.Valid) (T : Tables K) (a_inp k_f : ℕ → K)
    (regs : ℕ → ℕ → K) (hnov : P.B * P.H * P.N ≤ 2147483648) (gx gy : ℕ)
    (hB : P.B = gx * P.B_TILE_SIZE) (hH : P.H = gy * P.H_TILE_SIZE) (out : ℕ → K) (idx : ℕ) :
    launch_fwd P T a_inp k_f regs gx gy out idx
      = if idx < P.B * P.H * P.N then fwd_out_spec T P.H P.N a_inp k_f idx else out idx := by
  have hreg := fwd_launch_regions P hv T a_inp k_f regs hnov gx gy hB hH out idx
  have hoff : ∀ bx, bx < gx → ∀ bY, bY < gy → ∀ ht, ht < P.H_TILE_SIZE → ∀ bt,
      bt < P.B_TILE_SIZE → fwd_input_offset P bx bY ht bt
        = ((bx * P.B_TILE_SIZE + bt) * P.H + (bY * P.H_TILE_SIZE + ht)) * P.N :=
    fun bx hbx bY hbY ht hht bt hbt =>
      fwd_input_offset_eq P (hB ▸ tile_id_lt hbx hbt) (hH ▸ tile_id_lt hbY hht) hnov
  by_cases h : idx < P.B * P.H * P.N
  · rw [if_pos h]
    apply hreg.1
    have h1 : idx < gx * P.B_TILE_SIZE * (gy * P.H_TILE_SIZE) * P.N := by
      rw [← hB, ← hH]
      exact h
    obtain ⟨bx, hbx, bY, hbY, ht, hht, bt, hbt, hlo, hhi⟩ := unit_exists h1
    refine ⟨bx, hbx, bY, hbY, ht, hht, bt, hbt, ?_⟩
    rw [hoff bx hbx bY hbY ht hht bt hbt, hH]
    have := hv.hN
    omega
  · rw [if_neg h]
    apply hreg.2
    rintro bx hbx ⟨bY, hbY, ht, hht, bt, hbt, hlo, hhi⟩
    rw [hoff bx hbx bY hbY ht hht bt hbt] at hlo hhi
    have := unit_range_le (N := P.N) (hB ▸ tile_id_lt hbx hbt : bx * P.B_TILE_SIZE + bt < P.B)
      (hH ▸ tile_id_lt hbY hht : bY * P.H_TILE_SIZE + ht < P.H)
    have := hv.hN
    omega

end fwd_launch_spec

/-! ## The 16_16_16 backward launch: `dx` in `[B, H, N]`, `dk_f` in `[gridDim.x, H, N]` -/

section bwd_launch
variable {K : Type} [CommRing K] [StarRing K]

theorem chan_rows_le {B H N : ℕ} (hB : 1 ≤ B) (h : B * H * N ≤ 2147483648) :
    H * N ≤ 2147483648 := by
  have := Nat.mul_le_mul_right (H * N) hB
  rw [one_mul, ← Nat.mul_assoc] at this
  omega

/-- A valid tile of the 16_16_16 backward kernel writes the specified `dx` on its range. -/
theorem bwd_unit_dx_spec (P : Params) (hv : P.Valid) (hss : P.signal_size = P.N)
    (T : Tables K) (dout_inp a_inp k_f : ℕ → K) (regs : ℕ → ℕ → K) (a_0 : ℕ → K)
    (hnov : P.B * P.H * P.N ≤ 2147483648)
    (bx bY ht bt : ℕ) (hb : bx * P.B_TILE_SIZE + bt < P.B)
    (hh : bY * P.H_TILE_SIZE + ht < P.H) (s : BwdState K) (idx : ℕ)
    (hidx : bwd_input_offset P.H P.signal_size P.B_TILE_SIZE P.H_TILE_SIZE bx bY ht bt ≤ idx ∧
      idx < bwd_input_offset P.H P.signal_size P.B_TILE_SIZE P.H_TILE_SIZE bx bY ht bt + 4096) :
    (bwd_batch_body P T dout_inp a_inp
        (k_frag P (bwd_stage_k_f P.num_threads P.items_per_thread_input
          (BlockLoad_striped P.num_threads (P.items_per_thread_input / 2) k_f
            (bwd_k_f_offset P.N P.H_TILE_SIZE bY ht) regs) a_0))
        (bwd_input_offset P.H P.signal_size P.B_TILE_SIZE P.H_TILE_SIZE bx bY ht bt) s).dx_out
        idx
      = bwd_dx_spec T P.H P.N dout_inp k_f idx := by
  obtain ⟨j, rfl⟩ : ∃ j, idx
      = bwd_input_offset P.H P.signal_size P.B_TILE_SIZE P.H_TILE_SIZE bx bY ht bt + j :=
    ⟨idx - bwd_input_offset P.H P.signal_size P.B_TILE_SIZE P.H_TILE_SIZE bx bY ht bt,
      by omega⟩
  have hj : j < 4096 := by omega
  have hk : bwd_k_f_offset P.N P.H_TILE_SIZE bY ht = (bY * P.H_TILE_SIZE + ht) * P.N :=
    bwd_k_f_offset_eq hh (chan_rows_le (by omega) hnov)
  have hjN : j < P.N := by rw [hv.hN]; exact hj
  have hoff : bwd_input_offset P.H P.signal_size P.B_TILE_SIZE P.H_TILE_SIZE bx bY ht bt
      = ((bx * P.B_TILE_SIZE + bt) * P.H + (bY * P.H_TILE_SIZE + ht)) * P.N := by
    rw [hss]
    exact bwd_input_offset_eq hb hh hnov
  have hd := row_decode (r := (bx * P.B_TILE_SIZE + bt) * P.H + (bY * P.H_TILE_SIZE + ht)) hjN
  have hc := chan_decode (e := bx * P.B_TILE_SIZE + bt) hh
  rw [bwd_unit_dx P hv T dout_inp a_inp k_f regs a_0 _ _ s j hj]
  unfold bwd_dx_spec
  rw [hoff, hd.1, hd.2, hc.2, hk]

/-- The channel loop body of the 16_16_16 backward kernel: `dx` region and values. -/
theorem bwd_channel_dx_spec (P : Params) (hv : P.Valid) (hss : P.signal_size = P.N)
    (T : Tables K) (dout_inp a_inp k_f : ℕ → K) (hnov : P.B * P.H * P.N ≤ 2147483648)
    (bx bY ht : ℕ) (hb : ∀ bt, bt < P.B_TILE_SIZE → bx * P.B_TILE_SIZE + bt < P.B)
    (hh : bY * P.H_TILE_SIZE + ht < P.H) (s : BwdState K) (idx : ℕ) :
    ((∃ bt, bt < P.B_TILE_SIZE ∧
        (bwd_input_offset P.H P.signal_size P.B_TILE_SIZE P.H_TILE_SIZE bx bY ht bt ≤ idx ∧
          idx < bwd_input_offset P.H P.signal_size P.B_TILE_SIZE P.H_TILE_SIZE bx bY ht bt
            + 4096)) →
      (bwd_channel_body P T dout_inp a_inp k_f bx bY ht s).dx_out idx
        = bwd_dx_spec T P.H P.N dout_inp k_f idx) ∧
    ((∀ bt, bt < P.B_TILE_SIZE →
        ¬ (bwd_input_offset P.H P.signal_size P.B_TILE_SIZE P.H_TILE_SIZE bx bY ht bt ≤ idx ∧
          idx < bwd_input_offset P.H P.signal_size P.B_TILE_SIZE P.H_TILE_SIZE bx bY ht bt
            + 4096)) →
      (bwd_channel_body P T dout_inp a_inp k_f bx bY ht s).dx_out idx = s.dx_out idx) := by
  unfold bwd_channel_body
  exact forRange_write_once BwdState.dx_out (bwd_dx_spec T P.H P.N dout_inp k_f)
    (fun bt idx =>
      bwd_input_offset P.H P.signal_size P.B_TILE_SIZE P.H_TILE_SIZE bx bY ht bt ≤ idx ∧
        idx < bwd_input_offset P.H P.signal_size P.B_TILE_SIZE P.H_TILE_SIZE bx bY ht bt
          + 4096) P.B_TILE_SIZE _
    (fun bt hbt s1 idx1 hR =>
      bwd_unit_dx_spec P hv hss T dout_inp a_inp k_f s.a_input_data s.a hnov bx bY ht bt
        (hb bt hbt) hh s1 idx1 hR)
    (fun bt _ s1 idx1 hR => bwd_batch_body_dx_frame P hv T dout_inp a_inp _ _ s1 idx1 hR)
    _ idx

/-- The channel loop body of the 16_16_16 backward kernel: `dk_f` values on its range. -/
theorem bwd_unit_dk_f_spec (P : Params) (hv : P.Valid) (hss : P.signal_size = P.N)
    (T : Tables K) (dout_inp a_inp k_f : ℕ → K) (hnov : P.B * P.H * P.N ≤ 2147483648)
    (gx : ℕ) (hgx : gx * P.H * P.N ≤ 2147483648)
    (bx bY ht : ℕ) (hbx : bx < gx)
    (hb : ∀ bt, bt < P.B_TILE_SIZE → bx * P.B_TILE_SIZE + bt < P.B)
    (hh : bY * P.H_TILE_SIZE + ht < P.H) (s : BwdState K) (idx : ℕ)
    (hidx : bwd_dk_f_offset P.N P.H P.H_TILE_SIZE bx bY ht ≤ idx ∧
      idx < bwd_dk_f_offset P.N P.H P.H_TILE_SIZE bx bY ht + 4096) :
    (bwd_channel_body P T dout_inp a_inp k_f bx bY ht s).dk_f_out idx
      = dk_f_spec T.toM P.B_TILE_SIZE P.H P.N dout_inp a_inp idx := by
  obtain ⟨j, rfl⟩ : ∃ j, idx = bwd_dk_f_offset P.N P.H P.H_TILE_SIZE bx bY ht + j :=
    ⟨idx - bwd_dk_f_offset P.N P.H P.H_TILE_SIZE bx bY ht, by omega⟩
  have hj : j < 4096 := by omega
  have hjN : j < P.N := by rw [hv.hN]; exact hj
  have hbase : bwd_dk_f_offset P.N P.H P.H_TILE_SIZE bx bY ht
      = (bx * P.H + (bY * P.H_TILE_SIZE + ht)) * P.N := bwd_dk_f_offset_eq hbx hh hgx
  have hd := row_decode (r := bx * P.H + (bY * P.H_TILE_SIZE + ht)) hjN
  have hc := chan_decode (e := bx) hh
  rw [bwd_channel_dk_f P hv T dout_inp a_inp k_f bx bY ht s j hj]
  unfold dk_f_spec
  rw [hbase, hd.1, hd.2, hc.1, hc.2]
  apply Finset.sum_congr rfl
  intro b hb1
  have hoff : bwd_input_offset P.H P.signal_size P.B_TILE_SIZE P.H_TILE_SIZE bx bY ht b
      = ((bx * P.B_TILE_SIZE + b) * P.H + (bY * P.H_TILE_SIZE + ht)) * P.N := by
    rw [hss]
    exact bwd_input_offset_eq (hb b (Finset.mem_range.mp hb1)) hh hnov
  rw [hoff]
  rfl

end bwd_launch

section grid

/-- A grid of thread blocks, each writing `val idx` exactly on its region. -/
theorem grid_write_once {σ K : Type} (get : σ → ℕ → K) (val : ℕ → K)
    (R : ℕ → ℕ → ℕ → Prop) (gx gy : ℕ) (kernel : ℕ → ℕ → σ → σ)
    (hin : ∀ bx, bx < gx → ∀ bY, bY < gy → ∀ s idx, R bx bY idx →
      get (kernel bx bY s) idx = val idx)
    (hout : ∀ bx, bx < gx → ∀ bY, bY < gy → ∀ s idx, ¬ R bx bY idx →
      get (kernel bx bY s) idx = get s idx)
    (s : σ) (idx : ℕ) :
    ((∃ bx, bx < gx ∧ ∃ bY, bY < gy ∧ R bx bY idx) →
      get (forRange gx (fun bx o => forRange gy (fun bY o => kernel bx bY o) o) s) idx
        = val idx) ∧
    ((∀ bx, bx < gx → ∀ bY, bY < gy → ¬ R bx bY idx) →
      get (forRange gx (fun bx o => forRange gy (fun bY o => kernel bx bY o) o) s) idx
        = get s idx) := by
  have inner : ∀ bx, bx < gx → ∀ (o : σ) (i : ℕ),
      ((∃ bY, bY < gy ∧ R bx bY i) →
        get (forRange gy (fun bY o => kernel bx bY o) o) i = val i) ∧
      ((∀ bY, bY < gy → ¬ R bx bY i) →
        get (forRange gy (fun bY o => kernel bx bY o) o) i = get o i) :=
    fun bx hbx o i => forRange_write_once get val (fun bY i => R bx bY i) gy _
      (fun bY hbY s1 i1 hR => hin bx hbx bY hbY s1 i1 hR)
      (fun bY hbY s1 i1 hR => hout bx hbx bY hbY s1 i1 hR) o i
  have outer := forRange_write_once get val (fun bx i => ∃ bY, bY < gy ∧ R bx bY i) gx
    (fun bx o => forRange gy (fun bY o => kernel bx bY o) o)
    (fun bx hbx s1 i1 hR => (inner bx hbx s1 i1).1 hR)
    (fun bx hbx s1 i1 hR => (inner bx hbx s1 i1).2 (fun bY hbY hin1 => hR ⟨bY, hbY, hin1⟩))
    s idx
  exact ⟨outer.1, fun h => outer.2 (fun bx hbx ⟨bY, hbY, hR⟩ => h bx hbx bY hbY hR)⟩

end grid

section bwd_kernel
variable {K : Type} [CommRing K] [StarRing K]

/-- One thread block of the 16_16_16 backward kernel: `dx` region and values. -/
theorem bwd_kernel_dx_spec (P : Params) (hv : P.Valid) (hss : P.signal_size = P.N)
    (T : Tables K) (dout_inp a_inp k_f junk : ℕ → K) (regs : ℕ → ℕ → K)
    (hnov : P.B * P.H * P.N ≤ 2147483648)
    (bx bY : ℕ) (hb : ∀ bt, bt < P.B_TILE_SIZE → bx * P.B_TILE_SIZE + bt < P.B)
    (hh : ∀ ht, ht < P.H_TILE_SIZE → bY * P.H_TILE_SIZE + ht < P.H) (o : BwdOut K)
    (idx : ℕ) :
    ((∃ ht, ht < P.H_TILE_SIZE ∧ ∃ bt, bt < P.B_TILE_SIZE ∧
        (bwd_input_offset P.H P.signal_size P.B_TILE_SIZE P.H_TILE_SIZE bx bY ht bt ≤ idx ∧
          idx < bwd_input_offset P.H P.signal_size P.B_TILE_SIZE P.H_TILE_SIZE bx bY ht bt
            + 4096)) →
      (monarch_conv_bwd_cuda_complex_kernel P T dout_inp a_inp k_f junk regs bx bY o).dx_out idx
        = bwd_dx_spec T P.H P.N dout_inp k_f idx) ∧
    ((∀ ht, ht < P.H_TILE_SIZE → ¬ ∃ bt, bt < P.B_TILE_SIZE ∧
        (bwd_input_offset P.H P.signal_size P.B_TILE_SIZE P.H_TILE_SIZE bx bY ht bt ≤ idx ∧
          idx < bwd_input_offset P.H P.signal_size P.B_TILE_SIZE P.H_TILE_SIZE bx bY ht bt
            + 4096)) →
      (monarch_conv_bwd_cuda_complex_kernel P T dout_inp a_inp k_f junk regs bx bY o).dx_out idx
        = o.dx_out idx) := by
  unfold monarch_conv_bwd_cuda_complex_kernel
  exact forRange_write_once BwdState.dx_out (bwd_dx_spec T P.H P.N dout_inp k_f)
    (fun ht idx => ∃ bt, bt < P.B_TILE_SIZE ∧
      (bwd_input_offset P.H P.signal_size P.B_TILE_SIZE P.H_TILE_SIZE bx bY ht bt ≤ idx ∧
        idx < bwd_input_offset P.H P.signal_size P.B_TILE_SIZE P.H_TILE_SIZE bx bY ht bt
          + 4096)) P.H_TILE_SIZE _
    (fun ht hht s1 idx1 hR =>
      (bwd_channel_dx_spec P hv hss T dout_inp a_inp k_f hnov bx bY ht hb (hh ht hht) s1
        idx1).1 hR)
    (fun ht hht s1 idx1 hR =>
      (bwd_channel_dx_spec P hv hss T dout_inp a_inp k_f hnov bx bY ht hb (hh ht hht) s1
        idx1).2 (fun bt hbt hin => hR ⟨bt, hbt, hin⟩))
    { a := T.twiddle_factors_256_ifft, a_2 := junk, a_input_data := regs, temp := regs,
      dx_out := o.dx_out, dk_f_out := o.dk_f_out } idx

/-- One thread block of the 16_16_16 backward kernel: `dk_f` region and values. -/
theorem bwd_kernel_dk_f_spec (P : Params) (hv : P.Valid) (hss : P.signal_size = P.N)
    (T : Tables K) (dout_inp a_inp k_f junk : ℕ → K) (regs : ℕ → ℕ → K)
    (hnov : P.B * P.H * P.N ≤ 2147483648) (gx : ℕ) (hgx : gx * P.H * P.N ≤ 2147483648)
    (bx bY : ℕ) (hbx : bx < gx)
    (hb : ∀ bt, bt < P.B_TILE_SIZE → bx * P.B_TILE_SIZE + bt < P.B)
    (hh : ∀ ht, ht < P.H_TILE_SIZE → bY * P.H_TILE_SIZE + ht < P.H) (o : BwdOut K)
    (idx : ℕ) :
    ((∃ ht, ht < P.H_TILE_SIZE ∧
        (bwd_dk_f_offset P.N P.H P.H_TILE_SIZE bx bY ht ≤ idx ∧
          idx < bwd_dk_f_offset P.N P.H P.H_TILE_SIZE bx bY ht + 4096)) →
      (monarch_conv_bwd_cuda_complex_kernel P T dout_inp a_inp k_f junk regs bx bY
          o).dk_f_out idx
        = dk_f_spec T.toM P.B_TILE_SIZE P.H P.N dout_inp a_inp idx) ∧
    ((∀ ht, ht < P.H_TILE_SIZE →
        ¬ (bwd_dk_f_offset P.N P.H P.H_TILE_SIZE bx bY ht ≤ idx ∧
          idx < bwd_dk_f_offset P.N P.H P.H_TILE_SIZE bx bY ht + 4096)) →
      (monarch_conv_bwd_cuda_complex_kernel P T dout_inp a_inp k_f junk regs bx bY
          o).dk_f_out idx
        = o.dk_f_out idx) := by
  unfold monarch_conv_bwd_cuda_complex_kernel
  exact forRange_write_once BwdState.dk_f_out
    (dk_f_spec T.toM P.B_TILE_SIZE P.H P.N dout_inp a_inp)
    (fun ht idx => bwd_dk_f_offset P.N P.H P.H_TILE_SIZE bx bY ht ≤ idx ∧
      idx < bwd_dk_f_offset P.N P.H P.H_TILE_SIZE bx bY ht + 4096) P.H_TILE_SIZE _
    (fun ht hht s1 idx1 hR =>
      bwd_unit_dk_f_spec P hv hss T dout_inp a_inp k_f hnov gx hgx bx bY ht hbx hb (hh ht hht)
        s1 idx1 hR)
    (fun ht _ s1 idx1 hR =>
      bwd_channel_body_dk_f_frame P hv T dout_inp a_inp k_f bx bY ht s1 idx1 hR)
    { a := T.twiddle_factors_256_ifft, a_2 := junk, a_input_data := regs, temp := regs,
      dx_out := o.dx_out, dk_f_out := o.dk_f_out } idx

/-- The 16_16_16 backward launch on the grid `(B / B_TILE_SIZE, H / H_TILE_SIZE)`, without
32-bit overflow: every element of the `[B, H, N]` array `dx` holds the specified value, which
does not depend on the tiling, and nothing else is written. -/
theorem bwd_launch_dx_spec (P : Params) (hv : P.Valid) (hss : P.signal_size = P.N)
    (T : Tables K) (dout_inp a_inp k_f junk : ℕ → K) (regs : ℕ → ℕ → K)
    (hnov : P.B * P.H * P.N ≤ 2147483648) (gx gy : ℕ)
    (hB : P.B = gx * P.B_TILE_SIZE) (hH : P.H = gy * P.H_TILE_SIZE) (o : BwdOut K) (idx : ℕ) :
    (launch_bwd P T dout_inp a_inp k_f junk regs gx gy o).dx_out idx
      = if idx < P.B * P.H * P.N then bwd_dx_spec T P.H P.N dout_inp k_f idx
        else o.dx_out idx := by
  have hbt : ∀ bx, bx < gx → ∀ bt, bt < P.B_TILE_SIZE → bx * P.B_TILE_SIZE + bt < P.B :=
    fun bx hbx bt hbt => hB ▸ tile_id_lt hbx hbt
  have hht : ∀ bY, bY < gy → ∀ ht, ht < P.H_TILE_SIZE → bY * P.H_TILE_SIZE + ht < P.H :=
    fun bY hbY ht hht => hH ▸ tile_id_lt hbY hht
  have hreg := grid_write_once BwdOut.dx_out (bwd_dx_spec T P.H P.N dout_inp k_f)
    (fun bx bY idx => ∃ ht, ht < P.H_TILE_SIZE ∧ ∃ bt, bt < P.B_TILE_SIZE ∧
      (bwd_input_offset P.H P.signal_size P.B_TILE_SIZE P.H_TILE_SIZE bx bY ht bt ≤ idx ∧
        idx < bwd_input_offset P.H P.signal_size P.B_TILE_SIZE P.H_TILE_SIZE bx bY ht bt
          + 4096)) gx gy
    (fun bx bY o => monarch_conv_bwd_cuda_complex_kernel P T dout_inp a_inp k_f junk regs
      bx bY o)
    (fun bx hbx bY hbY s1 i1 hR =>
      (bwd_kernel_dx_spec P hv hss T dout_inp a_inp k_f junk regs hnov bx bY (hbt bx hbx)
        (hht bY hbY) s1 i1).1 hR)
    (fun bx hbx bY hbY s1 i1 hR =>
      (bwd_kernel_dx_spec P hv hss T dout_inp a_inp k_f junk regs hnov bx bY (hbt bx hbx)
        (hht bY hbY) s1 i1).2 (fun ht hht1 hin => hR ⟨ht, hht1, hin⟩))
    o idx
  have hoff : ∀ bx, bx < gx → ∀ bY, bY < gy → ∀ ht, ht < P.H_TILE_SIZE → ∀ bt,
      bt < P.B_TILE_SIZE →
        bwd_input_offset P.H P.signal_size P.B_TILE_SIZE P.H_TILE_SIZE bx bY ht bt
        = ((bx * P.B_TILE_SIZE + bt) * P.H + (bY * P.H_TILE_SIZE + ht)) * P.N := by
    intro bx hbx bY hbY ht hht1 bt hbt1
    rw [hss]
    exact bwd_input_offset_eq (hbt bx hbx bt hbt1) (hht bY hbY ht hht1) hnov
  unfold launch_bwd
  by_cases h : idx < P.B * P.H * P.N
  · rw [if_pos h]
    apply hreg.1
    have h1 : idx < gx * P.B_TILE_SIZE * (gy * P.H_TILE_SIZE) * P.N := by
      rw [← hB, ← hH]
      exact h
    obtain ⟨bx, hbx, bY, hbY, ht, hht1, bt, hbt1, hlo, hhi⟩ := unit_exists h1
    refine ⟨bx, hbx, bY, hbY, ht, hht1, bt, hbt1, ?_⟩
    rw [hoff bx hbx bY hbY ht hht1 bt hbt1, hH]
    have := hv.hN
    omega
  · rw [if_neg h]
    apply hreg.2
    rintro bx hbx bY hbY ⟨ht, hht1, bt, hbt1, hlo, hhi⟩
    rw [hoff bx hbx bY hbY ht hht1 bt hbt1] at hlo hhi
    have := unit_range_le (N := P.N) (hbt bx hbx bt hbt1) (hht bY hbY ht hht1)
    have := hv.hN
    omega

/-- The 16_16_16 backward launch on the grid `(gridDim.x, gridDim.y)
= (B / B_TILE_SIZE, H / H_TILE_SIZE)`, without 32-bit overflow: `dk_f_out` is the array
`[gridDim.x, H, N]` of the per-batch-tile sums, and nothing else is written. -/
theorem bwd_launch_dk_f_spec (P : Params) (hv : P.Valid) (hss : P.signal_size = P.N)
    (T : Tables K) (dout_inp a_inp k_f junk : ℕ → K) (regs : ℕ → ℕ → K)
    (hnov : P.B * P.H * P.N ≤ 2147483648) (gx gy : ℕ) (hBT : 0 < P.B_TILE_SIZE)
    (hB : P.B = gx * P.B_TILE_SIZE) (hH : P.H = gy * P.H_TILE_SIZE) (o : BwdOut K) (idx : ℕ) :
    (launch_bwd P T dout_inp a_inp k_f junk regs gx gy o).dk_f_out idx
      = if idx < gx * P.H * P.N then dk_f_spec T.toM P.B_TILE_SIZE P.H P.N dout_inp a_inp idx
        else o.dk_f_out idx := by
  have hbt : ∀ bx, bx < gx → ∀ bt, bt < P.B_TILE_SIZE → bx * P.B_TILE_SIZE + bt < P.B :=
    fun bx hbx bt hbt => hB ▸ tile_id_lt hbx hbt
  have hht : ∀ bY, bY < gy → ∀ ht, ht < P.H_TILE_SIZE → bY * P.H_TILE_SIZE + ht < P.H :=
    fun bY hbY ht hht => hH ▸ tile_id_lt hbY hht
  have hgx : gx * P.H * P.N ≤ 2147483648 := by
    have h1 : gx ≤ P.B := by
      rw [hB]
      exact Nat.le_mul_of_pos_right gx hBT
    have h2 : gx * P.H * P.N ≤ P.B * P.H * P.N :=
      Nat.mul_le_mul_right _ (Nat.mul_le_mul_right _ h1)
    omega
  have hreg := grid_write_once BwdOut.dk_f_out
    (dk_f_spec T.toM P.B_TILE_SIZE P.H P.N dout_inp a_inp)
    (fun bx bY idx => ∃ ht, ht < P.H_TILE_SIZE ∧
      (bwd_dk_f_offset P.N P.H P.H_TILE_SIZE bx bY ht ≤ idx ∧
        idx < bwd_dk_f_offset P.N P.H P.H_TILE_SIZE bx bY ht + 4096)) gx gy
    (fun bx bY o => monarch_conv_bwd_cuda_complex_kernel P T dout_inp a_inp k_f junk regs
      bx bY o)
    (fun bx hbx bY hbY s1 i1 hR =>
      (bwd_kernel_dk_f_spec P hv hss T dout_inp a_inp k_f junk regs hnov gx hgx bx bY hbx
        (hbt bx hbx) (hht bY hbY) s1 i1).1 hR)
    (fun bx hbx bY hbY s1 i1 hR =>
      (bwd_kernel_dk_f_spec P hv hss T dout_inp a_inp k_f junk regs hnov gx hgx bx bY hbx
        (hbt bx hbx) (hht bY hbY) s1 i1).2 (fun ht hht1 hin => hR ⟨ht, hht1, hin⟩))
    o idx
  have hoff : ∀ bx, bx < gx → ∀ bY, bY < gy → ∀ ht, ht < P.H_TILE_SIZE →
      bwd_dk_f_offset P.N P.H P.H_TILE_SIZE bx bY ht
        = (bx * P.H + (bY * P.H_TILE_SIZE + ht)) * P.N :=
    fun bx hbx bY hbY ht hht1 => bwd_dk_f_offset_eq hbx (hht bY hbY ht hht1) hgx
  unfold launch_bwd
  by_cases h : idx < gx * P.H * P.N
  · rw [if_pos h]
    apply hreg.1
    have h1 : idx < gx * 1 * (gy * P.H_TILE_SIZE) * P.N := by
      rw [Nat.mul_one, ← hH]
      exact h
    obtain ⟨bx, hbx, bY, hbY, ht, hht1, bt, hbt1, hlo, hhi⟩ := unit_exists h1
    refine ⟨bx, hbx, bY, hbY, ht, hht1, ?_⟩
    rw [hoff bx hbx bY hbY ht hht1, hH]
    have hb0 : bt = 0 := by omega
    rw [hb0, Nat.mul_one, Nat.add_zero] at hlo hhi
    have := hv.hN
    omega
  · rw [if_neg h]
    apply hreg.2
    rintro bx hbx bY hbY ⟨ht, hht1, hlo, hhi⟩
    rw [hoff bx hbx bY hbY ht hht1] at hlo hhi
    have := unit_range_le (N := P.N) hbx (hht bY hbY ht hht1)
    have := hv.hN
    omega

end bwd_kernel

/-! ## The 16_32_32 backward launch: `dk_f` in `[gridDim.x, H, N]` -/

section bwd32_launch
variable {K : Type} [CommRing K] [StarRing K]

/-- The channel loop body of the 16_32_32 backward kernel: `dk_f` values on its range. -/
theorem bwd32_unit_dk_f_spec (P : Params32) (hv : P.Valid) (hss : P.signal_size = P.N)
    (T : Tables32 K) (dout_inp a_inp k_f : ℕ → K) (hnov : P.B * P.H * P.N ≤ 2147483648)
    (gx : ℕ) (hgx : gx * P.H * P.N ≤ 2147483648)
    (bx bY ht : ℕ) (hbx : bx < gx)
    (hb : ∀ bt, bt < P.B_TILE_SIZE → bx * P.B_TILE_SIZE + bt < P.B)
    (hh : bY * P.H_TILE_SIZE + ht < P.H) (s : BwdState K) (idx : ℕ)
    (hidx : bwd_dk_f_offset P.N P.H P.H_TILE_SIZE bx bY ht ≤ idx ∧
      idx < bwd_dk_f_offset P.N P.H P.H_TILE_SIZE bx bY ht + 16384) :
    (bwd32_channel_body P T dout_inp a_inp k_f bx bY ht s).dk_f_out idx
      = dk_f_spec T.toM P.B_TILE_SIZE P.H P.N dout_inp a_inp idx := by
  obtain ⟨j, rfl⟩ : ∃ j, idx = bwd_dk_f_offset P.N P.H P.H_TILE_SIZE bx bY ht + j :=
    ⟨idx - bwd_dk_f_offset P.N P.H P.H_TILE_SIZE bx bY ht, by omega⟩
  have hj : j < 16384 := by omega
  have hjN : j < P.N := by rw [hv.hN]; exact hj
  have hbase : bwd_dk_f_offset P.N P.H P.H_TILE_SIZE bx bY ht
      = (bx * P.H + (bY * P.H_TILE_SIZE + ht)) * P.N := bwd_dk_f_offset_eq hbx hh hgx
  have hd := row_decode (r := bx * P.H + (bY * P.H_TILE_SIZE + ht)) hjN
  have hc := chan_decode (e := bx) hh
  rw [bwd32_channel_dk_f P hv T dout_inp a_inp k_f bx bY ht s j hj]
  unfold dk_f_spec
  rw [hbase, hd.1, hd.2, hc.1, hc.2]
  apply Finset.sum_congr rfl
  intro b hb1
  have hoff : bwd_input_offset P.H P.signal_size P.B_TILE_SIZE P.H_TILE_SIZE bx bY ht b
      = ((bx * P.B_TILE_SIZE + b) * P.H + (bY * P.H_TILE_SIZE + ht)) * P.N := by
    rw [hss]
    exact bwd_input_offset_eq (hb b (Finset.mem_range.mp hb1)) hh hnov
  rw [hoff]
  rfl

/-- One thread block of the 16_32_32 backward kernel: `dk_f` region and values. -/
theorem bwd32_kernel_dk_f_spec (P : Params32) (hv : P.Valid) (hss : P.signal_size = P.N)
    (T : Tables32 K) (dout_inp a_inp k_f junk : ℕ → K) (regs : ℕ → ℕ → K)
    (hnov : P.B * P.H * P.N ≤ 2147483648) (gx : ℕ) (hgx : gx * P.H * P.N ≤ 2147483648)
    (bx bY : ℕ) (hbx : bx < gx)
    (hb : ∀ bt, bt < P.B_TILE_SIZE → bx * P.B_TILE_SIZE + bt < P.B)
    (hh : ∀ ht, ht < P.H_TILE_SIZE → bY * P.H_TILE_SIZE + ht < P.H) (o : BwdOut K)
    (idx : ℕ) :
    ((∃ ht, ht < P.H_TILE_SIZE ∧
        (bwd_dk_f_offset P.N P.H P.H_TILE_SIZE bx bY ht ≤ idx ∧
          idx < bwd_dk_f_offset P.N P.H P.H_TILE_SIZE bx bY ht + 16384)) →
      (monarch_conv_bwd_cuda_16_32_32_complex_kernel P T dout_inp a_inp k_f junk regs bx bY
          o).dk_f_out idx
        = dk_f_spec T.toM P.B_TILE_SIZE P.H P.N dout_inp a_inp idx) ∧
    ((∀ ht, ht < P.H_TILE_SIZE →
        ¬ (bwd_dk_f_offset P.N P.H P.H_TILE_SIZE bx bY ht ≤ idx ∧
          idx < bwd_dk_f_offset P.N P.H P.H_TILE_SIZE bx bY ht + 16384)) →
      (monarch_conv_bwd_cuda_16_32_32_complex_kernel P T dout_inp a_inp k_f junk regs bx bY
          o).dk_f_out idx
        = o.dk_f_out idx) := by
  unfold monarch_conv_bwd_cuda_16_32_32_complex_kernel
  exact forRange_write_once BwdState.dk_f_out
    (dk_f_spec T.toM P.B_TILE_SIZE P.H P.N dout_inp a_inp)
    (fun ht idx => bwd_dk_f_offset P.N P.H P.H_TILE_SIZE bx bY ht ≤ idx ∧
      idx < bwd_dk_f_offset P.N P.H P.H_TILE_SIZE bx bY ht + 16384) P.H_TILE_SIZE _
    (fun ht hht s1 idx1 hR =>
      bwd32_unit_dk_f_spec P hv hss T dout_inp a_inp k_f hnov gx hgx bx bY ht hbx hb (hh ht hht)
        s1 idx1 hR)
    (fun ht _ s1 idx1 hR =>
      bwd32_channel_body_dk_f_frame P hv T dout_inp a_inp k_f bx bY ht s1 idx1 hR)
    { a := T.twiddle_factors_N_ifft, a_2 := junk, a_input_data := regs, temp := regs,
      dx_out := o.dx_out, dk_f_out := o.dk_f_out } idx

/-- The 16_32_32 backward launch on the grid `(gridDim.x, gridDim.y)
= (B / B_TILE_SIZE, H / H_TILE_SIZE)`, without 32-bit overflow: `dk_f_out` is the array
`[gridDim.x, H, N]` of the per-batch-tile sums, and nothing else is written. -/
theorem bwd32_launch_dk_f_spec (P : Params32) (hv : P.Valid) (hss : P.signal_size = P.N)
    (T : Tables32 K) (dout_inp a_inp k_f junk : ℕ → K) (regs : ℕ → ℕ → K)
    (hnov : P.B * P.H * P.N ≤ 2147483648) (gx gy : ℕ) (hBT : 0 < P.B_TILE_SIZE)
    (hB : P.B = gx * P.B_TILE_SIZE) (hH : P.H = gy * P.H_TILE_SIZE) (o : BwdOut K) (idx : ℕ) :
    (launch_bwd32 P T dout_inp a_inp k_f junk regs gx gy o).dk_f_out idx
      = if idx < gx * P.H * P.N then dk_f_spec T.toM P.B_TILE_SIZE P.H P.N dout_inp a_inp idx
        else o.dk_f_out idx := by
  have hbt : ∀ bx, bx < gx → ∀ bt, bt < P.B_TILE_SIZE → bx * P.B_TILE_SIZE + bt < P.B :=
    fun bx hbx bt hbt => hB ▸ tile_id_lt hbx hbt
  have hht : ∀ bY, bY < gy → ∀ ht, ht < P.H_TILE_SIZE → bY * P.H_TILE_SIZE + ht < P.H :=
    fun bY hbY ht hht => hH ▸ tile_id_lt hbY hht
  have hgx : gx * P.H * P.N ≤ 2147483648 := by
    have h1 : gx ≤ P.B := by
      rw [hB]
      exact Nat.le_mul_of_pos_right gx hBT
    have h2 : gx * P.H * P.N ≤ P.B * P.H * P.N :=
      Nat.mul_le_mul_right _ (Nat.mul_le_mul_right _ h1)
    omega
  have hreg := grid_write_once BwdOut.dk_f_out
    (dk_f_spec T.toM P.B_TILE_SIZE P.H P.N dout_inp a_inp)
    (fun bx bY idx => ∃ ht, ht < P.H_TILE_SIZE ∧
      (bwd_dk_f_offset P.N P.H P.H_TILE_SIZE bx bY ht ≤ idx ∧
        idx < bwd_dk_f_offset P.N P.H P.H_TILE_SIZE bx bY ht + 16384)) gx gy
    (fun bx bY o => monarch_conv_bwd_cuda_16_32_32_complex_kernel P T dout_inp a_inp k_f junk regs
      bx bY o)
    (fun bx hbx bY hbY s1 i1 hR =>
      (bwd32_kernel_dk_f_spec P hv hss T dout_inp a_inp k_f junk regs hnov gx hgx bx bY hbx
        (hbt bx hbx) (hht bY hbY) s1 i1).1 hR)
    (fun bx hbx bY hbY s1 i1 hR =>
      (bwd32_kernel_dk_f_spec P hv hss T dout_inp a_inp k_f junk regs hnov gx hgx bx bY hbx
        (hbt bx hbx) (hht bY hbY) s1 i1).2 (fun ht hht1 hin => hR ⟨ht, hht1, hin⟩))
    o idx
  have hoff : ∀ bx, bx < gx → ∀ bY, bY < gy → ∀ ht, ht < P.H_TILE_SIZE →
      bwd_dk_f_offset P.N P.H P.H_TILE_SIZE bx bY ht
        = (bx * P.H + (bY * P.H_TILE_SIZE + ht)) * P.N :=
    fun bx hbx bY hbY ht hht1 => bwd_dk_f_offset_eq hbx (hht bY hbY ht hht1) hgx
  unfold launch_bwd32
  by_cases h : idx < gx * P.H * P.N
  · rw [if_pos h]
    apply hreg.1
    have h1 : idx < gx * 1 * (gy * P.H_TILE_SIZE) * P.N := by
      rw [Nat.mul_one, ← hH]
      exact h
    obtain ⟨bx, hbx, bY, hbY, ht, hht1, bt, hbt1, hlo, hhi⟩ := unit_exists h1
    refine ⟨bx, hbx, bY, hbY, ht, hht1, ?_⟩
    rw [hoff bx hbx bY hbY ht hht1, hH]
    have hb0 : bt = 0 := by omega
    rw [hb0, Nat.mul_one, Nat.add_zero] at hlo hhi
    have := hv.hN
    omega
  · rw [if_neg h]
    apply hreg.2
    rintro bx hbx bY hbY ⟨ht, hht1, hlo, hhi⟩
    rw [hoff bx hbx bY hbY ht hht1] at hlo hhi
    have := unit_range_le (N := P.N) hbx (hht bY hbY ht hht1)
    have := hv.hN
    omega

end bwd32_launch

/-! ## Output ranges of the forward tiles -/

section ranges

/-- Distinct valid tile coordinates have distinct rows. -/
theorem unit_row_inj {BT HT H bx bY ht bt bx1 bY1 ht1 bt1 : ℕ}
    (hbt : bt < BT) (hht : ht < HT) (hh : bY * HT + ht < H)
    (hbt1 : bt1 < BT) (hht1 : ht1 < HT) (hh1 : bY1 * HT + ht1 < H)
    (h : (bx * BT + bt) * H + (bY * HT + ht) = (bx1 * BT + bt1) * H + (bY1 * HT + ht1)) :
    bx = bx1 ∧ bY = bY1 ∧ ht = ht1 ∧ bt = bt1 := by
  have a1 := chan_decode (e := bx * BT + bt) hh
  have a2 := chan_decode (e := bx1 * BT + bt1) hh1
  rw [h] at a1
  have e1 : bx * BT + bt = bx1 * BT + bt1 := a1.1.symm.trans a2.1
  have e2 : bY * HT + ht = bY1 * HT + ht1 := a1.2.symm.trans a2.2
  have b1 := chan_decode (e := bx) hbt
  have b2 := chan_decode (e := bx1) hbt1
  rw [e1] at b1
  have c1 := chan_decode (e := bY) hht
  have c2 := chan_decode (e := bY1) hht1
  rw [e2] at c1
  exact ⟨b1.1.symm.trans b2.1, c1.1.symm.trans c2.1, c1.2.symm.trans c2.2,
    b1.2.symm.trans b2.2⟩

theorem rows_disjoint {N a b : ℕ} (h : a ≠ b) : a * N + N ≤ b * N ∨ b * N + N ≤ a * N := by
  rcases Nat.lt_or_gt_of_ne h with h1 | h1
  · left
    calc a * N + N = (a + 1) * N := by ring
      _ ≤ b * N := Nat.mul_le_mul_right N h1
  · right
    calc b * N + N = (b + 1) * N := by ring
      _ ≤ a * N := Nat.mul_le_mul_right N h1

end ranges

/-- C10, amended: forward kernel, for tile coordinates inside the workload
(`bt < B_TILE_SIZE`, `ht < H_TILE_SIZE`, `blockIdx.y * H_TILE_SIZE + ht < H`,
`blockIdx.x * B_TILE_SIZE + bt < B`) and without 32-bit overflow (`B * H * N ≤ 2^31`):
(1) `input_offset` is the row-major `[B, H, N]` offset of (batch, channel);
(2) the tile writes `out[input_offset + j]`, `j < N`, from the input it reads at
`input_offset + i`, and writes nothing outside `[input_offset, input_offset + N)`;
(3) distinct coordinates give disjoint ranges;
(4) on the grid `(B / B_TILE_SIZE, H / H_TILE_SIZE)` every output element lies in the range
of a tile (hence, by (3), of exactly one). -/
theorem C10_forward_ranges_amended {K : Type} [CommRing K] (P : Params) (hv : P.Valid)
    (hnov : P.B * P.H * P.N ≤ 2147483648) (T : Tables K) (a_inp k_f : ℕ → K)
    (regs : ℕ → ℕ → K) (gx gy : ℕ)
    (hB : P.B = gx * P.B_TILE_SIZE) (hH : P.H = gy * P.H_TILE_SIZE) :
    (∀ bx bY ht bt, bt < P.B_TILE_SIZE → ht < P.H_TILE_SIZE →
      bY * P.H_TILE_SIZE + ht < P.H → bx * P.B_TILE_SIZE + bt < P.B →
      fwd_input_offset P bx bY ht bt
        = ((bx * P.B_TILE_SIZE + bt) * P.H + bY * P.H_TILE_SIZE + ht) * P.N) ∧
    (∀ bx bY ht bt (a_0 : ℕ → K) (s : FwdState K),
      (∀ j, j < P.N →
        (fwd_batch_body P T a_inp (k_frag P (fwd_stage_k_f P k_f regs bY ht a_0))
            (fwd_input_offset P bx bY ht bt) s).out (fwd_input_offset P bx bY ht bt + j)
          = flat 16 (T.toM.inv (fun f1 f2 f3 =>
              T.toM.fwd (fun i => a_inp (fwd_input_offset P bx bY ht bt + i)) f1 f2 f3
                * k_f (fwd_k_f_offset P bY ht + (256 * f1 + 16 * f2 + f3)))) j) ∧
      (∀ idx, ¬ (fwd_input_offset P bx bY ht bt ≤ idx ∧
          idx < fwd_input_offset P bx bY ht bt + P.N) →
        (fwd_batch_body P T a_inp (k_frag P (fwd_stage_k_f P k_f regs bY ht a_0))
            (fwd_input_offset P bx bY ht bt) s).out idx = s.out idx)) ∧
    (∀ bx bY ht bt bx1 bY1 ht1 bt1, bt < P.B_TILE_SIZE → ht < P.H_TILE_SIZE →
      bY * P.H_TILE_SIZE + ht < P.H → bx * P.B_TILE_SIZE + bt < P.B →
      bt1 < P.B_TILE_SIZE → ht1 < P.H_TILE_SIZE →
      bY1 * P.H_TILE_SIZE + ht1 < P.H → bx1 * P.B_TILE_SIZE + bt1 < P.B →
      (bx, bY, ht, bt) ≠ (bx1, bY1, ht1, bt1) →
      fwd_input_offset P bx bY ht bt + P.N ≤ fwd_input_offset P bx1 bY1 ht1 bt1 ∨
        fwd_input_offset P bx1 bY1 ht1 bt1 + P.N ≤ fwd_input_offset P bx bY ht bt) ∧
    (∀ idx, idx < P.B * P.H * P.N →
      ∃ bx, bx < gx ∧ ∃ bY, bY < gy ∧ ∃ ht, ht < P.H_TILE_SIZE ∧ ∃ bt, bt < P.B_TILE_SIZE ∧
        (fwd_input_offset P bx bY ht bt ≤ idx ∧
          idx < fwd_input_offset P bx bY ht bt + P.N)) := by
  refine ⟨?_, ?_, ?_, ?_⟩
  · intro bx bY ht bt _ _ hh hb
    rw [fwd_input_offset_eq P hb hh hnov, Nat.add_assoc]
  · intro bx bY ht bt a_0 s
    rw [hv.hN]
    exact ⟨fun j hj => fwd_unit_flat P hv T a_inp k_f regs bY ht a_0 _ s j hj,
      fun idx h => fwd_batch_body_frame P hv T a_inp _ _ s idx h⟩
  · intro bx bY ht bt bx1 bY1 ht1 bt1 hbt hht hh hb hbt1 hht1 hh1 hb1 hne
    rw [fwd_input_offset_eq P hb hh hnov, fwd_input_offset_eq P hb1 hh1 hnov]
    apply rows_disjoint
    intro h
    obtain ⟨e1, e2, e3, e4⟩ := unit_row_inj hbt hht hh hbt1 hht1 hh1 h
    exact hne (by rw [e1, e2, e3, e4])
  · intro idx hidx
    have h1 : idx < gx * P.B_TILE_SIZE * (gy * P.H_TILE_SIZE) * P.N := by
      rw [← hB, ← hH]
      exact hidx
    obtain ⟨bx, hbx, bY, hbY, ht, hht1, bt, hbt1, hlo, hhi⟩ := unit_exists h1
    refine ⟨bx, hbx, bY, hbY, ht, hht1, bt, hbt1, ?_⟩
    rw [fwd_input_offset_eq P (hB ▸ tile_id_lt hbx hbt1) (hH ▸ tile_id_lt hbY hht1) hnov, hH]
    exact ⟨hlo, hhi⟩

/-- Witness of C10 (amended): the offset of the tile `(1, 1, 1, 1)` of a `4 × 4` workload
in `2 × 2` tiles. -/
theorem C10_forward_ranges_amended_witness :
    fwd_input_offset (config 4 4 2 2) 1 1 1 1
      = ((1 * (config 4 4 2 2).B_TILE_SIZE + 1) * (config 4 4 2 2).H
          + 1 * (config 4 4 2 2).H_TILE_SIZE + 1) * (config 4 4 2 2).N :=
  (C10_forward_ranges_amended (config 4 4 2 2) (config_valid 4 4 2 2) (by decide)
    (ones_tables ℤ) (fun _ => 1) (fun _ => 1) (fun _ _ => 0) 2 2 rfl rfl).1 1 1 1 1
    (by decide) (by decide) (by decide) (by decide)

/-- Counterexample to C10 as stated: `B = 2`, `H = 2^20`, `N = 4096`, tiles of one element.
The coordinates `(blockIdx.x, blockIdx.y, ht, bt) = (1, 0, 0, 0)` satisfy the stated
conditions, but `blockIdx.x * H * N * B_TILE_SIZE = 2^32` wraps to `0` in 32-bit arithmetic:
`input_offset` is `0`, not `2^32`, and it coincides with the offset of `(0, 0, 0, 0)`. -/
theorem C10_forward_ranges_counterexample :
    (0 < (config 2 1048576 1 1).B_TILE_SIZE ∧ 0 < (config 2 1048576 1 1).H_TILE_SIZE ∧
      0 * (config 2 1048576 1 1).H_TILE_SIZE + 0 < (config 2 1048576 1 1).H) ∧
    fwd_input_offset (config 2 1048576 1 1) 1 0 0 0
      ≠ ((1 * (config 2 1048576 1 1).B_TILE_SIZE + 0) * (config 2 1048576 1 1).H
          + 0 * (config 2 1048576 1 1).H_TILE_SIZE + 0) * (config 2 1048576 1 1).N ∧
    fwd_input_offset (config 2 1048576 1 1) 1 0 0 0
      = fwd_input_offset (config 2 1048576 1 1) 0 0 0 0 := by
  simp [fwd_input_offset, u32, config]

/-! ## The layout of `dk_f_out` and tile independence -/

section ones

/-- On tables of ones the forward stage sequence sums its input: all-ones input gives `4096`
at every frequency. -/
theorem ones_fwd (j : ℕ) : flat 16 ((ones_tables ℤ).toM.fwd (fun _ => 1)) j = 4096 := by
  simp [flat, MTables.fwd, mfwd3, mfwd2, mfwd1, digits, Tables.toM, ones_tables]

theorem ones_dk_f_spec (BT H N idx : ℕ) :
    dk_f_spec (ones_tables ℤ).toM BT H N (fun _ => 1) (fun _ => 1) idx
      = (BT : ℤ) * (4096 * ((N : ℤ) * 4096)) := by
  unfold dk_f_spec
  have h : ∀ j, flat (ones_tables ℤ).toM.q ((ones_tables ℤ).toM.fwd (fun _ => 1)) j = 4096 :=
    ones_fwd
  simp only [h, star_trivial, Finset.sum_const, Finset.card_range, nsmul_eq_mul]

end ones

section dk_layout
variable {K : Type} [CommRing K] [StarRing K]

/-- The row `(bx, h)` of `dk_f_spec`, written out. -/
theorem dk_f_spec_row (M : MTables K) (BT H N : ℕ) (dout_inp a_inp : ℕ → K)
    (bx h j : ℕ) (hh : h < H) (hj : j < N) :
    dk_f_spec M BT H N dout_inp a_inp ((bx * H + h) * N + j)
      = ∑ b ∈ Finset.range BT,
          flat M.q (M.fwd (fun i => dout_inp (((bx * BT + b) * H + h) * N + i))) j
            * star ((N : K) * flat M.q (M.fwd (fun i =>
                a_inp (((bx * BT + b) * H + h) * N + i))) j) := by
  have hd := row_decode (r := bx * H + h) hj
  have hc := chan_decode (e := bx) hh
  unfold dk_f_spec
  rw [hd.1, hd.2, hc.1, hc.2]

end dk_layout

/-- C4, amended: the `dk_f` output of both backward kernels is laid out
`[gridDim.x, H, N]` with `gridDim.x = B / B_TILE_SIZE`: given `signal_size = N` and no 32-bit
overflow (`B * H * N ≤ 2^31`), for every batch tile `bx < gridDim.x`, channel `h < H` and
`j < N` the launch leaves at `dk_f_out[(bx * H + h) * N + j]` the sum over the `B_TILE_SIZE`
batch elements `bx * B_TILE_SIZE + b` of tile `bx` of the per-element contribution
`T(dout)[j] * conj(N * T(x)[j])`, and it writes nothing at or beyond `gridDim.x * H * N`.
The sum over the batch tiles is not formed by the kernel. -/
theorem C4_dk_f_layout_amended {K : Type} [CommRing K] [StarRing K]
    (P : Params) (hv : P.Valid) (hss : P.signal_size = P.N)
    (hnov : P.B * P.H * P.N ≤ 2147483648) (gx gy : ℕ) (hBT : 0 < P.B_TILE_SIZE)
    (hB : P.B = gx * P.B_TILE_SIZE) (hH : P.H = gy * P.H_TILE_SIZE) (T : Tables K)
    (Q : Params32) (hq : Q.Valid) (hqss : Q.signal_size = Q.N)
    (hqnov : Q.B * Q.H * Q.N ≤ 2147483648) (gx2 gy2 : ℕ) (hQBT : 0 < Q.B_TILE_SIZE)
    (hQB : Q.B = gx2 * Q.B_TILE_SIZE) (hQH : Q.H = gy2 * Q.H_TILE_SIZE) (T2 : Tables32 K)
    (dout_inp a_inp k_f junk : ℕ → K) (regs : ℕ → ℕ → K) (o : BwdOut K) :
    ((∀ bx h j, bx < gx → h < P.H → j < P.N →
      (launch_bwd P T dout_inp a_inp k_f junk regs gx gy o).dk_f_out ((bx * P.H + h) * P.N + j)
        = ∑ b ∈ Finset.range P.B_TILE_SIZE,
            flat 16 (T.toM.fwd (fun i =>
              dout_inp (((bx * P.B_TILE_SIZE + b) * P.H + h) * P.N + i))) j
            * star ((P.N : K) * flat 16 (T.toM.fwd (fun i =>
              a_inp (((bx * P.B_TILE_SIZE + b) * P.H + h) * P.N + i))) j)) ∧
     (∀ idx, gx * P.H * P.N ≤ idx →
      (launch_bwd P T dout_inp a_inp k_f junk regs gx gy o).dk_f_out idx = o.dk_f_out idx)) ∧
    ((∀ bx h j, bx < gx2 → h < Q.H → j < Q.N →
      (launch_bwd32 Q T2 dout_inp a_inp k_f junk regs gx2 gy2 o).dk_f_out
          ((bx * Q.H + h) * Q.N + j)
        = ∑ b ∈ Finset.range Q.B_TILE_SIZE,
            flat 32 (T2.toM.fwd (fun i =>
              dout_inp (((bx * Q.B_TILE_SIZE + b) * Q.H + h) * Q.N + i))) j
            * star ((Q.N : K) * flat 32 (T2.toM.fwd (fun i =>
              a_inp (((bx * Q.B_TILE_SIZE + b) * Q.H + h) * Q.N + i))) j)) ∧
     (∀ idx, gx2 * Q.H * Q.N ≤ idx →
      (launch_bwd32 Q T2 dout_inp a_inp k_f junk regs gx2 gy2 o).dk_f_out idx
        = o.dk_f_out idx)) := by
  refine ⟨⟨?_, ?_⟩, ⟨?_, ?_⟩⟩
  · intro bx h j hbx hh hj
    have hlt := unit_range_le (N := P.N) hbx hh
    rw [bwd_launch_dk_f_spec P hv hss T dout_inp a_inp k_f junk regs hnov gx gy hBT hB hH o,
      if_pos (by omega), dk_f_spec_row _ _ _ _ _ _ bx h j hh hj]
    rfl
  · intro idx hidx
    rw [bwd_launch_dk_f_spec P hv hss T dout_inp a_inp k_f junk regs hnov gx gy hBT hB hH o,
      if_neg (by omega)]
  · intro bx h j hbx hh hj
    have hlt := unit_range_le (N := Q.N) hbx hh
    rw [bwd32_launch_dk_f_spec Q hq hqss T2 dout_inp a_inp k_f junk regs hqnov gx2 gy2 hQBT
        hQB hQH o,
      if_pos (by omega), dk_f_spec_row _ _ _ _ _ _ bx h j hh hj]
    rfl
  · intro idx hidx
    rw [bwd32_launch_dk_f_spec Q hq hqss T2 dout_inp a_inp k_f junk regs hqnov gx2 gy2 hQBT
        hQB hQH o,
      if_neg (by omega)]

/-- Witness of C4 (amended): two batch elements in tiles of one, one channel, tables of
ones: the row of the second batch tile. -/
theorem C4_dk_f_layout_amended_witness :
    (
      (launch_bwd (config 2 1 1 1) (ones_tables ℤ) (fun _ => 1) (fun _ => 1) (fun _ => 1) (fun _ => 0) (fun _ _ => 0) 2 1 ⟨fun _ => 0, fun _ => 0⟩).dk_f_out ((1 * (config 2 1 1 1).H + 0) * (config 2 1 1 1).N + 5)
        = ∑ b ∈ Finset.range (config 2 1 1 1).B_TILE_SIZE,
            flat 16 ((ones_tables ℤ).toM.fwd (fun i =>
              (fun _ => 1) (((1 * (config 2 1 1 1).B_TILE_SIZE + b) * (config 2 1 1 1).H + 0) * (config 2 1 1 1).N + i))) 5
            * star (((config 2 1 1 1).N : ℤ) * flat 16 ((ones_tables ℤ).toM.fwd (fun i =>
              (fun _ => 1) (((1 * (config 2 1 1 1).B_TILE_SIZE + b) * (config 2 1 1 1).H + 0) * (config 2 1 1 1).N + i))) 5)) ∧
    (
      (launch_bwd32 (config32 2 1 1 1) (ones_tables32 ℤ) (fun _ => 1) (fun _ => 1) (fun _ => 1) (fun _ => 0) (fun _ _ => 0) 2 1 ⟨fun _ => 0, fun _ => 0⟩).dk_f_out
          ((1 * (config32 2 1 1 1).H + 0) * (config32 2 1 1 1).N + 5)
        = ∑ b ∈ Finset.range (config32 2 1 1 1).B_TILE_SIZE,
            flat 32 ((ones_tables32 ℤ).toM.fwd (fun i =>
              (fun _ => 1) (((1 * (config32 2 1 1 1).B_TILE_SIZE + b) * (config32 2 1 1 1).H + 0) * (config32 2 1 1 1).N + i))) 5
            * star (((config32 2 1 1 1).N : ℤ) * flat 32 ((ones_tables32 ℤ).toM.fwd (fun i =>
              (fun _ => 1) (((1 * (config32 2 1 1 1).B_TILE_SIZE + b) * (config32 2 1 1 1).H + 0) * (config32 2 1 1 1).N + i))) 5)) :=
  ⟨(C4_dk_f_layout_amended (config 2 1 1 1) (config_valid 2 1 1 1) rfl (by decide) 2 1 (by decide)
      rfl rfl (ones_tables ℤ) (config32 2 1 1 1) (config32_valid 2 1 1 1) rfl (by decide) 2 1
      (by decide) rfl rfl (ones_tables32 ℤ) (fun _ => 1) (fun _ => 1) (fun _ => 1) (fun _ => 0)
      (fun _ _ => 0) ⟨fun _ => 0, fun _ => 0⟩).1.1 1 0 5
      (by decide) (by decide) (by decide),
   (C4_dk_f_layout_amended (config 2 1 1 1) (config_valid 2 1 1 1) rfl (by decide) 2 1 (by decide)
      rfl rfl (ones_tables ℤ) (config32 2 1 1 1) (config32_valid 2 1 1 1) rfl (by decide) 2 1
      (by decide) rfl rfl (ones_tables32 ℤ) (fun _ => 1) (fun _ => 1) (fun _ => 1) (fun _ => 0)
      (fun _ _ => 0) ⟨fun _ => 0, fun _ => 0⟩).2.1 1 0 5
      (by decide) (by decide) (by decide)⟩

/-- Counterexample to C4 as stated: `B = 2`, `B_TILE_SIZE = 1`, `H = 1`, grid `(2, 1)`, tables
of ones and all-ones `dout`, `x`.  Every per-element contribution is `4096 * (4096 * 4096)`.
The sequence left at `dk_f_out[0 .. N)` for the only channel holds the contribution of batch
element 0 alone, not the sum over the two batch elements; and the launch has written a second
sequence for that channel at `dk_f_out[N .. 2N)`. -/
theorem C4_dk_f_layout_counterexample :
    (launch_bwd (config 2 1 1 1) (ones_tables ℤ) (fun _ => 1) (fun _ => 1) (fun _ => 1)
        (fun _ => 0) (fun _ _ => 0) 2 1 ⟨fun _ => 0, fun _ => 0⟩).dk_f_out 0
      ≠ ∑ _b ∈ Finset.range 2,
          flat 16 ((ones_tables ℤ).toM.fwd (fun _ => 1)) 0
            * star ((4096 : ℤ) * flat 16 ((ones_tables ℤ).toM.fwd (fun _ => 1)) 0) ∧
    (launch_bwd (config 2 1 1 1) (ones_tables ℤ) (fun _ => 1) (fun _ => 1) (fun _ => 1)
        (fun _ => 0) (fun _ _ => 0) 2 1 ⟨fun _ => 0, fun _ => 0⟩).dk_f_out 4096
      ≠ 0 := by
  rw [bwd_launch_dk_f_spec (config 2 1 1 1) (config_valid 2 1 1 1) rfl _ _ _ _ _ _
      (by decide) 2 1 (by decide) rfl rfl,
    bwd_launch_dk_f_spec (config 2 1 1 1) (config_valid 2 1 1 1) rfl _ _ _ _ _ _
      (by decide) 2 1 (by decide) rfl rfl]
  simp [ones_dk_f_spec, ones_fwd, config]

/-- C9, amended: tile independence, given `signal_size = N` and no 32-bit overflow
(`B * H * N ≤ 2^31`).  For a fixed `(B, H)` workload and two tile configurations, each with
`WARP_TILE_SIZE` dividing 16 and the grid `(B / B_TILE_SIZE, H / H_TILE_SIZE)`: the forward
launch writes identical output planes, the backward launch writes identical `dx`, element for
element; and the backward launch writes identical `dk_f_out` when the two configurations have
the same `B_TILE_SIZE` (`dk_f_out` holds one partial sum per batch tile). -/
theorem C9_tile_independence_amended {K : Type} [CommRing K] [StarRing K]
    (P P1 : Params) (hv : P.Valid) (hv1 : P1.Valid) (hBB : P1.B = P.B) (hHH : P1.H = P.H)
    (hss : P.signal_size = P.N) (hss1 : P1.signal_size = P1.N)
    (hnov : P.B * P.H * P.N ≤ 2147483648) (gx gy gx1 gy1 : ℕ)
    (hB : P.B = gx * P.B_TILE_SIZE) (hH : P.H = gy * P.H_TILE_SIZE)
    (hB1 : P1.B = gx1 * P1.B_TILE_SIZE) (hH1 : P1.H = gy1 * P1.H_TILE_SIZE)
    (T : Tables K) (a_inp dout_inp k_f junk junk1 : ℕ → K) (regs regs1 : ℕ → ℕ → K)
    (out : ℕ → K) (o : BwdOut K) :
    (∀ idx, launch_fwd P T a_inp k_f regs gx gy out idx
      = launch_fwd P1 T a_inp k_f regs1 gx1 gy1 out idx) ∧
    (∀ idx, (launch_bwd P T dout_inp a_inp k_f junk regs gx gy o).dx_out idx
      = (launch_bwd P1 T dout_inp a_inp k_f junk1 regs1 gx1 gy1 o).dx_out idx) ∧
    (P1.B_TILE_SIZE = P.B_TILE_SIZE → 0 < P.B_TILE_SIZE →
      ∀ idx, (launch_bwd P T dout_inp a_inp k_f junk regs gx gy o).dk_f_out idx
        = (launch_bwd P1 T dout_inp a_inp k_f junk1 regs1 gx1 gy1 o).dk_f_out idx) := by
  have hNN : P1.N = P.N := by rw [hv.hN, hv1.hN]
  have hnov1 : P1.B * P1.H * P1.N ≤ 2147483648 := by rw [hBB, hHH, hNN]; exact hnov
  refine ⟨?_, ?_, ?_⟩
  · intro idx
    rw [fwd_launch_spec P hv T a_inp k_f regs hnov gx gy hB hH out idx,
      fwd_launch_spec P1 hv1 T a_inp k_f regs1 hnov1 gx1 gy1 hB1 hH1 out idx, hBB, hHH, hNN]
  · intro idx
    rw [bwd_launch_dx_spec P hv hss T dout_inp a_inp k_f junk regs hnov gx gy hB hH o idx,
      bwd_launch_dx_spec P1 hv1 hss1 T dout_inp a_inp k_f junk1 regs1 hnov1 gx1 gy1 hB1 hH1 o
        idx, hBB, hHH, hNN]
  · intro hBT hpos idx
    have hgx : gx1 = gx := by
      have h1 : gx1 * P.B_TILE_SIZE = gx * P.B_TILE_SIZE := by
        rw [← hB, ← hBB, hB1, hBT]
      exact Nat.eq_of_mul_eq_mul_right hpos h1
    rw [bwd_launch_dk_f_spec P hv hss T dout_inp a_inp k_f junk regs hnov gx gy hpos hB hH o
        idx,
      bwd_launch_dk_f_spec P1 hv1 hss1 T dout_inp a_inp k_f junk1 regs1 hnov1 gx1 gy1
        (hBT ▸ hpos) hB1 hH1 o idx, hBT, hHH, hNN, hgx]

/-- Witness of C9 (amended): a `4 × 4` workload in `2 × 2` tiles on a `2 × 2` grid and in
`1 × 4` tiles on a `4 × 1` grid: the forward outputs agree at element 5. -/
theorem C9_tile_independence_amended_witness :
    launch_fwd (config 4 4 2 2) (ones_tables ℤ) (fun _ => 1) (fun _ => 1) (fun _ _ => 0) 2 2
        (fun _ => 0) 5
      = launch_fwd (config 4 4 1 4) (ones_tables ℤ) (fun _ => 1) (fun _ => 1) (fun _ _ => 0)
          4 1 (fun _ => 0) 5 :=
  (C9_tile_independence_amended (config 4 4 2 2) (config 4 4 1 4) (config_valid 4 4 2 2)
    (config_valid 4 4 1 4) rfl rfl rfl rfl (by decide) 2 2 4 1 rfl rfl rfl rfl
    (ones_tables ℤ) (fun _ => 1) (fun _ => 1) (fun _ => 1) (fun _ => 0) (fun _ => 0)
    (fun _ _ => 0) (fun _ _ => 0) (fun _ => 0) ⟨fun _ => 0, fun _ => 0⟩).1 5

/-- Counterexample to C9 as stated: the workload `B = 2`, `H = 1` with `B_TILE_SIZE = 1` on
the grid `(2, 1)` and with `B_TILE_SIZE = 2` on the grid `(1, 1)`, tables of ones and
all-ones `dout`, `x`: the backward launches leave different values at `dk_f_out[0]`
(`4096^3` and `2 * 4096^3`). -/
theorem C9_tile_independence_counterexample :
    (launch_bwd (config 2 1 1 1) (ones_tables ℤ) (fun _ => 1) (fun _ => 1) (fun _ => 1)
        (fun _ => 0) (fun _ _ => 0) 2 1 ⟨fun _ => 0, fun _ => 0⟩).dk_f_out 0
      ≠ (launch_bwd (config 2 1 2 1) (ones_tables ℤ) (fun _ => 1) (fun _ => 1) (fun _ => 1)
          (fun _ => 0) (fun _ _ => 0) 1 1 ⟨fun _ => 0, fun _ => 0⟩).dk_f_out 0 := by
  rw [bwd_launch_dk_f_spec (config 2 1 1 1) (config_valid 2 1 1 1) rfl _ _ _ _ _ _
      (by decide) 2 1 (by decide) rfl rfl,
    bwd_launch_dk_f_spec (config 2 1 2 1) (config_valid 2 1 2 1) rfl _ _ _ _ _ _
      (by decide) 1 1 (by decide) rfl rfl]
  simp [ones_dk_f_spec, config]

/-! ## The forward launch as a batch of circular convolutions -/

/-- The forward launch on the grid `(B / B_TILE_SIZE, H / H_TILE_SIZE)`, without 32-bit
overflow, with tables of a length-4096 DFT pair and each row `h` of `k_f` the DFT of a filter
`k h` in the kernel's frequency order: row `(b, h)` of the output is the circular convolution
of row `(b, h)` of the input with `k h`. -/
theorem fwd_launch_conv {K : Type} [Field K] (P : Params) (hv : P.Valid) (T : Tables K)
    (ω c_fwd c_inv : K) (hT : T.toM.IsDFT ω c_fwd c_inv)
    (hc : c_fwd * c_inv * ((4096 : ℕ) : K) = 1)
    (a_inp k_f : ℕ → K) (k : ℕ → ℕ → K) (regs : ℕ → ℕ → K)
    (hnov : P.B * P.H * P.N ≤ 2147483648) (gx gy : ℕ)
    (hB : P.B = gx * P.B_TILE_SIZE) (hH : P.H = gy * P.H_TILE_SIZE)
    (hk : ∀ h f1 f2 f3, h < P.H → f1 < 16 → f2 < 16 → f3 < 16 →
      k_f (h * P.N + (256 * f1 + 16 * f2 + f3)) = dft_sum 4096 ω (k h) (freq 16 16 f1 f2 f3))
    (out : ℕ → K) (b h j : ℕ) (hb : b < P.B) (hh : h < P.H) (hj : j < P.N) :
    launch_fwd P T a_inp k_f regs gx gy out ((b * P.H + h) * P.N + j)
      = circ_conv 4096 (fun i => a_inp ((b * P.H + h) * P.N + i)) (k h) j := by
  have hlt := unit_range_le (N := P.N) hb hh
  have hd := row_decode (r := b * P.H + h) hj
  have hc1 := chan_decode (e := b) hh
  have hj1 : j < 4096 := by rw [← hv.hN]; exact hj
  rw [fwd_launch_spec P hv T a_inp k_f regs hnov gx gy hB hH out, if_pos (by omega)]
  unfold fwd_out_spec
  rw [hd.1, hd.2, hc1.2]
  have hcN : c_fwd * c_inv * ((T.toM.p * T.toM.q * T.toM.q : ℕ) : K) = 1 := by
    simpa only [Tables.toM] using hc
  have h1 := MTables.inv_fwd_conv hT hcN (fun i => a_inp ((b * P.H + h) * P.N + i)) (k h)
    (j / (16 * 16)) (j / 16 % 16) (j % 16) (by simp only [Tables.toM]; omega)
    (by simp only [Tables.toM]; omega) (by simp only [Tables.toM]; omega)
  simp only [Tables.toM] at h1
  have e1 : 16 * 16 * (j / (16 * 16)) + 16 * (j / 16 % 16) + j % 16 = j := by omega
  rw [e1] at h1
  rw [← h1]
  unfold flat
  apply MTables.inv_congr
  intro f1 f2 f3 hf1 hf2 hf3
  simp only [Tables.toM] at hf1 hf2 hf3
  rw [hk h f1 f2 f3 hh hf1 hf2 hf3]
  rfl

/-! ## Staging of the filter: conjugated by the backward kernels, unchanged by the forward kernel -/

/-- C15: filter conjugation.  When the backward kernels (16_16_16 and 16_32_32) stage the
filter of a channel into the scratch planes, for every `j < N` the real plane holds
`Re(k_f[j])` and the imaginary plane holds `-Im(k_f[j])` (`k_f` read at the channel's filter
offset), so the staged value is `conj(k_f[j])` and its conjugate is `k_f[j]` again; when the
forward kernel stages the filter, both planes hold `Re(k_f[j])` and `Im(k_f[j])` unchanged. -/
theorem C15_filter_conjugation (P : Params) (hv : P.Valid) (P2 : Params32) (hv2 : P2.Valid)
    (k_f : ℕ → ℂ) (regs : ℕ → ℕ → ℂ) (a : ℕ → ℂ) (bY ht j : ℕ) :
    (j < P.N →
      (bwd_stage_k_f P.num_threads P.items_per_thread_input
          (BlockLoad_striped P.num_threads (P.items_per_thread_input / 2) k_f
            (bwd_k_f_offset P.N P.H_TILE_SIZE bY ht) regs) a j).re
        = (k_f (bwd_k_f_offset P.N P.H_TILE_SIZE bY ht + j)).re ∧
      (bwd_stage_k_f P.num_threads P.items_per_thread_input
          (BlockLoad_striped P.num_threads (P.items_per_thread_input / 2) k_f
            (bwd_k_f_offset P.N P.H_TILE_SIZE bY ht) regs) a j).im
        = -(k_f (bwd_k_f_offset P.N P.H_TILE_SIZE bY ht + j)).im ∧
      star (bwd_stage_k_f P.num_threads P.items_per_thread_input
          (BlockLoad_striped P.num_threads (P.items_per_thread_input / 2) k_f
            (bwd_k_f_offset P.N P.H_TILE_SIZE bY ht) regs) a j)
        = k_f (bwd_k_f_offset P.N P.H_TILE_SIZE bY ht + j)) ∧
    (j < P2.N →
      (bwd_stage_k_f P2.num_threads P2.items_per_thread_input
          (BlockLoad_striped P2.num_threads (P2.items_per_thread_input / 2) k_f
            (bwd_k_f_offset P2.N P2.H_TILE_SIZE bY ht) regs) a j).re
        = (k_f (bwd_k_f_offset P2.N P2.H_TILE_SIZE bY ht + j)).re ∧
      (bwd_stage_k_f P2.num_threads P2.items_per_thread_input
          (BlockLoad_striped P2.num_threads (P2.items_per_thread_input / 2) k_f
            (bwd_k_f_offset P2.N P2.H_TILE_SIZE bY ht) regs) a j).im
        = -(k_f (bwd_k_f_offset P2.N P2.H_TILE_SIZE bY ht + j)).im ∧
      star (bwd_stage_k_f P2.num_threads P2.items_per_thread_input
          (BlockLoad_striped P2.num_threads (P2.items_per_thread_input / 2) k_f
            (bwd_k_f_offset P2.N P2.H_TILE_SIZE bY ht) regs) a j)
        = k_f (bwd_k_f_offset P2.N P2.H_TILE_SIZE bY ht + j)) ∧
    (j < P.N →
      (fwd_stage_k_f P k_f regs bY ht a j).re = (k_f (fwd_k_f_offset P bY ht + j)).re ∧
      (fwd_stage_k_f P k_f regs bY ht a j).im = (k_f (fwd_k_f_offset P bY ht + j)).im) := by
  refine ⟨fun hj => ?_, fun hj => ?_, fun hj => ?_⟩
  · rw [hv.hN] at hj
    rw [bwd_stage_k_f_apply hv.threads_pos hv.items_mul k_f _ regs a j
      (show j < 2 * 2048 from hj)]
    exact ⟨Complex.conj_re _, Complex.conj_im _, star_star _⟩
  · rw [hv2.hN] at hj
    rw [bwd_stage_k_f_apply hv2.threads_pos32 hv2.items_mul32 k_f _ regs a j
      (show j < 2 * 8192 from hj)]
    exact ⟨Complex.conj_re _, Complex.conj_im _, star_star _⟩
  · rw [hv.hN] at hj
    rw [fwd_stage_k_f_apply P hv k_f regs bY ht a j hj]
    exact ⟨rfl, rfl⟩

/-- Witness of C15: the filter `i, i, i, ...` at element 5, one channel per tile. -/
theorem C15_filter_conjugation_witness :
    (
      (bwd_stage_k_f (config 1 1 1 1).num_threads (config 1 1 1 1).items_per_thread_input
          (BlockLoad_striped (config 1 1 1 1).num_threads ((config 1 1 1 1).items_per_thread_input / 2) (fun _ => Complex.I)
            (bwd_k_f_offset (config 1 1 1 1).N (config 1 1 1 1).H_TILE_SIZE 0 0) (fun _ _ => 0)) (fun _ => 0) 5).re
        = ((fun _ => Complex.I) (bwd_k_f_offset (config 1 1 1 1).N (config 1 1 1 1).H_TILE_SIZE 0 0 + 5)).re ∧
      (bwd_stage_k_f (config 1 1 1 1).num_threads (config 1 1 1 1).items_per_thread_input
          (BlockLoad_striped (config 1 1 1 1).num_threads ((config 1 1 1 1).items_per_thread_input / 2) (fun _ => Complex.I)
            (bwd_k_f_offset (config 1 1 1 1).N (config 1 1 1 1).H_TILE_SIZE 0 0) (fun _ _ => 0)) (fun _ => 0) 5).im
        = -((fun _ => Complex.I) (bwd_k_f_offset (config 1 1 1 1).N (config 1 1 1 1).H_TILE_SIZE 0 0 + 5)).im ∧
      star (bwd_stage_k_f (config 1 1 1 1).num_threads (config 1 1 1 1).items_per_thread_input
          (BlockLoad_striped (config 1 1 1 1).num_threads ((config 1 1 1 1).items_per_thread_input / 2) (fun _ => Complex.I)
            (bwd_k_f_offset (config 1 1 1 1).N (config 1 1 1 1).H_TILE_SIZE 0 0) (fun _ _ => 0)) (fun _ => 0) 5)
        = (fun _ => Complex.I) (bwd_k_f_offset (config 1 1 1 1).N (config 1 1 1 1).H_TILE_SIZE 0 0 + 5)) ∧
    (
      (bwd_stage_k_f (config32 1 1 1 1).num_threads (config32 1 1 1 1).items_per_thread_input
          (BlockLoad_striped (config32 1 1 1 1).num_threads ((config32 1 1 1 1).items_per_thread_input / 2) (fun _ => Complex.I)
            (bwd_k_f_offset (config32 1 1 1 1).N (config32 1 1 1 1).H_TILE_SIZE 0 0) (fun _ _ => 0)) (fun _ => 0) 5).re
        = ((fun _ => Complex.I) (bwd_k_f_offset (config32 1 1 1 1).N (config32 1 1 1 1).H_TILE_SIZE 0 0 + 5)).re ∧
      (bwd_stage_k_f (config32 1 1 1 1).num_threads (config32 1 1 1 1).items_per_thread_input
          (BlockLoad_striped (config32 1 1 1 1).num_threads ((config32 1 1 1 1).items_per_thread_input / 2) (fun _ => Complex.I)
            (bwd_k_f_offset (config32 1 1 1 1).N (config32 1 1 1 1).H_TILE_SIZE 0 0) (fun _ _ => 0)) (fun _ => 0) 5).im
        = -((fun _ => Complex.I) (bwd_k_f_offset (config32 1 1 1 1).N (config32 1 1 1 1).H_TILE_SIZE 0 0 + 5)).im ∧
      star (bwd_stage_k_f (config32 1 1 1 1).num_threads (config32 1 1 1 1).items_per_thread_input
          (BlockLoad_striped (config32 1 1 1 1).num_threads ((config32 1 1 1 1).items_per_thread_input / 2) (fun _ => Complex.I)
            (bwd_k_f_offset (config32 1 1 1 1).N (config32 1 1 1 1).H_TILE_SIZE 0 0) (fun _ _ => 0)) (fun _ => 0) 5)
        = (fun _ => Complex.I) (bwd_k_f_offset (config32 1 1 1 1).N (config32 1 1 1 1).H_TILE_SIZE 0 0 + 5)) ∧
    (
      (fwd_stage_k_f (config 1 1 1 1) (fun _ => Complex.I) (fun _ _ => 0) 0 0 (fun _ => 0) 5).re = ((fun _ => Complex.I) (fwd_k_f_offset (config 1 1 1 1) 0 0 + 5)).re ∧
      (fwd_stage_k_f (config 1 1 1 1) (fun _ => Complex.I) (fun _ _ => 0) 0 0 (fun _ => 0) 5).im = ((fun _ => Complex.I) (fwd_k_f_offset (config 1 1 1 1) 0 0 + 5)).im) :=
  ⟨(C15_filter_conjugation (config 1 1 1 1) (config_valid 1 1 1 1) (config32 1 1 1 1)
      (config32_valid 1 1 1 1) (fun _ => Complex.I) (fun _ _ => 0) (fun _ => 0) 0 0 5).1 (by decide),
   (C15_filter_conjugation (config 1 1 1 1) (config_valid 1 1 1 1) (config32 1 1 1 1)
      (config32_valid 1 1 1 1) (fun _ => Complex.I) (fun _ _ => 0) (fun _ => 0) 0 0 5).2.1 (by decide),
   (C15_filter_conjugation (config 1 1 1 1) (config_valid 1 1 1 1) (config32 1 1 1 1)
      (config32_valid 1 1 1 1) (fun _ => Complex.I) (fun _ _ => 0) (fun _ => 0) 0 0 5).2.2 (by decide)⟩

/-! ## The `dk_f` accumulator is per channel -/

section per_channel
variable {K : Type} [CommRing K] [StarRing K]

/-- The signal offset of channel `h_tile_id` of the tile `blockIdx.y` is the offset of channel
0 of the tile `blockIdx.y * H_TILE_SIZE + h_tile_id` of a launch with one channel per tile;
the two agree in 32-bit arithmetic, also when they wrap. -/
theorem bwd_input_offset_alone (H ss BT HT bx bY ht b : ℕ) :
    bwd_input_offset H ss BT 1 bx (bY * HT + ht) 0 b = bwd_input_offset H ss BT HT bx bY ht b := by
  have key : (bY * HT + ht) * ss * 1 = bY * ss * HT + ht * ss := by ring
  simp only [bwd_input_offset, u32]
  rw [key]
  omega

/-- One thread block of the 16_16_16 backward kernel: the `dk_f` stored for the channel
`h_tile_id` of the tile, whatever the number of channels per tile. -/
theorem bwd_kernel_dk_f_channel (P : Params) (hv : P.Valid) (T : Tables K)
    (dout_inp a_inp k_f junk : ℕ → K) (regs : ℕ → ℕ → K) (bx bY : ℕ) (o : BwdOut K)
    (ht : ℕ) (hht : ht < P.H_TILE_SIZE) (j : ℕ) (hj : j < 4096) :
    (monarch_conv_bwd_cuda_complex_kernel P T dout_inp a_inp k_f junk regs bx bY o).dk_f_out
        (bwd_dk_f_offset P.N P.H P.H_TILE_SIZE bx bY ht + j)
      = ∑ b ∈ Finset.range P.B_TILE_SIZE,
          flat 16 (T.toM.fwd (fun i => dout_inp
            (bwd_input_offset P.H P.signal_size P.B_TILE_SIZE P.H_TILE_SIZE bx bY ht b + i))) j
          * star ((P.N : K) * flat 16 (T.toM.fwd (fun i => a_inp
            (bwd_input_offset P.H P.signal_size P.B_TILE_SIZE P.H_TILE_SIZE bx bY ht b + i)))
              j) := by
  have hN := hv.hN
  have hoff : ∀ t, bwd_dk_f_offset P.N P.H P.H_TILE_SIZE bx bY t
      = u32 (bY * P.N * P.H_TILE_SIZE) + u32 (bx * P.H * P.N) + t * 4096 := by
    intro t
    simp only [bwd_dk_f_offset, hN]
  have h := (forRange_write_once BwdState.dk_f_out
    (fun idx => ∑ b ∈ Finset.range P.B_TILE_SIZE,
      flat 16 (T.toM.fwd (fun i => dout_inp
        (bwd_input_offset P.H P.signal_size P.B_TILE_SIZE P.H_TILE_SIZE bx bY
          ((idx - (u32 (bY * P.N * P.H_TILE_SIZE) + u32 (bx * P.H * P.N))) / 4096) b + i)))
          ((idx - (u32 (bY * P.N * P.H_TILE_SIZE) + u32 (bx * P.H * P.N))) % 4096)
      * star ((P.N : K) * flat 16 (T.toM.fwd (fun i => a_inp
        (bwd_input_offset P.H P.signal_size P.B_TILE_SIZE P.H_TILE_SIZE bx bY
          ((idx - (u32 (bY * P.N * P.H_TILE_SIZE) + u32 (bx * P.H * P.N))) / 4096) b + i)))
          ((idx - (u32 (bY * P.N * P.H_TILE_SIZE) + u32 (bx * P.H * P.N))) % 4096)))
    (fun t idx => bwd_dk_f_offset P.N P.H P.H_TILE_SIZE bx bY t ≤ idx ∧
      idx < bwd_dk_f_offset P.N P.H P.H_TILE_SIZE bx bY t + 4096) P.H_TILE_SIZE
    (fun h_tile_id s => bwd_channel_body P T dout_inp a_inp k_f bx bY h_tile_id s)
    (fun t _ s1 idx1 hR => by
      obtain ⟨i, rfl⟩ : ∃ i, idx1 = bwd_dk_f_offset P.N P.H P.H_TILE_SIZE bx bY t + i :=
        ⟨idx1 - bwd_dk_f_offset P.N P.H P.H_TILE_SIZE bx bY t, by omega⟩
      have hi : i < 4096 := by omega
      rw [bwd_channel_dk_f P hv T dout_inp a_inp k_f bx bY t s1 i hi]
      have e1 : (bwd_dk_f_offset P.N P.H P.H_TILE_SIZE bx bY t + i
          - (u32 (bY * P.N * P.H_TILE_SIZE) + u32 (bx * P.H * P.N))) / 4096 = t := by
        rw [hoff t]; omega
      have e2 : (bwd_dk_f_offset P.N P.H P.H_TILE_SIZE bx bY t + i
          - (u32 (bY * P.N * P.H_TILE_SIZE) + u32 (bx * P.H * P.N))) % 4096 = i := by
        rw [hoff t]; omega
      simp only [e1, e2])
    (fun t _ s1 idx1 hR =>
      bwd_channel_body_dk_f_frame P hv T dout_inp a_inp k_f bx bY t s1 idx1 hR)
    { a := T.twiddle_factors_256_ifft, a_2 := junk, a_input_data := regs, temp := regs,
      dx_out := o.dx_out, dk_f_out := o.dk_f_out }
    (bwd_dk_f_offset P.N P.H P.H_TILE_SIZE bx bY ht + j)).1 ⟨ht, hht, by omega, by omega⟩
  have e1 : (bwd_dk_f_offset P.N P.H P.H_TILE_SIZE bx bY ht + j
      - (u32 (bY * P.N * P.H_TILE_SIZE) + u32 (bx * P.H * P.N))) / 4096 = ht := by
    rw [hoff ht]; omega
  have e2 : (bwd_dk_f_offset P.N P.H P.H_TILE_SIZE bx bY ht + j
      - (u32 (bY * P.N * P.H_TILE_SIZE) + u32 (bx * P.H * P.N))) % 4096 = j := by
    rw [hoff ht]; omega
  simp only [e1, e2] at h
  exact h

end per_channel

section per_channel32
variable {K : Type} [CommRing K] [StarRing K]

/-- One thread block of the 16_32_32 backward kernel: the `dk_f` stored for the channel
`h_tile_id` of the tile, whatever the number of channels per tile. -/
theorem bwd32_kernel_dk_f_channel (P : Params32) (hv : P.Valid) (T : Tables32 K)
    (dout_inp a_inp k_f junk : ℕ → K) (regs : ℕ → ℕ → K) (bx bY : ℕ) (o : BwdOut K)
    (ht : ℕ) (hht : ht < P.H_TILE_SIZE) (j : ℕ) (hj : j < 16384) :
    (monarch_conv_bwd_cuda_16_32_32_complex_kernel P T dout_inp a_inp k_f junk regs bx bY o).dk_f_out
        (bwd_dk_f_offset P.N P.H P.H_TILE_SIZE bx bY ht + j)
      = ∑ b ∈ Finset.range P.B_TILE_SIZE,
          flat 32 (T.toM.fwd (fun i => dout_inp
            (bwd_input_offset P.H P.signal_size P.B_TILE_SIZE P.H_TILE_SIZE bx bY ht b + i))) j
          * star ((P.N : K) * flat 32 (T.toM.fwd (fun i => a_inp
            (bwd_input_offset P.H P.signal_size P.B_TILE_SIZE P.H_TILE_SIZE bx bY ht b + i)))
              j) := by
  have hN := hv.hN
  have hoff : ∀ t, bwd_dk_f_offset P.N P.H P.H_TILE_SIZE bx bY t
      = u32 (bY * P.N * P.H_TILE_SIZE) + u32 (bx * P.H * P.N) + t * 16384 := by
    intro t
    simp only [bwd_dk_f_offset, hN]
  have h := (forRange_write_once BwdState.dk_f_out
    (fun idx => ∑ b ∈ Finset.range P.B_TILE_SIZE,
      flat 32 (T.toM.fwd (fun i => dout_inp
        (bwd_input_offset P.H P.signal_size P.B_TILE_SIZE P.H_TILE_SIZE bx bY
          ((idx - (u32 (bY * P.N * P.H_TILE_SIZE) + u32 (bx * P.H * P.N))) / 16384) b + i)))
          ((idx - (u32 (bY * P.N * P.H_TILE_SIZE) + u32 (bx * P.H * P.N))) % 16384)
      * star ((P.N : K) * flat 32 (T.toM.fwd (fun i => a_inp
        (bwd_input_offset P.H P.signal_size P.B_TILE_SIZE P.H_TILE_SIZE bx bY
          ((idx - (u32 (bY * P.N * P.H_TILE_SIZE) + u32 (bx * P.H * P.N))) / 16384) b + i)))
          ((idx - (u32 (bY * P.N * P.H_TILE_SIZE) + u32 (bx * P.H * P.N))) % 16384)))
    (fun t idx => bwd_dk_f_offset P.N P.H P.H_TILE_SIZE bx bY t ≤ idx ∧
      idx < bwd_dk_f_offset P.N P.H P.H_TILE_SIZE bx bY t + 16384) P.H_TILE_SIZE
    (fun h_tile_id s => bwd32_channel_body P T dout_inp a_inp k_f bx bY h_tile_id s)
    (fun t _ s1 idx1 hR => by
      obtain ⟨i, rfl⟩ : ∃ i, idx1 = bwd_dk_f_offset P.N P.H P.H_TILE_SIZE bx bY t + i :=
        ⟨idx1 - bwd_dk_f_offset P.N P.H P.H_TILE_SIZE bx bY t, by omega⟩
      have hi : i < 16384 := by omega
      rw [bwd32_channel_dk_f P hv T dout_inp a_inp k_f bx bY t s1 i hi]
      have e1 : (bwd_dk_f_offset P.N P.H P.H_TILE_SIZE bx bY t + i
          - (u32 (bY * P.N * P.H_TILE_SIZE) + u32 (bx * P.H * P.N))) / 16384 = t := by
        rw [hoff t]; omega
      have e2 : (bwd_dk_f_offset P.N P.H P.H_TILE_SIZE bx bY t + i
          - (u32 (bY * P.N * P.H_TILE_SIZE) + u32 (bx * P.H * P.N))) % 16384 = i := by
        rw [hoff t]; omega
      simp only [e1, e2])
    (fun t _ s1 idx1 hR =>
      bwd32_channel_body_dk_f_frame P hv T dout_inp a_inp k_f bx bY t s1 idx1 hR)
    { a := T.twiddle_factors_N_ifft, a_2 := junk, a_input_data := regs, temp := regs,
      dx_out := o.dx_out, dk_f_out := o.dk_f_out }
    (bwd_dk_f_offset P.N P.H P.H_TILE_SIZE bx bY ht + j)).1 ⟨ht, hht, by omega, by omega⟩
  have e1 : (bwd_dk_f_offset P.N P.H P.H_TILE_SIZE bx bY ht + j
      - (u32 (bY * P.N * P.H_TILE_SIZE) + u32 (bx * P.H * P.N))) / 16384 = ht := by
    rw [hoff ht]; omega
  have e2 : (bwd_dk_f_offset P.N P.H P.H_TILE_SIZE bx bY ht + j
      - (u32 (bY * P.N * P.H_TILE_SIZE) + u32 (bx * P.H * P.N))) % 16384 = j := by
    rw [hoff ht]; omega
  simp only [e1, e2] at h
  exact h

end per_channel32

/-- C17: in both backward kernels the `dk_f` accumulator belongs to one channel.  For a
tile of `H_TILE_SIZE` channels (any `H_TILE_SIZE`, in particular `H_TILE_SIZE ≥ 2`), every
channel `ht < H_TILE_SIZE` of the tile and every `j < N`, the value the thread block leaves at
`dk_f_out[base(ht) + j]` is the sum over the batch elements of the tile of
`T(dout)[j] * conj(N * T(x)[j])` taken on that channel's rows of `dout` and `x` only, and it
equals what the kernel run with `H_TILE_SIZE = 1` on the tile `blockIdx.y * H_TILE_SIZE + ht`
leaves at its own base, for any other `dout`, `x` that agree with the given ones on the rows
of that channel, and whatever that run's filter, registers, scratch contents and previous
output are: nothing of the other channels of the tile enters. -/
theorem C17_dk_f_accumulator {K : Type} [CommRing K] [StarRing K]
    (P P1 : Params) (hv : P.Valid) (hv1 : P1.Valid) (hH1 : P1.H_TILE_SIZE = 1)
    (hHH : P1.H = P.H) (hss : P1.signal_size = P.signal_size)
    (hBT : P1.B_TILE_SIZE = P.B_TILE_SIZE)
    (Q Q1 : Params32) (hq : Q.Valid) (hq1 : Q1.Valid) (hQH1 : Q1.H_TILE_SIZE = 1)
    (hQHH : Q1.H = Q.H) (hQss : Q1.signal_size = Q.signal_size)
    (hQBT : Q1.B_TILE_SIZE = Q.B_TILE_SIZE)
    (T : Tables K) (T2 : Tables32 K) (dout_inp a_inp dout_1 a_1 k_f k_f1 junk junk1 : ℕ → K)
    (regs regs1 : ℕ → ℕ → K) (o o1 : BwdOut K) (bx bY ht j : ℕ) :
    (ht < P.H_TILE_SIZE → j < P.N →
      (∀ b i, b < P.B_TILE_SIZE → i < P.N →
        dout_1 (bwd_input_offset P.H P.signal_size P.B_TILE_SIZE P.H_TILE_SIZE bx bY ht b + i)
          = dout_inp (bwd_input_offset P.H P.signal_size P.B_TILE_SIZE P.H_TILE_SIZE bx bY ht b + i) ∧
        a_1 (bwd_input_offset P.H P.signal_size P.B_TILE_SIZE P.H_TILE_SIZE bx bY ht b + i)
          = a_inp (bwd_input_offset P.H P.signal_size P.B_TILE_SIZE P.H_TILE_SIZE bx bY ht b + i)) →
      ((monarch_conv_bwd_cuda_complex_kernel P T dout_inp a_inp k_f junk regs bx bY o).dk_f_out
          (bwd_dk_f_offset P.N P.H P.H_TILE_SIZE bx bY ht + j)
        = ∑ b ∈ Finset.range P.B_TILE_SIZE,
            flat 16 (T.toM.fwd (fun i => dout_inp
              (bwd_input_offset P.H P.signal_size P.B_TILE_SIZE P.H_TILE_SIZE bx bY ht b + i))) j
            * star ((P.N : K) * flat 16 (T.toM.fwd (fun i => a_inp
              (bwd_input_offset P.H P.signal_size P.B_TILE_SIZE P.H_TILE_SIZE bx bY ht b + i))) j)) ∧
      ((monarch_conv_bwd_cuda_complex_kernel P T dout_inp a_inp k_f junk regs bx bY o).dk_f_out
          (bwd_dk_f_offset P.N P.H P.H_TILE_SIZE bx bY ht + j)
        = (monarch_conv_bwd_cuda_complex_kernel P1 T dout_1 a_1 k_f1 junk1 regs1 bx
            (bY * P.H_TILE_SIZE + ht) o1).dk_f_out
          (bwd_dk_f_offset P1.N P1.H P1.H_TILE_SIZE bx (bY * P.H_TILE_SIZE + ht) 0 + j))) ∧
    (ht < Q.H_TILE_SIZE → j < Q.N →
      (∀ b i, b < Q.B_TILE_SIZE → i < Q.N →
        dout_1 (bwd_input_offset Q.H Q.signal_size Q.B_TILE_SIZE Q.H_TILE_SIZE bx bY ht b + i)
          = dout_inp (bwd_input_offset Q.H Q.signal_size Q.B_TILE_SIZE Q.H_TILE_SIZE bx bY ht b + i) ∧
        a_1 (bwd_input_offset Q.H Q.signal_size Q.B_TILE_SIZE Q.H_TILE_SIZE bx bY ht b + i)
          = a_inp (bwd_input_offset Q.H Q.signal_size Q.B_TILE_SIZE Q.H_TILE_SIZE bx bY ht b + i)) →
      ((monarch_conv_bwd_cuda_16_32_32_complex_kernel Q T2 dout_inp a_inp k_f junk regs bx bY o).dk_f_out
          (bwd_dk_f_offset Q.N Q.H Q.H_TILE_SIZE bx bY ht + j)
        = ∑ b ∈ Finset.range Q.B_TILE_SIZE,
            flat 32 (T2.toM.fwd (fun i => dout_inp
              (bwd_input_offset Q.H Q.signal_size Q.B_TILE_SIZE Q.H_TILE_SIZE bx bY ht b + i))) j
            * star ((Q.N : K) * flat 32 (T2.toM.fwd (fun i => a_inp
              (bwd_input_offset Q.H Q.signal_size Q.B_TILE_SIZE Q.H_TILE_SIZE bx bY ht b + i))) j)) ∧
      ((monarch_conv_bwd_cuda_16_32_32_complex_kernel Q T2 dout_inp a_inp k_f junk regs bx bY o).dk_f_out
          (bwd_dk_f_offset Q.N Q.H Q.H_TILE_SIZE bx bY ht + j)
        = (monarch_conv_bwd_cuda_16_32_32_complex_kernel Q1 T2 dout_1 a_1 k_f1 junk1 regs1 bx
            (bY * Q.H_TILE_SIZE + ht) o1).dk_f_out
          (bwd_dk_f_offset Q1.N Q1.H Q1.H_TILE_SIZE bx (bY * Q.H_TILE_SIZE + ht) 0 + j))) := by
  refine ⟨?_, ?_⟩
  · intro hht hj hrow
    rw [hv.hN] at hj
    have h1 := bwd_kernel_dk_f_channel P hv T dout_inp a_inp k_f junk regs bx bY o ht hht j hj
    refine ⟨h1, ?_⟩
    rw [h1, bwd_kernel_dk_f_channel P1 hv1 T dout_1 a_1 k_f1 junk1 regs1 bx _ o1 0
      (by rw [hH1]; exact Nat.one_pos) j hj, hBT, hHH, hss, hH1, hv.hN, hv1.hN]
    apply Finset.sum_congr rfl
    intro b hb
    rw [bwd_input_offset_alone,
      fwd_window_congr16 T dout_1 dout_inp _ _
        (fun i hi => (hrow b i (Finset.mem_range.mp hb) (by rw [hv.hN]; exact hi)).1) j,
      fwd_window_congr16 T a_1 a_inp _ _
        (fun i hi => (hrow b i (Finset.mem_range.mp hb) (by rw [hv.hN]; exact hi)).2) j]
  · intro hht hj hrow
    rw [hq.hN] at hj
    have h1 := bwd32_kernel_dk_f_channel Q hq T2 dout_inp a_inp k_f junk regs bx bY o ht hht j hj
    refine ⟨h1, ?_⟩
    rw [h1, bwd32_kernel_dk_f_channel Q1 hq1 T2 dout_1 a_1 k_f1 junk1 regs1 bx _ o1 0
      (by rw [hQH1]; exact Nat.one_pos) j hj, hQBT, hQHH, hQss, hQH1, hq.hN, hq1.hN]
    apply Finset.sum_congr rfl
    intro b hb
    rw [bwd_input_offset_alone,
      fwd_window_congr32 T2 dout_1 dout_inp _ _
        (fun i hi => (hrow b i (Finset.mem_range.mp hb) (by rw [hq.hN]; exact hi)).1) j,
      fwd_window_congr32 T2 a_1 a_inp _ _
        (fun i hi => (hrow b i (Finset.mem_range.mp hb) (by rw [hq.hN]; exact hi)).2) j]

/-- Witness of C17: the second channel of a tile of two channels, against the run with one
channel per tile, on tables of ones and all-ones signals. -/
theorem C17_dk_f_accumulator_witness :
    (((monarch_conv_bwd_cuda_complex_kernel (config 1 2 1 2) (ones_tables ℤ) (all_ones ℤ) (all_ones ℤ) (all_ones ℤ) (fun _ => 0) (fun _ _ => 0) 0 0 ⟨fun _ => 0, fun _ => 0⟩).dk_f_out
          (bwd_dk_f_offset (config 1 2 1 2).N (config 1 2 1 2).H (config 1 2 1 2).H_TILE_SIZE 0 0 1 + 3)
        = ∑ b ∈ Finset.range (config 1 2 1 2).B_TILE_SIZE,
            flat 16 ((ones_tables ℤ).toM.fwd (fun i => (all_ones ℤ)
              (bwd_input_offset (config 1 2 1 2).H (config 1 2 1 2).signal_size (config 1 2 1 2).B_TILE_SIZE (config 1 2 1 2).H_TILE_SIZE 0 0 1 b + i))) 3
            * star (((config 1 2 1 2).N : ℤ) * flat 16 ((ones_tables ℤ).toM.fwd (fun i => (all_ones ℤ)
              (bwd_input_offset (config 1 2 1 2).H (config 1 2 1 2).signal_size (config 1 2 1 2).B_TILE_SIZE (config 1 2 1 2).H_TILE_SIZE 0 0 1 b + i))) 3)) ∧
      ((monarch_conv_bwd_cuda_complex_kernel (config 1 2 1 2) (ones_tables ℤ) (all_ones ℤ) (all_ones ℤ) (all_ones ℤ) (fun _ => 0) (fun _ _ => 0) 0 0 ⟨fun _ => 0, fun _ => 0⟩).dk_f_out
          (bwd_dk_f_offset (config 1 2 1 2).N (config 1 2 1 2).H (config 1 2 1 2).H_TILE_SIZE 0 0 1 + 3)
        = (monarch_conv_bwd_cuda_complex_kernel (config 1 2 1 1) (ones_tables ℤ) (all_ones ℤ) (all_ones ℤ) (unit_impulse ℤ) (fun _ => 1) (fun _ _ => 1) 0
            (0 * (config 1 2 1 2).H_TILE_SIZE + 1) ⟨fun _ => 1, fun _ => 1⟩).dk_f_out
          (bwd_dk_f_offset (config 1 2 1 1).N (config 1 2 1 1).H (config 1 2 1 1).H_TILE_SIZE 0 (0 * (config 1 2 1 2).H_TILE_SIZE + 1) 0 + 3))) ∧
    (((monarch_conv_bwd_cuda_16_32_32_complex_kernel (config32 1 2 1 2) (ones_tables32 ℤ) (all_ones ℤ) (all_ones ℤ) (all_ones ℤ) (fun _ => 0) (fun _ _ => 0) 0 0 ⟨fun _ => 0, fun _ => 0⟩).dk_f_out
          (bwd_dk_f_offset (config32 1 2 1 2).N (config32 1 2 1 2).H (config32 1 2 1 2).H_TILE_SIZE 0 0 1 + 3)
        = ∑ b ∈ Finset.range (config32 1 2 1 2).B_TILE_SIZE,
            flat 32 ((ones_tables32 ℤ).toM.fwd (fun i => (all_ones ℤ)
              (bwd_input_offset (config32 1 2 1 2).H (config32 1 2 1 2).signal_size (config32 1 2 1 2).B_TILE_SIZE (config32 1 2 1 2).H_TILE_SIZE 0 0 1 b + i))) 3
            * star (((config32 1 2 1 2).N : ℤ) * flat 32 ((ones_tables32 ℤ).toM.fwd (fun i => (all_ones ℤ)
              (bwd_input_offset (config32 1 2 1 2).H (config32 1 2 1 2).signal_size (config32 1 2 1 2).B_TILE_SIZE (config32 1 2 1 2).H_TILE_SIZE 0 0 1 b + i))) 3)) ∧
      ((monarch_conv_bwd_cuda_16_32_32_complex_kernel (config32 1 2 1 2) (ones_tables32 ℤ) (all_ones ℤ) (all_ones ℤ) (all_ones ℤ) (fun _ => 0) (fun _ _ => 0) 0 0 ⟨fun _ => 0, fun _ => 0⟩).dk_f_out
          (bwd_dk_f_offset (config32 1 2 1 2).N (config32 1 2 1 2).H (config32 1 2 1 2).H_TILE_SIZE 0 0 1 + 3)
        = (monarch_conv_bwd_cuda_16_32_32_complex_kernel (config32 1 2 1 1) (ones_tables32 ℤ) (all_ones ℤ) (all_ones ℤ) (unit_impulse ℤ) (fun _ => 1) (fun _ _ => 1) 0
            (0 * (config32 1 2 1 2).H_TILE_SIZE + 1) ⟨fun _ => 1, fun _ => 1⟩).dk_f_out
          (bwd_dk_f_offset (config32 1 2 1 1).N (config32 1 2 1 1).H (config32 1 2 1 1).H_TILE_SIZE 0 (0 * (config32 1 2 1 2).H_TILE_SIZE + 1) 0 + 3))) :=
  ⟨(C17_dk_f_accumulator (config 1 2 1 2) (config 1 2 1 1) (config_valid 1 2 1 2)
      (config_valid 1 2 1 1) rfl rfl rfl rfl (config32 1 2 1 2) (config32 1 2 1 1)
      (config32_valid 1 2 1 2) (config32_valid 1 2 1 1) rfl rfl rfl rfl (ones_tables ℤ)
      (ones_tables32 ℤ) (all_ones ℤ) (all_ones ℤ) (all_ones ℤ) (all_ones ℤ) (all_ones ℤ)
      (unit_impulse ℤ) (fun _ => 0) (fun _ => 1) (fun _ _ => 0) (fun _ _ => 1)
      ⟨fun _ => 0, fun _ => 0⟩ ⟨fun _ => 1, fun _ => 1⟩ 0 0 1 3).1 (by decide) (by decide)
      (fun _ _ _ _ => ⟨rfl, rfl⟩),
   (C17_dk_f_accumulator (config 1 2 1 2) (config 1 2 1 1) (config_valid 1 2 1 2)
      (config_valid 1 2 1 1) rfl rfl rfl rfl (config32 1 2 1 2) (config32 1 2 1 1)
      (config32_valid 1 2 1 2) (config32_valid 1 2 1 1) rfl rfl rfl rfl (ones_tables ℤ)
      (ones_tables32 ℤ) (all_ones ℤ) (all_ones ℤ) (all_ones ℤ) (all_ones ℤ) (all_ones ℤ)
      (unit_impulse ℤ) (fun _ => 0) (fun _ => 1) (fun _ _ => 0) (fun _ _ => 1)
      ⟨fun _ => 0, fun _ => 0⟩ ⟨fun _ => 1, fun _ => 1⟩ 0 0 1 3).2 (by decide) (by decide)
      (fun _ _ _ _ => ⟨rfl, rfl⟩)⟩

/-! ## One filter sequence per channel, for every batch element -/

section filter_rows
variable {K : Type} [CommRing K]

/-- The channel loop body of the forward kernel, row by row: the output row of batch element
`bt` of the tile is computed with the filter row of the channel. -/
theorem fwd_channel_row (P : Params) (hv : P.Valid) (T : Tables K) (a_inp k_f : ℕ → K)
    (regs : ℕ → ℕ → K) (hnov : P.B * P.H * P.N ≤ 2147483648) (bx bY ht : ℕ)
    (hb : ∀ bt, bt < P.B_TILE_SIZE → bx * P.B_TILE_SIZE + bt < P.B)
    (hh : bY * P.H_TILE_SIZE + ht < P.H) (s : FwdState K) (bt : ℕ) (hbt : bt < P.B_TILE_SIZE)
    (j : ℕ) (hj : j < P.N) :
    (fwd_channel_body P T a_inp k_f regs bx bY ht s).out
          (((bx * P.B_TILE_SIZE + bt) * P.H + (bY * P.H_TILE_SIZE + ht)) * P.N + j)
        = flat 16 (T.toM.inv (fun f1 f2 f3 =>
            T.toM.fwd (fun i => a_inp
              (((bx * P.B_TILE_SIZE + bt) * P.H + (bY * P.H_TILE_SIZE + ht)) * P.N + i)) f1 f2 f3
            * k_f ((bY * P.H_TILE_SIZE + ht) * P.N + (256 * f1 + 16 * f2 + f3)))) j := by
  have hj1 : j < 4096 := by rw [← hv.hN]; exact hj
  have hoff := fwd_input_offset_eq P (hb bt hbt) hh hnov
  have hd := row_decode
    (r := (bx * P.B_TILE_SIZE + bt) * P.H + (bY * P.H_TILE_SIZE + ht)) hj
  have hc := chan_decode (e := bx * P.B_TILE_SIZE + bt) hh
  rw [(fwd_channel_spec P hv T a_inp k_f regs hnov bx bY ht hb hh s _).1
    ⟨bt, hbt, by rw [hoff]; omega⟩]
  unfold fwd_out_spec
  rw [hd.1, hd.2, hc.2]

variable [StarRing K]

/-- The channel loop body of the 16_16_16 backward kernel, row by row. -/
theorem bwd_channel_dx_row (P : Params) (hv : P.Valid) (hss : P.signal_size = P.N)
    (T : Tables K) (dout_inp a_inp k_f : ℕ → K) (hnov : P.B * P.H * P.N ≤ 2147483648)
    (bx bY ht : ℕ) (hb : ∀ bt, bt < P.B_TILE_SIZE → bx * P.B_TILE_SIZE + bt < P.B)
    (hh : bY * P.H_TILE_SIZE + ht < P.H) (s : BwdState K) (bt : ℕ)
    (hbt : bt < P.B_TILE_SIZE) (j : ℕ) (hj : j < P.N) :
    (bwd_channel_body P T dout_inp a_inp k_f bx bY ht s).dx_out
          (((bx * P.B_TILE_SIZE + bt) * P.H + (bY * P.H_TILE_SIZE + ht)) * P.N + j)
        = flat 16 (T.toM.inv (fun f1 f2 f3 =>
            T.toM.fwd (fun i => dout_inp
              (((bx * P.B_TILE_SIZE + bt) * P.H + (bY * P.H_TILE_SIZE + ht)) * P.N + i)) f1 f2 f3
            * star (k_f ((bY * P.H_TILE_SIZE + ht) * P.N + (256 * f1 + 16 * f2 + f3))))) j := by
  have hj1 : j < 4096 := by rw [← hv.hN]; exact hj
  have hoff : bwd_input_offset P.H P.signal_size P.B_TILE_SIZE P.H_TILE_SIZE bx bY ht bt
      = ((bx * P.B_TILE_SIZE + bt) * P.H + (bY * P.H_TILE_SIZE + ht)) * P.N := by
    rw [hss]
    exact bwd_input_offset_eq (hb bt hbt) hh hnov
  have hd := row_decode
    (r := (bx * P.B_TILE_SIZE + bt) * P.H + (bY * P.H_TILE_SIZE + ht)) hj
  have hc := chan_decode (e := bx * P.B_TILE_SIZE + bt) hh
  rw [(bwd_channel_dx_spec P hv hss T dout_inp a_inp k_f hnov bx bY ht hb hh s _).1
    ⟨bt, hbt, by rw [hoff]; omega⟩]
  unfold bwd_dx_spec
  rw [hd.1, hd.2, hc.2]

/-- The channel loop body of the 16_32_32 backward kernel, row by row. -/
theorem bwd32_channel_dx_row (P : Params32) (hv : P.Valid) (hss : P.signal_size = P.N)
    (T : Tables32 K) (dout_inp a_inp k_f : ℕ → K) (hnov : P.B * P.H * P.N ≤ 2147483648)
    (bx bY ht : ℕ) (hb : ∀ bt, bt < P.B_TILE_SIZE → bx * P.B_TILE_SIZE + bt < P.B)
    (hh : bY * P.H_TILE_SIZE + ht < P.H) (s : BwdState K) (bt : ℕ)
    (hbt : bt < P.B_TILE_SIZE) (j : ℕ) (hj : j < P.N) :
    (bwd32_channel_body P T dout_inp a_inp k_f bx bY ht s).dx_out
          (((bx * P.B_TILE_SIZE + bt) * P.H + (bY * P.H_TILE_SIZE + ht)) * P.N + j)
        = flat 32 (T.toM.inv (fun f1 f2 f3 =>
            T.toM.fwd (fun i => dout_inp
              (((bx * P.B_TILE_SIZE + bt) * P.H + (bY * P.H_TILE_SIZE + ht)) * P.N + i)) f1 f2 f3
            * star (k_f ((bY * P.H_TILE_SIZE + ht) * P.N + (1024 * f1 + 32 * f2 + f3))))) j := by
  have hN := hv.hN
  have hj1 : j < 16384 := by rw [← hN]; exact hj
  have hoff : ∀ t, t < P.B_TILE_SIZE →
      bwd_input_offset P.H P.signal_size P.B_TILE_SIZE P.H_TILE_SIZE bx bY ht t
        = ((bx * P.B_TILE_SIZE + t) * P.H + (bY * P.H_TILE_SIZE + ht)) * P.N := by
    intro t ht1
    rw [hss]
    exact bwd_input_offset_eq (hb t ht1) hh hnov
  have hk : bwd_k_f_offset P.N P.H_TILE_SIZE bY ht = (bY * P.H_TILE_SIZE + ht) * P.N :=
    bwd_k_f_offset_eq hh (chan_rows_le (by have := hb bt hbt; omega) hnov)
  have hd := row_decode
    (r := (bx * P.B_TILE_SIZE + bt) * P.H + (bY * P.H_TILE_SIZE + ht)) hj
  have h : (bwd32_channel_body P T dout_inp a_inp k_f bx bY ht s).dx_out
      (((bx * P.B_TILE_SIZE + bt) * P.H + (bY * P.H_TILE_SIZE + ht)) * P.N + j)
      = flat 32 (T.toM.inv (fun f1 f2 f3 =>
          T.toM.fwd (fun i => dout_inp
            ((((bx * P.B_TILE_SIZE + bt) * P.H + (bY * P.H_TILE_SIZE + ht)) * P.N + j) / P.N
              * P.N + i)) f1 f2 f3
          * star (k_f ((bY * P.H_TILE_SIZE + ht) * P.N + (1024 * f1 + 32 * f2 + f3)))))
          ((((bx * P.B_TILE_SIZE + bt) * P.H + (bY * P.H_TILE_SIZE + ht)) * P.N + j) % P.N) := by
    unfold bwd32_channel_body
    exact (forRange_write_once BwdState.dx_out
      (fun idx => flat 32 (T.toM.inv (fun f1 f2 f3 =>
        T.toM.fwd (fun i => dout_inp (idx / P.N * P.N + i)) f1 f2 f3
          * star (k_f ((bY * P.H_TILE_SIZE + ht) * P.N + (1024 * f1 + 32 * f2 + f3)))))
        (idx % P.N))
      (fun t idx =>
        bwd_input_offset P.H P.signal_size P.B_TILE_SIZE P.H_TILE_SIZE bx bY ht t ≤ idx ∧
          idx < bwd_input_offset P.H P.signal_size P.B_TILE_SIZE P.H_TILE_SIZE bx bY ht t
            + 16384) P.B_TILE_SIZE _
      (fun t ht1 s1 idx1 hR => by
        obtain ⟨i, rfl⟩ : ∃ i, idx1
            = bwd_input_offset P.H P.signal_size P.B_TILE_SIZE P.H_TILE_SIZE bx bY ht t + i :=
          ⟨idx1 - bwd_input_offset P.H P.signal_size P.B_TILE_SIZE P.H_TILE_SIZE bx bY ht t,
            by omega⟩
        have hi : i < 16384 := by omega
        have hiN : i < P.N := by rw [hN]; exact hi
        have hd1 := row_decode
          (r := (bx * P.B_TILE_SIZE + t) * P.H + (bY * P.H_TILE_SIZE + ht)) hiN
        rw [bwd32_unit_dx P hv T dout_inp a_inp k_f _ _ _ _ s1 i hi]
        simp only [hoff t ht1, hk, hd1.1, hd1.2])
      (fun t _ s1 idx1 hR => bwd32_batch_body_dx_frame P hv T dout_inp a_inp _ _ s1 idx1 hR)
      _ (((bx * P.B_TILE_SIZE + bt) * P.H + (bY * P.H_TILE_SIZE + ht)) * P.N + j)).1
      ⟨bt, hbt, by rw [hoff bt hbt]; omega⟩
  simp only [hd.1, hd.2] at h
  exact h

end filter_rows

/-- C18, amended: one filter sequence per channel, for every batch element.  In the three
kernels the filter is read at `(blockIdx.y * N * H_TILE_SIZE mod 2^32) + h_tile_id * N`; for a
channel `blockIdx.y * H_TILE_SIZE + h_tile_id < H` and `H * N ≤ 2^31` this is
`(blockIdx.y * H_TILE_SIZE + h_tile_id) * N`, a function of the channel only.  The filter is
staged once per channel, before the batch loop: without 32-bit overflow of the signal offsets
(`B * H * N ≤ 2^31`, backward kernels: `signal_size = N`), after the channel loop body the row
of every batch element `bt` of the tile (forward: output, backward: `dx`) is the inverse
stage sequence of the product of that element's transformed signal with the one sequence
`k_f[channel * N ..]` (conjugated in the backward kernels). -/
theorem C18_filter_constant_amended {K : Type} [CommRing K] [StarRing K]
    (P : Params) (hv : P.Valid) (hss : P.signal_size = P.N)
    (Q : Params32) (hq : Q.Valid) (hqss : Q.signal_size = Q.N)
    (T : Tables K) (T2 : Tables32 K) (a_inp dout_inp k_f : ℕ → K) (regs : ℕ → ℕ → K)
    (s : FwdState K) (s2 : BwdState K) (bx bY ht : ℕ)
    (hh : bY * P.H_TILE_SIZE + ht < P.H) (hqh : bY * Q.H_TILE_SIZE + ht < Q.H) :
    (P.H * P.N ≤ 2147483648 →
      fwd_k_f_offset P bY ht = (bY * P.H_TILE_SIZE + ht) * P.N ∧
      bwd_k_f_offset P.N P.H_TILE_SIZE bY ht = (bY * P.H_TILE_SIZE + ht) * P.N) ∧
    (Q.H * Q.N ≤ 2147483648 →
      bwd_k_f_offset Q.N Q.H_TILE_SIZE bY ht = (bY * Q.H_TILE_SIZE + ht) * Q.N) ∧
    (P.B * P.H * P.N ≤ 2147483648 →
      (∀ b, b < P.B_TILE_SIZE → bx * P.B_TILE_SIZE + b < P.B) →
      ∀ bt j, bt < P.B_TILE_SIZE → j < P.N →
        ((fwd_channel_body P T a_inp k_f regs bx bY ht s).out
          (((bx * P.B_TILE_SIZE + bt) * P.H + (bY * P.H_TILE_SIZE + ht)) * P.N + j)
        = flat 16 (T.toM.inv (fun f1 f2 f3 =>
            T.toM.fwd (fun i => a_inp
              (((bx * P.B_TILE_SIZE + bt) * P.H + (bY * P.H_TILE_SIZE + ht)) * P.N + i)) f1 f2 f3
            * k_f ((bY * P.H_TILE_SIZE + ht) * P.N + (256 * f1 + 16 * f2 + f3)))) j) ∧
        ((bwd_channel_body P T dout_inp a_inp k_f bx bY ht s2).dx_out
          (((bx * P.B_TILE_SIZE + bt) * P.H + (bY * P.H_TILE_SIZE + ht)) * P.N + j)
        = flat 16 (T.toM.inv (fun f1 f2 f3 =>
            T.toM.fwd (fun i => dout_inp
              (((bx * P.B_TILE_SIZE + bt) * P.H + (bY * P.H_TILE_SIZE + ht)) * P.N + i)) f1 f2 f3
            * star (k_f ((bY * P.H_TILE_SIZE + ht) * P.N + (256 * f1 + 16 * f2 + f3))))) j)) ∧
    (Q.B * Q.H * Q.N ≤ 2147483648 →
      (∀ b, b < Q.B_TILE_SIZE → bx * Q.B_TILE_SIZE + b < Q.B) →
      ∀ bt j, bt < Q.B_TILE_SIZE → j < Q.N →
        (bwd32_channel_body Q T2 dout_inp a_inp k_f bx bY ht s2).dx_out
          (((bx * Q.B_TILE_SIZE + bt) * Q.H + (bY * Q.H_TILE_SIZE + ht)) * Q.N + j)
        = flat 32 (T2.toM.inv (fun f1 f2 f3 =>
            T2.toM.fwd (fun i => dout_inp
              (((bx * Q.B_TILE_SIZE + bt) * Q.H + (bY * Q.H_TILE_SIZE + ht)) * Q.N + i)) f1 f2 f3
            * star (k_f ((bY * Q.H_TILE_SIZE + ht) * Q.N + (1024 * f1 + 32 * f2 + f3))))) j) := by
  refine ⟨fun h => ⟨bwd_k_f_offset_eq hh h, bwd_k_f_offset_eq hh h⟩,
    fun h => bwd_k_f_offset_eq hqh h, ?_, ?_⟩
  · intro hnov hb bt j hbt hj
    exact ⟨fwd_channel_row P hv T a_inp k_f regs hnov bx bY ht hb hh s bt hbt j hj,
      bwd_channel_dx_row P hv hss T dout_inp a_inp k_f hnov bx bY ht hb hh s2 bt hbt j hj⟩
  · intro hnov hb bt j hbt hj
    exact bwd32_channel_dx_row Q hq hqss T2 dout_inp a_inp k_f hnov bx bY ht hb hqh s2 bt hbt
      j hj

/-- Witness of C18 (amended): a `4 × 4` workload in `2 × 2` tiles, tile `(1, 1)`, second
channel and second batch element of the tile. -/
theorem C18_filter_constant_amended_witness :
    (fwd_k_f_offset (config 4 4 2 2) 1 1 = (1 * (config 4 4 2 2).H_TILE_SIZE + 1) * (config 4 4 2 2).N ∧
      bwd_k_f_offset (config 4 4 2 2).N (config 4 4 2 2).H_TILE_SIZE 1 1 = (1 * (config 4 4 2 2).H_TILE_SIZE + 1) * (config 4 4 2 2).N) ∧
    (bwd_k_f_offset (config32 4 4 2 2).N (config32 4 4 2 2).H_TILE_SIZE 1 1 = (1 * (config32 4 4 2 2).H_TILE_SIZE + 1) * (config32 4 4 2 2).N) ∧
    (((fwd_channel_body (config 4 4 2 2) (ones_tables ℤ) (all_ones ℤ) (unit_impulse ℤ) (fun _ _ => 0) 1 1 1 ⟨fun _ => 0, fun _ => 0⟩).out
          (((1 * (config 4 4 2 2).B_TILE_SIZE + 1) * (config 4 4 2 2).H + (1 * (config 4 4 2 2).H_TILE_SIZE + 1)) * (config 4 4 2 2).N + 5)
        = flat 16 ((ones_tables ℤ).toM.inv (fun f1 f2 f3 =>
            (ones_tables ℤ).toM.fwd (fun i => (all_ones ℤ)
              (((1 * (config 4 4 2 2).B_TILE_SIZE + 1) * (config 4 4 2 2).H + (1 * (config 4 4 2 2).H_TILE_SIZE + 1)) * (config 4 4 2 2).N + i)) f1 f2 f3
            * (unit_impulse ℤ) ((1 * (config 4 4 2 2).H_TILE_SIZE + 1) * (config 4 4 2 2).N + (256 * f1 + 16 * f2 + f3)))) 5) ∧
        ((bwd_channel_body (config 4 4 2 2) (ones_tables ℤ) (all_ones ℤ) (all_ones ℤ) (unit_impulse ℤ) 1 1 1 ⟨fun _ => 0, fun _ => 0, fun _ _ => 0, fun _ _ => 0, fun _ => 0, fun _ => 0⟩).dx_out
          (((1 * (config 4 4 2 2).B_TILE_SIZE + 1) * (config 4 4 2 2).H + (1 * (config 4 4 2 2).H_TILE_SIZE + 1)) * (config 4 4 2 2).N + 5)
        = flat 16 ((ones_tables ℤ).toM.inv (fun f1 f2 f3 =>
            (ones_tables ℤ).toM.fwd (fun i => (all_ones ℤ)
              (((1 * (config 4 4 2 2).B_TILE_SIZE + 1) * (config 4 4 2 2).H + (1 * (config 4 4 2 2).H_TILE_SIZE + 1)) * (config 4 4 2 2).N + i)) f1 f2 f3
            * star ((unit_impulse ℤ) ((1 * (config 4 4 2 2).H_TILE_SIZE + 1) * (config 4 4 2 2).N + (256 * f1 + 16 * f2 + f3))))) 5)) ∧
    ((bwd32_channel_body (config32 4 4 2 2) (ones_tables32 ℤ) (all_ones ℤ) (all_ones ℤ) (unit_impulse ℤ) 1 1 1 ⟨fun _ => 0, fun _ => 0, fun _ _ => 0, fun _ _ => 0, fun _ => 0, fun _ => 0⟩).dx_out
          (((1 * (config32 4 4 2 2).B_TILE_SIZE + 1) * (config32 4 4 2 2).H + (1 * (config32 4 4 2 2).H_TILE_SIZE + 1)) * (config32 4 4 2 2).N + 5)
        = flat 32 ((ones_tables32 ℤ).toM.inv (fun f1 f2 f3 =>
            (ones_tables32 ℤ).toM.fwd (fun i => (all_ones ℤ)
              (((1 * (config32 4 4 2 2).B_TILE_SIZE + 1) * (config32 4 4 2 2).H + (1 * (config32 4 4 2 2).H_TILE_SIZE + 1)) * (config32 4 4 2 2).N + i)) f1 f2 f3
            * star ((unit_impulse ℤ) ((1 * (config32 4 4 2 2).H_TILE_SIZE + 1) * (config32 4 4 2 2).N + (1024 * f1 + 32 * f2 + f3))))) 5) :=
  ⟨(C18_filter_constant_amended (config 4 4 2 2) (config_valid 4 4 2 2) rfl
      (config32 4 4 2 2) (config32_valid 4 4 2 2) rfl (ones_tables ℤ) (ones_tables32 ℤ)
      (all_ones ℤ) (all_ones ℤ) (unit_impulse ℤ) (fun _ _ => 0) ⟨fun _ => 0, fun _ => 0⟩
      ⟨fun _ => 0, fun _ => 0, fun _ _ => 0, fun _ _ => 0, fun _ => 0, fun _ => 0⟩ 1 1 1
      (by decide) (by decide)).1 (by decide),
   (C18_filter_constant_amended (config 4 4 2 2) (config_valid 4 4 2 2) rfl
      (config32 4 4 2 2) (config32_valid 4 4 2 2) rfl (ones_tables ℤ) (ones_tables32 ℤ)
      (all_ones ℤ) (all_ones ℤ) (unit_impulse ℤ) (fun _ _ => 0) ⟨fun _ => 0, fun _ => 0⟩
      ⟨fun _ => 0, fun _ => 0, fun _ _ => 0, fun _ _ => 0, fun _ => 0, fun _ => 0⟩ 1 1 1
      (by decide) (by decide)).2.1 (by decide),
   (C18_filter_constant_amended (config 4 4 2 2) (config_valid 4 4 2 2) rfl
      (config32 4 4 2 2) (config32_valid 4 4 2 2) rfl (ones_tables ℤ) (ones_tables32 ℤ)
      (all_ones ℤ) (all_ones ℤ) (unit_impulse ℤ) (fun _ _ => 0) ⟨fun _ => 0, fun _ => 0⟩
      ⟨fun _ => 0, fun _ => 0, fun _ _ => 0, fun _ _ => 0, fun _ => 0, fun _ => 0⟩ 1 1 1
      (by decide) (by decide)).2.2.1 (by decide) (by decide) 1 5
      (by decide) (by decide),
   (C18_filter_constant_amended (config 4 4 2 2) (config_valid 4 4 2 2) rfl
      (config32 4 4 2 2) (config32_valid 4 4 2 2) rfl (ones_tables ℤ) (ones_tables32 ℤ)
      (all_ones ℤ) (all_ones ℤ) (unit_impulse ℤ) (fun _ _ => 0) ⟨fun _ => 0, fun _ => 0⟩
      ⟨fun _ => 0, fun _ => 0, fun _ _ => 0, fun _ _ => 0, fun _ => 0, fun _ => 0⟩ 1 1 1
      (by decide) (by decide)).2.2.2 (by decide) (by decide) 1 5
      (by decide) (by decide)⟩

/-- Counterexample to C18 as stated: `N = 4096`, `H = 65535 * 32` channels in tiles of
`H_TILE_SIZE = 32` (a grid of 65535 tiles in `y`).  For the tile `blockIdx.y = 32768`, whose
first channel `32768 * 32` is inside the workload, `blockIdx.y * N * H_TILE_SIZE = 2^32` wraps
to `0`: the filter is read at offset `0`, not at `(blockIdx.y * H_TILE_SIZE + 0) * N`, in the
forward and in the backward kernels; it is the filter of channel 0. -/
theorem C18_filter_constant_counterexample :
    32768 * (config 1 2097120 1 32).H_TILE_SIZE + 0 < (config 1 2097120 1 32).H ∧
    fwd_k_f_offset (config 1 2097120 1 32) 32768 0 ≠ (32768 * (config 1 2097120 1 32).H_TILE_SIZE + 0) * (config 1 2097120 1 32).N ∧
    bwd_k_f_offset (config 1 2097120 1 32).N (config 1 2097120 1 32).H_TILE_SIZE 32768 0 ≠ (32768 * (config 1 2097120 1 32).H_TILE_SIZE + 0) * (config 1 2097120 1 32).N ∧
    fwd_k_f_offset (config 1 2097120 1 32) 32768 0 = fwd_k_f_offset (config 1 2097120 1 32) 0 0 := by
  simp [fwd_k_f_offset, bwd_k_f_offset, u32, config]

/-! ## Where the factor `N` is applied -/

section scale
variable {K : Type} [Field K]

/-- On DFT tables with arbitrary normalisations, multiplying the forward stage sequence by the
spectrum of `k` and applying the inverse stage sequence gives `c_fwd * c_inv * N` times the
circular convolution: the stage sequences themselves contribute the factor `N`. -/
theorem MTables.inv_fwd_conv_scaled {M : MTables K} {ω c_fwd c_inv : K}
    (h : M.IsDFT ω c_fwd c_inv) (x k : ℕ → K) (n1 n2 n3 : ℕ) (h1 : n1 < M.p) (h2 : n2 < M.q)
    (h3 : n3 < M.q) :
    M.inv (fun f1 f2 f3 => M.fwd x f1 f2 f3
        * dft_sum (M.p * M.q * M.q) ω k (freq M.p M.q f1 f2 f3)) n1 n2 n3
      = c_fwd * c_inv * ((M.p * M.q * M.q : ℕ) : K)
          * circ_conv (M.p * M.q * M.q) x k (M.q * M.q * n1 + M.q * n2 + n3) := by
  rw [MTables.inv_fwd_mul h x _ n1 n2 n3 h1 h2 h3,
    sum_freq_digits M.p M.q (fun f => dft_sum (M.p * M.q * M.q) ω x f
      * dft_sum (M.p * M.q * M.q) ω k f * ω⁻¹ ^ ((M.q * M.q * n1 + M.q * n2 + n3) * f)),
    dft_conv h.root x k _ (pos_lt h1 h2 h3)]
  ring

/-- The tile of the forward kernel on DFT tables with arbitrary normalisations: the output is
`c_fwd * c_inv * N` times the circular convolution. -/
theorem fwd_unit_conv_scaled (P : Params) (hv : P.Valid)
    (T : Tables K) (ω c_fwd c_inv : K) (hT : T.toM.IsDFT ω c_fwd c_inv)
    (a_inp k_f k : ℕ → K) (regs : ℕ → ℕ → K) (a_0 : ℕ → K) (bx bY ht bt : ℕ)
    (hk : ∀ f1 f2 f3, f1 < 16 → f2 < 16 → f3 < 16 →
      k_f (fwd_k_f_offset P bY ht + (256 * f1 + 16 * f2 + f3))
        = dft_sum 4096 ω k (freq 16 16 f1 f2 f3))
    (s : FwdState K) (j : ℕ) (hj : j < 4096) :
    (fwd_batch_body P T a_inp (k_frag P (fwd_stage_k_f P k_f regs bY ht a_0))
        (fwd_input_offset P bx bY ht bt) s).out (fwd_input_offset P bx bY ht bt + j)
      = c_fwd * c_inv * ((4096 : ℕ) : K)
          * circ_conv 4096 (fun i => a_inp (fwd_input_offset P bx bY ht bt + i)) k j := by
  have e := flat_index j
  have h := MTables.inv_fwd_conv_scaled hT (fun i => a_inp (fwd_input_offset P bx bY ht bt + i))
    k (j / (16 * 16)) (j / 16 % 16) (j % 16) (by simp only [Tables.toM]; omega)
    (by simp only [Tables.toM]; omega) (by simp only [Tables.toM]; omega)
  simp only [Tables.toM] at h
  have e1 : 16 * 16 * (j / (16 * 16)) + 16 * (j / 16 % 16) + j % 16 = j := by omega
  rw [e1] at h
  rw [← h]
  conv_lhs => rw [← e]
  rw [fwd_unit_out P hv T a_inp k_f regs bY ht a_0 _ s _ _ _
    (by omega) (by omega) (by omega)]
  apply MTables.inv_congr
  intro f1 f2 f3 hf1 hf2 hf3
  simp only [Tables.toM] at hf1 hf2 hf3
  rw [hk f1 f2 f3 hf1 hf2 hf3]
  rfl

end scale

/-- On tables of ones with all-ones input and filter every element of the `[B, H, N]` forward
output is `4096 * 4096`: each of the two stage sequences sums `4096` terms. -/
theorem ones_fwd_out_spec (H N idx : ℕ) :
    fwd_out_spec (ones_tables ℤ) H N (all_ones ℤ) (all_ones ℤ) idx = 16777216 := by
  simp [fwd_out_spec, flat, MTables.inv, MTables.fwd, minv3, minv2, minv1, mfwd3, mfwd2, mfwd1,
    digits, Tables.toM, ones_tables, all_ones]

/-- C11, amended: where the factor `N` is applied.  The forward kernel applies no explicit
scale: for arbitrary tables its output is the inverse stage sequence of the product of the
forward stage sequence of the input with `k_f`, and on tables of a DFT pair with
normalisations `c_fwd`, `c_inv` it is `c_fwd * c_inv * N` times the circular convolution, so
all normalisation is carried by the supplied tables.  In the backward kernels `dx` carries no
explicit scale either; the only explicit multiplication by `N` is on the transformed `x`,
exactly once, before the conjugate product: `dk_f = sum_b T(dout) * conj(N * T(x))`. -/
theorem C11_scale_placement_amended {K : Type} [Field K] [StarRing K]
    (P : Params) (hv : P.Valid) (P2 : Params32) (hv2 : P2.Valid)
    (T : Tables K) (T2 : Tables32 K) (ω c_fwd c_inv : K) (hT : T.toM.IsDFT ω c_fwd c_inv)
    (a_inp dout_inp k_f k : ℕ → K) (regs : ℕ → ℕ → K) (a_0 : ℕ → K) (bx bY ht bt : ℕ)
    (hk : ∀ f1 f2 f3, f1 < 16 → f2 < 16 → f3 < 16 →
      k_f (fwd_k_f_offset P bY ht + (256 * f1 + 16 * f2 + f3))
        = dft_sum 4096 ω k (freq 16 16 f1 f2 f3))
    (s : FwdState K) (s2 : BwdState K) (j j2 : ℕ) (hj : j < P.N) (hj2 : j2 < P2.N) :
    ((fwd_batch_body P T a_inp (k_frag P (fwd_stage_k_f P k_f regs bY ht a_0))
        (fwd_input_offset P bx bY ht bt) s).out (fwd_input_offset P bx bY ht bt + j)
      = flat 16 (T.toM.inv (fun f1 f2 f3 =>
          T.toM.fwd (fun i => a_inp (fwd_input_offset P bx bY ht bt + i)) f1 f2 f3
            * k_f (fwd_k_f_offset P bY ht + (256 * f1 + 16 * f2 + f3)))) j) ∧
    ((fwd_batch_body P T a_inp (k_frag P (fwd_stage_k_f P k_f regs bY ht a_0))
        (fwd_input_offset P bx bY ht bt) s).out (fwd_input_offset P bx bY ht bt + j)
      = c_fwd * c_inv * (P.N : K)
          * circ_conv P.N (fun i => a_inp (fwd_input_offset P bx bY ht bt + i)) k j) ∧
    ((bwd_batch_body P T dout_inp a_inp
        (k_frag P (bwd_stage_k_f P.num_threads P.items_per_thread_input
          (BlockLoad_striped P.num_threads (P.items_per_thread_input / 2) k_f
            (bwd_k_f_offset P.N P.H_TILE_SIZE bY ht) regs) a_0))
        (bwd_input_offset P.H P.signal_size P.B_TILE_SIZE P.H_TILE_SIZE bx bY ht bt) s2).dx_out
        (bwd_input_offset P.H P.signal_size P.B_TILE_SIZE P.H_TILE_SIZE bx bY ht bt + j)
      = flat 16 (T.toM.inv (fun f1 f2 f3 =>
          T.toM.fwd (fun i => dout_inp
            (bwd_input_offset P.H P.signal_size P.B_TILE_SIZE P.H_TILE_SIZE bx bY ht bt + i)) f1 f2 f3
          * star (k_f (bwd_k_f_offset P.N P.H_TILE_SIZE bY ht + (256 * f1 + 16 * f2 + f3))))) j) ∧
    ((bwd32_batch_body P2 T2 dout_inp a_inp
        (k_frag32 P2 (bwd_stage_k_f P2.num_threads P2.items_per_thread_input
          (BlockLoad_striped P2.num_threads (P2.items_per_thread_input / 2) k_f
            (bwd_k_f_offset P2.N P2.H_TILE_SIZE bY ht) regs) a_0))
        (bwd_input_offset P2.H P2.signal_size P2.B_TILE_SIZE P2.H_TILE_SIZE bx bY ht bt) s2).dx_out
        (bwd_input_offset P2.H P2.signal_size P2.B_TILE_SIZE P2.H_TILE_SIZE bx bY ht bt + j2)
      = flat 32 (T2.toM.inv (fun f1 f2 f3 =>
          T2.toM.fwd (fun i => dout_inp
            (bwd_input_offset P2.H P2.signal_size P2.B_TILE_SIZE P2.H_TILE_SIZE bx bY ht bt + i)) f1 f2 f3
          * star (k_f (bwd_k_f_offset P2.N P2.H_TILE_SIZE bY ht + (1024 * f1 + 32 * f2 + f3))))) j2) ∧
    ((bwd_channel_body P T dout_inp a_inp k_f bx bY ht s2).dk_f_out
        (bwd_dk_f_offset P.N P.H P.H_TILE_SIZE bx bY ht + j)
      = ∑ b ∈ Finset.range P.B_TILE_SIZE,
          flat 16 (T.toM.fwd (fun i => dout_inp
            (bwd_input_offset P.H P.signal_size P.B_TILE_SIZE P.H_TILE_SIZE bx bY ht b + i))) j
          * star ((P.N : K) * flat 16 (T.toM.fwd (fun i => a_inp
            (bwd_input_offset P.H P.signal_size P.B_TILE_SIZE P.H_TILE_SIZE bx bY ht b + i))) j)) ∧
    ((bwd32_channel_body P2 T2 dout_inp a_inp k_f bx bY ht s2).dk_f_out
        (bwd_dk_f_offset P2.N P2.H P2.H_TILE_SIZE bx bY ht + j2)
      = ∑ b ∈ Finset.range P2.B_TILE_SIZE,
          flat 32 (T2.toM.fwd (fun i => dout_inp
            (bwd_input_offset P2.H P2.signal_size P2.B_TILE_SIZE P2.H_TILE_SIZE bx bY ht b + i))) j2
          * star ((P2.N : K) * flat 32 (T2.toM.fwd (fun i => a_inp
            (bwd_input_offset P2.H P2.signal_size P2.B_TILE_SIZE P2.H_TILE_SIZE bx bY ht b + i))) j2)) := by
  have hj1 : j < 4096 := by rw [← hv.hN]; exact hj
  have hj3 : j2 < 16384 := by rw [← hv2.hN]; exact hj2
  refine ⟨fwd_unit_flat P hv T a_inp k_f regs bY ht a_0 _ s j hj1, ?_,
    bwd_unit_dx P hv T dout_inp a_inp k_f regs a_0 _ _ s2 j hj1,
    bwd32_unit_dx P2 hv2 T2 dout_inp a_inp k_f regs a_0 _ _ s2 j2 hj3,
    bwd_channel_dk_f P hv T dout_inp a_inp k_f bx bY ht s2 j hj1,
    bwd32_channel_dk_f P2 hv2 T2 dout_inp a_inp k_f bx bY ht s2 j2 hj3⟩
  rw [hv.hN]
  exact fwd_unit_conv_scaled P hv T ω c_fwd c_inv hT a_inp k_f k regs a_0 bx bY ht bt hk s j hj1

/-- Witness of C11 (amended): the complex DFT tables on `exp(2 pi i / 4096)` without any
normalisation (`c_fwd = c_inv = 1`): the forward tile writes `N` times the convolution. -/
theorem C11_scale_placement_amended_witness :
    ((fwd_batch_body (config 1 1 1 1) (dft_tables (Complex.exp (2 * Real.pi * Complex.I / (4096 : ℕ))) 1 1) (all_ones ℂ) (k_frag (config 1 1 1 1) (fwd_stage_k_f (config 1 1 1 1) (fun i => dft_sum 4096 (Complex.exp (2 * Real.pi * Complex.I / (4096 : ℕ)))
            (all_ones ℂ) (freq 16 16 (i / 256) (i / 16 % 16) (i % 16))) (fun _ _ => 0) 0 0 (fun _ => 0)))
        (fwd_input_offset (config 1 1 1 1) 0 0 0 0) ⟨fun _ => 0, fun _ => 0⟩).out (fwd_input_offset (config 1 1 1 1) 0 0 0 0 + 5)
      = flat 16 ((dft_tables (Complex.exp (2 * Real.pi * Complex.I / (4096 : ℕ))) 1 1).toM.inv (fun f1 f2 f3 =>
          (dft_tables (Complex.exp (2 * Real.pi * Complex.I / (4096 : ℕ))) 1 1).toM.fwd (fun i => (all_ones ℂ) (fwd_input_offset (config 1 1 1 1) 0 0 0 0 + i)) f1 f2 f3
            * (fun i => dft_sum 4096 (Complex.exp (2 * Real.pi * Complex.I / (4096 : ℕ)))
            (all_ones ℂ) (freq 16 16 (i / 256) (i / 16 % 16) (i % 16))) (fwd_k_f_offset (config 1 1 1 1) 0 0 + (256 * f1 + 16 * f2 + f3)))) 5) ∧
    ((fwd_batch_body (config 1 1 1 1) (dft_tables (Complex.exp (2 * Real.pi * Complex.I / (4096 : ℕ))) 1 1) (all_ones ℂ) (k_frag (config 1 1 1 1) (fwd_stage_k_f (config 1 1 1 1) (fun i => dft_sum 4096 (Complex.exp (2 * Real.pi * Complex.I / (4096 : ℕ)))
            (all_ones ℂ) (freq 16 16 (i / 256) (i / 16 % 16) (i % 16))) (fun _ _ => 0) 0 0 (fun _ => 0)))
        (fwd_input_offset (config 1 1 1 1) 0 0 0 0) ⟨fun _ => 0, fun _ => 0⟩).out (fwd_input_offset (config 1 1 1 1) 0 0 0 0 + 5)
      = 1 * 1 * ((config 1 1 1 1).N : ℂ)
          * circ_conv (config 1 1 1 1).N (fun i => (all_ones ℂ) (fwd_input_offset (config 1 1 1 1) 0 0 0 0 + i)) (all_ones ℂ) 5) ∧
    ((bwd_batch_body (config 1 1 1 1) (dft_tables (Complex.exp (2 * Real.pi * Complex.I / (4096 : ℕ))) 1 1) (all_ones ℂ) (all_ones ℂ)
        (k_frag (config 1 1 1 1) (bwd_stage_k_f (config 1 1 1 1).num_threads (config 1 1 1 1).items_per_thread_input
          (BlockLoad_striped (config 1 1 1 1).num_threads ((config 1 1 1 1).items_per_thread_input / 2) (fun i => dft_sum 4096 (Complex.exp (2 * Real.pi * Complex.I / (4096 : ℕ)))
            (all_ones ℂ) (freq 16 16 (i / 256) (i / 16 % 16) (i % 16)))
            (bwd_k_f_offset (config 1 1 1 1).N (config 1 1 1 1).H_TILE_SIZE 0 0) (fun _ _ => 0)) (fun _ => 0)))
        (bwd_input_offset (config 1 1 1 1).H (config 1 1 1 1).signal_size (config 1 1 1 1).B_TILE_SIZE (config 1 1 1 1).H_TILE_SIZE 0 0 0 0) ⟨fun _ => 0, fun _ => 0, fun _ _ => 0, fun _ _ => 0, fun _ => 0, fun _ => 0⟩).dx_out
        (bwd_input_offset (config 1 1 1 1).H (config 1 1 1 1).signal_size (config 1 1 1 1).B_TILE_SIZE (config 1 1 1 1).H_TILE_SIZE 0 0 0 0 + 5)
      = flat 16 ((dft_tables (Complex.exp (2 * Real.pi * Complex.I / (4096 : ℕ))) 1 1).toM.inv (fun f1 f2 f3 =>
          (dft_tables (Complex.exp (2 * Real.pi * Complex.I / (4096 : ℕ))) 1 1).toM.fwd (fun i => (all_ones ℂ)
            (bwd_input_offset (config 1 1 1 1).H (config 1 1 1 1).signal_size (config 1 1 1 1).B_TILE_SIZE (config 1 1 1 1).H_TILE_SIZE 0 0 0 0 + i)) f1 f2 f3
          * star ((fun i => dft_sum 4096 (Complex.exp (2 * Real.pi * Complex.I / (4096 : ℕ)))
            (all_ones ℂ) (freq 16 16 (i / 256) (i / 16 % 16) (i % 16))) (bwd_k_f_offset (config 1 1 1 1).N (config 1 1 1 1).H_TILE_SIZE 0 0 + (256 * f1 + 16 * f2 + f3))))) 5) ∧
    ((bwd32_batch_body (config32 1 1 1 1) (ones_tables32 ℂ) (all_ones ℂ) (all_ones ℂ)
        (k_frag32 (config32 1 1 1 1) (bwd_stage_k_f (config32 1 1 1 1).num_threads (config32 1 1 1 1).items_per_thread_input
          (BlockLoad_striped (config32 1 1 1 1).num_threads ((config32 1 1 1 1).items_per_thread_input / 2) (fun i => dft_sum 4096 (Complex.exp (2 * Real.pi * Complex.I / (4096 : ℕ)))
            (all_ones ℂ) (freq 16 16 (i / 256) (i / 16 % 16) (i % 16)))
            (bwd_k_f_offset (config32 1 1 1 1).N (config32 1 1 1 1).H_TILE_SIZE 0 0) (fun _ _ => 0)) (fun _ => 0)))
        (bwd_input_offset (config32 1 1 1 1).H (config32 1 1 1 1).signal_size (config32 1 1 1 1).B_TILE_SIZE (config32 1 1 1 1).H_TILE_SIZE 0 0 0 0) ⟨fun _ => 0, fun _ => 0, fun _ _ => 0, fun _ _ => 0, fun _ => 0, fun _ => 0⟩).dx_out
        (bwd_input_offset (config32 1 1 1 1).H (config32 1 1 1 1).signal_size (config32 1 1 1 1).B_TILE_SIZE (config32 1 1 1 1).H_TILE_SIZE 0 0 0 0 + 7)
      = flat 32 ((ones_tables32 ℂ).toM.inv (fun f1 f2 f3 =>
          (ones_tables32 ℂ).toM.fwd (fun i => (all_ones ℂ)
            (bwd_input_offset (config32 1 1 1 1).H (config32 1 1 1 1).signal_size (config32 1 1 1 1).B_TILE_SIZE (config32 1 1 1 1).H_TILE_SIZE 0 0 0 0 + i)) f1 f2 f3
          * star ((fun i => dft_sum 4096 (Complex.exp (2 * Real.pi * Complex.I / (4096 : ℕ)))
            (all_ones ℂ) (freq 16 16 (i / 256) (i / 16 % 16) (i % 16))) (bwd_k_f_offset (config32 1 1 1 1).N (config32 1 1 1 1).H_TILE_SIZE 0 0 + (1024 * f1 + 32 * f2 + f3))))) 7) ∧
    ((bwd_channel_body (config 1 1 1 1) (dft_tables (Complex.exp (2 * Real.pi * Complex.I / (4096 : ℕ))) 1 1) (all_ones ℂ) (all_ones ℂ) (fun i => dft_sum 4096 (Complex.exp (2 * Real.pi * Complex.I / (4096 : ℕ)))
            (all_ones ℂ) (freq 16 16 (i / 256) (i / 16 % 16) (i % 16))) 0 0 0 ⟨fun _ => 0, fun _ => 0, fun _ _ => 0, fun _ _ => 0, fun _ => 0, fun _ => 0⟩).dk_f_out
        (bwd_dk_f_offset (config 1 1 1 1).N (config 1 1 1 1).H (config 1 1 1 1).H_TILE_SIZE 0 0 0 + 5)
      = ∑ b ∈ Finset.range (config 1 1 1 1).B_TILE_SIZE,
          flat 16 ((dft_tables (Complex.exp (2 * Real.pi * Complex.I / (4096 : ℕ))) 1 1).toM.fwd (fun i => (all_ones ℂ)
            (bwd_input_offset (config 1 1 1 1).H (config 1 1 1 1).signal_size (config 1 1 1 1).B_TILE_SIZE (config 1 1 1 1).H_TILE_SIZE 0 0 0 b + i))) 5
          * star (((config 1 1 1 1).N : ℂ) * flat 16 ((dft_tables (Complex.exp (2 * Real.pi * Complex.I / (4096 : ℕ))) 1 1).toM.fwd (fun i => (all_ones ℂ)
            (bwd_input_offset (config 1 1 1 1).H (config 1 1 1 1).signal_size (config 1 1 1 1).B_TILE_SIZE (config 1 1 1 1).H_TILE_SIZE 0 0 0 b + i))) 5)) ∧
    ((bwd32_channel_body (config32 1 1 1 1) (ones_tables32 ℂ) (all_ones ℂ) (all_ones ℂ) (fun i => dft_sum 4096 (Complex.exp (2 * Real.pi * Complex.I / (4096 : ℕ)))
            (all_ones ℂ) (freq 16 16 (i / 256) (i / 16 % 16) (i % 16))) 0 0 0 ⟨fun _ => 0, fun _ => 0, fun _ _ => 0, fun _ _ => 0, fun _ => 0, fun _ => 0⟩).dk_f_out
        (bwd_dk_f_offset (config32 1 1 1 1).N (config32 1 1 1 1).H (config32 1 1 1 1).H_TILE_SIZE 0 0 0 + 7)
      = ∑ b ∈ Finset.range (config32 1 1 1 1).B_TILE_SIZE,
          flat 32 ((ones_tables32 ℂ).toM.fwd (fun i => (all_ones ℂ)
            (bwd_input_offset (config32 1 1 1 1).H (config32 1 1 1 1).signal_size (config32 1 1 1 1).B_TILE_SIZE (config32 1 1 1 1).H_TILE_SIZE 0 0 0 b + i))) 7
          * star (((config32 1 1 1 1).N : ℂ) * flat 32 ((ones_tables32 ℂ).toM.fwd (fun i => (all_ones ℂ)
            (bwd_input_offset (config32 1 1 1 1).H (config32 1 1 1 1).signal_size (config32 1 1 1 1).B_TILE_SIZE (config32 1 1 1 1).H_TILE_SIZE 0 0 0 b + i))) 7)) :=
  C11_scale_placement_amended (config 1 1 1 1) (config_valid 1 1 1 1) (config32 1 1 1 1)
    (config32_valid 1 1 1 1) _ (ones_tables32 ℂ) _ 1 1
    (dft_tables_isDFT primitive_root_4096 _ _) (all_ones ℂ) (all_ones ℂ) _ (all_ones ℂ)
    (fun _ _ => 0) (fun _ => 0) 0 0 0 0
    (by
      intro f1 f2 f3 h1 h2 h3
      have e0 : fwd_k_f_offset (config 1 1 1 1) 0 0 = 0 := by
        simp [fwd_k_f_offset, u32]
      have e1 : (256 * f1 + 16 * f2 + f3) / 256 = f1 := by omega
      have e2 : (256 * f1 + 16 * f2 + f3) / 16 % 16 = f2 := by omega
      have e3 : (256 * f1 + 16 * f2 + f3) % 16 = f3 := by omega
      simp only [e0, Nat.zero_add, e1, e2, e3])
    ⟨fun _ => 0, fun _ => 0⟩ ⟨fun _ => 0, fun _ => 0, fun _ _ => 0, fun _ _ => 0, fun _ => 0, fun _ => 0⟩ 5 7
    (by decide) (by decide)

/-- Counterexample to C11 as stated: the forward launch on one (batch, channel) pair, tables
of ones, all-ones signal and filter.  The output element 0 is exactly what the six table
stages and the product with `k_f` give (`4096 * 4096`); it is not `N` times that: the forward
kernel's stage sequence contains no multiplication by `N`. -/
theorem C11_scale_placement_counterexample :
    launch_fwd (config 1 1 1 1) (ones_tables ℤ) (all_ones ℤ) (all_ones ℤ) (fun _ _ => 0) 1 1
        (fun _ => 0) 0
      = flat 16 ((ones_tables ℤ).toM.inv (fun f1 f2 f3 =>
          (ones_tables ℤ).toM.fwd (fun i => all_ones ℤ (0 + i)) f1 f2 f3
            * all_ones ℤ (0 + (256 * f1 + 16 * f2 + f3)))) 0 ∧
    launch_fwd (config 1 1 1 1) (ones_tables ℤ) (all_ones ℤ) (all_ones ℤ) (fun _ _ => 0) 1 1
        (fun _ => 0) 0
      ≠ ((config 1 1 1 1).N : ℤ) * flat 16 ((ones_tables ℤ).toM.inv (fun f1 f2 f3 =>
          (ones_tables ℤ).toM.fwd (fun i => all_ones ℤ (0 + i)) f1 f2 f3
            * all_ones ℤ (0 + (256 * f1 + 16 * f2 + f3)))) 0 := by
  have h : flat 16 ((ones_tables ℤ).toM.inv (fun f1 f2 f3 =>
      (ones_tables ℤ).toM.fwd (fun i => all_ones ℤ (0 + i)) f1 f2 f3
        * all_ones ℤ (0 + (256 * f1 + 16 * f2 + f3)))) 0 = 16777216 := by
    simp [flat, MTables.inv, MTables.fwd, minv3, minv2, minv1, mfwd3, mfwd2, mfwd1,
      digits, Tables.toM, ones_tables, all_ones]
  rw [fwd_launch_spec (config 1 1 1 1) (config_valid 1 1 1 1) _ _ _ _ (by decide) 1 1 rfl rfl,
    if_pos (by decide), ones_fwd_out_spec, h]
  simp [config]

/-! ## The blocks of the warps cover the sequence -/

section cover

/-- The inner-stage blocks of the 16_16_16 kernels stay inside `[0, 4096)`. -/
theorem inner_block_lt (P : Params) (hD : P.DFT_SIZE = 16) (hW : P.WARP_TILE_SIZE ∣ 16)
    {k_idx warp_id i : ℕ} (hk : k_idx < 16 / P.WARP_TILE_SIZE) (hw : warp_id < P.WARP_TILE_SIZE)
    (hi : i < P.DFT_SIZE * P.DFT_SIZE) : k_idx_offset_inner P k_idx warp_id + i < 4096 := by
  have ht := tile_lt hW hw hk
  simp only [k_idx_offset_inner, hD] at hi ⊢
  omega

/-- Every index below `4096` lies in exactly one inner-stage block, at exactly one position. -/
theorem inner_block_cover (P : Params) (hD : P.DFT_SIZE = 16) (hW : P.WARP_TILE_SIZE ∣ 16)
    (j : ℕ) (hj : j < 4096) :
    ∃! p : ℕ × ℕ × ℕ, p.1 < 16 / P.WARP_TILE_SIZE ∧ p.2.1 < P.WARP_TILE_SIZE ∧
      p.2.2 < P.DFT_SIZE * P.DFT_SIZE ∧ k_idx_offset_inner P p.1 p.2.1 + p.2.2 = j := by
  obtain ⟨w, k, hw, hk, hwk⟩ := tile_exists hW (show j / 256 < 16 by omega)
  simp only [k_idx_offset_inner, hD]
  refine ⟨(k, w, j % 256), ⟨hk, hw, by dsimp only; omega, by dsimp only; omega⟩, ?_⟩
  rintro ⟨k1, w1, i1⟩ ⟨h1, h2, h3, h4⟩
  simp only at h1 h2 h3 h4
  obtain ⟨e1, e2⟩ := @tile_inj P.WARP_TILE_SIZE w1 k1 w k h2 hw (by omega)
  subst e1 e2
  have : i1 = j % 256 := by omega
  rw [this]

/-- The outer-stage tiles (16 rows of stride 1024 by 16 columns) of the 16_32_32 kernel stay
inside `[0, 16384)`. -/
theorem outer_tile_lt32 (P : Params32) (hW : P.WARP_TILE_SIZE ∣ 16)
    {k_idx warp_id r c : ℕ} (hk : k_idx < 64 / P.WARP_TILE_SIZE)
    (hw : warp_id < P.WARP_TILE_SIZE) (hr : r < 16) (hc : c < 16) :
    k_idx_offset_outer32 P k_idx warp_id + r * 1024 + c < 16384 := by
  have ht := tile_lt64 hW hw hk
  simp only [k_idx_offset_outer32, sqrt_N_1]
  omega

/-- Every index below `16384` lies in exactly one outer-stage tile of the 16_32_32 kernel, at
exactly one (row, column). -/
theorem outer_tile_cover32 (P : Params32) (hW : P.WARP_TILE_SIZE ∣ 16) (j : ℕ)
    (hj : j < 16384) :
    ∃! p : ℕ × ℕ × ℕ × ℕ, p.1 < 64 / P.WARP_TILE_SIZE ∧ p.2.1 < P.WARP_TILE_SIZE ∧
      p.2.2.1 < 16 ∧ p.2.2.2 < 16 ∧
      k_idx_offset_outer32 P p.1 p.2.1 + p.2.2.1 * 1024 + p.2.2.2 = j := by
  obtain ⟨w, k, hw, hk, hwk⟩ := tile_exists64 hW (show j % 1024 / 16 < 64 by omega)
  simp only [k_idx_offset_outer32, sqrt_N_1]
  refine ⟨(k, w, j / 1024, j % 16),
    ⟨hk, hw, by dsimp only; omega, by dsimp only; omega, by dsimp only; omega⟩, ?_⟩
  rintro ⟨k1, w1, r1, c1⟩ ⟨h1, h2, h3, h4, h5⟩
  simp only at h1 h2 h3 h4 h5
  have ht := tile_lt64 hW h2 h1
  obtain ⟨e1, e2⟩ := @tile_inj P.WARP_TILE_SIZE w1 k1 w k h2 hw (by omega)
  subst e1 e2
  have er : r1 = j / 1024 := by omega
  have ec : c1 = j % 16 := by omega
  rw [er, ec]

/-- The inner-stage blocks of the 16_32_32 kernel stay inside `[0, 16384)`. -/
theorem inner_block_lt32 (P : Params32) (hW : P.WARP_TILE_SIZE ∣ 16)
    {k_idx warp_id i : ℕ} (hk : k_idx < 16 / P.WARP_TILE_SIZE) (hw : warp_id < P.WARP_TILE_SIZE)
    (hi : i < sqrt_N_2 * sqrt_N_2) : k_idx_offset_inner32 P k_idx warp_id + i < 16384 := by
  have ht := tile_lt hW hw hk
  simp only [k_idx_offset_inner32, sqrt_N_2] at hi ⊢
  omega

/-- Every index below `16384` lies in exactly one inner-stage block of the 16_32_32 kernel. -/
theorem inner_block_cover32 (P : Params32) (hW : P.WARP_TILE_SIZE ∣ 16) (j : ℕ)
    (hj : j < 16384) :
    ∃! p : ℕ × ℕ × ℕ, p.1 < 16 / P.WARP_TILE_SIZE ∧ p.2.1 < P.WARP_TILE_SIZE ∧
      p.2.2 < sqrt_N_2 * sqrt_N_2 ∧ k_idx_offset_inner32 P p.1 p.2.1 + p.2.2 = j := by
  obtain ⟨w, k, hw, hk, hwk⟩ := tile_exists hW (show j / 1024 < 16 by omega)
  simp only [k_idx_offset_inner32, sqrt_N_2]
  refine ⟨(k, w, j % 1024), ⟨hk, hw, by dsimp only; omega, by dsimp only; omega⟩, ?_⟩
  rintro ⟨k1, w1, i1⟩ ⟨h1, h2, h3, h4⟩
  simp only at h1 h2 h3 h4
  obtain ⟨e1, e2⟩ := @tile_inj P.WARP_TILE_SIZE w1 k1 w k h2 hw (by omega)
  subst e1 e2
  have : i1 = j % 1024 := by omega
  rw [this]

end cover

/-- C12, amended: the 16_16_16 kernels transform sequences of length
`N = 16 * 16 * 16 = 4096`.  Per (batch, channel) the blocks visited by the loops
`k_idx < 16 / WARP_TILE_SIZE`, `warp_id < WARP_TILE_SIZE`, each of
`DFT_SIZE * DFT_SIZE = 256` elements, lie inside `[0, N)` and every index below `N` lies in
exactly one block at exactly one position (no partial block, no remainder); the forward tile
writes the `N` elements `out[off + j]`, `j < N`, each from the `N` inputs read at `off`, and
nothing outside `[off, off + N)`. -/
theorem C12_length_16_16_16_amended {K : Type} [CommRing K] (P : Params) (hv : P.Valid)
    (T : Tables K) (a_inp k_f : ℕ → K) (regs : ℕ → ℕ → K) (a_0 : ℕ → K) (bY ht off : ℕ)
    (s : FwdState K) :
    (P.N = 16 * 16 * 16 ∧ P.DFT_SIZE * P.DFT_SIZE = 256) ∧
    (∀ k_idx warp_id i, k_idx < 16 / P.WARP_TILE_SIZE → warp_id < P.WARP_TILE_SIZE →
      i < P.DFT_SIZE * P.DFT_SIZE → k_idx_offset_inner P k_idx warp_id + i < P.N) ∧
    (∀ j, j < P.N →
      ∃! p : ℕ × ℕ × ℕ, p.1 < 16 / P.WARP_TILE_SIZE ∧ p.2.1 < P.WARP_TILE_SIZE ∧
        p.2.2 < P.DFT_SIZE * P.DFT_SIZE ∧ k_idx_offset_inner P p.1 p.2.1 + p.2.2 = j) ∧
    (∀ j, j < P.N →
      (fwd_batch_body P T a_inp (k_frag P (fwd_stage_k_f P k_f regs bY ht a_0)) off s).out
          (off + j)
        = flat 16 (T.toM.inv (fun f1 f2 f3 => T.toM.fwd (fun i => a_inp (off + i)) f1 f2 f3
            * k_f (fwd_k_f_offset P bY ht + (256 * f1 + 16 * f2 + f3)))) j) ∧
    (∀ idx, ¬ (off ≤ idx ∧ idx < off + P.N) →
      (fwd_batch_body P T a_inp (k_frag P (fwd_stage_k_f P k_f regs bY ht a_0)) off s).out idx
        = s.out idx) := by
  have hN := hv.hN
  have hD := hv.hDFT
  refine ⟨⟨hN, by rw [hD]⟩, ?_, ?_, ?_, ?_⟩
  · intro k_idx warp_id i hk hw hi
    rw [hN]
    exact inner_block_lt P hD hv.hwarp hk hw hi
  · intro j hj
    exact inner_block_cover P hD hv.hwarp j (by rw [← hN]; exact hj)
  · intro j hj
    exact fwd_unit_flat P hv T a_inp k_f regs bY ht a_0 off s j (by rw [← hN]; exact hj)
  · intro idx h
    rw [hN] at h
    exact fwd_batch_body_frame P hv T a_inp _ off s idx h

/-- Witness of C12 (amended): 32 × 8 threads, `WARP_TILE_SIZE = 8`, tables of ones. -/
theorem C12_length_16_16_16_amended_witness :
    ((config 1 1 1 1).N = 16 * 16 * 16 ∧ (config 1 1 1 1).DFT_SIZE * (config 1 1 1 1).DFT_SIZE = 256) ∧
    (∀ k_idx warp_id i, k_idx < 16 / (config 1 1 1 1).WARP_TILE_SIZE → warp_id < (config 1 1 1 1).WARP_TILE_SIZE →
      i < (config 1 1 1 1).DFT_SIZE * (config 1 1 1 1).DFT_SIZE → k_idx_offset_inner (config 1 1 1 1) k_idx warp_id + i < (config 1 1 1 1).N) ∧
    (∀ j, j < (config 1 1 1 1).N →
      ∃! p : ℕ × ℕ × ℕ, p.1 < 16 / (config 1 1 1 1).WARP_TILE_SIZE ∧ p.2.1 < (config 1 1 1 1).WARP_TILE_SIZE ∧
        p.2.2 < (config 1 1 1 1).DFT_SIZE * (config 1 1 1 1).DFT_SIZE ∧ k_idx_offset_inner (config 1 1 1 1) p.1 p.2.1 + p.2.2 = j) ∧
    (∀ j, j < (config 1 1 1 1).N →
      (fwd_batch_body (config 1 1 1 1) (ones_tables ℤ) (all_ones ℤ) (k_frag (config 1 1 1 1) (fwd_stage_k_f (config 1 1 1 1) (all_ones ℤ) (fun _ _ => 0) 0 0 (fun _ => 0))) 0 (⟨fun _ => 0, fun _ => 0⟩ : FwdState ℤ)).out
          (0 + j)
        = flat 16 ((ones_tables ℤ).toM.inv (fun f1 f2 f3 => (ones_tables ℤ).toM.fwd (fun i => (all_ones ℤ) (0 + i)) f1 f2 f3
            * (all_ones ℤ) (fwd_k_f_offset (config 1 1 1 1) 0 0 + (256 * f1 + 16 * f2 + f3)))) j) ∧
    (∀ idx, ¬ (0 ≤ idx ∧ idx < 0 + (config 1 1 1 1).N) →
      (fwd_batch_body (config 1 1 1 1) (ones_tables ℤ) (all_ones ℤ) (k_frag (config 1 1 1 1) (fwd_stage_k_f (config 1 1 1 1) (all_ones ℤ) (fun _ _ => 0) 0 0 (fun _ => 0))) 0 (⟨fun _ => 0, fun _ => 0⟩ : FwdState ℤ)).out idx
        = (⟨fun _ => 0, fun _ => 0⟩ : FwdState ℤ).out idx) :=
  C12_length_16_16_16_amended (config 1 1 1 1) (config_valid 1 1 1 1) (ones_tables ℤ)
    (all_ones ℤ) (all_ones ℤ) (fun _ _ => 0) (fun _ => 0) 0 0 0 ⟨fun _ => 0, fun _ => 0⟩

/-- Counterexample to C12 as stated (`N = 16 × 16 = 256`): with `WARP_TILE_SIZE = 8` the
block of `(k_idx, warp_id) = (1, 7)` is visited by the loops and its last element has index
`4095`, beyond `256`; and the forward launch on one (batch, channel) pair, started on an
output of zeros, has written element `4095` of the output. -/
theorem C12_length_16_16_16_counterexample :
    (1 < 16 / (config 1 1 1 1).WARP_TILE_SIZE ∧ 7 < (config 1 1 1 1).WARP_TILE_SIZE ∧
      255 < (config 1 1 1 1).DFT_SIZE * (config 1 1 1 1).DFT_SIZE) ∧
    k_idx_offset_inner (config 1 1 1 1) 1 7 + 255 = 4095 ∧
    ¬ (k_idx_offset_inner (config 1 1 1 1) 1 7 + 255 < 256) ∧
    launch_fwd (config 1 1 1 1) (ones_tables ℤ) (all_ones ℤ) (all_ones ℤ) (fun _ _ => 0) 1 1
        (fun _ => 0) 4095 ≠ 0 := by
  refine ⟨by decide, by decide, by decide, ?_⟩
  rw [fwd_launch_spec (config 1 1 1 1) (config_valid 1 1 1 1) _ _ _ _ (by decide) 1 1 rfl rfl,
    if_pos (by decide), ones_fwd_out_spec]
  decide

/-- C13, amended: the 16_32_32 kernel transforms sequences of length
`N = 16 * 32 * 32 = 16384` (one radix-16 and two radix-32 factors).  The blocks it visits per
(batch, channel), 64 column tiles of 16 rows (stride 1024) by 16 columns in the outer stage
and 16 blocks of `32 * 32` elements in the inner stage, lie inside `[0, N)` and every index
below `N` lies in exactly one tile (block) at exactly one position; the tile of the kernel
writes the `N` elements `dx_out[off + j]`, `j < N`, and nothing outside `[off, off + N)`. -/
theorem C13_length_16_32_32_amended {K : Type} [CommRing K] [StarRing K] (P : Params32)
    (hv : P.Valid) (T : Tables32 K) (dout_inp a_inp k_f : ℕ → K) (regs : ℕ → ℕ → K)
    (a_0 : ℕ → K) (kf_off off : ℕ) (s : BwdState K) :
    (sqrt_N_1 * sqrt_N_2 * sqrt_N_2 = 16384 ∧ P.N = sqrt_N_1 * sqrt_N_2 * sqrt_N_2 ∧
      64 * (sqrt_N_1 * sqrt_N_1) = P.N ∧ 16 * (sqrt_N_2 * sqrt_N_2) = P.N) ∧
    (∀ k_idx warp_id r c, k_idx < 64 / P.WARP_TILE_SIZE → warp_id < P.WARP_TILE_SIZE →
      r < 16 → c < 16 → k_idx_offset_outer32 P k_idx warp_id + r * 1024 + c < P.N) ∧
    (∀ j, j < P.N →
      ∃! p : ℕ × ℕ × ℕ × ℕ, p.1 < 64 / P.WARP_TILE_SIZE ∧ p.2.1 < P.WARP_TILE_SIZE ∧
        p.2.2.1 < 16 ∧ p.2.2.2 < 16 ∧
        k_idx_offset_outer32 P p.1 p.2.1 + p.2.2.1 * 1024 + p.2.2.2 = j) ∧
    (∀ k_idx warp_id i, k_idx < 16 / P.WARP_TILE_SIZE → warp_id < P.WARP_TILE_SIZE →
      i < sqrt_N_2 * sqrt_N_2 → k_idx_offset_inner32 P k_idx warp_id + i < P.N) ∧
    (∀ j, j < P.N →
      ∃! p : ℕ × ℕ × ℕ, p.1 < 16 / P.WARP_TILE_SIZE ∧ p.2.1 < P.WARP_TILE_SIZE ∧
        p.2.2 < sqrt_N_2 * sqrt_N_2 ∧ k_idx_offset_inner32 P p.1 p.2.1 + p.2.2 = j) ∧
    (∀ j, j < P.N →
      (bwd32_batch_body P T dout_inp a_inp
          (k_frag32 P (bwd_stage_k_f P.num_threads P.items_per_thread_input
            (BlockLoad_striped P.num_threads (P.items_per_thread_input / 2) k_f kf_off regs)
            a_0)) off s).dx_out (off + j)
        = flat 32 (T.toM.inv (fun f1 f2 f3 =>
            T.toM.fwd (fun i => dout_inp (off + i)) f1 f2 f3
              * star (k_f (kf_off + (1024 * f1 + 32 * f2 + f3))))) j) ∧
    (∀ idx, ¬ (off ≤ idx ∧ idx < off + P.N) →
      (bwd32_batch_body P T dout_inp a_inp
          (k_frag32 P (bwd_stage_k_f P.num_threads P.items_per_thread_input
            (BlockLoad_striped P.num_threads (P.items_per_thread_input / 2) k_f kf_off regs)
            a_0)) off s).dx_out idx = s.dx_out idx) := by
  have hN := hv.hN
  refine ⟨⟨rfl, hN, hN.symm, hN.symm⟩, ?_, ?_, ?_, ?_, ?_, ?_⟩
  · intro k_idx warp_id r c hk hw hr hc
    rw [hN]
    exact outer_tile_lt32 P hv.hwarp hk hw hr hc
  · intro j hj
    exact outer_tile_cover32 P hv.hwarp j (by rw [← hN]; exact hj)
  · intro k_idx warp_id i hk hw hi
    rw [hN]
    exact inner_block_lt32 P hv.hwarp hk hw hi
  · intro j hj
    exact inner_block_cover32 P hv.hwarp j (by rw [← hN]; exact hj)
  · intro j hj
    exact bwd32_unit_dx P hv T dout_inp a_inp k_f regs a_0 kf_off off s j
      (by rw [← hN]; exact hj)
  · intro idx h
    rw [hN] at h
    exact bwd32_batch_body_dx_frame P hv T dout_inp a_inp _ off s idx h

/-- Witness of C13 (amended): 32 × 8 threads, `WARP_TILE_SIZE = 8`, tables of ones. -/
theorem C13_length_16_32_32_amended_witness :
    (sqrt_N_1 * sqrt_N_2 * sqrt_N_2 = 16384 ∧ (config32 1 1 1 1).N = sqrt_N_1 * sqrt_N_2 * sqrt_N_2 ∧
      64 * (sqrt_N_1 * sqrt_N_1) = (config32 1 1 1 1).N ∧ 16 * (sqrt_N_2 * sqrt_N_2) = (config32 1 1 1 1).N) ∧
    (∀ k_idx warp_id r c, k_idx < 64 / (config32 1 1 1 1).WARP_TILE_SIZE → warp_id < (config32 1 1 1 1).WARP_TILE_SIZE →
      r < 16 → c < 16 → k_idx_offset_outer32 (config32 1 1 1 1) k_idx warp_id + r * 1024 + c < (config32 1 1 1 1).N) ∧
    (∀ j, j < (config32 1 1 1 1).N →
      ∃! p : ℕ × ℕ × ℕ × ℕ, p.1 < 64 / (config32 1 1 1 1).WARP_TILE_SIZE ∧ p.2.1 < (config32 1 1 1 1).WARP_TILE_SIZE ∧
        p.2.2.1 < 16 ∧ p.2.2.2 < 16 ∧
        k_idx_offset_outer32 (config32 1 1 1 1) p.1 p.2.1 + p.2.2.1 * 1024 + p.2.2.2 = j) ∧
    (∀ k_idx warp_id i, k_idx < 16 / (config32 1 1 1 1).WARP_TILE_SIZE → warp_id < (config32 1 1 1 1).WARP_TILE_SIZE →
      i < sqrt_N_2 * sqrt_N_2 → k_idx_offset_inner32 (config32 1 1 1 1) k_idx warp_id + i < (config32 1 1 1 1).N) ∧
    (∀ j, j < (config32 1 1 1 1).N →
      ∃! p : ℕ × ℕ × ℕ, p.1 < 16 / (config32 1 1 1 1).WARP_TILE_SIZE ∧ p.2.1 < (config32 1 1 1 1).WARP_TILE_SIZE ∧
        p.2.2 < sqrt_N_2 * sqrt_N_2 ∧ k_idx_offset_inner32 (config32 1 1 1 1) p.1 p.2.1 + p.2.2 = j) ∧
    (∀ j, j < (config32 1 1 1 1).N →
      (bwd32_batch_body (config32 1 1 1 1) (ones_tables32 ℤ) (all_ones ℤ) (all_ones ℤ)
          (k_frag32 (config32 1 1 1 1) (bwd_stage_k_f (config32 1 1 1 1).num_threads (config32 1 1 1 1).items_per_thread_input
            (BlockLoad_striped (config32 1 1 1 1).num_threads ((config32 1 1 1 1).items_per_thread_input / 2) (all_ones ℤ) 0 (fun _ _ => 0))
            (fun _ => 0))) 0 (⟨fun _ => 0, fun _ => 0, fun _ _ => 0, fun _ _ => 0, fun _ => 0, fun _ => 0⟩ : BwdState ℤ)).dx_out (0 + j)
        = flat 32 ((ones_tables32 ℤ).toM.inv (fun f1 f2 f3 =>
            (ones_tables32 ℤ).toM.fwd (fun i => (all_ones ℤ) (0 + i)) f1 f2 f3
              * star ((all_ones ℤ) (0 + (1024 * f1 + 32 * f2 + f3))))) j) ∧
    (∀ idx, ¬ (0 ≤ idx ∧ idx < 0 + (config32 1 1 1 1).N) →
      (bwd32_batch_body (config32 1 1 1 1) (ones_tables32 ℤ) (all_ones ℤ) (all_ones ℤ)
          (k_frag32 (config32 1 1 1 1) (bwd_stage_k_f (config32 1 1 1 1).num_threads (config32 1 1 1 1).items_per_thread_input
            (BlockLoad_striped (config32 1 1 1 1).num_threads ((config32 1 1 1 1).items_per_thread_input / 2) (all_ones ℤ) 0 (fun _ _ => 0))
            (fun _ => 0))) 0 (⟨fun _ => 0, fun _ => 0, fun _ _ => 0, fun _ _ => 0, fun _ => 0, fun _ => 0⟩ : BwdState ℤ)).dx_out idx = (⟨fun _ => 0, fun _ => 0, fun _ _ => 0, fun _ _ => 0, fun _ => 0, fun _ => 0⟩ : BwdState ℤ).dx_out idx) :=
  C13_length_16_32_32_amended (config32 1 1 1 1) (config32_valid 1 1 1 1) (ones_tables32 ℤ)
    (all_ones ℤ) (all_ones ℤ) (all_ones ℤ) (fun _ _ => 0) (fun _ => 0) 0 0
    ⟨fun _ => 0, fun _ => 0, fun _ _ => 0, fun _ _ => 0, fun _ => 0, fun _ => 0⟩

/-- Counterexample to C13 as stated: the product `16 * 16 * 32 * 32` of the constants
`sqrt_N_1`, `sqrt_N_2` taken twice each (equivalently `N_1 * N_2`) is `262144`, not `16384`;
and the kernel produces `16384` elements per (batch, channel): the launch on one pair leaves
element `16384` of `dk_f_out` as it was. -/
theorem C13_length_16_32_32_counterexample :
    sqrt_N_1 * sqrt_N_1 * sqrt_N_2 * sqrt_N_2 = 262144 ∧
    sqrt_N_1 * sqrt_N_1 * sqrt_N_2 * sqrt_N_2 ≠ 16384 ∧
    N_1 * N_2 ≠ 16384 ∧
    (launch_bwd32 (config32 1 1 1 1) (ones_tables32 ℤ) (all_ones ℤ) (all_ones ℤ) (all_ones ℤ)
        (fun _ => 0) (fun _ _ => 0) 1 1 ⟨fun _ => 0, fun _ => 7⟩).dk_f_out 16384 = 7 := by
  refine ⟨by decide, by decide, by decide, ?_⟩
  rw [bwd32_launch_dk_f_spec (config32 1 1 1 1) (config32_valid 1 1 1 1) rfl _ _ _ _ _ _
    (by decide) 1 1 (by decide) rfl rfl, if_neg (by decide)]

/-! ## The source loops and their closed forms -/

section loops
variable {K : Type}

/-- A loop whose iteration `u` applies `f` to the elements of its region `R u` and leaves the
others alone, with pairwise disjoint regions: after the loop every element of some region has
been updated exactly once. -/
theorem forRange_update_once (f : K → K) (R : ℕ → ℕ → Prop) (n : ℕ)
    (body : ℕ → (ℕ → K) → (ℕ → K))
    (hin : ∀ u, u < n → ∀ s idx, R u idx → body u s idx = f (s idx))
    (hout : ∀ u, u < n → ∀ s idx, ¬ R u idx → body u s idx = s idx)
    (hdisj : ∀ u v idx, u < n → v < n → R u idx → R v idx → u = v)
    (s : ℕ → K) (idx : ℕ) :
    ((∃ u, u < n ∧ R u idx) → forRange n body s idx = f (s idx)) ∧
    ((∀ u, u < n → ¬ R u idx) → forRange n body s idx = s idx) := by
  induction n with
  | zero =>
    constructor
    · rintro ⟨u, hu, _⟩
      omega
    · intro _
      rfl
  | succ n ih =>
    have ih1 := ih (fun u hu => hin u (by omega)) (fun u hu => hout u (by omega))
      (fun u v i hu hv => hdisj u v i (by omega) (by omega))
    rw [forRange_succ]
    constructor
    · rintro ⟨u, hu, hR⟩
      by_cases hn : R n idx
      · rw [hin n (by omega) _ idx hn, ih1.2]
        intro v hv hRv
        have := hdisj v n idx (by omega) (by omega) hRv hn
        omega
      · rw [hout n (by omega) _ idx hn]
        have hne : u ≠ n := fun h => hn (h ▸ hR)
        exact ih1.1 ⟨u, by omega, hR⟩
    · intro h
      rw [hout n (by omega) _ idx (h n (by omega))]
      exact ih1.2 (fun u hu => h u (by omega))

/-- The staging loop of the source, executed thread after thread, is the closed form
`regs_to_shared`. -/
theorem regs_to_shared_loop_eq {nt : ℕ} (hnt : 0 < nt) (items : ℕ) (regs : ℕ → ℕ → K)
    (plane : ℕ → K) :
    regs_to_shared_loop nt items regs plane = regs_to_shared nt items regs plane := by
  funext idx
  have inner : ∀ t, t < nt → ∀ (p : ℕ → K) (x : ℕ),
      ((∃ i, i < items ∧ x / 2 = i * nt + t) →
        forRange items (fun i p => write_half2 (i * nt + t) (regs t (2 * i))
          (regs t (2 * i + 1)) p) p x = regs (x / 2 % nt) (2 * (x / 2 / nt) + x % 2)) ∧
      ((∀ i, i < items → ¬ x / 2 = i * nt + t) →
        forRange items (fun i p => write_half2 (i * nt + t) (regs t (2 * i))
          (regs t (2 * i + 1)) p) p x = p x) := by
    intro t ht p x
    exact forRange_write_once (fun p : ℕ → K => p)
      (fun x => regs (x / 2 % nt) (2 * (x / 2 / nt) + x % 2))
      (fun i x => x / 2 = i * nt + t) items _
      (fun i _ s x hR => by
        have e1 : x / 2 % nt = t := by
          rw [hR, Nat.add_comm, Nat.add_mul_mod_self_right, Nat.mod_eq_of_lt ht]
        have e2 : x / 2 / nt = i := by
          rw [hR, Nat.add_comm, Nat.add_mul_div_right _ _ hnt, Nat.div_eq_of_lt ht,
            Nat.zero_add]
        simp only [write_half2, e1, e2]
        by_cases h0 : x = 2 * (i * nt + t)
        · rw [if_pos h0]
          have : x % 2 = 0 := by omega
          rw [this, Nat.add_zero]
        · rw [if_neg h0, if_pos (by omega)]
          have : x % 2 = 1 := by omega
          rw [this])
      (fun i _ s x hR => by
        simp only [write_half2]
        rw [if_neg (by omega), if_neg (by omega)])
      p x
  have outer := forRange_write_once (fun p : ℕ → K => p)
    (fun x => regs (x / 2 % nt) (2 * (x / 2 / nt) + x % 2))
    (fun t x => ∃ i, i < items ∧ x / 2 = i * nt + t) nt
    (fun thread_id plane => forRange items (fun i plane =>
      write_half2 (i * nt + thread_id) (regs thread_id (2 * i)) (regs thread_id (2 * i + 1))
        plane) plane)
    (fun t ht s x hR => (inner t ht s x).1 hR)
    (fun t ht s x hR => (inner t ht s x).2 (fun i hi h => hR ⟨i, hi, h⟩))
    plane idx
  unfold regs_to_shared_loop regs_to_shared
  by_cases hc : idx / 2 / nt < items
  · rw [if_pos hc]
    exact outer.1 ⟨idx / 2 % nt, Nat.mod_lt _ hnt, idx / 2 / nt, hc,
      (Nat.div_add_mod' _ _).symm⟩
  · rw [if_neg hc]
    apply outer.2
    rintro t ht ⟨i, hi, h⟩
    apply hc
    rw [h, Nat.add_comm, Nat.add_mul_div_right _ _ hnt, Nat.div_eq_of_lt ht, Nat.zero_add]
    exact hi

/-- The scaling loop of the source, executed lane after lane, is the closed form
`scale_block`: every element of the block is multiplied by `c` once. -/
theorem scale_loop_eq [CommRing K] (k_idx_offset count : ℕ) (c : K) (plane : ℕ → K) :
    scale_loop k_idx_offset count c plane = scale_block k_idx_offset count c plane := by
  funext idx
  have inner : ∀ lane, ∀ (p : ℕ → K) (x : ℕ),
      ((∃ i, i < count ∧ x / 2 = k_idx_offset / 2 + i * 32 + lane) →
        forRange count (fun i p => scale_half2 (k_idx_offset / 2 + i * 32 + lane) c p) p x
          = p x * c) ∧
      ((∀ i, i < count → ¬ x / 2 = k_idx_offset / 2 + i * 32 + lane) →
        forRange count (fun i p => scale_half2 (k_idx_offset / 2 + i * 32 + lane) c p) p x
          = p x) := by
    intro lane p x
    exact forRange_update_once (fun v => v * c)
      (fun i x => x / 2 = k_idx_offset / 2 + i * 32 + lane) count _
      (fun i _ s x hR => by simp only [scale_half2]; rw [if_pos hR])
      (fun i _ s x hR => by simp only [scale_half2]; rw [if_neg hR])
      (fun u v x _ _ hu hv => by omega)
      p x
  have outer := forRange_update_once (fun v => v * c)
    (fun lane x => ∃ i, i < count ∧ x / 2 = k_idx_offset / 2 + i * 32 + lane) 32
    (fun lane plane => forRange count (fun i plane =>
      scale_half2 (k_idx_offset / 2 + i * 32 + lane) c plane) plane)
    (fun lane _ s x hR => (inner lane s x).1 hR)
    (fun lane _ s x hR => (inner lane s x).2 (fun i hi h => hR ⟨i, hi, h⟩))
    (fun u v x hu hv hRu hRv => by
      obtain ⟨i, _, h1⟩ := hRu
      obtain ⟨i1, _, h2⟩ := hRv
      omega)
    plane idx
  unfold scale_loop scale_block WARP_SIZE
  by_cases hc : k_idx_offset / 2 ≤ idx / 2 ∧ (idx / 2 - k_idx_offset / 2) / 32 < count
  · rw [if_pos hc]
    exact outer.1 ⟨(idx / 2 - k_idx_offset / 2) % 32, Nat.mod_lt _ (by norm_num),
      (idx / 2 - k_idx_offset / 2) / 32, hc.2, by omega⟩
  · rw [if_neg hc]
    apply outer.2
    rintro lane hl ⟨i, hi, h⟩
    apply hc
    constructor
    · omega
    · have : (idx / 2 - k_idx_offset / 2) / 32 = i := by omega
      rw [this]
      exact hi

end loops

/-- C16: in both backward kernels the factor `N` is applied on the transformed-`x` branch
only.  Within a warp's block the map `(i, lane) -> k_idx_offset / 2 + 32 * i + lane`,
`i < count`, `lane < 32` (`count = blockLen / 64`: 4 for blocks of 256, 16 for blocks of 1024)
is a bijection onto the `__half2` indices `[k_idx_offset / 2, k_idx_offset / 2 + blockLen / 2)`
of the block; the loop `x = x * N` of the source, run lane after lane, is the closed form
`scale_block` used by the kernels and multiplies every element of the block by the factor
exactly once, leaving all other elements alone.  After the three transform stages of a batch
element, the scratch planes `a_2` hold `T(dout) * conj(T(x) * N)` and the scratch planes `a`
(the `dx` that is written back unscaled) hold the inverse stage sequence of
`T(dout) * staged filter`: `N` multiplies `T(x)` once and neither `T(dout)` nor `dx`. -/
theorem C16_scale_on_x_branch {K : Type} [CommRing K] [StarRing K]
    (P : Params) (hv : P.Valid) (P2 : Params32) (hv2 : P2.Valid) (T : Tables K)
    (T2 : Tables32 K) (dout_inp a_inp a_k : ℕ → K) (off : ℕ) (s : BwdState K)
    (k_idx_offset count : ℕ) (c : K) (plane : ℕ → K) :
    (32 * (256 / 32 / 2) = 256 / 2 ∧ 32 * (1024 / 32 / 2) = 1024 / 2) ∧
    (∀ i lane, i < count → lane < 32 →
      k_idx_offset / 2 ≤ k_idx_offset / 2 + 32 * i + lane ∧
      k_idx_offset / 2 + 32 * i + lane < k_idx_offset / 2 + 32 * count) ∧
    (∀ h, k_idx_offset / 2 ≤ h → h < k_idx_offset / 2 + 32 * count →
      ∃! p : ℕ × ℕ, p.1 < count ∧ p.2 < 32 ∧ k_idx_offset / 2 + 32 * p.1 + p.2 = h) ∧
    scale_loop k_idx_offset count c plane = scale_block k_idx_offset count c plane ∧
    (∀ idx, scale_loop k_idx_offset count c plane idx
      = if k_idx_offset / 2 ≤ idx / 2 ∧ idx / 2 < k_idx_offset / 2 + 32 * count
        then plane idx * c else plane idx) ∧
    (∀ f1 f2 f3, f1 < 16 → f2 < 16 → f3 < 16 →
      (forEachWarp P.num_warps (16 / P.WARP_TILE_SIZE)
        (fun warp_id k_idx s => bwd_outer_idft P T warp_id k_idx s)
        (forEachWarp P.num_warps (16 / P.WARP_TILE_SIZE)
          (fun warp_id k_idx s => bwd_inner P T (k_frag P a_k) warp_id k_idx s)
          (forEachWarp P.num_warps (16 / P.WARP_TILE_SIZE)
            (fun warp_id k_idx s => bwd_outer_dft P T dout_inp a_inp off warp_id k_idx s) s))).a_2
          (256 * f1 + 16 * f2 + f3)
        = T.toM.fwd (fun i => dout_inp (off + i)) f1 f2 f3
            * star (T.toM.fwd (fun i => a_inp (off + i)) f1 f2 f3 * (P.N : K))) ∧
    (∀ n1 n2 n3, n1 < 16 → n2 < 16 → n3 < 16 →
      (forEachWarp P.num_warps (16 / P.WARP_TILE_SIZE)
        (fun warp_id k_idx s => bwd_outer_idft P T warp_id k_idx s)
        (forEachWarp P.num_warps (16 / P.WARP_TILE_SIZE)
          (fun warp_id k_idx s => bwd_inner P T (k_frag P a_k) warp_id k_idx s)
          (forEachWarp P.num_warps (16 / P.WARP_TILE_SIZE)
            (fun warp_id k_idx s => bwd_outer_dft P T dout_inp a_inp off warp_id k_idx s) s))).a
          (256 * n1 + 16 * n2 + n3)
        = T.toM.inv (fun f1 f2 f3 =>
            T.toM.fwd (fun i => dout_inp (off + i)) f1 f2 f3 * digits 16 a_k f1 f2 f3)
            n1 n2 n3) ∧
    (∀ f1 f2 f3, f1 < 16 → f2 < 32 → f3 < 32 →
      (forEachWarp P2.num_warps (64 / P2.WARP_TILE_SIZE)
        (fun warp_id k_idx s => bwd32_outer_idft P2 T2 warp_id k_idx s)
        (forEachWarp P2.num_warps (16 / P2.WARP_TILE_SIZE)
          (fun warp_id k_idx s => bwd32_inner P2 T2 (k_frag32 P2 a_k) warp_id k_idx s)
          (forEachWarp P2.num_warps (64 / P2.WARP_TILE_SIZE)
            (fun warp_id k_idx s => bwd32_outer_dft P2 T2 dout_inp a_inp off warp_id k_idx s) s))).a_2
          (1024 * f1 + 32 * f2 + f3)
        = T2.toM.fwd (fun i => dout_inp (off + i)) f1 f2 f3
            * star (T2.toM.fwd (fun i => a_inp (off + i)) f1 f2 f3 * (P2.N : K))) ∧
    (∀ n1 n2 n3, n1 < 16 → n2 < 32 → n3 < 32 →
      (forEachWarp P2.num_warps (64 / P2.WARP_TILE_SIZE)
        (fun warp_id k_idx s => bwd32_outer_idft P2 T2 warp_id k_idx s)
        (forEachWarp P2.num_warps (16 / P2.WARP_TILE_SIZE)
          (fun warp_id k_idx s => bwd32_inner P2 T2 (k_frag32 P2 a_k) warp_id k_idx s)
          (forEachWarp P2.num_warps (64 / P2.WARP_TILE_SIZE)
            (fun warp_id k_idx s => bwd32_outer_dft P2 T2 dout_inp a_inp off warp_id k_idx s) s))).a
          (1024 * n1 + 32 * n2 + n3)
        = T2.toM.inv (fun f1 f2 f3 =>
            T2.toM.fwd (fun i => dout_inp (off + i)) f1 f2 f3 * digits 32 a_k f1 f2 f3)
            n1 n2 n3) := by
  refine ⟨⟨rfl, rfl⟩, ?_, ?_, scale_loop_eq k_idx_offset count c plane, ?_, ?_, ?_, ?_, ?_⟩
  · intro i lane hi hl
    constructor
    · omega
    · have : 32 * (i + 1) ≤ 32 * count := Nat.mul_le_mul_left 32 hi
      omega
  · intro h h1 h2
    refine ⟨((h - k_idx_offset / 2) / 32, (h - k_idx_offset / 2) % 32),
      ⟨by dsimp only; omega, by dsimp only; omega, by dsimp only; omega⟩, ?_⟩
    rintro ⟨i, lane⟩ ⟨e1, e2, e3⟩
    simp only at e1 e2 e3
    have ei : i = (h - k_idx_offset / 2) / 32 := by omega
    have el : lane = (h - k_idx_offset / 2) % 32 := by omega
    rw [ei, el]
  · intro idx
    rw [scale_loop_eq]
    unfold scale_block
    by_cases hc : k_idx_offset / 2 ≤ idx / 2 ∧ (idx / 2 - k_idx_offset / 2) / 32 < count
    · rw [if_pos hc, if_pos ⟨hc.1, by omega⟩]
    · rw [if_neg hc, if_neg]
      rintro ⟨h1, h2⟩
      exact hc ⟨h1, by omega⟩
  · intro f1 f2 f3 h1 h2 h3
    rw [bwd_stages_a2 P hv T dout_inp a_inp a_k off s f1 f2 f3 h1 h2 h3]
    rfl
  · intro n1 n2 n3 h1 h2 h3
    exact bwd_stages_a P hv T dout_inp a_inp a_k off s n1 n2 n3 h1 h2 h3
  · intro f1 f2 f3 h1 h2 h3
    rw [bwd32_stages_a2 P2 hv2 T2 dout_inp a_inp a_k off s f1 f2 f3 h1 h2 h3]
    rfl
  · intro n1 n2 n3 h1 h2 h3
    exact bwd32_stages_a P2 hv2 T2 dout_inp a_inp a_k off s n1 n2 n3 h1 h2 h3

/-- Witness of C16: the last block of a sequence of 4096 (`k_idx_offset = 3840`, 4 iterations
per lane), factor 4096, on tables of ones. -/
theorem C16_scale_on_x_branch_witness :
    (32 * (256 / 32 / 2) = 256 / 2 ∧ 32 * (1024 / 32 / 2) = 1024 / 2) ∧
    (∀ i lane, i < 4 → lane < 32 →
      3840 / 2 ≤ 3840 / 2 + 32 * i + lane ∧
      3840 / 2 + 32 * i + lane < 3840 / 2 + 32 * 4) ∧
    (∀ h, 3840 / 2 ≤ h → h < 3840 / 2 + 32 * 4 →
      ∃! p : ℕ × ℕ, p.1 < 4 ∧ p.2 < 32 ∧ 3840 / 2 + 32 * p.1 + p.2 = h) ∧
    scale_loop 3840 4 4096 (all_ones ℤ) = scale_block 3840 4 4096 (all_ones ℤ) ∧
    (∀ idx, scale_loop 3840 4 4096 (all_ones ℤ) idx
      = if 3840 / 2 ≤ idx / 2 ∧ idx / 2 < 3840 / 2 + 32 * 4
        then (all_ones ℤ) idx * 4096 else (all_ones ℤ) idx) ∧
    (∀ f1 f2 f3, f1 < 16 → f2 < 16 → f3 < 16 →
      (forEachWarp (config 1 1 1 1).num_warps (16 / (config 1 1 1 1).WARP_TILE_SIZE)
        (fun warp_id k_idx s => bwd_outer_idft (config 1 1 1 1) (ones_tables ℤ) warp_id k_idx s)
        (forEachWarp (config 1 1 1 1).num_warps (16 / (config 1 1 1 1).WARP_TILE_SIZE)
          (fun warp_id k_idx s => bwd_inner (config 1 1 1 1) (ones_tables ℤ) (k_frag (config 1 1 1 1) (all_ones ℤ)) warp_id k_idx s)
          (forEachWarp (config 1 1 1 1).num_warps (16 / (config 1 1 1 1).WARP_TILE_SIZE)
            (fun warp_id k_idx s => bwd_outer_dft (config 1 1 1 1) (ones_tables ℤ) (all_ones ℤ) (all_ones ℤ) 0 warp_id k_idx s) ⟨fun _ => 0, fun _ => 0, fun _ _ => 0, fun _ _ => 0, fun _ => 0, fun _ => 0⟩))).a_2
          (256 * f1 + 16 * f2 + f3)
        = (ones_tables ℤ).toM.fwd (fun i => (all_ones ℤ) (0 + i)) f1 f2 f3
            * star ((ones_tables ℤ).toM.fwd (fun i => (all_ones ℤ) (0 + i)) f1 f2 f3 * ((config 1 1 1 1).N : ℤ))) ∧
    (∀ n1 n2 n3, n1 < 16 → n2 < 16 → n3 < 16 →
      (forEachWarp (config 1 1 1 1).num_warps (16 / (config 1 1 1 1).WARP_TILE_SIZE)
        (fun warp_id k_idx s => bwd_outer_idft (config 1 1 1 1) (ones_tables ℤ) warp_id k_idx s)
        (forEachWarp (config 1 1 1 1).num_warps (16 / (config 1 1 1 1).WARP_TILE_SIZE)
          (fun warp_id k_idx s => bwd_inner (config 1 1 1 1) (ones_tables ℤ) (k_frag (config 1 1 1 1) (all_ones ℤ)) warp_id k_idx s)
          (forEachWarp (config 1 1 1 1).num_warps (16 / (config 1 1 1 1).WARP_TILE_SIZE)
            (fun warp_id k_idx s => bwd_outer_dft (config 1 1 1 1) (ones_tables ℤ) (all_ones ℤ) (all_ones ℤ) 0 warp_id k_idx s) ⟨fun _ => 0, fun _ => 0, fun _ _ => 0, fun _ _ => 0, fun _ => 0, fun _ => 0⟩))).a
          (256 * n1 + 16 * n2 + n3)
        = (ones_tables ℤ).toM.inv (fun f1 f2 f3 =>
            (ones_tables ℤ).toM.fwd (fun i => (all_ones ℤ) (0 + i)) f1 f2 f3 * digits 16 (all_ones ℤ) f1 f2 f3)
            n1 n2 n3) ∧
    (∀ f1 f2 f3, f1 < 16 → f2 < 32 → f3 < 32 →
      (forEachWarp (config32 1 1 1 1).num_warps (64 / (config32 1 1 1 1).WARP_TILE_SIZE)
        (fun warp_id k_idx s => bwd32_outer_idft (config32 1 1 1 1) (ones_tables32 ℤ) warp_id k_idx s)
        (forEachWarp (config32 1 1 1 1).num_warps (16 / (config32 1 1 1 1).WARP_TILE_SIZE)
          (fun warp_id k_idx s => bwd32_inner (config32 1 1 1 1) (ones_tables32 ℤ) (k_frag32 (config32 1 1 1 1) (all_ones ℤ)) warp_id k_idx s)
          (forEachWarp (config32 1 1 1 1).num_warps (64 / (config32 1 1 1 1).WARP_TILE_SIZE)
            (fun warp_id k_idx s => bwd32_outer_dft (config32 1 1 1 1) (ones_tables32 ℤ) (all_ones ℤ) (all_ones ℤ) 0 warp_id k_idx s) ⟨fun _ => 0, fun _ => 0, fun _ _ => 0, fun _ _ => 0, fun _ => 0, fun _ => 0⟩))).a_2
          (1024 * f1 + 32 * f2 + f3)
        = (ones_tables32 ℤ).toM.fwd (fun i => (all_ones ℤ) (0 + i)) f1 f2 f3
            * star ((ones_tables32 ℤ).toM.fwd (fun i => (all_ones ℤ) (0 + i)) f1 f2 f3 * ((config32 1 1 1 1).N : ℤ))) ∧
    (∀ n1 n2 n3, n1 < 16 → n2 < 32 → n3 < 32 →
      (forEachWarp (config32 1 1 1 1).num_warps (64 / (config32 1 1 1 1).WARP_TILE_SIZE)
        (fun warp_id k_idx s => bwd32_outer_idft (config32 1 1 1 1) (ones_tables32 ℤ) warp_id k_idx s)
        (forEachWarp (config32 1 1 1 1).num_warps (16 / (config32 1 1 1 1).WARP_TILE_SIZE)
          (fun warp_id k_idx s => bwd32_inner (config32 1 1 1 1) (ones_tables32 ℤ) (k_frag32 (config32 1 1 1 1) (all_ones ℤ)) warp_id k_idx s)
          (forEachWarp (config32 1 1 1 1).num_warps (64 / (config32 1 1 1 1).WARP_TILE_SIZE)
            (fun warp_id k_idx s => bwd32_outer_dft (config32 1 1 1 1) (ones_tables32 ℤ) (all_ones ℤ) (all_ones ℤ) 0 warp_id k_idx s) ⟨fun _ => 0, fun _ => 0, fun _ _ => 0, fun _ _ => 0, fun _ => 0, fun _ => 0⟩))).a
          (1024 * n1 + 32 * n2 + n3)
        = (ones_tables32 ℤ).toM.inv (fun f1 f2 f3 =>
            (ones_tables32 ℤ).toM.fwd (fun i => (all_ones ℤ) (0 + i)) f1 f2 f3 * digits 32 (all_ones ℤ) f1 f2 f3)
            n1 n2 n3) :=
  C16_scale_on_x_branch (config 1 1 1 1) (config_valid 1 1 1 1) (config32 1 1 1 1)
    (config32_valid 1 1 1 1) (ones_tables ℤ) (ones_tables32 ℤ) (all_ones ℤ) (all_ones ℤ)
    (all_ones ℤ) 0 ⟨fun _ => 0, fun _ => 0, fun _ _ => 0, fun _ _ => 0, fun _ => 0, fun _ => 0⟩ 3840 4 4096 (all_ones ℤ)

section striped_copy
variable {K : Type}

/-- Staging through the registers is index-preserving, for any block size: after the striped
load of `2 * half` elements and the striped write to a scratch plane, element `j` of the plane
is element `j` of the source. -/
theorem regs_to_shared_apply {nt items half : ℕ} (hnt : 0 < nt) (hitems : items * nt = half)
    (src : ℕ → K) (ptr : ℕ) (regs : ℕ → ℕ → K) (plane : ℕ → K) (j : ℕ) (hj : j < 2 * half) :
    regs_to_shared nt items (BlockLoad_striped nt items src ptr regs) plane j
      = src (ptr + j) := by
  have hc := striped_covers hnt hitems hj
  simp only [regs_to_shared, BlockLoad_striped]
  rw [if_pos hc, if_pos (by omega)]
  congr 1
  have e : (2 * (j / 2 / nt) + j % 2) / 2 = j / 2 / nt := by omega
  have e2 : (2 * (j / 2 / nt) + j % 2) % 2 = j % 2 := by omega
  rw [e, e2, Nat.add_assoc, striped_index]

/-- The staging loop writes nothing at or beyond element `2 * items * num_threads`. -/
theorem regs_to_shared_frame {nt items half : ℕ} (hnt : 0 < nt) (hitems : items * nt = half)
    (regs : ℕ → ℕ → K) (plane : ℕ → K) (j : ℕ) (hj : 2 * half ≤ j) :
    regs_to_shared nt items regs plane j = plane j := by
  simp only [regs_to_shared]
  rw [if_neg]
  intro h
  rw [Nat.div_lt_iff_lt_mul hnt, hitems] at h
  omega

end striped_copy

/-- C19: the striped cooperative copy is complete and disjoint.  For every `num_threads`
dividing `N` with `N / num_threads` even, the map `(i, thread_id) -> i * num_threads +
thread_id`, `i < N / (2 * num_threads)`, `thread_id < num_threads`, is a bijection onto the
`__half2` indices `[0, N / 2)`; the staging loop of the source, run thread after thread, is
the closed form `regs_to_shared` used by the kernels; after the striped load and the staging
loop `plane[j]` holds source element `j` for every `j < N`, and nothing at or beyond `N` is
written; the write-back of the backward kernels stores element `j` of the scratch planes at
`dx_out[input_offset + j]` for every `j < N`. -/
theorem C19_striped_copy {K : Type} [CommRing K] (N num_threads : ℕ) (hnt : 0 < num_threads)
    (hdvd : num_threads ∣ N) (heven : 2 ∣ N / num_threads) (src : ℕ → K) (ptr : ℕ)
    (regs : ℕ → ℕ → K) (plane : ℕ → K) (input_offset : ℕ) (s : BwdState K) :
    N / num_threads / 2 = N / (2 * num_threads) ∧
    (∀ i thread_id, i < N / num_threads / 2 → thread_id < num_threads →
      i * num_threads + thread_id < N / 2) ∧
    (∀ h, h < N / 2 →
      ∃! p : ℕ × ℕ, p.1 < N / num_threads / 2 ∧ p.2 < num_threads ∧
        p.1 * num_threads + p.2 = h) ∧
    regs_to_shared_loop num_threads (N / num_threads / 2) regs plane
      = regs_to_shared num_threads (N / num_threads / 2) regs plane ∧
    (∀ j, j < N →
      regs_to_shared_loop num_threads (N / num_threads / 2)
          (BlockLoad_striped num_threads (N / num_threads / 2) src ptr regs) plane j
        = src (ptr + j)) ∧
    (∀ j, N ≤ j →
      regs_to_shared_loop num_threads (N / num_threads / 2)
          (BlockLoad_striped num_threads (N / num_threads / 2) src ptr regs) plane j
        = plane j) ∧
    (∀ j, j < N →
      (bwd_write_back num_threads (N / num_threads) input_offset s).dx_out (input_offset + j)
        = s.a j) := by
  have hq : num_threads * (N / num_threads) = N := Nat.mul_div_cancel_left' hdvd
  obtain ⟨m, hm⟩ := heven
  have hm2 : N / num_threads / 2 = m := by omega
  have hN : N = 2 * (m * num_threads) := by
    rw [← hq, hm]
    ring
  have hhalf : N / 2 = m * num_threads := by omega
  have hitems : N / num_threads / 2 * num_threads = m * num_threads := by rw [hm2]
  refine ⟨?_, ?_, ?_, regs_to_shared_loop_eq hnt _ regs plane, ?_, ?_, ?_⟩
  · rw [Nat.div_div_eq_div_mul, Nat.mul_comm]
  · intro i t hi ht
    rw [hm2] at hi
    rw [hhalf]
    have h1 : (i + 1) * num_threads ≤ m * num_threads := Nat.mul_le_mul_right _ hi
    have h2 : (i + 1) * num_threads = i * num_threads + num_threads := by ring
    omega
  · intro h hh
    rw [hhalf] at hh
    rw [hm2]
    refine ⟨(h / num_threads, h % num_threads),
      ⟨(Nat.div_lt_iff_lt_mul hnt).mpr hh, Nat.mod_lt _ hnt, Nat.div_add_mod' _ _⟩, ?_⟩
    rintro ⟨i, t⟩ ⟨_, e2, e3⟩
    simp only at e2 e3
    have ei : h / num_threads = i := by
      rw [← e3, Nat.add_comm, Nat.add_mul_div_right _ _ hnt, Nat.div_eq_of_lt e2, Nat.zero_add]
    have et : h % num_threads = t := by
      rw [← e3, Nat.add_comm, Nat.add_mul_mod_self_right, Nat.mod_eq_of_lt e2]
    rw [ei, et]
  · intro j hj
    rw [regs_to_shared_loop_eq hnt]
    exact regs_to_shared_apply hnt hitems src ptr regs plane j (by omega)
  · intro j hj
    rw [regs_to_shared_loop_eq hnt]
    exact regs_to_shared_frame hnt hitems _ plane j (by omega)
  · intro j hj
    exact bwd_write_back_dx hnt hitems input_offset s j (by omega)

/-- Witness of C19: `N = 4096` with 256 threads (8 `__half2` per thread). -/
theorem C19_striped_copy_witness :
    4096 / 256 / 2 = 4096 / (2 * 256) ∧
    (∀ i thread_id, i < 4096 / 256 / 2 → thread_id < 256 →
      i * 256 + thread_id < 4096 / 2) ∧
    (∀ h, h < 4096 / 2 →
      ∃! p : ℕ × ℕ, p.1 < 4096 / 256 / 2 ∧ p.2 < 256 ∧
        p.1 * 256 + p.2 = h) ∧
    regs_to_shared_loop 256 (4096 / 256 / 2) (fun _ _ => 0) (all_ones ℤ)
      = regs_to_shared 256 (4096 / 256 / 2) (fun _ _ => 0) (all_ones ℤ) ∧
    (∀ j, j < 4096 →
      regs_to_shared_loop 256 (4096 / 256 / 2)
          (BlockLoad_striped 256 (4096 / 256 / 2) (unit_impulse ℤ) 8192 (fun _ _ => 0)) (all_ones ℤ) j
        = (unit_impulse ℤ) (8192 + j)) ∧
    (∀ j, 4096 ≤ j →
      regs_to_shared_loop 256 (4096 / 256 / 2)
          (BlockLoad_striped 256 (4096 / 256 / 2) (unit_impulse ℤ) 8192 (fun _ _ => 0)) (all_ones ℤ) j
        = (all_ones ℤ) j) ∧
    (∀ j, j < 4096 →
      (bwd_write_back 256 (4096 / 256) 4096 (⟨all_ones ℤ, fun _ => 0, fun _ _ => 0, fun _ _ => 0, fun _ => 0, fun _ => 0⟩ : BwdState ℤ)).dx_out (4096 + j)
        = (⟨all_ones ℤ, fun _ => 0, fun _ _ => 0, fun _ _ => 0, fun _ => 0, fun _ => 0⟩ : BwdState ℤ).a j) :=
  C19_striped_copy 4096 256 (by decide) (by decide) (by decide) (unit_impulse ℤ) 8192
    (fun _ _ => 0) (all_ones ℤ) 4096 (⟨all_ones ℤ, fun _ => 0, fun _ _ => 0, fun _ _ => 0, fun _ => 0, fun _ => 0⟩ : BwdState ℤ)

/-- C14: configuration rejection, on the invocation through the host-side orchestration
layer as the specification describes it.  For every `N` that is not the radix product of the
kernel (`16 * 16 * 16` for the 16_16_16 kernels, `16 * 32 * 32` for the 16_32_32 kernel) the
invocation reports a configuration error and every element of the output buffers is as it
was before the invocation: nothing has been computed. -/
theorem C14_configuration_rejection {K : Type} [CommRing K] [StarRing K]
    (P : Params) (Q : Params32) (T : Tables K) (T2 : Tables32 K)
    (a_inp dout_inp k_f junk : ℕ → K) (regs : ℕ → ℕ → K) (gx gy : ℕ) (out : ℕ → K)
    (o : BwdOut K) :
    (P.N ≠ 16 * 16 * 16 →
      ((invoke_fwd P T a_inp k_f regs gx gy out).1 = Status.configuration_error ∧
        ∀ idx, (invoke_fwd P T a_inp k_f regs gx gy out).2 idx = out idx) ∧
      ((invoke_bwd P T dout_inp a_inp k_f junk regs gx gy o).1 = Status.configuration_error ∧
        (∀ idx, (invoke_bwd P T dout_inp a_inp k_f junk regs gx gy o).2.dx_out idx
          = o.dx_out idx) ∧
        ∀ idx, (invoke_bwd P T dout_inp a_inp k_f junk regs gx gy o).2.dk_f_out idx
          = o.dk_f_out idx)) ∧
    (Q.N ≠ 16 * 32 * 32 →
      (invoke_bwd32 Q T2 dout_inp a_inp k_f junk regs gx gy o).1
          = Status.configuration_error ∧
        (∀ idx, (invoke_bwd32 Q T2 dout_inp a_inp k_f junk regs gx gy o).2.dx_out idx
          = o.dx_out idx) ∧
        ∀ idx, (invoke_bwd32 Q T2 dout_inp a_inp k_f junk regs gx gy o).2.dk_f_out idx
          = o.dk_f_out idx) := by
  refine ⟨fun h => ?_, fun h => ?_⟩
  · unfold invoke_fwd invoke_bwd
    rw [if_neg h, if_neg h]
    exact ⟨⟨rfl, fun _ => rfl⟩, rfl, fun _ => rfl, fun _ => rfl⟩
  · unfold invoke_bwd32
    rw [if_neg h]
    exact ⟨rfl, fun _ => rfl, fun _ => rfl⟩

/-- Witness of C14: the 16_16_16 kernels invoked with `N = 256`, the 16_32_32 kernel with
`N = 16 * 16 * 32 * 32`. -/
theorem C14_configuration_rejection_witness :
    (((invoke_fwd ({ config 1 1 1 1 with N := 256 } : Params) (ones_tables ℤ) (all_ones ℤ) (all_ones ℤ) (fun _ _ => 0) 1 1 (unit_impulse ℤ)).1 = Status.configuration_error ∧
        ∀ idx, (invoke_fwd ({ config 1 1 1 1 with N := 256 } : Params) (ones_tables ℤ) (all_ones ℤ) (all_ones ℤ) (fun _ _ => 0) 1 1 (unit_impulse ℤ)).2 idx = (unit_impulse ℤ) idx) ∧
      ((invoke_bwd ({ config 1 1 1 1 with N := 256 } : Params) (ones_tables ℤ) (all_ones ℤ) (all_ones ℤ) (all_ones ℤ) (fun _ => 0) (fun _ _ => 0) 1 1 (⟨unit_impulse ℤ, unit_impulse ℤ⟩ : BwdOut ℤ)).1 = Status.configuration_error ∧
        (∀ idx, (invoke_bwd ({ config 1 1 1 1 with N := 256 } : Params) (ones_tables ℤ) (all_ones ℤ) (all_ones ℤ) (all_ones ℤ) (fun _ => 0) (fun _ _ => 0) 1 1 (⟨unit_impulse ℤ, unit_impulse ℤ⟩ : BwdOut ℤ)).2.dx_out idx
          = (⟨unit_impulse ℤ, unit_impulse ℤ⟩ : BwdOut ℤ).dx_out idx) ∧
        ∀ idx, (invoke_bwd ({ config 1 1 1 1 with N := 256 } : Params) (ones_tables ℤ) (all_ones ℤ) (all_ones ℤ) (all_ones ℤ) (fun _ => 0) (fun _ _ => 0) 1 1 (⟨unit_impulse ℤ, unit_impulse ℤ⟩ : BwdOut ℤ)).2.dk_f_out idx
          = (⟨unit_impulse ℤ, unit_impulse ℤ⟩ : BwdOut ℤ).dk_f_out idx)) ∧
    ((invoke_bwd32 ({ config32 1 1 1 1 with N := 262144 } : Params32) (ones_tables32 ℤ) (all_ones ℤ) (all_ones ℤ) (all_ones ℤ) (fun _ => 0) (fun _ _ => 0) 1 1 (⟨unit_impulse ℤ, unit_impulse ℤ⟩ : BwdOut ℤ)).1
          = Status.configuration_error ∧
        (∀ idx, (invoke_bwd32 ({ config32 1 1 1 1 with N := 262144 } : Params32) (ones_tables32 ℤ) (all_ones ℤ) (all_ones ℤ) (all_ones ℤ) (fun _ => 0) (fun _ _ => 0) 1 1 (⟨unit_impulse ℤ, unit_impulse ℤ⟩ : BwdOut ℤ)).2.dx_out idx
          = (⟨unit_impulse ℤ, unit_impulse ℤ⟩ : BwdOut ℤ).dx_out idx) ∧
        ∀ idx, (invoke_bwd32 ({ config32 1 1 1 1 with N := 262144 } : Params32) (ones_tables32 ℤ) (all_ones ℤ) (all_ones ℤ) (all_ones ℤ) (fun _ => 0) (fun _ _ => 0) 1 1 (⟨unit_impulse ℤ, unit_impulse ℤ⟩ : BwdOut ℤ)).2.dk_f_out idx
          = (⟨unit_impulse ℤ, unit_impulse ℤ⟩ : BwdOut ℤ).dk_f_out idx) :=
  ⟨(C14_configuration_rejection ({ config 1 1 1 1 with N := 256 } : Params)
      ({ config32 1 1 1 1 with N := 262144 } : Params32) (ones_tables ℤ) (ones_tables32 ℤ) (all_ones ℤ) (all_ones ℤ) (all_ones ℤ)
      (fun _ => 0) (fun _ _ => 0) 1 1 (unit_impulse ℤ) ⟨unit_impulse ℤ, unit_impulse ℤ⟩).1 (by decide),
   (C14_configuration_rejection ({ config 1 1 1 1 with N := 256 } : Params)
      ({ config32 1 1 1 1 with N := 262144 } : Params32) (ones_tables ℤ) (ones_tables32 ℤ) (all_ones ℤ) (all_ones ℤ) (all_ones ℤ)
      (fun _ => 0) (fun _ _ => 0) 1 1 (unit_impulse ℤ) ⟨unit_impulse ℤ, unit_impulse ℤ⟩).2 (by decide)⟩

/-! ## The staging prologue: every fragment is captured before its plane is overwritten -/

section prologue_staging
variable {K : Type}

/-- A guarded striped load of exactly `valid_items` packed items followed by the staging loop:
element `j` of the plane is element `j` of the source. -/
theorem regs_to_shared_guarded {nt items half : ℕ} (hnt : 0 < nt) (hitems : items * nt = half)
    (src : ℕ → K) (ptr : ℕ) (regs : ℕ → ℕ → K) (plane : ℕ → K) (j : ℕ) (hj : j < 2 * half) :
    regs_to_shared nt items (BlockLoad_striped_guarded nt items half src ptr regs) plane j
      = src (ptr + j) := by
  have hc := striped_covers hnt hitems hj
  have e : (2 * (j / 2 / nt) + j % 2) / 2 = j / 2 / nt := by omega
  have e2 : (2 * (j / 2 / nt) + j % 2) % 2 = j % 2 := by omega
  have e3 : j / 2 / nt * nt + j / 2 % nt = j / 2 := Nat.div_add_mod' _ _
  simp only [regs_to_shared, BlockLoad_striped_guarded]
  rw [if_pos hc, e, e2, e3, if_pos ⟨hc, by omega⟩]
  congr 1
  omega

/-- Staging of a 16×16 table on either branch of `num_threads <= 128`: element `j < 256` of
the matrix plane is element `j` of the table. -/
theorem stage_matrix_apply {nt ipm : ℕ} (hnt : 0 < nt) (h1 : nt ≤ 128 → ipm / 2 * nt = 128)
    (h2 : 128 < nt → ipm = 2) (src : ℕ → K) (regs : ℕ → ℕ → K) (plane : ℕ → K) (j : ℕ)
    (hj : j < 256) :
    stage_matrix nt ipm (BlockLoad_striped_guarded nt (ipm / 2) 128 src 0 regs) plane j
      = src j := by
  unfold stage_matrix
  by_cases h : nt ≤ 128
  · rw [if_pos h, regs_to_shared_guarded hnt (h1 h) src 0 regs plane j (by omega),
      Nat.zero_add]
  · rw [if_neg h]
    have hipm := h2 (by omega)
    have e0 : j % 2 / 2 = 0 := by omega
    have e1 : j % 2 % 2 = j % 2 := by omega
    simp only [BlockLoad_striped_guarded, hipm, e0, e1]
    rw [if_pos (by omega), if_pos ⟨by norm_num, by omega⟩]
    congr 1
    omega

theorem Params.Valid.matrix_items {P : Params} (hv : P.Valid) :
    (P.num_threads ≤ 128 → P.items_per_thread_matrix / 2 * P.num_threads = 128) ∧
    (128 < P.num_threads → P.items_per_thread_matrix = 2) := by
  unfold Params.items_per_thread_matrix
  rw [hv.hthreads, hv.hDFT]
  rcases warp_tile_cases hv.hwarp with h | h | h | h | h <;> rw [h] <;> simp

theorem Params32.Valid.matrix_items_N_1 {P : Params32} (hv : P.Valid) :
    (P.num_threads ≤ 128 → P.items_per_thread_matrix_N_1 / 2 * P.num_threads = 128) ∧
    (128 < P.num_threads → P.items_per_thread_matrix_N_1 = 2) := by
  unfold Params32.items_per_thread_matrix_N_1 N_1
  rw [hv.hthreads]
  rcases warp_tile_cases hv.hwarp with h | h | h | h | h <;> rw [h] <;> simp

theorem Params32.Valid.matrix_items_N_2 {P : Params32} (hv : P.Valid) :
    P.items_per_thread_matrix_N_2 / 2 * P.num_threads = 512 := by
  unfold Params32.items_per_thread_matrix_N_2 N_2
  rw [hv.hthreads]
  rcases warp_tile_cases hv.hwarp with h | h | h | h | h <;> rw [h]

end prologue_staging

section prologue16
variable {K : Type}

/-- After the first stage the planes `a` hold the forward coarse twiddle and the planes `b`,
`b_2` hold the DFT matrix and its inverse. -/
theorem prologue_stage_1_planes (P : Params) (hv : P.Valid) (T : Tables K)
    (s : PrologueState K) :
    (∀ j, j < 4096 → (prologue_stage_1 P T s).a j = T.twiddle_factors_256_fft j) ∧
    (∀ j, j < 256 → (prologue_stage_1 P T s).b j = T.b j) ∧
    (∀ j, j < 256 → (prologue_stage_1 P T s).b_2 j = T.b_ifft j) := by
  have hm := hv.matrix_items
  have hD : P.DFT_SIZE * P.DFT_SIZE / 2 = 128 := by rw [hv.hDFT]
  refine ⟨fun j hj => ?_, fun j hj => ?_, fun j hj => ?_⟩
  · simp only [prologue_stage_1]
    rw [regs_to_shared_apply hv.threads_pos hv.items_mul _ 0 _ _ j (by omega), Nat.zero_add]
  · simp only [prologue_stage_1, hD]
    exact stage_matrix_apply hv.threads_pos hm.1 hm.2 _ _ _ j hj
  · simp only [prologue_stage_1, hD]
    exact stage_matrix_apply hv.threads_pos hm.1 hm.2 _ _ _ j hj

/-- After the third stage the planes `a` hold the inverse coarse twiddle and the planes `b`,
`b_2` hold the fine twiddle tables. -/
theorem prologue_stage_3_planes (P : Params) (hv : P.Valid) (T : Tables K)
    (s : PrologueState K) :
    (∀ j, j < 4096 →
      (prologue_stage_3 P T (prologue_stage_2 P T s)).a j = T.twiddle_factors_256_ifft j) ∧
    (∀ j, j < 256 →
      (prologue_stage_3 P T (prologue_stage_2 P T s)).b j = T.twiddle_factors_16_fft j) ∧
    (∀ j, j < 256 →
      (prologue_stage_3 P T (prologue_stage_2 P T s)).b_2 j = T.twiddle_factors_16_ifft j) := by
  have hm := hv.matrix_items
  have hD : P.DFT_SIZE * P.DFT_SIZE / 2 = 128 := by rw [hv.hDFT]
  refine ⟨fun j hj => ?_, fun j hj => ?_, fun j hj => ?_⟩
  · simp only [prologue_stage_3]
    rw [regs_to_shared_apply hv.threads_pos hv.items_mul _ 0 _ _ j (by omega), Nat.zero_add]
  · simp only [prologue_stage_3, prologue_stage_2, hD]
    exact stage_matrix_apply hv.threads_pos hm.1 hm.2 _ _ _ j hj
  · simp only [prologue_stage_3, prologue_stage_2, hD]
    exact stage_matrix_apply hv.threads_pos hm.1 hm.2 _ _ _ j hj

/-- The fragments captured in the second stage hold the DFT matrix, its inverse and the
forward coarse twiddle. -/
theorem prologue_frags_2 (P : Params) (hv : P.Valid) (T : Tables K) (s : PrologueState K)
    (i j : ℕ) (hi : i < 16) (hj : j < 16) :
    (prologue P T s).a_frag_dft i j = a_frag_dft P T i j ∧
    (prologue P T s).b_frag_dft i j = b_frag_dft P T i j ∧
    (prologue P T s).b_frag_idft i j = b_frag_idft P T i j ∧
    (∀ k_idx warp_id, k_idx < 16 / P.WARP_TILE_SIZE → warp_id < P.WARP_TILE_SIZE →
      (prologue P T s).twiddle_256_dft_frag k_idx warp_id i j
        = twiddle_256_dft_frag P T k_idx warp_id i j) := by
  have h1 := prologue_stage_1_planes P hv T s
  have hs := hv.hsqrt
  refine ⟨?_, ?_, ?_, ?_⟩
  · simp only [prologue, prologue_stage_4, prologue_stage_3, prologue_stage_2,
      load_matrix_sync, a_frag_dft, hs]
    exact h1.2.1 _ (by omega)
  · simp only [prologue, prologue_stage_4, prologue_stage_3, prologue_stage_2,
      load_matrix_sync, b_frag_dft, hs]
    exact h1.2.1 _ (by omega)
  · simp only [prologue, prologue_stage_4, prologue_stage_3, prologue_stage_2,
      load_matrix_sync, b_frag_idft, hs]
    exact h1.2.2 _ (by omega)
  · intro k_idx warp_id hk hw
    have ht := tile_lt hv.hwarp hw hk
    have hnw : warp_id < P.num_warps := by rw [hv.num_warps_eq]; exact hw
    simp only [prologue, prologue_stage_4, prologue_stage_3, prologue_stage_2,
      load_matrix_sync, twiddle_256_dft_frag, k_idx_offset_inner, hs, hv.hDFT]
    rw [if_pos ⟨hk, hnw⟩]
    exact h1.1 _ (by omega)

/-- The fragments captured in the fourth stage hold the inverse coarse twiddle and the fine
twiddle tables. -/
theorem prologue_frags_4 (P : Params) (hv : P.Valid) (T : Tables K) (s : PrologueState K)
    (i j : ℕ) (hi : i < 16) (hj : j < 16) :
    (prologue P T s).twiddle_16_dft_frag i j = twiddle_16_dft_frag P T i j ∧
    (prologue P T s).twiddle_16_idft_frag i j = twiddle_16_idft_frag P T i j ∧
    (∀ k_idx warp_id, k_idx < 16 / P.WARP_TILE_SIZE → warp_id < P.WARP_TILE_SIZE →
      (prologue P T s).twiddle_256_idft_frag k_idx warp_id i j
        = twiddle_256_idft_frag P T k_idx warp_id i j) := by
  have h3 := prologue_stage_3_planes P hv T (prologue_stage_1 P T s)
  have hs := hv.hsqrt
  refine ⟨?_, ?_, ?_⟩
  · simp only [prologue, prologue_stage_4, load_matrix_sync, twiddle_16_dft_frag, hs]
    exact h3.2.1 _ (by omega)
  · simp only [prologue, prologue_stage_4, load_matrix_sync, twiddle_16_idft_frag, hs]
    exact h3.2.2 _ (by omega)
  · intro k_idx warp_id hk hw
    have ht := tile_lt hv.hwarp hw hk
    have hnw : warp_id < P.num_warps := by rw [hv.num_warps_eq]; exact hw
    simp only [prologue, prologue_stage_4, load_matrix_sync, twiddle_256_idft_frag,
      k_idx_offset_outer, hv.hDFT]
    rw [if_pos ⟨hk, hnw⟩]
    exact h3.1 _ (by omega)

end prologue16

section prologue32
variable {K : Type}

/-- After the first stage of the 16_32_32 prologue the planes `a` hold the forward coarse
twiddle and the planes `b`, `b_2` hold the 16×16 DFT matrix and its inverse. -/
theorem prologue32_stage_1_planes (P : Params32) (hv : P.Valid) (T : Tables32 K)
    (s : PrologueState32 K) :
    (∀ j, j < 16384 → (prologue32_stage_1 P T s).a j = T.twiddle_factors_N_fft j) ∧
    (∀ j, j < 256 → (prologue32_stage_1 P T s).b j = T.b_16 j) ∧
    (∀ j, j < 256 → (prologue32_stage_1 P T s).b_2 j = T.b_16_ifft j) := by
  have hm := hv.matrix_items_N_1
  have hV : N_1 / 2 = 128 := rfl
  refine ⟨fun j hj => ?_, fun j hj => ?_, fun j hj => ?_⟩
  · simp only [prologue32_stage_1]
    rw [regs_to_shared_apply hv.threads_pos32 hv.items_mul32 _ 0 _ _ j (by omega),
      Nat.zero_add]
  · simp only [prologue32_stage_1, hV]
    exact stage_matrix_apply hv.threads_pos32 hm.1 hm.2 _ _ _ j hj
  · simp only [prologue32_stage_1, hV]
    exact stage_matrix_apply hv.threads_pos32 hm.1 hm.2 _ _ _ j hj

/-- After the third stage the planes `a` hold the inverse coarse twiddle and the planes `b`,
`b_2` hold the 32×32 twiddle tables. -/
theorem prologue32_stage_3_planes (P : Params32) (hv : P.Valid) (T : Tables32 K)
    (s : PrologueState32 K) :
    (∀ j, j < 16384 →
      (prologue32_stage_3 P T (prologue32_stage_2 P T s)).a j = T.twiddle_factors_N_ifft j) ∧
    (∀ j, j < 1024 →
      (prologue32_stage_3 P T (prologue32_stage_2 P T s)).b j = T.twiddle_factors_32_fft j) ∧
    (∀ j, j < 1024 →
      (prologue32_stage_3 P T (prologue32_stage_2 P T s)).b_2 j
        = T.twiddle_factors_32_ifft j) := by
  have hm := hv.matrix_items_N_2
  have hV : N_2 / 2 = 512 := rfl
  refine ⟨fun j hj => ?_, fun j hj => ?_, fun j hj => ?_⟩
  · simp only [prologue32_stage_3]
    rw [regs_to_shared_apply hv.threads_pos32 hv.items_mul32 _ 0 _ _ j (by omega),
      Nat.zero_add]
  · simp only [prologue32_stage_3, prologue32_stage_2, hV]
    rw [regs_to_shared_guarded hv.threads_pos32 hm _ 0 _ _ j (by omega), Nat.zero_add]
  · simp only [prologue32_stage_3, prologue32_stage_2, hV]
    rw [regs_to_shared_guarded hv.threads_pos32 hm _ 0 _ _ j (by omega), Nat.zero_add]

/-- After the fifth stage the planes `b`, `b_2` hold the 32×32 DFT matrix and its inverse; the
planes `a` are as the third stage left them. -/
theorem prologue32_stage_5_planes (P : Params32) (hv : P.Valid) (T : Tables32 K)
    (s : PrologueState32 K) :
    (prologue32_stage_5 P (prologue32_stage_4 P T s)).a = s.a ∧
    (∀ j, j < 1024 → (prologue32_stage_5 P (prologue32_stage_4 P T s)).b j = T.b_32 j) ∧
    (∀ j, j < 1024 →
      (prologue32_stage_5 P (prologue32_stage_4 P T s)).b_2 j = T.b_32_ifft j) := by
  have hm := hv.matrix_items_N_2
  have hV : N_2 / 2 = 512 := rfl
  refine ⟨rfl, fun j hj => ?_, fun j hj => ?_⟩
  · simp only [prologue32_stage_5, prologue32_stage_4, hV]
    rw [regs_to_shared_guarded hv.threads_pos32 hm _ 0 _ _ j (by omega), Nat.zero_add]
  · simp only [prologue32_stage_5, prologue32_stage_4, hV]
    rw [regs_to_shared_guarded hv.threads_pos32 hm _ 0 _ _ j (by omega), Nat.zero_add]

/-- The fragments of the 16×16 matrices and of the inverse coarse twiddle (extent 16 × 16). -/
theorem prologue32_frags_16 (P : Params32) (hv : P.Valid) (T : Tables32 K)
    (s : PrologueState32 K) (i j : ℕ) (hi : i < 16) (hj : j < 16) :
    (prologue32 P T s).b_frag_dft_N_1 i j = b_frag_dft_N_1 T i j ∧
    (prologue32 P T s).b_frag_idft_N_1 i j = b_frag_idft_N_1 T i j ∧
    (∀ k_idx warp_id, k_idx < 64 / P.WARP_TILE_SIZE → warp_id < P.WARP_TILE_SIZE →
      (prologue32 P T s).twiddle_1024_idft_frag k_idx warp_id i j
        = twiddle_1024_idft_frag P T k_idx warp_id i j) := by
  have h1 := prologue32_stage_1_planes P hv T s
  have h3 := prologue32_stage_3_planes P hv T (prologue32_stage_1 P T s)
  refine ⟨?_, ?_, ?_⟩
  · simp only [prologue32, prologue32_stage_6, prologue32_stage_5, prologue32_stage_4,
      prologue32_stage_3, prologue32_stage_2, load_matrix_sync, b_frag_dft_N_1, sqrt_N_1]
    exact h1.2.1 _ (by omega)
  · simp only [prologue32, prologue32_stage_6, prologue32_stage_5, prologue32_stage_4,
      prologue32_stage_3, prologue32_stage_2, load_matrix_sync, b_frag_idft_N_1, sqrt_N_1]
    exact h1.2.2 _ (by omega)
  · intro k_idx warp_id hk hw
    have ht := tile_lt64 hv.hwarp hw hk
    have hnw : warp_id < P.num_warps := by rw [hv.num_warps_eq32]; exact hw
    simp only [prologue32, prologue32_stage_6, prologue32_stage_5, prologue32_stage_4,
      load_matrix_sync, twiddle_1024_idft_frag, k_idx_offset_outer32, sqrt_N_1]
    rw [if_pos ⟨hk, hnw⟩]
    exact h3.1 _ (by omega)

/-- The fragments of the 32×32 matrices, of the 32×32 twiddle tables and of the forward coarse
twiddle (extent 32 × 32). -/
theorem prologue32_frags_32 (P : Params32) (hv : P.Valid) (T : Tables32 K)
    (s : PrologueState32 K) (i j : ℕ) (hi : i < 32) (hj : j < 32) :
    (prologue32 P T s).a_frag_dft_N_2 i j = a_frag_dft_N_2 T i j ∧
    (prologue32 P T s).b_frag_dft_N_2 i j = b_frag_dft_N_2 T i j ∧
    (prologue32 P T s).b_frag_idft_N_2 i j = b_frag_idft_N_2 T i j ∧
    (prologue32 P T s).twiddle_32_dft_frag i j = twiddle_32_dft_frag T i j ∧
    (prologue32 P T s).twiddle_32_idft_frag i j = twiddle_32_idft_frag T i j ∧
    (∀ k_idx warp_id, k_idx < 16 / P.WARP_TILE_SIZE → warp_id < P.WARP_TILE_SIZE →
      (prologue32 P T s).twiddle_1024_dft_frag k_idx warp_id i j
        = twiddle_1024_dft_frag P T k_idx warp_id i j) := by
  have h1 := prologue32_stage_1_planes P hv T s
  have h3 := prologue32_stage_3_planes P hv T (prologue32_stage_1 P T s)
  have h5 := prologue32_stage_5_planes P hv T
    (prologue32_stage_3 P T (prologue32_stage_2 P T (prologue32_stage_1 P T s)))
  refine ⟨?_, ?_, ?_, ?_, ?_, ?_⟩
  · simp only [prologue32, prologue32_stage_6, load_matrix_sync, a_frag_dft_N_2, sqrt_N_2]
    exact h5.2.1 _ (by omega)
  · simp only [prologue32, prologue32_stage_6, load_matrix_sync, b_frag_dft_N_2, sqrt_N_2]
    exact h5.2.1 _ (by omega)
  · simp only [prologue32, prologue32_stage_6, load_matrix_sync, b_frag_idft_N_2, sqrt_N_2]
    exact h5.2.2 _ (by omega)
  · simp only [prologue32, prologue32_stage_6, prologue32_stage_5, prologue32_stage_4,
      load_matrix_sync, twiddle_32_dft_frag, sqrt_N_2]
    exact h3.2.1 _ (by omega)
  · simp only [prologue32, prologue32_stage_6, prologue32_stage_5, prologue32_stage_4,
      load_matrix_sync, twiddle_32_idft_frag, sqrt_N_2]
    exact h3.2.2 _ (by omega)
  · intro k_idx warp_id hk hw
    have ht := tile_lt hv.hwarp hw hk
    have hnw : warp_id < P.num_warps := by rw [hv.num_warps_eq32]; exact hw
    simp only [prologue32, prologue32_stage_6, prologue32_stage_5, prologue32_stage_4,
      prologue32_stage_3, prologue32_stage_2, load_matrix_sync, twiddle_1024_dft_frag,
      k_idx_offset_inner32, sqrt_N_2]
    rw [if_pos ⟨hk, hnw⟩]
    exact h1.1 _ (by omega)

/-- At entry to the channel loop the planes `a` of the 16_32_32 kernel hold the inverse coarse
twiddle. -/
theorem prologue32_a (P : Params32) (hv : P.Valid) (T : Tables32 K) (s : PrologueState32 K)
    (j : ℕ) (hj : j < 16384) : (prologue32 P T s).a j = T.twiddle_factors_N_ifft j :=
  (prologue32_stage_3_planes P hv T (prologue32_stage_1 P T s)).1 j hj

end prologue32

/-- C20: scratch reuse never clobbers a table before it is captured.  With the staging
prologue executed stage by stage from an arbitrary initial state (16_16_16 kernels: source
lines 85-318 of the forward kernel, the same text in the backward kernel; 16_32_32 kernel:
lines 110-388), at entry to the channel loop every register fragment agrees, on its whole
extent, with the table it is named for: the DFT matrix (`a_frag_dft`, `b_frag_dft`), the
inverse DFT matrix, the forward and inverse coarse twiddle of every `(k_idx, warp_id)`, the
forward and inverse fine twiddle, and in the 16_32_32 kernel both the 16×16 and the 32×32
matrices; the scratch planes `a` hold the inverse coarse twiddle.  On the way the planes `a`
held the forward coarse twiddle, and the planes `b`, `b_2` held the DFT matrices and then
the fine twiddle tables (16_32_32: the 16×16 matrices, the 32×32 twiddle tables, then the
32×32 matrices). -/
theorem C20_prologue_fragments {K : Type} (P : Params) (hv : P.Valid) (T : Tables K)
    (s : PrologueState K) (P2 : Params32) (hv2 : P2.Valid) (T2 : Tables32 K)
    (s2 : PrologueState32 K) :
    (∀ i j, i < 16 → j < 16 →
      (prologue P T s).a_frag_dft i j = a_frag_dft P T i j ∧
      (prologue P T s).b_frag_dft i j = b_frag_dft P T i j ∧
      (prologue P T s).b_frag_idft i j = b_frag_idft P T i j ∧
      (prologue P T s).twiddle_16_dft_frag i j = twiddle_16_dft_frag P T i j ∧
      (prologue P T s).twiddle_16_idft_frag i j = twiddle_16_idft_frag P T i j ∧
      ∀ k_idx warp_id, k_idx < 16 / P.WARP_TILE_SIZE → warp_id < P.WARP_TILE_SIZE →
        (prologue P T s).twiddle_256_dft_frag k_idx warp_id i j
          = twiddle_256_dft_frag P T k_idx warp_id i j ∧
        (prologue P T s).twiddle_256_idft_frag k_idx warp_id i j
          = twiddle_256_idft_frag P T k_idx warp_id i j) ∧
    (∀ j, j < P.N → (prologue P T s).a j = T.twiddle_factors_256_ifft j) ∧
    ((∀ j, j < P.N → (prologue_stage_1 P T s).a j = T.twiddle_factors_256_fft j) ∧
      (∀ j, j < 256 → (prologue_stage_1 P T s).b j = T.b j ∧
        (prologue_stage_1 P T s).b_2 j = T.b_ifft j) ∧
      (∀ j, j < 256 → (prologue P T s).b j = T.twiddle_factors_16_fft j ∧
        (prologue P T s).b_2 j = T.twiddle_factors_16_ifft j)) ∧
    (∀ i j, i < 16 → j < 16 →
      (prologue32 P2 T2 s2).b_frag_dft_N_1 i j = b_frag_dft_N_1 T2 i j ∧
      (prologue32 P2 T2 s2).b_frag_idft_N_1 i j = b_frag_idft_N_1 T2 i j ∧
      ∀ k_idx warp_id, k_idx < 64 / P2.WARP_TILE_SIZE → warp_id < P2.WARP_TILE_SIZE →
        (prologue32 P2 T2 s2).twiddle_1024_idft_frag k_idx warp_id i j
          = twiddle_1024_idft_frag P2 T2 k_idx warp_id i j) ∧
    (∀ i j, i < 32 → j < 32 →
      (prologue32 P2 T2 s2).a_frag_dft_N_2 i j = a_frag_dft_N_2 T2 i j ∧
      (prologue32 P2 T2 s2).b_frag_dft_N_2 i j = b_frag_dft_N_2 T2 i j ∧
      (prologue32 P2 T2 s2).b_frag_idft_N_2 i j = b_frag_idft_N_2 T2 i j ∧
      (prologue32 P2 T2 s2).twiddle_32_dft_frag i j = twiddle_32_dft_frag T2 i j ∧
      (prologue32 P2 T2 s2).twiddle_32_idft_frag i j = twiddle_32_idft_frag T2 i j ∧
      ∀ k_idx warp_id, k_idx < 16 / P2.WARP_TILE_SIZE → warp_id < P2.WARP_TILE_SIZE →
        (prologue32 P2 T2 s2).twiddle_1024_dft_frag k_idx warp_id i j
          = twiddle_1024_dft_frag P2 T2 k_idx warp_id i j) ∧
    (∀ j, j < P2.N → (prologue32 P2 T2 s2).a j = T2.twiddle_factors_N_ifft j) ∧
    ((∀ j, j < P2.N → (prologue32_stage_1 P2 T2 s2).a j = T2.twiddle_factors_N_fft j) ∧
      (∀ j, j < 256 → (prologue32_stage_1 P2 T2 s2).b j = T2.b_16 j ∧
        (prologue32_stage_1 P2 T2 s2).b_2 j = T2.b_16_ifft j) ∧
      (∀ j, j < 1024 →
        (prologue32_stage_3 P2 T2 (prologue32_stage_2 P2 T2
          (prologue32_stage_1 P2 T2 s2))).b j = T2.twiddle_factors_32_fft j ∧
        (prologue32_stage_3 P2 T2 (prologue32_stage_2 P2 T2
          (prologue32_stage_1 P2 T2 s2))).b_2 j = T2.twiddle_factors_32_ifft j) ∧
      (∀ j, j < 1024 → (prologue32 P2 T2 s2).b j = T2.b_32 j ∧
        (prologue32 P2 T2 s2).b_2 j = T2.b_32_ifft j)) := by
  have hN := hv.hN
  have hN2 := hv2.hN
  have p1 := prologue_stage_1_planes P hv T s
  have p3 := prologue_stage_3_planes P hv T (prologue_stage_1 P T s)
  have q1 := prologue32_stage_1_planes P2 hv2 T2 s2
  have q3 := prologue32_stage_3_planes P2 hv2 T2 (prologue32_stage_1 P2 T2 s2)
  have q5 := prologue32_stage_5_planes P2 hv2 T2
    (prologue32_stage_3 P2 T2 (prologue32_stage_2 P2 T2 (prologue32_stage_1 P2 T2 s2)))
  refine ⟨?_, ?_, ⟨?_, ?_, ?_⟩, ?_, ?_, ?_, ⟨?_, ?_, ?_, ?_⟩⟩
  · intro i j hi hj
    have f2 := prologue_frags_2 P hv T s i j hi hj
    have f4 := prologue_frags_4 P hv T s i j hi hj
    exact ⟨f2.1, f2.2.1, f2.2.2.1, f4.1, f4.2.1,
      fun k_idx warp_id hk hw => ⟨f2.2.2.2 k_idx warp_id hk hw, f4.2.2 k_idx warp_id hk hw⟩⟩
  · intro j hj
    exact p3.1 j (by rw [← hN]; exact hj)
  · intro j hj
    exact p1.1 j (by rw [← hN]; exact hj)
  · intro j hj
    exact ⟨p1.2.1 j hj, p1.2.2 j hj⟩
  · intro j hj
    exact ⟨p3.2.1 j hj, p3.2.2 j hj⟩
  · intro i j hi hj
    have f := prologue32_frags_16 P2 hv2 T2 s2 i j hi hj
    exact ⟨f.1, f.2.1, f.2.2⟩
  · intro i j hi hj
    have f := prologue32_frags_32 P2 hv2 T2 s2 i j hi hj
    exact ⟨f.1, f.2.1, f.2.2.1, f.2.2.2.1, f.2.2.2.2.1, f.2.2.2.2.2⟩
  · intro j hj
    exact prologue32_a P2 hv2 T2 s2 j (by rw [← hN2]; exact hj)
  · intro j hj
    exact q1.1 j (by rw [← hN2]; exact hj)
  · intro j hj
    exact ⟨q1.2.1 j hj, q1.2.2 j hj⟩
  · intro j hj
    exact ⟨q3.2.1 j hj, q3.2.2 j hj⟩
  · intro j hj
    exact ⟨q5.2.1 j hj, q5.2.2 j hj⟩

/-- Witness of C20: 32 × 8 threads (the branch of more than 128 threads), tables of ones,
scratch and registers initially zero. -/
theorem C20_prologue_fragments_witness :
    (∀ i j, i < 16 → j < 16 →
      (prologue (config 1 1 1 1) (ones_tables ℤ) (PrologueState.zero ℤ)).a_frag_dft i j = a_frag_dft (config 1 1 1 1) (ones_tables ℤ) i j ∧
      (prologue (config 1 1 1 1) (ones_tables ℤ) (PrologueState.zero ℤ)).b_frag_dft i j = b_frag_dft (config 1 1 1 1) (ones_tables ℤ) i j ∧
      (prologue (config 1 1 1 1) (ones_tables ℤ) (PrologueState.zero ℤ)).b_frag_idft i j = b_frag_idft (config 1 1 1 1) (ones_tables ℤ) i j ∧
      (prologue (config 1 1 1 1) (ones_tables ℤ) (PrologueState.zero ℤ)).twiddle_16_dft_frag i j = twiddle_16_dft_frag (config 1 1 1 1) (ones_tables ℤ) i j ∧
      (prologue (config 1 1 1 1) (ones_tables ℤ) (PrologueState.zero ℤ)).twiddle_16_idft_frag i j = twiddle_16_idft_frag (config 1 1 1 1) (ones_tables ℤ) i j ∧
      ∀ k_idx warp_id, k_idx < 16 / (config 1 1 1 1).WARP_TILE_SIZE → warp_id < (config 1 1 1 1).WARP_TILE_SIZE →
        (prologue (config 1 1 1 1) (ones_tables ℤ) (PrologueState.zero ℤ)).twiddle_256_dft_frag k_idx warp_id i j
          = twiddle_256_dft_frag (config 1 1 1 1) (ones_tables ℤ) k_idx warp_id i j ∧
        (prologue (config 1 1 1 1) (ones_tables ℤ) (PrologueState.zero ℤ)).twiddle_256_idft_frag k_idx warp_id i j
          = twiddle_256_idft_frag (config 1 1 1 1) (ones_tables ℤ) k_idx warp_id i j) ∧
    (∀ j, j < (config 1 1 1 1).N → (prologue (config 1 1 1 1) (ones_tables ℤ) (PrologueState.zero ℤ)).a j = (ones_tables ℤ).twiddle_factors_256_ifft j) ∧
    ((∀ j, j < (config 1 1 1 1).N → (prologue_stage_1 (config 1 1 1 1) (ones_tables ℤ) (PrologueState.zero ℤ)).a j = (ones_tables ℤ).twiddle_factors_256_fft j) ∧
      (∀ j, j < 256 → (prologue_stage_1 (config 1 1 1 1) (ones_tables ℤ) (PrologueState.zero ℤ)).b j = (ones_tables ℤ).b j ∧
        (prologue_stage_1 (config 1 1 1 1) (ones_tables ℤ) (PrologueState.zero ℤ)).b_2 j = (ones_tables ℤ).b_ifft j) ∧
      (∀ j, j < 256 → (prologue (config 1 1 1 1) (ones_tables ℤ) (PrologueState.zero ℤ)).b j = (ones_tables ℤ).twiddle_factors_16_fft j ∧
        (prologue (config 1 1 1 1) (ones_tables ℤ) (PrologueState.zero ℤ)).b_2 j = (ones_tables ℤ).twiddle_factors_16_ifft j)) ∧
    (∀ i j, i < 16 → j < 16 →
      (prologue32 (config32 1 1 1 1) (ones_tables32 ℤ) (PrologueState32.zero ℤ)).b_frag_dft_N_1 i j = b_frag_dft_N_1 (ones_tables32 ℤ) i j ∧
      (prologue32 (config32 1 1 1 1) (ones_tables32 ℤ) (PrologueState32.zero ℤ)).b_frag_idft_N_1 i j = b_frag_idft_N_1 (ones_tables32 ℤ) i j ∧
      ∀ k_idx warp_id, k_idx < 64 / (config32 1 1 1 1).WARP_TILE_SIZE → warp_id < (config32 1 1 1 1).WARP_TILE_SIZE →
        (prologue32 (config32 1 1 1 1) (ones_tables32 ℤ) (PrologueState32.zero ℤ)).twiddle_1024_idft_frag k_idx warp_id i j
          = twiddle_1024_idft_frag (config32 1 1 1 1) (ones_tables32 ℤ) k_idx warp_id i j) ∧
    (∀ i j, i < 32 → j < 32 →
      (prologue32 (config32 1 1 1 1) (ones_tables32 ℤ) (PrologueState32.zero ℤ)).a_frag_dft_N_2 i j = a_frag_dft_N_2 (ones_tables32 ℤ) i j ∧
      (prologue32 (config32 1 1 1 1) (ones_tables32 ℤ) (PrologueState32.zero ℤ)).b_frag_dft_N_2 i j = b_frag_dft_N_2 (ones_tables32 ℤ) i j ∧
      (prologue32 (config32 1 1 1 1) (ones_tables32 ℤ) (PrologueState32.zero ℤ)).b_frag_idft_N_2 i j = b_frag_idft_N_2 (ones_tables32 ℤ) i j ∧
      (prologue32 (config32 1 1 1 1) (ones_tables32 ℤ) (PrologueState32.zero ℤ)).twiddle_32_dft_frag i j = twiddle_32_dft_frag (ones_tables32 ℤ) i j ∧
      (prologue32 (config32 1 1 1 1) (ones_tables32 ℤ) (PrologueState32.zero ℤ)).twiddle_32_idft_frag i j = twiddle_32_idft_frag (ones_tables32 ℤ) i j ∧
      ∀ k_idx warp_id, k_idx < 16 / (config32 1 1 1 1).WARP_TILE_SIZE → warp_id < (config32 1 1 1 1).WARP_TILE_SIZE →
        (prologue32 (config32 1 1 1 1) (ones_tables32 ℤ) (PrologueState32.zero ℤ)).twiddle_1024_dft_frag k_idx warp_id i j
          = twiddle_1024_dft_frag (config32 1 1 1 1) (ones_tables32 ℤ) k_idx warp_id i j) ∧
    (∀ j, j < (config32 1 1 1 1).N → (prologue32 (config32 1 1 1 1) (ones_tables32 ℤ) (PrologueState32.zero ℤ)).a j = (ones_tables32 ℤ).twiddle_factors_N_ifft j) ∧
    ((∀ j, j < (config32 1 1 1 1).N → (prologue32_stage_1 (config32 1 1 1 1) (ones_tables32 ℤ) (PrologueState32.zero ℤ)).a j = (ones_tables32 ℤ).twiddle_factors_N_fft j) ∧
      (∀ j, j < 256 → (prologue32_stage_1 (config32 1 1 1 1) (ones_tables32 ℤ) (PrologueState32.zero ℤ)).b j = (ones_tables32 ℤ).b_16 j ∧
        (prologue32_stage_1 (config32 1 1 1 1) (ones_tables32 ℤ) (PrologueState32.zero ℤ)).b_2 j = (ones_tables32 ℤ).b_16_ifft j) ∧
      (∀ j, j < 1024 →
        (prologue32_stage_3 (config32 1 1 1 1) (ones_tables32 ℤ) (prologue32_stage_2 (config32 1 1 1 1) (ones_tables32 ℤ)
          (prologue32_stage_1 (config32 1 1 1 1) (ones_tables32 ℤ) (PrologueState32.zero ℤ)))).b j = (ones_tables32 ℤ).twiddle_factors_32_fft j ∧
        (prologue32_stage_3 (config32 1 1 1 1) (ones_tables32 ℤ) (prologue32_stage_2 (config32 1 1 1 1) (ones_tables32 ℤ)
          (prologue32_stage_1 (config32 1 1 1 1) (ones_tables32 ℤ) (PrologueState32.zero ℤ)))).b_2 j = (ones_tables32 ℤ).twiddle_factors_32_ifft j) ∧
      (∀ j, j < 1024 → (prologue32 (config32 1 1 1 1) (ones_tables32 ℤ) (PrologueState32.zero ℤ)).b j = (ones_tables32 ℤ).b_32 j ∧
        (prologue32 (config32 1 1 1 1) (ones_tables32 ℤ) (PrologueState32.zero ℤ)).b_2 j = (ones_tables32 ℤ).b_32_ifft j)) :=
  C20_prologue_fragments (config 1 1 1 1) (config_valid 1 1 1 1) (ones_tables ℤ)
    (PrologueState.zero ℤ) (config32 1 1 1 1) (config32_valid 1 1 1 1) (ones_tables32 ℤ)
    (PrologueState32.zero ℤ)

/-! ## Linearity of the stage sequences and of the forward kernel -/

section bilinear
variable {K : Type} [CommRing K]

/-- Three runs of a loop, iteration by iteration: a relation between the three states that
every iteration keeps is kept by the loops. -/
theorem forRange_rel3 {σ : Type} (R : σ → σ → σ → Prop) (n : ℕ) (f g h : ℕ → σ → σ)
    (hstep : ∀ t, t < n → ∀ s s1 s2, R s s1 s2 → R (f t s) (g t s1) (h t s2))
    (s s1 s2 : σ) (hs : R s s1 s2) :
    R (forRange n f s) (forRange n g s1) (forRange n h s2) := by
  induction n with
  | zero => exact hs
  | succ n ih =>
    rw [forRange_succ, forRange_succ, forRange_succ]
    exact hstep n (Nat.lt_succ_self n) _ _ _
      (ih (fun t ht => hstep t (Nat.lt_succ_of_lt ht)))

theorem mfwd1_linear (p : ℕ) (b_p : ℕ → K) (c : K) (v v1 : ℕ → ℕ → ℕ → K) :
    mfwd1 p b_p (fun d1 d2 d3 => v d1 d2 d3 + c * v1 d1 d2 d3)
      = fun f1 n2 n3 => mfwd1 p b_p v f1 n2 n3 + c * mfwd1 p b_p v1 f1 n2 n3 := by
  funext f1 n2 n3
  simp only [mfwd1]
  rw [Finset.mul_sum, ← Finset.sum_add_distrib]
  exact Finset.sum_congr rfl (fun n1 _ => by ring)

theorem mfwd2_linear (q : ℕ) (b_q tw_N : ℕ → K) (c : K) (v v1 : ℕ → ℕ → ℕ → K) :
    mfwd2 q b_q tw_N (fun d1 d2 d3 => v d1 d2 d3 + c * v1 d1 d2 d3)
      = fun f1 f2 n3 => mfwd2 q b_q tw_N v f1 f2 n3 + c * mfwd2 q b_q tw_N v1 f1 f2 n3 := by
  funext f1 f2 n3
  simp only [mfwd2]
  rw [Finset.mul_sum, ← Finset.sum_add_distrib]
  exact Finset.sum_congr rfl (fun n2 _ => by ring)

theorem mfwd3_linear (q : ℕ) (b_q tw_q : ℕ → K) (c : K) (v v1 : ℕ → ℕ → ℕ → K) :
    mfwd3 q b_q tw_q (fun d1 d2 d3 => v d1 d2 d3 + c * v1 d1 d2 d3)
      = fun f1 f2 f3 => mfwd3 q b_q tw_q v f1 f2 f3 + c * mfwd3 q b_q tw_q v1 f1 f2 f3 := by
  funext f1 f2 f3
  simp only [mfwd3]
  rw [Finset.mul_sum, ← Finset.sum_add_distrib]
  exact Finset.sum_congr rfl (fun n3 _ => by ring)

theorem minv1_linear (q : ℕ) (b_q_ifft : ℕ → K) (c : K) (v v1 : ℕ → ℕ → ℕ → K) :
    minv1 q b_q_ifft (fun d1 d2 d3 => v d1 d2 d3 + c * v1 d1 d2 d3)
      = fun f1 f2 n3 => minv1 q b_q_ifft v f1 f2 n3 + c * minv1 q b_q_ifft v1 f1 f2 n3 := by
  funext f1 f2 n3
  simp only [minv1]
  rw [Finset.mul_sum, ← Finset.sum_add_distrib]
  exact Finset.sum_congr rfl (fun f3 _ => by ring)

theorem minv2_linear (q : ℕ) (b_q_ifft tw_q_ifft : ℕ → K) (c : K) (v v1 : ℕ → ℕ → ℕ → K) :
    minv2 q b_q_ifft tw_q_ifft (fun d1 d2 d3 => v d1 d2 d3 + c * v1 d1 d2 d3)
      = fun f1 n2 n3 => minv2 q b_q_ifft tw_q_ifft v f1 n2 n3
          + c * minv2 q b_q_ifft tw_q_ifft v1 f1 n2 n3 := by
  funext f1 n2 n3
  simp only [minv2]
  rw [Finset.mul_sum, ← Finset.sum_add_distrib]
  exact Finset.sum_congr rfl (fun f2 _ => by ring)

theorem minv3_linear (p q : ℕ) (b_p_ifft tw_N_ifft : ℕ → K) (c : K) (v v1 : ℕ → ℕ → ℕ → K) :
    minv3 p q b_p_ifft tw_N_ifft (fun d1 d2 d3 => v d1 d2 d3 + c * v1 d1 d2 d3)
      = fun n1 n2 n3 => minv3 p q b_p_ifft tw_N_ifft v n1 n2 n3
          + c * minv3 p q b_p_ifft tw_N_ifft v1 n1 n2 n3 := by
  funext n1 n2 n3
  simp only [minv3]
  rw [Finset.mul_sum, ← Finset.sum_add_distrib]
  exact Finset.sum_congr rfl (fun f1 _ => by ring)

/-- The forward stage sequence is linear in the sequence, whatever the tables. -/
theorem MTables.fwd_linear (M : MTables K) (c : K) (x x1 : ℕ → K) :
    M.fwd (fun i => x i + c * x1 i)
      = fun f1 f2 f3 => M.fwd x f1 f2 f3 + c * M.fwd x1 f1 f2 f3 := by
  unfold MTables.fwd
  have h0 : digits M.q (fun i => x i + c * x1 i)
      = fun d1 d2 d3 => digits M.q x d1 d2 d3 + c * digits M.q x1 d1 d2 d3 := rfl
  rw [h0, mfwd1_linear, mfwd2_linear, mfwd3_linear]

/-- The inverse stage sequence is linear in the spectrum, whatever the tables. -/
theorem MTables.inv_linear (M : MTables K) (c : K) (v v1 : ℕ → ℕ → ℕ → K) :
    M.inv (fun d1 d2 d3 => v d1 d2 d3 + c * v1 d1 d2 d3)
      = fun n1 n2 n3 => M.inv v n1 n2 n3 + c * M.inv v1 n1 n2 n3 := by
  unfold MTables.inv
  rw [minv1_linear, minv2_linear, minv3_linear]

/-- What one batch element of the forward kernel stores: linear in the signal. -/
theorem fwd_row_linear_x (M : MTables K) (c : K) (x x1 k : ℕ → K) (off koff r : ℕ) (j : ℕ) :
    flat M.q (M.inv (fun f1 f2 f3 =>
        M.fwd (fun i => (fun i => x i + c * x1 i) (off + i)) f1 f2 f3
          * k (koff + (r * f1 + M.q * f2 + f3)))) j
      = flat M.q (M.inv (fun f1 f2 f3 =>
          M.fwd (fun i => x (off + i)) f1 f2 f3 * k (koff + (r * f1 + M.q * f2 + f3)))) j
        + c * flat M.q (M.inv (fun f1 f2 f3 =>
          M.fwd (fun i => x1 (off + i)) f1 f2 f3 * k (koff + (r * f1 + M.q * f2 + f3)))) j := by
  have h0 : (fun i => (fun i => x i + c * x1 i) (off + i))
      = fun i => (fun i => x (off + i)) i + c * (fun i => x1 (off + i)) i := rfl
  have h1 : (fun f1 f2 f3 =>
        M.fwd (fun i => (fun i => x i + c * x1 i) (off + i)) f1 f2 f3
          * k (koff + (r * f1 + M.q * f2 + f3)))
      = fun f1 f2 f3 =>
        (fun f1 f2 f3 => M.fwd (fun i => x (off + i)) f1 f2 f3
          * k (koff + (r * f1 + M.q * f2 + f3))) f1 f2 f3
        + c * (fun f1 f2 f3 => M.fwd (fun i => x1 (off + i)) f1 f2 f3
          * k (koff + (r * f1 + M.q * f2 + f3))) f1 f2 f3 := by
    funext f1 f2 f3
    rw [h0, MTables.fwd_linear]
    ring
  rw [h1, MTables.inv_linear]
  rfl

/-- What one batch element of the forward kernel stores: linear in the filter spectrum. -/
theorem fwd_row_linear_k (M : MTables K) (c : K) (x k k1 : ℕ → K) (off koff r : ℕ) (j : ℕ) :
    flat M.q (M.inv (fun f1 f2 f3 =>
        M.fwd (fun i => x (off + i)) f1 f2 f3
          * (fun i => k i + c * k1 i) (koff + (r * f1 + M.q * f2 + f3)))) j
      = flat M.q (M.inv (fun f1 f2 f3 =>
          M.fwd (fun i => x (off + i)) f1 f2 f3 * k (koff + (r * f1 + M.q * f2 + f3)))) j
        + c * flat M.q (M.inv (fun f1 f2 f3 =>
          M.fwd (fun i => x (off + i)) f1 f2 f3 * k1 (koff + (r * f1 + M.q * f2 + f3)))) j := by
  have h1 : (fun f1 f2 f3 =>
        M.fwd (fun i => x (off + i)) f1 f2 f3
          * (fun i => k i + c * k1 i) (koff + (r * f1 + M.q * f2 + f3)))
      = fun f1 f2 f3 =>
        (fun f1 f2 f3 => M.fwd (fun i => x (off + i)) f1 f2 f3
          * k (koff + (r * f1 + M.q * f2 + f3))) f1 f2 f3
        + c * (fun f1 f2 f3 => M.fwd (fun i => x (off + i)) f1 f2 f3
          * k1 (koff + (r * f1 + M.q * f2 + f3))) f1 f2 f3 := by
    funext f1 f2 f3
    ring
  rw [h1, MTables.inv_linear]
  rfl

end bilinear

section bilinear_kernel
variable {K : Type} [CommRing K]

/-- The body of the batch loop of the forward kernel on three inputs whose stored rows are
related by `row(xa, ka) = row(xb, kb) + c * row(xc, kc)`: the same relation between the three
output planes is kept. -/
theorem fwd_batch_body_rel3 (P : Params) (hv : P.Valid) (T : Tables K)
    (xa ka xb kb xc kc : ℕ → K) (c : K)
    (hF : ∀ off koff j, flat 16 (T.toM.inv (fun f1 f2 f3 =>
        T.toM.fwd (fun i => xa (off + i)) f1 f2 f3 * ka (koff + (256 * f1 + 16 * f2 + f3)))) j
      = flat 16 (T.toM.inv (fun f1 f2 f3 =>
          T.toM.fwd (fun i => xb (off + i)) f1 f2 f3 * kb (koff + (256 * f1 + 16 * f2 + f3)))) j
        + c * flat 16 (T.toM.inv (fun f1 f2 f3 =>
          T.toM.fwd (fun i => xc (off + i)) f1 f2 f3
            * kc (koff + (256 * f1 + 16 * f2 + f3)))) j)
    (regs : ℕ → ℕ → K) (bY ht : ℕ) (a_0 a_1 a_2 : ℕ → K) (off : ℕ) (s s1 s2 : FwdState K)
    (h : ∀ idx, s.out idx = s1.out idx + c * s2.out idx) (idx : ℕ) :
    (fwd_batch_body P T xa (k_frag P (fwd_stage_k_f P ka regs bY ht a_0)) off s).out idx
      = (fwd_batch_body P T xb (k_frag P (fwd_stage_k_f P kb regs bY ht a_1)) off s1).out idx
        + c * (fwd_batch_body P T xc (k_frag P (fwd_stage_k_f P kc regs bY ht a_2)) off
            s2).out idx := by
  by_cases hw : off ≤ idx ∧ idx < off + 4096
  · obtain ⟨j, rfl⟩ : ∃ j, idx = off + j := ⟨idx - off, by omega⟩
    have hj : j < 4096 := by omega
    rw [fwd_unit_flat P hv T xa ka regs bY ht a_0 off s j hj,
      fwd_unit_flat P hv T xb kb regs bY ht a_1 off s1 j hj,
      fwd_unit_flat P hv T xc kc regs bY ht a_2 off s2 j hj]
    exact hF off _ j
  · rw [fwd_batch_body_frame P hv T xa _ off s idx hw,
      fwd_batch_body_frame P hv T xb _ off s1 idx hw,
      fwd_batch_body_frame P hv T xc _ off s2 idx hw]
    exact h idx

/-- The forward launch on three inputs whose stored rows are related by
`row(xa, ka) = row(xb, kb) + c * row(xc, kc)`, started on output planes related in the same
way: the three results are related in the same way, at every index. -/
theorem launch_fwd_rel3 (P : Params) (hv : P.Valid) (T : Tables K)
    (xa ka xb kb xc kc : ℕ → K) (c : K)
    (hF : ∀ off koff j, flat 16 (T.toM.inv (fun f1 f2 f3 =>
        T.toM.fwd (fun i => xa (off + i)) f1 f2 f3 * ka (koff + (256 * f1 + 16 * f2 + f3)))) j
      = flat 16 (T.toM.inv (fun f1 f2 f3 =>
          T.toM.fwd (fun i => xb (off + i)) f1 f2 f3 * kb (koff + (256 * f1 + 16 * f2 + f3)))) j
        + c * flat 16 (T.toM.inv (fun f1 f2 f3 =>
          T.toM.fwd (fun i => xc (off + i)) f1 f2 f3
            * kc (koff + (256 * f1 + 16 * f2 + f3)))) j)
    (regs : ℕ → ℕ → K) (gx gy : ℕ) (o o1 o2 : ℕ → K)
    (h : ∀ idx, o idx = o1 idx + c * o2 idx) (idx : ℕ) :
    launch_fwd P T xa ka regs gx gy o idx
      = launch_fwd P T xb kb regs gx gy o1 idx + c * launch_fwd P T xc kc regs gx gy o2 idx := by
  have hchan : ∀ bx bY ht (s s1 s2 : FwdState K),
      (∀ idx, s.out idx = s1.out idx + c * s2.out idx) →
      ∀ idx, (fwd_channel_body P T xa ka regs bx bY ht s).out idx
        = (fwd_channel_body P T xb kb regs bx bY ht s1).out idx
          + c * (fwd_channel_body P T xc kc regs bx bY ht s2).out idx := by
    intro bx bY ht s s1 s2 hs
    unfold fwd_channel_body
    exact forRange_rel3
      (fun s s1 s2 : FwdState K => ∀ idx, s.out idx = s1.out idx + c * s2.out idx) _ _ _ _
      (fun bt _ t t1 t2 ht12 i =>
        fwd_batch_body_rel3 P hv T xa ka xb kb xc kc c hF regs bY ht s.a s1.a s2.a
          (fwd_input_offset P bx bY ht bt) t t1 t2 ht12 i)
      _ _ _ hs
  have hker : ∀ bx bY (o o1 o2 : ℕ → K), (∀ idx, o idx = o1 idx + c * o2 idx) →
      ∀ idx, monarch_conv_cuda_complex_kernel P T xa ka regs bx bY o idx
        = monarch_conv_cuda_complex_kernel P T xb kb regs bx bY o1 idx
          + c * monarch_conv_cuda_complex_kernel P T xc kc regs bx bY o2 idx := by
    intro bx bY o o1 o2 ho
    unfold monarch_conv_cuda_complex_kernel
    exact forRange_rel3
      (fun s s1 s2 : FwdState K => ∀ idx, s.out idx = s1.out idx + c * s2.out idx) _ _ _ _
      (fun ht _ t t1 t2 ht12 => hchan bx bY ht t t1 t2 ht12) _ _ _ ho
  unfold launch_fwd
  exact forRange_rel3 (fun o o1 o2 : ℕ → K => ∀ idx, o idx = o1 idx + c * o2 idx) _ _ _ _
    (fun bx _ t t1 t2 ht12 =>
      forRange_rel3 (fun o o1 o2 : ℕ → K => ∀ idx, o idx = o1 idx + c * o2 idx) _ _ _ _
        (fun bY _ u u1 u2 hu => hker bx bY u u1 u2 hu) _ _ _ ht12) _ _ _ h idx

end bilinear_kernel

/-- C25: bilinearity of the forward kernel in exact arithmetic, for arbitrary tables (no
assumption that they are DFT tables), on complex planes.  The launch of the forward kernel is
linear in the signal and linear in the filter spectrum: started on output planes
`out + c * out1`, the launch on `x + c * x1` (resp. on `k + c * k1`) produces, at every index,
the result on `x` (resp. `k`) started on `out` plus `c` times the result on `x1` (resp. `k1`)
started on `out1` - with no assumption on the grid or on 32-bit overflow.  On a grid that
covers the `[B, H, N]` workload without 32-bit overflow every element of the output is
written, and there `forward(x + c * x1; k) = forward(x; k) + c * forward(x1; k)` and
`forward(x; k + c * k1) = forward(x; k) + c * forward(x; k1)` whatever the output planes
held before. -/
theorem C25_forward_bilinear (P : Params) (hv : P.Valid) (T : Tables ℂ)
    (x x1 k k1 : ℕ → ℂ) (c : ℂ) (regs : ℕ → ℕ → ℂ) (gx gy : ℕ) (out out1 : ℕ → ℂ)
    (hnov : P.B * P.H * P.N ≤ 2147483648)
    (hB : P.B = gx * P.B_TILE_SIZE) (hH : P.H = gy * P.H_TILE_SIZE) :
    (∀ idx, launch_fwd P T (fun i => x i + c * x1 i) k regs gx gy
          (fun i => out i + c * out1 i) idx
        = launch_fwd P T x k regs gx gy out idx + c * launch_fwd P T x1 k regs gx gy out1 idx) ∧
    (∀ idx, launch_fwd P T x (fun i => k i + c * k1 i) regs gx gy
          (fun i => out i + c * out1 i) idx
        = launch_fwd P T x k regs gx gy out idx + c * launch_fwd P T x k1 regs gx gy out1 idx) ∧
    (∀ idx, idx < P.B * P.H * P.N →
      launch_fwd P T (fun i => x i + c * x1 i) k regs gx gy out idx
        = launch_fwd P T x k regs gx gy out idx + c * launch_fwd P T x1 k regs gx gy out idx) ∧
    (∀ idx, idx < P.B * P.H * P.N →
      launch_fwd P T x (fun i => k i + c * k1 i) regs gx gy out idx
        = launch_fwd P T x k regs gx gy out idx + c * launch_fwd P T x k1 regs gx gy out idx) := by
  have hx := fun off koff j => fwd_row_linear_x T.toM c x x1 k off koff 256 j
  have hk := fun off koff j => fwd_row_linear_k T.toM c x k k1 off koff 256 j
  refine ⟨fun idx => launch_fwd_rel3 P hv T (fun i => x i + c * x1 i) k x k x1 k c hx regs
      gx gy (fun i => out i + c * out1 i) out out1 (fun _ => rfl) idx,
    fun idx => launch_fwd_rel3 P hv T x (fun i => k i + c * k1 i) x k x k1 c hk regs
      gx gy (fun i => out i + c * out1 i) out out1 (fun _ => rfl) idx, ?_, ?_⟩
  · intro idx hidx
    rw [fwd_launch_spec P hv T _ k regs hnov gx gy hB hH out idx,
      fwd_launch_spec P hv T x k regs hnov gx gy hB hH out idx,
      fwd_launch_spec P hv T x1 k regs hnov gx gy hB hH out idx, if_pos hidx, if_pos hidx,
      if_pos hidx]
    exact hx _ _ _
  · intro idx hidx
    rw [fwd_launch_spec P hv T x _ regs hnov gx gy hB hH out idx,
      fwd_launch_spec P hv T x k regs hnov gx gy hB hH out idx,
      fwd_launch_spec P hv T x k1 regs hnov gx gy hB hH out idx, if_pos hidx, if_pos hidx,
      if_pos hidx]
    exact hk _ _ _

/-- Witness of C25: one tile of one batch element and one channel, tables of ones, the unit
impulse and the array of ones as signals and filters, scalar `i`. -/
theorem C25_forward_bilinear_witness :
    (config 1 1 1 1).Valid ∧
    (config 1 1 1 1).B * (config 1 1 1 1).H * (config 1 1 1 1).N ≤ 2147483648 ∧
    (config 1 1 1 1).B = 1 * (config 1 1 1 1).B_TILE_SIZE ∧
    (config 1 1 1 1).H = 1 * (config 1 1 1 1).H_TILE_SIZE ∧
    (∀ idx, launch_fwd (config 1 1 1 1) (ones_tables ℂ) (fun i => (unit_impulse ℂ) i + Complex.I * (all_ones ℂ) i) (all_ones ℂ) (fun _ _ => (0 : ℂ)) 1 1
          (fun i => (fun _ => (0 : ℂ)) i + Complex.I * (all_ones ℂ) i) idx
        = launch_fwd (config 1 1 1 1) (ones_tables ℂ) (unit_impulse ℂ) (all_ones ℂ) (fun _ _ => (0 : ℂ)) 1 1 (fun _ => (0 : ℂ)) idx + Complex.I * launch_fwd (config 1 1 1 1) (ones_tables ℂ) (all_ones ℂ) (all_ones ℂ) (fun _ _ => (0 : ℂ)) 1 1 (all_ones ℂ) idx) ∧
    (∀ idx, launch_fwd (config 1 1 1 1) (ones_tables ℂ) (unit_impulse ℂ) (fun i => (all_ones ℂ) i + Complex.I * (unit_impulse ℂ) i) (fun _ _ => (0 : ℂ)) 1 1
          (fun i => (fun _ => (0 : ℂ)) i + Complex.I * (all_ones ℂ) i) idx
        = launch_fwd (config 1 1 1 1) (ones_tables ℂ) (unit_impulse ℂ) (all_ones ℂ) (fun _ _ => (0 : ℂ)) 1 1 (fun _ => (0 : ℂ)) idx + Complex.I * launch_fwd (config 1 1 1 1) (ones_tables ℂ) (unit_impulse ℂ) (unit_impulse ℂ) (fun _ _ => (0 : ℂ)) 1 1 (all_ones ℂ) idx) ∧
    (∀ idx, idx < (config 1 1 1 1).B * (config 1 1 1 1).H * (config 1 1 1 1).N →
      launch_fwd (config 1 1 1 1) (ones_tables ℂ) (fun i => (unit_impulse ℂ) i + Complex.I * (all_ones ℂ) i) (all_ones ℂ) (fun _ _ => (0 : ℂ)) 1 1 (fun _ => (0 : ℂ)) idx
        = launch_fwd (config 1 1 1 1) (ones_tables ℂ) (unit_impulse ℂ) (all_ones ℂ) (fun _ _ => (0 : ℂ)) 1 1 (fun _ => (0 : ℂ)) idx + Complex.I * launch_fwd (config 1 1 1 1) (ones_tables ℂ) (all_ones ℂ) (all_ones ℂ) (fun _ _ => (0 : ℂ)) 1 1 (fun _ => (0 : ℂ)) idx) ∧
    (∀ idx, idx < (config 1 1 1 1).B * (config 1 1 1 1).H * (config 1 1 1 1).N →
      launch_fwd (config 1 1 1 1) (ones_tables ℂ) (unit_impulse ℂ) (fun i => (all_ones ℂ) i + Complex.I * (unit_impulse ℂ) i) (fun _ _ => (0 : ℂ)) 1 1 (fun _ => (0 : ℂ)) idx
        = launch_fwd (config 1 1 1 1) (ones_tables ℂ) (unit_impulse ℂ) (all_ones ℂ) (fun _ _ => (0 : ℂ)) 1 1 (fun _ => (0 : ℂ)) idx + Complex.I * launch_fwd (config 1 1 1 1) (ones_tables ℂ) (unit_impulse ℂ) (unit_impulse ℂ) (fun _ _ => (0 : ℂ)) 1 1 (fun _ => (0 : ℂ)) idx) :=
  ⟨config_valid 1 1 1 1, by norm_num [config], rfl, rfl,
    C25_forward_bilinear (config 1 1 1 1) (config_valid 1 1 1 1) (ones_tables ℂ)
      (unit_impulse ℂ) (all_ones ℂ) (all_ones ℂ) (unit_impulse ℂ) Complex.I
      (fun _ _ => (0 : ℂ)) 1 1 (fun _ => (0 : ℂ)) (all_ones ℂ) (by norm_num [config]) rfl rfl⟩

/-! ## 32-bit offsets without wraparound -/

section offsets32

theorem as_int_of_lt {x : ℕ} (h : x < 2147483648) : as_int x = (x : ℤ) := by
  unfold as_int
  rw [Nat.mod_eq_of_lt (by omega), if_pos h]

/-- A product of a row number below `rows` with the row length stays below `2 ^ 31` when the
whole array does. -/
theorem row_offset_lt {r rows N : ℕ} (hr : r < rows) (hnov : rows * N ≤ 2147483648) :
    r * N < 2147483648 := by
  rcases Nat.eq_zero_or_pos N with h0 | h0
  · rw [h0]
    norm_num
  · have h1 : r * N + N ≤ rows * N := by
      calc r * N + N = (r + 1) * N := by ring
        _ ≤ rows * N := Nat.mul_le_mul_right N hr
    omega

end offsets32

/-- C24: 32-bit offset arithmetic.  `b_offset`, `h_offset` and `input_offset` are values
modulo `2 ^ 32` read as `int`.  For every (batch, channel) inside the workload
(`blockIdx.x * B_TILE_SIZE + b_tile_id < B`, `blockIdx.y * H_TILE_SIZE + h_tile_id < H`), if
`B * H * N <= 2 ^ 31` then `b_offset`, `h_offset` and `input_offset`, read as `int`, equal the
exact integers, `input_offset = (batch * H + channel) * N`, in the forward kernel and (with
`signal_size = N`) in both backward kernels; and there is a 16_32_32 workload with
`N = 16384`, `B * H = 2 ^ 19` (so `B * H * N > 2 ^ 32`) and a (batch, channel) inside it whose
computed offset differs from the exact one. -/
theorem C24_offset_arithmetic (P : Params) (P2 : Params32) (bx bY ht bt bx2 bY2 ht2 bt2 : ℕ)
    (h1 : bx * P.B_TILE_SIZE + bt < P.B)
    (h2 : bY * P.H_TILE_SIZE + ht < P.H)
    (h3 : P.B * P.H * P.N ≤ 2147483648)
    (h4 : P.signal_size = P.N)
    (h5 : bx2 * P2.B_TILE_SIZE + bt2 < P2.B)
    (h6 : bY2 * P2.H_TILE_SIZE + ht2 < P2.H)
    (h7 : P2.B * P2.H * P2.N ≤ 2147483648)
    (h8 : P2.signal_size = P2.N) :
    fwd_input_offset P bx bY ht bt
      = u32 (fwd_h_offset P bY + fwd_b_offset P bx + ht * P.N + u32 (bt * P.H * P.N)) ∧
    as_int (fwd_b_offset P bx) = ((bx * P.H * P.N * P.B_TILE_SIZE : ℕ) : ℤ) ∧
    as_int (fwd_h_offset P bY) = ((bY * P.N * P.H_TILE_SIZE : ℕ) : ℤ) ∧
    as_int (fwd_input_offset P bx bY ht bt)
      = ((((bx * P.B_TILE_SIZE + bt) * P.H + (bY * P.H_TILE_SIZE + ht)) * P.N : ℕ) : ℤ) ∧
    as_int (bwd_input_offset P.H P.signal_size P.B_TILE_SIZE P.H_TILE_SIZE bx bY ht bt)
      = ((((bx * P.B_TILE_SIZE + bt) * P.H + (bY * P.H_TILE_SIZE + ht)) * P.N : ℕ) : ℤ) ∧
    as_int (bwd_input_offset P2.H P2.signal_size P2.B_TILE_SIZE P2.H_TILE_SIZE bx2 bY2 ht2 bt2)
      = ((((bx2 * P2.B_TILE_SIZE + bt2) * P2.H + (bY2 * P2.H_TILE_SIZE + ht2)) * P2.N : ℕ) : ℤ) ∧
    (∃ (Q : Params32) (cx cy ct cb : ℕ), Q.N = 16384 ∧ Q.signal_size = Q.N ∧
      Q.B * Q.H = 524288 ∧ 4294967296 < Q.B * Q.H * Q.N ∧
      cx * Q.B_TILE_SIZE + cb < Q.B ∧ cy * Q.H_TILE_SIZE + ct < Q.H ∧
      as_int (bwd_input_offset Q.H Q.signal_size Q.B_TILE_SIZE Q.H_TILE_SIZE cx cy ct cb)
        ≠ ((((cx * Q.B_TILE_SIZE + cb) * Q.H + (cy * Q.H_TILE_SIZE + ct)) * Q.N : ℕ) : ℤ)) := by
  have hB : 0 < P.B := by omega
  have hH : 0 < P.H := by omega
  have hoff := fwd_input_offset_eq P h1 h2 h3
  have hrow := row_offset_lt (tile_id_lt h1 h2) h3
  have hnov2 : P2.B * P2.H * P2.signal_size ≤ 2147483648 := by rw [h8]; exact h7
  have hoff2 := bwd_input_offset_eq h5 h6 hnov2
  rw [h8] at hoff2
  have hrow2 := row_offset_lt (tile_id_lt h5 h6) h7
  have hb1 : bx * P.H * P.N * P.B_TILE_SIZE < 2147483648 := by
    have e : bx * P.H * P.N * P.B_TILE_SIZE = (bx * P.B_TILE_SIZE * P.H) * P.N := by ring
    have hlt : bx * P.B_TILE_SIZE * P.H < P.B * P.H := by
      have := tile_id_lt (show bx * P.B_TILE_SIZE < P.B by omega) hH
      omega
    rw [e]
    exact row_offset_lt hlt h3
  have hh1 : bY * P.N * P.H_TILE_SIZE < 2147483648 := by
    have e : bY * P.N * P.H_TILE_SIZE = (0 * P.H + bY * P.H_TILE_SIZE) * P.N := by ring
    rw [e]
    exact row_offset_lt (tile_id_lt hB (show bY * P.H_TILE_SIZE < P.H by omega)) h3
  refine ⟨rfl, ?_, ?_, ?_, ?_, ?_, ?_⟩
  · unfold fwd_b_offset u32
    rw [Nat.mod_eq_of_lt (by omega)]
    exact as_int_of_lt hb1
  · unfold fwd_h_offset u32
    rw [Nat.mod_eq_of_lt (by omega)]
    exact as_int_of_lt hh1
  · rw [hoff]
    exact as_int_of_lt hrow
  · rw [h4]
    have : bwd_input_offset P.H P.N P.B_TILE_SIZE P.H_TILE_SIZE bx bY ht bt
        = fwd_input_offset P bx bY ht bt := rfl
    rw [this, hoff]
    exact as_int_of_lt hrow
  · rw [h8, hoff2]
    exact as_int_of_lt hrow2
  · refine ⟨config32 1 524288 1 1, 0, 262144, 0, 0, rfl, rfl, rfl, ?_, ?_, ?_, ?_⟩
    · norm_num [config32]
    · norm_num [config32]
    · norm_num [config32]
    · norm_num [config32, bwd_input_offset, u32, as_int]

/-- Witness of C24: the tile coordinates `(1, 1, 1, 1)` of a workload of 4 batch elements and
4 channels in tiles of 2 by 2. -/
theorem C24_offset_arithmetic_witness :
    1 * (config 4 4 2 2).B_TILE_SIZE + 1 < (config 4 4 2 2).B ∧
    1 * (config 4 4 2 2).H_TILE_SIZE + 1 < (config 4 4 2 2).H ∧
    (config 4 4 2 2).B * (config 4 4 2 2).H * (config 4 4 2 2).N ≤ 2147483648 ∧
    (config 4 4 2 2).signal_size = (config 4 4 2 2).N ∧
    1 * (config32 4 4 2 2).B_TILE_SIZE + 1 < (config32 4 4 2 2).B ∧
    1 * (config32 4 4 2 2).H_TILE_SIZE + 1 < (config32 4 4 2 2).H ∧
    (config32 4 4 2 2).B * (config32 4 4 2 2).H * (config32 4 4 2 2).N ≤ 2147483648 ∧
    (config32 4 4 2 2).signal_size = (config32 4 4 2 2).N ∧
    fwd_input_offset (config 4 4 2 2) 1 1 1 1
      = u32 (fwd_h_offset (config 4 4 2 2) 1 + fwd_b_offset (config 4 4 2 2) 1 + 1 * (config 4 4 2 2).N + u32 (1 * (config 4 4 2 2).H * (config 4 4 2 2).N)) ∧
    as_int (fwd_b_offset (config 4 4 2 2) 1) = ((1 * (config 4 4 2 2).H * (config 4 4 2 2).N * (config 4 4 2 2).B_TILE_SIZE : ℕ) : ℤ) ∧
    as_int (fwd_h_offset (config 4 4 2 2) 1) = ((1 * (config 4 4 2 2).N * (config 4 4 2 2).H_TILE_SIZE : ℕ) : ℤ) ∧
    as_int (fwd_input_offset (config 4 4 2 2) 1 1 1 1)
      = ((((1 * (config 4 4 2 2).B_TILE_SIZE + 1) * (config 4 4 2 2).H + (1 * (config 4 4 2 2).H_TILE_SIZE + 1)) * (config 4 4 2 2).N : ℕ) : ℤ) ∧
    as_int (bwd_input_offset (config 4 4 2 2).H (config 4 4 2 2).signal_size (config 4 4 2 2).B_TILE_SIZE (config 4 4 2 2).H_TILE_SIZE 1 1 1 1)
      = ((((1 * (config 4 4 2 2).B_TILE_SIZE + 1) * (config 4 4 2 2).H + (1 * (config 4 4 2 2).H_TILE_SIZE + 1)) * (config 4 4 2 2).N : ℕ) : ℤ) ∧
    as_int (bwd_input_offset (config32 4 4 2 2).H (config32 4 4 2 2).signal_size (config32 4 4 2 2).B_TILE_SIZE (config32 4 4 2 2).H_TILE_SIZE 1 1 1 1)
      = ((((1 * (config32 4 4 2 2).B_TILE_SIZE + 1) * (config32 4 4 2 2).H + (1 * (config32 4 4 2 2).H_TILE_SIZE + 1)) * (config32 4 4 2 2).N : ℕ) : ℤ) ∧
    (∃ (Q : Params32) (cx cy ct cb : ℕ), Q.N = 16384 ∧ Q.signal_size = Q.N ∧
      Q.B * Q.H = 524288 ∧ 4294967296 < Q.B * Q.H * Q.N ∧
      cx * Q.B_TILE_SIZE + cb < Q.B ∧ cy * Q.H_TILE_SIZE + ct < Q.H ∧
      as_int (bwd_input_offset Q.H Q.signal_size Q.B_TILE_SIZE Q.H_TILE_SIZE cx cy ct cb)
        ≠ ((((cx * Q.B_TILE_SIZE + cb) * Q.H + (cy * Q.H_TILE_SIZE + ct)) * Q.N : ℕ) : ℤ)) :=
  ⟨by decide, by decide, by decide, rfl, by decide, by decide, by decide, rfl,
    C24_offset_arithmetic (config 4 4 2 2) (config32 4 4 2 2) 1 1 1 1 1 1 1 1
      (by decide) (by decide) (by decide) rfl (by decide) (by decide) (by decide) rfl⟩

/-! ## The stride of the signals in the backward kernels -/

section stride

/-- Two (batch, channel) pairs with channels below `H` have the same row number only if they
are the same pair. -/
theorem pair_row_inj {H e c e1 c1 : ℕ} (hc : c < H) (hc1 : c1 < H)
    (h : e * H + c = e1 * H + c1) : e = e1 ∧ c = c1 := by
  have a1 := chan_decode (e := e) hc
  have a2 := chan_decode (e := e1) hc1
  rw [h] at a1
  exact ⟨a1.1.symm.trans a2.1, a1.2.symm.trans a2.2⟩

/-- Without 32-bit overflow and for a workload of at least two (batch, channel) pairs, the
ranges `[input_offset, input_offset + N)` of distinct pairs are pairwise disjoint exactly when
`signal_size >= N`. -/
theorem dx_ranges_disjoint_iff {B H ss N BT HT : ℕ} (hN : 0 < N) (hBT : 0 < BT) (hHT : 0 < HT)
    (hpairs : 2 ≤ B * H) (hnov : B * H * ss ≤ 2147483648) :
    (∀ bx bY ht bt bx1 bY1 ht1 bt1, bx * BT + bt < B → bY * HT + ht < H →
      bx1 * BT + bt1 < B → bY1 * HT + ht1 < H →
      (bx * BT + bt ≠ bx1 * BT + bt1 ∨ bY * HT + ht ≠ bY1 * HT + ht1) →
      (bwd_input_offset H ss BT HT bx bY ht bt + N
          ≤ bwd_input_offset H ss BT HT bx1 bY1 ht1 bt1 ∨
        bwd_input_offset H ss BT HT bx1 bY1 ht1 bt1 + N
          ≤ bwd_input_offset H ss BT HT bx bY ht bt)) ↔ N ≤ ss := by
  have hB : 0 < B := by
    rcases Nat.eq_zero_or_pos B with h0 | h0
    · rw [h0] at hpairs
      omega
    · exact h0
  have hH : 0 < H := by
    rcases Nat.eq_zero_or_pos H with h0 | h0
    · rw [h0] at hpairs
      omega
    · exact h0
  constructor
  · intro h
    have h00 : bwd_input_offset H ss BT HT 0 0 0 0 = 0 := by
      rw [bwd_input_offset_eq (B := B) (by omega) (by omega) hnov]
      simp
    by_cases h2 : 2 ≤ H
    · have hd := Nat.div_add_mod' 1 HT
      have hm := Nat.mod_lt 1 hHT
      have e : bwd_input_offset H ss BT HT 0 (1 / HT) (1 % HT) 0 = ss := by
        rw [bwd_input_offset_eq (B := B) (by omega) (by omega) hnov, hd]
        simp
      have := h 0 0 0 0 0 (1 / HT) (1 % HT) 0 (by omega) (by omega) (by omega) (by omega)
        (Or.inr (by omega))
      rw [h00, e] at this
      omega
    · have hH1 : H = 1 := by omega
      have hB2 : 2 ≤ B := by
        rw [hH1] at hpairs
        omega
      have hd := Nat.div_add_mod' 1 BT
      have hm := Nat.mod_lt 1 hBT
      have e : bwd_input_offset H ss BT HT (1 / BT) 0 0 (1 % BT) = ss := by
        rw [bwd_input_offset_eq (B := B) (by omega) (by omega) hnov, hd, hH1]
        simp
      have := h 0 0 0 0 (1 / BT) 0 0 (1 % BT) (by omega) (by omega) (by omega) (by omega)
        (Or.inl (by omega))
      rw [h00, e] at this
      omega
  · intro h bx bY ht bt bx1 bY1 ht1 bt1 hb hh hb1 hh1 hne
    rw [bwd_input_offset_eq hb hh hnov, bwd_input_offset_eq hb1 hh1 hnov]
    have hrow : (bx * BT + bt) * H + (bY * HT + ht) ≠ (bx1 * BT + bt1) * H + (bY1 * HT + ht1) := by
      intro he
      obtain ⟨e1, e2⟩ := pair_row_inj hh hh1 he
      rcases hne with h1 | h1
      · exact h1 e1
      · exact h1 e2
    rcases rows_disjoint (N := ss) hrow with h1 | h1
    · left
      omega
    · right
      omega

/-- Without 32-bit overflow the offset at stride `signal_size` equals the offset at stride `N`
(the forward kernel's) exactly when `signal_size = N` or the pair is `(0, 0)`. -/
theorem stride_offset_eq_iff {B H ss N BT HT bx bY ht bt : ℕ} (hb : bx * BT + bt < B)
    (hh : bY * HT + ht < H) (hnov : B * H * ss ≤ 2147483648)
    (hnovN : B * H * N ≤ 2147483648) :
    bwd_input_offset H ss BT HT bx bY ht bt = bwd_input_offset H N BT HT bx bY ht bt
      ↔ (ss = N ∨ (bx * BT + bt = 0 ∧ bY * HT + ht = 0)) := by
  rw [bwd_input_offset_eq hb hh hnov, bwd_input_offset_eq hb hh hnovN]
  have hH : 0 < H := by omega
  constructor
  · intro h
    rcases Nat.eq_zero_or_pos ((bx * BT + bt) * H + (bY * HT + ht)) with h0 | h0
    · right
      have h1 : (bx * BT + bt) * H = 0 := by omega
      rcases Nat.mul_eq_zero.mp h1 with h2 | h2
      · exact ⟨h2, by omega⟩
      · omega
    · left
      exact Nat.eq_of_mul_eq_mul_left h0 h
  · rintro (h | ⟨h1, h2⟩)
    · rw [h]
    · rw [h1, h2]
      simp

end stride

/-- C22, amended: the backward kernels address the signals with stride `signal_size` and
store exactly `N` elements of `dx` per (batch, channel): the body of the batch loop leaves
every element of `dx` outside `[input_offset, input_offset + N)` as it was and writes every
element inside.  When the offsets fit 32-bit arithmetic (`B * H * signal_size <= 2 ^ 31`),
`input_offset = ((blockIdx.x * B_TILE_SIZE + bt) * H + blockIdx.y * H_TILE_SIZE + ht)
* signal_size` for every (batch, channel) inside the workload, and for a workload of at least
two pairs (positive tile sizes) the ranges of distinct pairs are pairwise disjoint if and only
if `signal_size >= N`; when also `B * H * N <= 2 ^ 31`, the backward offset equals the offset
at stride `N` (the forward kernel's `input_offset`) for the same (batch, channel) if and only
if `signal_size = N` or the pair is `(0, 0)`. -/
theorem C22_signal_stride_amended {K : Type} [CommRing K] [StarRing K]
    (P : Params) (hv : P.Valid) (P2 : Params32) (hv2 : P2.Valid) (T : Tables K)
    (T2 : Tables32 K) (dout_inp a_inp a_k : ℕ → K) (s : BwdState K)
    (h1 : 0 < P.B_TILE_SIZE)
    (h2 : 0 < P.H_TILE_SIZE)
    (h3 : 2 ≤ P.B * P.H)
    (h4 : P.B * P.H * P.signal_size ≤ 2147483648)
    (h5 : P.B * P.H * P.N ≤ 2147483648)
    (h6 : 0 < P2.B_TILE_SIZE)
    (h7 : 0 < P2.H_TILE_SIZE)
    (h8 : 2 ≤ P2.B * P2.H)
    (h9 : P2.B * P2.H * P2.signal_size ≤ 2147483648)
    (h10 : P2.B * P2.H * P2.N ≤ 2147483648) :
    (∀ off idx, ¬ (off ≤ idx ∧ idx < off + P.N) →
      (bwd_batch_body P T dout_inp a_inp (k_frag P a_k) off s).dx_out idx = s.dx_out idx) ∧
    (∀ off j, j < P.N →
      (bwd_batch_body P T dout_inp a_inp (k_frag P a_k) off s).dx_out (off + j)
        = flat 16 (T.toM.inv (fun f1 f2 f3 =>
            T.toM.fwd (fun i => dout_inp (off + i)) f1 f2 f3 * digits 16 a_k f1 f2 f3)) j) ∧
    (∀ bx bY ht bt, bx * P.B_TILE_SIZE + bt < P.B → bY * P.H_TILE_SIZE + ht < P.H →
      bwd_input_offset P.H P.signal_size P.B_TILE_SIZE P.H_TILE_SIZE bx bY ht bt
        = ((bx * P.B_TILE_SIZE + bt) * P.H + (bY * P.H_TILE_SIZE + ht))
          * P.signal_size) ∧
    ((∀ bx bY ht bt bx1 bY1 ht1 bt1, bx * P.B_TILE_SIZE + bt < P.B →
      bY * P.H_TILE_SIZE + ht < P.H → bx1 * P.B_TILE_SIZE + bt1 < P.B →
      bY1 * P.H_TILE_SIZE + ht1 < P.H →
      (bx * P.B_TILE_SIZE + bt ≠ bx1 * P.B_TILE_SIZE + bt1 ∨
        bY * P.H_TILE_SIZE + ht ≠ bY1 * P.H_TILE_SIZE + ht1) →
      (bwd_input_offset P.H P.signal_size P.B_TILE_SIZE P.H_TILE_SIZE bx bY ht bt
            + P.N
          ≤ bwd_input_offset P.H P.signal_size P.B_TILE_SIZE P.H_TILE_SIZE
              bx1 bY1 ht1 bt1 ∨
        bwd_input_offset P.H P.signal_size P.B_TILE_SIZE P.H_TILE_SIZE bx1 bY1 ht1 bt1
            + P.N
          ≤ bwd_input_offset P.H P.signal_size P.B_TILE_SIZE P.H_TILE_SIZE
              bx bY ht bt)) ↔ P.N ≤ P.signal_size) ∧
    (∀ off idx, ¬ (off ≤ idx ∧ idx < off + P2.N) →
      (bwd32_batch_body P2 T2 dout_inp a_inp (k_frag32 P2 a_k) off s).dx_out idx = s.dx_out idx) ∧
    (∀ off j, j < P2.N →
      (bwd32_batch_body P2 T2 dout_inp a_inp (k_frag32 P2 a_k) off s).dx_out (off + j)
        = flat 32 (T2.toM.inv (fun f1 f2 f3 =>
            T2.toM.fwd (fun i => dout_inp (off + i)) f1 f2 f3 * digits 32 a_k f1 f2 f3)) j) ∧
    (∀ bx bY ht bt, bx * P2.B_TILE_SIZE + bt < P2.B → bY * P2.H_TILE_SIZE + ht < P2.H →
      bwd_input_offset P2.H P2.signal_size P2.B_TILE_SIZE P2.H_TILE_SIZE bx bY ht bt
        = ((bx * P2.B_TILE_SIZE + bt) * P2.H + (bY * P2.H_TILE_SIZE + ht))
          * P2.signal_size) ∧
    ((∀ bx bY ht bt bx1 bY1 ht1 bt1, bx * P2.B_TILE_SIZE + bt < P2.B →
      bY * P2.H_TILE_SIZE + ht < P2.H → bx1 * P2.B_TILE_SIZE + bt1 < P2.B →
      bY1 * P2.H_TILE_SIZE + ht1 < P2.H →
      (bx * P2.B_TILE_SIZE + bt ≠ bx1 * P2.B_TILE_SIZE + bt1 ∨
        bY * P2.H_TILE_SIZE + ht ≠ bY1 * P2.H_TILE_SIZE + ht1) →
      (bwd_input_offset P2.H P2.signal_size P2.B_TILE_SIZE P2.H_TILE_SIZE bx bY ht bt
            + P2.N
          ≤ bwd_input_offset P2.H P2.signal_size P2.B_TILE_SIZE P2.H_TILE_SIZE
              bx1 bY1 ht1 bt1 ∨
        bwd_input_offset P2.H P2.signal_size P2.B_TILE_SIZE P2.H_TILE_SIZE bx1 bY1 ht1 bt1
            + P2.N
          ≤ bwd_input_offset P2.H P2.signal_size P2.B_TILE_SIZE P2.H_TILE_SIZE
              bx bY ht bt)) ↔ P2.N ≤ P2.signal_size) ∧
    (∀ bx bY ht bt, bx * P.B_TILE_SIZE + bt < P.B → bY * P.H_TILE_SIZE + ht < P.H →
      (bwd_input_offset P.H P.signal_size P.B_TILE_SIZE P.H_TILE_SIZE bx bY ht bt
          = fwd_input_offset P bx bY ht bt
        ↔ (P.signal_size = P.N ∨
          (bx * P.B_TILE_SIZE + bt = 0 ∧ bY * P.H_TILE_SIZE + ht = 0)))) ∧
    (∀ bx bY ht bt, bx * P2.B_TILE_SIZE + bt < P2.B → bY * P2.H_TILE_SIZE + ht < P2.H →
      (bwd_input_offset P2.H P2.signal_size P2.B_TILE_SIZE P2.H_TILE_SIZE bx bY ht bt
          = bwd_input_offset P2.H P2.N P2.B_TILE_SIZE P2.H_TILE_SIZE bx bY ht bt
        ↔ (P2.signal_size = P2.N ∨
          (bx * P2.B_TILE_SIZE + bt = 0 ∧ bY * P2.H_TILE_SIZE + ht = 0)))) := by
  have hN := hv.hN
  have hN2 := hv2.hN
  refine ⟨?_, ?_, ?_, ?_, ?_, ?_, ?_, ?_, ?_, ?_⟩
  · intro off idx h
    rw [hN] at h
    exact bwd_batch_body_dx_frame P hv T dout_inp a_inp _ off s idx h
  · intro off j hj
    rw [hN] at hj
    exact bwd_batch_body_dx P hv T dout_inp a_inp a_k off s j hj
  · intro bx bY ht bt hb hh
    exact bwd_input_offset_eq hb hh h4
  · exact dx_ranges_disjoint_iff (by omega) h1 h2 h3 h4
  · intro off idx h
    rw [hN2] at h
    exact bwd32_batch_body_dx_frame P2 hv2 T2 dout_inp a_inp _ off s idx h
  · intro off j hj
    rw [hN2] at hj
    exact bwd32_batch_body_dx P2 hv2 T2 dout_inp a_inp a_k off s j hj
  · intro bx bY ht bt hb hh
    exact bwd_input_offset_eq hb hh h9
  · exact dx_ranges_disjoint_iff (by omega) h6 h7 h8 h9
  · intro bx bY ht bt hb hh
    exact stride_offset_eq_iff hb hh h4 h5
  · intro bx bY ht bt hb hh
    exact stride_offset_eq_iff hb hh h9 h10

/-- Witness of C22: workloads of 4 batch elements and 4 channels in tiles of 2 by 2, tables of
ones. -/
theorem C22_signal_stride_amended_witness :
    (config 4 4 2 2).Valid ∧ (config32 4 4 2 2).Valid ∧
    0 < (config 4 4 2 2).B_TILE_SIZE ∧
    0 < (config 4 4 2 2).H_TILE_SIZE ∧
    2 ≤ (config 4 4 2 2).B * (config 4 4 2 2).H ∧
    (config 4 4 2 2).B * (config 4 4 2 2).H * (config 4 4 2 2).signal_size ≤ 2147483648 ∧
    (config 4 4 2 2).B * (config 4 4 2 2).H * (config 4 4 2 2).N ≤ 2147483648 ∧
    0 < (config32 4 4 2 2).B_TILE_SIZE ∧
    0 < (config32 4 4 2 2).H_TILE_SIZE ∧
    2 ≤ (config32 4 4 2 2).B * (config32 4 4 2 2).H ∧
    (config32 4 4 2 2).B * (config32 4 4 2 2).H * (config32 4 4 2 2).signal_size ≤ 2147483648 ∧
    (config32 4 4 2 2).B * (config32 4 4 2 2).H * (config32 4 4 2 2).N ≤ 2147483648 ∧
    (∀ off idx, ¬ (off ≤ idx ∧ idx < off + (config 4 4 2 2).N) →
      (bwd_batch_body (config 4 4 2 2) (ones_tables ℤ) (all_ones ℤ) (all_ones ℤ) (k_frag (config 4 4 2 2) (all_ones ℤ)) off (⟨fun _ => 0, fun _ => 0, fun _ _ => 0, fun _ _ => 0, fun _ => 0, fun _ => 0⟩ : BwdState ℤ)).dx_out idx = (⟨fun _ => 0, fun _ => 0, fun _ _ => 0, fun _ _ => 0, fun _ => 0, fun _ => 0⟩ : BwdState ℤ).dx_out idx) ∧
    (∀ off j, j < (config 4 4 2 2).N →
      (bwd_batch_body (config 4 4 2 2) (ones_tables ℤ) (all_ones ℤ) (all_ones ℤ) (k_frag (config 4 4 2 2) (all_ones ℤ)) off (⟨fun _ => 0, fun _ => 0, fun _ _ => 0, fun _ _ => 0, fun _ => 0, fun _ => 0⟩ : BwdState ℤ)).dx_out (off + j)
        = flat 16 ((ones_tables ℤ).toM.inv (fun f1 f2 f3 =>
            (ones_tables ℤ).toM.fwd (fun i => (all_ones ℤ) (off + i)) f1 f2 f3 * digits 16 (all_ones ℤ) f1 f2 f3)) j) ∧
    (∀ bx bY ht bt, bx * (config 4 4 2 2).B_TILE_SIZE + bt < (config 4 4 2 2).B → bY * (config 4 4 2 2).H_TILE_SIZE + ht < (config 4 4 2 2).H →
      bwd_input_offset (config 4 4 2 2).H (config 4 4 2 2).signal_size (config 4 4 2 2).B_TILE_SIZE (config 4 4 2 2).H_TILE_SIZE bx bY ht bt
        = ((bx * (config 4 4 2 2).B_TILE_SIZE + bt) * (config 4 4 2 2).H + (bY * (config 4 4 2 2).H_TILE_SIZE + ht))
          * (config 4 4 2 2).signal_size) ∧
    ((∀ bx bY ht bt bx1 bY1 ht1 bt1, bx * (config 4 4 2 2).B_TILE_SIZE + bt < (config 4 4 2 2).B →
      bY * (config 4 4 2 2).H_TILE_SIZE + ht < (config 4 4 2 2).H → bx1 * (config 4 4 2 2).B_TILE_SIZE + bt1 < (config 4 4 2 2).B →
      bY1 * (config 4 4 2 2).H_TILE_SIZE + ht1 < (config 4 4 2 2).H →
      (bx * (config 4 4 2 2).B_TILE_SIZE + bt ≠ bx1 * (config 4 4 2 2).B_TILE_SIZE + bt1 ∨
        bY * (config 4 4 2 2).H_TILE_SIZE + ht ≠ bY1 * (config 4 4 2 2).H_TILE_SIZE + ht1) →
      (bwd_input_offset (config 4 4 2 2).H (config 4 4 2 2).signal_size (config 4 4 2 2).B_TILE_SIZE (config 4 4 2 2).H_TILE_SIZE bx bY ht bt
            + (config 4 4 2 2).N
          ≤ bwd_input_offset (config 4 4 2 2).H (config 4 4 2 2).signal_size (config 4 4 2 2).B_TILE_SIZE (config 4 4 2 2).H_TILE_SIZE
              bx1 bY1 ht1 bt1 ∨
        bwd_input_offset (config 4 4 2 2).H (config 4 4 2 2).signal_size (config 4 4 2 2).B_TILE_SIZE (config 4 4 2 2).H_TILE_SIZE bx1 bY1 ht1 bt1
            + (config 4 4 2 2).N
          ≤ bwd_input_offset (config 4 4 2 2).H (config 4 4 2 2).signal_size (config 4 4 2 2).B_TILE_SIZE (config 4 4 2 2).H_TILE_SIZE
              bx bY ht bt)) ↔ (config 4 4 2 2).N ≤ (config 4 4 2 2).signal_size) ∧
    (∀ off idx, ¬ (off ≤ idx ∧ idx < off + (config32 4 4 2 2).N) →
      (bwd32_batch_body (config32 4 4 2 2) (ones_tables32 ℤ) (all_ones ℤ) (all_ones ℤ) (k_frag32 (config32 4 4 2 2) (all_ones ℤ)) off (⟨fun _ => 0, fun _ => 0, fun _ _ => 0, fun _ _ => 0, fun _ => 0, fun _ => 0⟩ : BwdState ℤ)).dx_out idx = (⟨fun _ => 0, fun _ => 0, fun _ _ => 0, fun _ _ => 0, fun _ => 0, fun _ => 0⟩ : BwdState ℤ).dx_out idx) ∧
    (∀ off j, j < (config32 4 4 2 2).N →
      (bwd32_batch_body (config32 4 4 2 2) (ones_tables32 ℤ) (all_ones ℤ) (all_ones ℤ) (k_frag32 (config32 4 4 2 2) (all_ones ℤ)) off (⟨fun _ => 0, fun _ => 0, fun _ _ => 0, fun _ _ => 0, fun _ => 0, fun _ => 0⟩ : BwdState ℤ)).dx_out (off + j)
        = flat 32 ((ones_tables32 ℤ).toM.inv (fun f1 f2 f3 =>
            (ones_tables32 ℤ).toM.fwd (fun i => (all_ones ℤ) (off + i)) f1 f2 f3 * digits 32 (all_ones ℤ) f1 f2 f3)) j) ∧
    (∀ bx bY ht bt, bx * (config32 4 4 2 2).B_TILE_SIZE + bt < (config32 4 4 2 2).B → bY * (config32 4 4 2 2).H_TILE_SIZE + ht < (config32 4 4 2 2).H →
      bwd_input_offset (config32 4 4 2 2).H (config32 4 4 2 2).signal_size (config32 4 4 2 2).B_TILE_SIZE (config32 4 4 2 2).H_TILE_SIZE bx bY ht bt
        = ((bx * (config32 4 4 2 2).B_TILE_SIZE + bt) * (config32 4 4 2 2).H + (bY * (config32 4 4 2 2).H_TILE_SIZE + ht))
          * (config32 4 4 2 2).signal_size) ∧
    ((∀ bx bY ht bt bx1 bY1 ht1 bt1, bx * (config32 4 4 2 2).B_TILE_SIZE + bt < (config32 4 4 2 2).B →
      bY * (config32 4 4 2 2).H_TILE_SIZE + ht < (config32 4 4 2 2).H → bx1 * (config32 4 4 2 2).B_TILE_SIZE + bt1 < (config32 4 4 2 2).B →
      bY1 * (config32 4 4 2 2).H_TILE_SIZE + ht1 < (config32 4 4 2 2).H →
      (bx * (config32 4 4 2 2).B_TILE_SIZE + bt ≠ bx1 * (config32 4 4 2 2).B_TILE_SIZE + bt1 ∨
        bY * (config32 4 4 2 2).H_TILE_SIZE + ht ≠ bY1 * (config32 4 4 2 2).H_TILE_SIZE + ht1) →
      (bwd_input_offset (config32 4 4 2 2).H (config32 4 4 2 2).signal_size (config32 4 4 2 2).B_TILE_SIZE (config32 4 4 2 2).H_TILE_SIZE bx bY ht bt
            + (config32 4 4 2 2).N
          ≤ bwd_input_offset (config32 4 4 2 2).H (config32 4 4 2 2).signal_size (config32 4 4 2 2).B_TILE_SIZE (config32 4 4 2 2).H_TILE_SIZE
              bx1 bY1 ht1 bt1 ∨
        bwd_input_offset (config32 4 4 2 2).H (config32 4 4 2 2).signal_size (config32 4 4 2 2).B_TILE_SIZE (config32 4 4 2 2).H_TILE_SIZE bx1 bY1 ht1 bt1
            + (config32 4 4 2 2).N
          ≤ bwd_input_offset (config32 4 4 2 2).H (config32 4 4 2 2).signal_size (config32 4 4 2 2).B_TILE_SIZE (config32 4 4 2 2).H_TILE_SIZE
              bx bY ht bt)) ↔ (config32 4 4 2 2).N ≤ (config32 4 4 2 2).signal_size) ∧
    (∀ bx bY ht bt, bx * (config 4 4 2 2).B_TILE_SIZE + bt < (config 4 4 2 2).B → bY * (config 4 4 2 2).H_TILE_SIZE + ht < (config 4 4 2 2).H →
      (bwd_input_offset (config 4 4 2 2).H (config 4 4 2 2).signal_size (config 4 4 2 2).B_TILE_SIZE (config 4 4 2 2).H_TILE_SIZE bx bY ht bt
          = fwd_input_offset (config 4 4 2 2) bx bY ht bt
        ↔ ((config 4 4 2 2).signal_size = (config 4 4 2 2).N ∨
          (bx * (config 4 4 2 2).B_TILE_SIZE + bt = 0 ∧ bY * (config 4 4 2 2).H_TILE_SIZE + ht = 0)))) ∧
    (∀ bx bY ht bt, bx * (config32 4 4 2 2).B_TILE_SIZE + bt < (config32 4 4 2 2).B → bY * (config32 4 4 2 2).H_TILE_SIZE + ht < (config32 4 4 2 2).H →
      (bwd_input_offset (config32 4 4 2 2).H (config32 4 4 2 2).signal_size (config32 4 4 2 2).B_TILE_SIZE (config32 4 4 2 2).H_TILE_SIZE bx bY ht bt
          = bwd_input_offset (config32 4 4 2 2).H (config32 4 4 2 2).N (config32 4 4 2 2).B_TILE_SIZE (config32 4 4 2 2).H_TILE_SIZE bx bY ht bt
        ↔ ((config32 4 4 2 2).signal_size = (config32 4 4 2 2).N ∨
          (bx * (config32 4 4 2 2).B_TILE_SIZE + bt = 0 ∧ bY * (config32 4 4 2 2).H_TILE_SIZE + ht = 0)))) :=
  ⟨config_valid 4 4 2 2, config32_valid 4 4 2 2, by decide, by decide, by decide, by decide,
    by decide, by decide, by decide, by decide, by decide, by decide,
    C22_signal_stride_amended (config 4 4 2 2) (config_valid 4 4 2 2) (config32 4 4 2 2)
      (config32_valid 4 4 2 2) (ones_tables ℤ) (ones_tables32 ℤ) (all_ones ℤ) (all_ones ℤ)
      (all_ones ℤ) (⟨fun _ => 0, fun _ => 0, fun _ _ => 0, fun _ _ => 0, fun _ => 0, fun _ => 0⟩ : BwdState ℤ)
      (by decide) (by decide) (by decide) (by decide) (by decide) (by decide) (by decide)
      (by decide) (by decide) (by decide)⟩

/-- Counterexample to C22 as stated: 2 batch elements, `2 ^ 20` channels,
`signal_size = N = 4096`, tiles of one batch element and one channel.  The pairs `(0, 0)` and
`(1, 0)` are distinct and inside the workload and `signal_size >= N`, but
`blockIdx.x * H * signal_size * B_TILE_SIZE = 2 ^ 32` wraps to `0`: the `input_offset` of
`(1, 0)` is `0`, not `(1 * H + 0) * signal_size`, and the two ranges of `dx` coincide. -/
theorem C22_signal_stride_counterexample :
    (config 2 1048576 1 1).N ≤ (config 2 1048576 1 1).signal_size ∧
    2 ≤ (config 2 1048576 1 1).B * (config 2 1048576 1 1).H ∧
    1 * (config 2 1048576 1 1).B_TILE_SIZE + 0 < (config 2 1048576 1 1).B ∧
    0 * (config 2 1048576 1 1).H_TILE_SIZE + 0 < (config 2 1048576 1 1).H ∧
    bwd_input_offset (config 2 1048576 1 1).H (config 2 1048576 1 1).signal_size
        (config 2 1048576 1 1).B_TILE_SIZE (config 2 1048576 1 1).H_TILE_SIZE 1 0 0 0
      ≠ ((1 * (config 2 1048576 1 1).B_TILE_SIZE + 0) * (config 2 1048576 1 1).H
          + (0 * (config 2 1048576 1 1).H_TILE_SIZE + 0)) * (config 2 1048576 1 1).signal_size ∧
    ¬ (bwd_input_offset (config 2 1048576 1 1).H (config 2 1048576 1 1).signal_size
          (config 2 1048576 1 1).B_TILE_SIZE (config 2 1048576 1 1).H_TILE_SIZE 0 0 0 0
          + (config 2 1048576 1 1).N
        ≤ bwd_input_offset (config 2 1048576 1 1).H (config 2 1048576 1 1).signal_size
            (config 2 1048576 1 1).B_TILE_SIZE (config 2 1048576 1 1).H_TILE_SIZE 1 0 0 0 ∨
      bwd_input_offset (config 2 1048576 1 1).H (config 2 1048576 1 1).signal_size
          (config 2 1048576 1 1).B_TILE_SIZE (config 2 1048576 1 1).H_TILE_SIZE 1 0 0 0
          + (config 2 1048576 1 1).N
        ≤ bwd_input_offset (config 2 1048576 1 1).H (config 2 1048576 1 1).signal_size
            (config 2 1048576 1 1).B_TILE_SIZE (config 2 1048576 1 1).H_TILE_SIZE 0 0 0 0) := by
  norm_num [config, bwd_input_offset, u32]

/-! ## The layout of `dk_f_out` -/

section dk_f_layout

/-- Without 32-bit overflow every row of the `[gridDim.x, H, N]` array is the range of exactly
one (`blockIdx.x`, `blockIdx.y`, `h_tile_id`). -/
theorem dk_f_row_unique {N H HT gx gy : ℕ} (hN : 0 < N) (hH : H = gy * HT) (hHpos : 0 < H)
    (hnov : gx * H * N ≤ 2147483648) (r : ℕ) (hr : r < gx * H) :
    ∃! p : ℕ × ℕ × ℕ, p.1 < gx ∧ p.2.1 < gy ∧ p.2.2 < HT ∧
      bwd_dk_f_offset N H HT p.1 p.2.1 p.2.2 = r * N := by
  have hHT : 0 < HT := by
    rcases Nat.eq_zero_or_pos HT with h0 | h0
    · rw [h0] at hH
      omega
    · exact h0
  have h1 : r / H < gx := (Nat.div_lt_iff_lt_mul hHpos).mpr hr
  have h2 : r % H < H := Nat.mod_lt _ hHpos
  have h3 : r % H / HT < gy := (Nat.div_lt_iff_lt_mul hHT).mpr (by rw [← hH]; exact h2)
  have h4 : r % H % HT < HT := Nat.mod_lt _ hHT
  have e1 : r % H / HT * HT + r % H % HT = r % H := Nat.div_add_mod' _ _
  have e2 : r / H * H + r % H = r := Nat.div_add_mod' _ _
  refine ⟨(r / H, r % H / HT, r % H % HT), ⟨h1, h3, h4, ?_⟩, ?_⟩
  · dsimp only
    rw [bwd_dk_f_offset_eq h1 (by rw [e1]; exact h2) hnov, e1, e2]
  · rintro ⟨bx, bY, ht⟩ ⟨a1, a2, a3, a4⟩
    simp only at a1 a2 a3 a4
    have hc : bY * HT + ht < H := by
      rw [hH]
      exact tile_id_lt a2 a3
    rw [bwd_dk_f_offset_eq a1 hc hnov] at a4
    have hrow : bx * H + (bY * HT + ht) = r := Nat.eq_of_mul_eq_mul_right hN a4
    obtain ⟨b1, b2⟩ := @pair_row_inj H bx (bY * HT + ht) (r / H) (r % H) hc h2 (by rw [hrow, e2])
    obtain ⟨c1, c2⟩ := @pair_row_inj HT bY ht (r % H / HT) (r % H % HT) a3 h4 (by rw [b2, e1])
    rw [b1, c1, c2]

end dk_f_layout

/-- C23, amended: the backward kernels write `dk_f` at offset
`h_offset_kernel + blockIdx.x * H * N + h_tile_id * N` computed in 32-bit arithmetic.  On the
grid `(gridDim.x, gridDim.y) = (B / B_TILE_SIZE, H / H_TILE_SIZE)` with `signal_size = N`, and
when the offsets fit 32-bit arithmetic (`B * H * N <= 2 ^ 31`): the offset is
`(blockIdx.x * H + blockIdx.y * H_TILE_SIZE + h_tile_id) * N`; the map from
(`blockIdx.x`, channel) with `blockIdx.x < gridDim.x`, channel `< H` to this offset is
injective; every range `[offset, offset + N)` lies inside `[0, gridDim.x * H * N)` and every
row of the array `[gridDim.x, H, N]` is the range of exactly one
(`blockIdx.x`, `blockIdx.y`, `h_tile_id`); the launch writes exactly the `gridDim.x * H * N`
elements of that array; and (for `H > 0`) the array has the size of a single `[H, N]` array
exactly when `gridDim.x = 1`. -/
theorem C23_dk_f_layout_amended {K : Type} [CommRing K] [StarRing K]
    (P : Params) (hv : P.Valid) (P2 : Params32) (hv2 : P2.Valid) (T : Tables K)
    (T2 : Tables32 K) (dout_inp a_inp k_f junk : ℕ → K) (regs : ℕ → ℕ → K) (gx gy : ℕ)
    (o : BwdOut K)
    (h1 : P.signal_size = P.N)
    (h2 : P.B * P.H * P.N ≤ 2147483648)
    (h3 : 0 < P.B_TILE_SIZE)
    (h4 : P.B = gx * P.B_TILE_SIZE)
    (h5 : P.H = gy * P.H_TILE_SIZE)
    (h6 : 0 < P.H)
    (h7 : P2.signal_size = P2.N)
    (h8 : P2.B * P2.H * P2.N ≤ 2147483648)
    (h9 : 0 < P2.B_TILE_SIZE)
    (h10 : P2.B = gx * P2.B_TILE_SIZE)
    (h11 : P2.H = gy * P2.H_TILE_SIZE)
    (h12 : 0 < P2.H) :
    (∀ bx bY ht, bx < gx → bY * P.H_TILE_SIZE + ht < P.H →
      bwd_dk_f_offset P.N P.H P.H_TILE_SIZE bx bY ht
        = (bx * P.H + (bY * P.H_TILE_SIZE + ht)) * P.N) ∧
    (∀ bx bY ht bx1 bY1 ht1, bx < gx → bY * P.H_TILE_SIZE + ht < P.H → bx1 < gx →
      bY1 * P.H_TILE_SIZE + ht1 < P.H →
      bwd_dk_f_offset P.N P.H P.H_TILE_SIZE bx bY ht
        = bwd_dk_f_offset P.N P.H P.H_TILE_SIZE bx1 bY1 ht1 →
      bx = bx1 ∧ bY * P.H_TILE_SIZE + ht = bY1 * P.H_TILE_SIZE + ht1) ∧
    (∀ bx bY ht, bx < gx → bY * P.H_TILE_SIZE + ht < P.H →
      bwd_dk_f_offset P.N P.H P.H_TILE_SIZE bx bY ht + P.N ≤ gx * P.H * P.N) ∧
    (∀ r, r < gx * P.H →
      ∃! p : ℕ × ℕ × ℕ, p.1 < gx ∧ p.2.1 < gy ∧ p.2.2 < P.H_TILE_SIZE ∧
        bwd_dk_f_offset P.N P.H P.H_TILE_SIZE p.1 p.2.1 p.2.2 = r * P.N) ∧
    (∀ idx, (launch_bwd P T dout_inp a_inp k_f junk regs gx gy o).dk_f_out idx
      = if idx < gx * P.H * P.N
        then dk_f_spec T.toM P.B_TILE_SIZE P.H P.N dout_inp a_inp idx
        else o.dk_f_out idx) ∧
    (gx * P.H * P.N = P.H * P.N ↔ gx = 1) ∧
    (∀ bx bY ht, bx < gx → bY * P2.H_TILE_SIZE + ht < P2.H →
      bwd_dk_f_offset P2.N P2.H P2.H_TILE_SIZE bx bY ht
        = (bx * P2.H + (bY * P2.H_TILE_SIZE + ht)) * P2.N) ∧
    (∀ bx bY ht bx1 bY1 ht1, bx < gx → bY * P2.H_TILE_SIZE + ht < P2.H → bx1 < gx →
      bY1 * P2.H_TILE_SIZE + ht1 < P2.H →
      bwd_dk_f_offset P2.N P2.H P2.H_TILE_SIZE bx bY ht
        = bwd_dk_f_offset P2.N P2.H P2.H_TILE_SIZE bx1 bY1 ht1 →
      bx = bx1 ∧ bY * P2.H_TILE_SIZE + ht = bY1 * P2.H_TILE_SIZE + ht1) ∧
    (∀ bx bY ht, bx < gx → bY * P2.H_TILE_SIZE + ht < P2.H →
      bwd_dk_f_offset P2.N P2.H P2.H_TILE_SIZE bx bY ht + P2.N ≤ gx * P2.H * P2.N) ∧
    (∀ r, r < gx * P2.H →
      ∃! p : ℕ × ℕ × ℕ, p.1 < gx ∧ p.2.1 < gy ∧ p.2.2 < P2.H_TILE_SIZE ∧
        bwd_dk_f_offset P2.N P2.H P2.H_TILE_SIZE p.1 p.2.1 p.2.2 = r * P2.N) ∧
    (∀ idx, (launch_bwd32 P2 T2 dout_inp a_inp k_f junk regs gx gy o).dk_f_out idx
      = if idx < gx * P2.H * P2.N
        then dk_f_spec T2.toM P2.B_TILE_SIZE P2.H P2.N dout_inp a_inp idx
        else o.dk_f_out idx) ∧
    (gx * P2.H * P2.N = P2.H * P2.N ↔ gx = 1) := by
  have hN1 : 0 < P.N := by rw [hv.hN]; norm_num
  have hN7 : 0 < P2.N := by rw [hv2.hN]; norm_num
  have hgx1 : gx * P.H * P.N ≤ 2147483648 := by
    have a : gx ≤ P.B := by
      rw [h4]
      exact Nat.le_mul_of_pos_right gx h3
    have b : gx * P.H * P.N ≤ P.B * P.H * P.N :=
      Nat.mul_le_mul_right _ (Nat.mul_le_mul_right _ a)
    omega
  have hgx7 : gx * P2.H * P2.N ≤ 2147483648 := by
    have a : gx ≤ P2.B := by
      rw [h10]
      exact Nat.le_mul_of_pos_right gx h9
    have b : gx * P2.H * P2.N ≤ P2.B * P2.H * P2.N :=
      Nat.mul_le_mul_right _ (Nat.mul_le_mul_right _ a)
    omega
  refine ⟨?_, ?_, ?_, ?_, ?_, ?_, ?_, ?_, ?_, ?_, ?_, ?_⟩
  · intro bx bY ht hb hh
    exact bwd_dk_f_offset_eq hb hh hgx1
  · intro bx bY ht bx1 bY1 ht1 hb hh hb1 hh1 he
    rw [bwd_dk_f_offset_eq hb hh hgx1, bwd_dk_f_offset_eq hb1 hh1 hgx1] at he
    exact pair_row_inj hh hh1 (Nat.eq_of_mul_eq_mul_right hN1 he)
  · intro bx bY ht hb hh
    rw [bwd_dk_f_offset_eq hb hh hgx1]
    exact unit_range_le hb hh
  · intro r hr
    exact dk_f_row_unique hN1 h5 h6 hgx1 r hr
  · intro idx
    exact bwd_launch_dk_f_spec P hv h1 _ dout_inp a_inp k_f junk regs h2 gx gy h3 h4
      h5 o idx
  · constructor
    · intro he
      have hpos : 0 < P.H * P.N := Nat.mul_pos h6 hN1
      have e : gx * (P.H * P.N) = 1 * (P.H * P.N) := by rw [← Nat.mul_assoc, he, Nat.one_mul]
      exact Nat.eq_of_mul_eq_mul_right hpos e
    · intro he
      rw [he, Nat.one_mul]
  · intro bx bY ht hb hh
    exact bwd_dk_f_offset_eq hb hh hgx7
  · intro bx bY ht bx1 bY1 ht1 hb hh hb1 hh1 he
    rw [bwd_dk_f_offset_eq hb hh hgx7, bwd_dk_f_offset_eq hb1 hh1 hgx7] at he
    exact pair_row_inj hh hh1 (Nat.eq_of_mul_eq_mul_right hN7 he)
  · intro bx bY ht hb hh
    rw [bwd_dk_f_offset_eq hb hh hgx7]
    exact unit_range_le hb hh
  · intro r hr
    exact dk_f_row_unique hN7 h11 h12 hgx7 r hr
  · intro idx
    exact bwd32_launch_dk_f_spec P2 hv2 h7 _ dout_inp a_inp k_f junk regs h8 gx gy h9 h10
      h11 o idx
  · constructor
    · intro he
      have hpos : 0 < P2.H * P2.N := Nat.mul_pos h12 hN7
      have e : gx * (P2.H * P2.N) = 1 * (P2.H * P2.N) := by rw [← Nat.mul_assoc, he, Nat.one_mul]
      exact Nat.eq_of_mul_eq_mul_right hpos e
    · intro he
      rw [he, Nat.one_mul]

/-- Witness of C23: workloads of 4 batch elements and 4 channels in tiles of 2 by 2 on a
2 × 2 grid, tables of ones. -/
theorem C23_dk_f_layout_amended_witness :
    (config 4 4 2 2).Valid ∧ (config32 4 4 2 2).Valid ∧
    (config 4 4 2 2).signal_size = (config 4 4 2 2).N ∧
    (config 4 4 2 2).B * (config 4 4 2 2).H * (config 4 4 2 2).N ≤ 2147483648 ∧
    0 < (config 4 4 2 2).B_TILE_SIZE ∧
    (config 4 4 2 2).B = 2 * (config 4 4 2 2).B_TILE_SIZE ∧
    (config 4 4 2 2).H = 2 * (config 4 4 2 2).H_TILE_SIZE ∧
    0 < (config 4 4 2 2).H ∧
    (config32 4 4 2 2).signal_size = (config32 4 4 2 2).N ∧
    (config32 4 4 2 2).B * (config32 4 4 2 2).H * (config32 4 4 2 2).N ≤ 2147483648 ∧
    0 < (config32 4 4 2 2).B_TILE_SIZE ∧
    (config32 4 4 2 2).B = 2 * (config32 4 4 2 2).B_TILE_SIZE ∧
    (config32 4 4 2 2).H = 2 * (config32 4 4 2 2).H_TILE_SIZE ∧
    0 < (config32 4 4 2 2).H ∧
    (∀ bx bY ht, bx < 2 → bY * (config 4 4 2 2).H_TILE_SIZE + ht < (config 4 4 2 2).H →
      bwd_dk_f_offset (config 4 4 2 2).N (config 4 4 2 2).H (config 4 4 2 2).H_TILE_SIZE bx bY ht
        = (bx * (config 4 4 2 2).H + (bY * (config 4 4 2 2).H_TILE_SIZE + ht)) * (config 4 4 2 2).N) ∧
    (∀ bx bY ht bx1 bY1 ht1, bx < 2 → bY * (config 4 4 2 2).H_TILE_SIZE + ht < (config 4 4 2 2).H → bx1 < 2 →
      bY1 * (config 4 4 2 2).H_TILE_SIZE + ht1 < (config 4 4 2 2).H →
      bwd_dk_f_offset (config 4 4 2 2).N (config 4 4 2 2).H (config 4 4 2 2).H_TILE_SIZE bx bY ht
        = bwd_dk_f_offset (config 4 4 2 2).N (config 4 4 2 2).H (config 4 4 2 2).H_TILE_SIZE bx1 bY1 ht1 →
      bx = bx1 ∧ bY * (config 4 4 2 2).H_TILE_SIZE + ht = bY1 * (config 4 4 2 2).H_TILE_SIZE + ht1) ∧
    (∀ bx bY ht, bx < 2 → bY * (config 4 4 2 2).H_TILE_SIZE + ht < (config 4 4 2 2).H →
      bwd_dk_f_offset (config 4 4 2 2).N (config 4 4 2 2).H (config 4 4 2 2).H_TILE_SIZE bx bY ht + (config 4 4 2 2).N ≤ 2 * (config 4 4 2 2).H * (config 4 4 2 2).N) ∧
    (∀ r, r < 2 * (config 4 4 2 2).H →
      ∃! p : ℕ × ℕ × ℕ, p.1 < 2 ∧ p.2.1 < 2 ∧ p.2.2 < (config 4 4 2 2).H_TILE_SIZE ∧
        bwd_dk_f_offset (config 4 4 2 2).N (config 4 4 2 2).H (config 4 4 2 2).H_TILE_SIZE p.1 p.2.1 p.2.2 = r * (config 4 4 2 2).N) ∧
    (∀ idx, (launch_bwd (config 4 4 2 2) (ones_tables ℤ) (all_ones ℤ) (all_ones ℤ) (all_ones ℤ) (all_ones ℤ) (fun _ _ => (0 : ℤ)) 2 2 (⟨fun _ => 0, fun _ => 0⟩ : BwdOut ℤ)).dk_f_out idx
      = if idx < 2 * (config 4 4 2 2).H * (config 4 4 2 2).N
        then dk_f_spec (ones_tables ℤ).toM (config 4 4 2 2).B_TILE_SIZE (config 4 4 2 2).H (config 4 4 2 2).N (all_ones ℤ) (all_ones ℤ) idx
        else (⟨fun _ => 0, fun _ => 0⟩ : BwdOut ℤ).dk_f_out idx) ∧
    (2 * (config 4 4 2 2).H * (config 4 4 2 2).N = (config 4 4 2 2).H * (config 4 4 2 2).N ↔ 2 = 1) ∧
    (∀ bx bY ht, bx < 2 → bY * (config32 4 4 2 2).H_TILE_SIZE + ht < (config32 4 4 2 2).H →
      bwd_dk_f_offset (config32 4 4 2 2).N (config32 4 4 2 2).H (config32 4 4 2 2).H_TILE_SIZE bx bY ht
        = (bx * (config32 4 4 2 2).H + (bY * (config32 4 4 2 2).H_TILE_SIZE + ht)) * (config32 4 4 2 2).N) ∧
    (∀ bx bY ht bx1 bY1 ht1, bx < 2 → bY * (config32 4 4 2 2).H_TILE_SIZE + ht < (config32 4 4 2 2).H → bx1 < 2 →
      bY1 * (config32 4 4 2 2).H_TILE_SIZE + ht1 < (config32 4 4 2 2).H →
      bwd_dk_f_offset (config32 4 4 2 2).N (config32 4 4 2 2).H (config32 4 4 2 2).H_TILE_SIZE bx bY ht
        = bwd_dk_f_offset (config32 4 4 2 2).N (config32 4 4 2 2).H (config32 4 4 2 2).H_TILE_SIZE bx1 bY1 ht1 →
      bx = bx1 ∧ bY * (config32 4 4 2 2).H_TILE_SIZE + ht = bY1 * (config32 4 4 2 2).H_TILE_SIZE + ht1) ∧
    (∀ bx bY ht, bx < 2 → bY * (config32 4 4 2 2).H_TILE_SIZE + ht < (config32 4 4 2 2).H →
      bwd_dk_f_offset (config32 4 4 2 2).N (config32 4 4 2 2).H (config32 4 4 2 2).H_TILE_SIZE bx bY ht + (config32 4 4 2 2).N ≤ 2 * (config32 4 4 2 2).H * (config32 4 4 2 2).N) ∧
    (∀ r, r < 2 * (config32 4 4 2 2).H →
      ∃! p : ℕ × ℕ × ℕ, p.1 < 2 ∧ p.2.1 < 2 ∧ p.2.2 < (config32 4 4 2 2).H_TILE_SIZE ∧
        bwd_dk_f_offset (config32 4 4 2 2).N (config32 4 4 2 2).H (config32 4 4 2 2).H_TILE_SIZE p.1 p.2.1 p.2.2 = r * (config32 4 4 2 2).N) ∧
    (∀ idx, (launch_bwd32 (config32 4 4 2 2) (ones_tables32 ℤ) (all_ones ℤ) (all_ones ℤ) (all_ones ℤ) (all_ones ℤ) (fun _ _ => (0 : ℤ)) 2 2 (⟨fun _ => 0, fun _ => 0⟩ : BwdOut ℤ)).dk_f_out idx
      = if idx < 2 * (config32 4 4 2 2).H * (config32 4 4 2 2).N
        then dk_f_spec (ones_tables32 ℤ).toM (config32 4 4 2 2).B_TILE_SIZE (config32 4 4 2 2).H (config32 4 4 2 2).N (all_ones ℤ) (all_ones ℤ) idx
        else (⟨fun _ => 0, fun _ => 0⟩ : BwdOut ℤ).dk_f_out idx) ∧
    (2 * (config32 4 4 2 2).H * (config32 4 4 2 2).N = (config32 4 4 2 2).H * (config32 4 4 2 2).N ↔ 2 = 1) :=
  ⟨config_valid 4 4 2 2, config32_valid 4 4 2 2, rfl, by decide, by decide, rfl, rfl,
    by decide, rfl, by decide, by decide, rfl, rfl, by decide,
    C23_dk_f_layout_amended (config 4 4 2 2) (config_valid 4 4 2 2) (config32 4 4 2 2)
      (config32_valid 4 4 2 2) (ones_tables ℤ) (ones_tables32 ℤ) (all_ones ℤ) (all_ones ℤ)
      (all_ones ℤ) (all_ones ℤ) (fun _ _ => (0 : ℤ)) 2 2 (⟨fun _ => 0, fun _ => 0⟩ : BwdOut ℤ)
      rfl (by decide) (by decide) rfl rfl (by decide) rfl (by decide) (by decide) rfl rfl
      (by decide)⟩

/-- Counterexample to C23 as stated: 2 batch tiles of one batch element, `2 ^ 20` channels in
tiles of one channel, `N = 4096`.  (`blockIdx.x`, channel) `= (1, 0)` and `(0, 0)` are
distinct and inside the grid, but `blockIdx.x * H * N = 2 ^ 32` wraps to `0`: both have the
`dk_f` offset `0`, which is not `(1 * H + 0) * N`, so the map is not injective and batch tile
`1` writes over the row of batch tile `0`. -/
theorem C23_dk_f_layout_counterexample :
    (config 2 1048576 1 1).B = 2 * (config 2 1048576 1 1).B_TILE_SIZE ∧
    (config 2 1048576 1 1).H = 1048576 * (config 2 1048576 1 1).H_TILE_SIZE ∧
    (1 : ℕ) < 2 ∧ 0 * (config 2 1048576 1 1).H_TILE_SIZE + 0 < (config 2 1048576 1 1).H ∧
    bwd_dk_f_offset (config 2 1048576 1 1).N (config 2 1048576 1 1).H
        (config 2 1048576 1 1).H_TILE_SIZE 1 0 0
      = bwd_dk_f_offset (config 2 1048576 1 1).N (config 2 1048576 1 1).H
        (config 2 1048576 1 1).H_TILE_SIZE 0 0 0 ∧
    bwd_dk_f_offset (config 2 1048576 1 1).N (config 2 1048576 1 1).H
        (config 2 1048576 1 1).H_TILE_SIZE 1 0 0
      ≠ (1 * (config 2 1048576 1 1).H + (0 * (config 2 1048576 1 1).H_TILE_SIZE + 0))
          * (config 2 1048576 1 1).N := by
  norm_num [config, bwd_dk_f_offset, u32]

/-! ## The tiles of the warps partition the sequence -/

section tiles

/-- The pairs `(k_idx, warp_id)` number the 16 blocks: every block number has exactly one
pair. -/
theorem block_number_unique {W : ℕ} (hW : W ∣ 16) (blk : ℕ) (hblk : blk < 16) :
    ∃! p : ℕ × ℕ, p.1 < 16 / W ∧ p.2 < W ∧ p.1 * W + p.2 = blk := by
  obtain ⟨w, k, hw, hk, hwk⟩ := tile_exists hW hblk
  refine ⟨(k, w), ⟨hk, hw, hwk⟩, ?_⟩
  rintro ⟨k1, w1⟩ ⟨h1, h2, h3⟩
  simp only at h1 h2 h3
  obtain ⟨e1, e2⟩ := @tile_inj W w1 k1 w k h2 hw (by omega)
  rw [e1, e2]

/-- The pairs `(k_idx, warp_id)` number the 64 outer tiles of the 16_32_32 kernel. -/
theorem block_number_unique64 {W : ℕ} (hW : W ∣ 16) (blk : ℕ) (hblk : blk < 64) :
    ∃! p : ℕ × ℕ, p.1 < 64 / W ∧ p.2 < W ∧ p.1 * W + p.2 = blk := by
  obtain ⟨w, k, hw, hk, hwk⟩ := tile_exists64 hW hblk
  refine ⟨(k, w), ⟨hk, hw, hwk⟩, ?_⟩
  rintro ⟨k1, w1⟩ ⟨h1, h2, h3⟩
  simp only at h1 h2 h3
  obtain ⟨e1, e2⟩ := @tile_inj W w1 k1 w k h2 hw (by omega)
  rw [e1, e2]

/-- The outer-stage tiles (16 rows of stride 256 by 16 columns) of the 16_16_16 kernels stay
inside `[0, 4096)`. -/
theorem outer_tile_lt (P : Params) (hD : P.DFT_SIZE = 16) (hW : P.WARP_TILE_SIZE ∣ 16)
    {k_idx warp_id r c : ℕ} (hk : k_idx < 16 / P.WARP_TILE_SIZE)
    (hw : warp_id < P.WARP_TILE_SIZE) (hr : r < 16) (hc : c < 16) :
    k_idx_offset_outer P k_idx warp_id + r * 256 + c < 4096 := by
  have ht := tile_lt hW hw hk
  simp only [k_idx_offset_outer, hD]
  omega

/-- Every index below `4096` lies in exactly one outer-stage tile of the 16_16_16 kernels, at
exactly one (row, column). -/
theorem outer_tile_cover (P : Params) (hD : P.DFT_SIZE = 16) (hW : P.WARP_TILE_SIZE ∣ 16)
    (j : ℕ) (hj : j < 4096) :
    ∃! p : ℕ × ℕ × ℕ × ℕ, p.1 < 16 / P.WARP_TILE_SIZE ∧ p.2.1 < P.WARP_TILE_SIZE ∧
      p.2.2.1 < 16 ∧ p.2.2.2 < 16 ∧
      k_idx_offset_outer P p.1 p.2.1 + p.2.2.1 * 256 + p.2.2.2 = j := by
  obtain ⟨w, k, hw, hk, hwk⟩ := tile_exists hW (show j % 256 / 16 < 16 by omega)
  simp only [k_idx_offset_outer, hD]
  refine ⟨(k, w, j / 256, j % 16),
    ⟨hk, hw, by dsimp only; omega, by dsimp only; omega, by dsimp only; omega⟩, ?_⟩
  rintro ⟨k1, w1, r1, c1⟩ ⟨h1, h2, h3, h4, h5⟩
  simp only at h1 h2 h3 h4 h5
  have ht := tile_lt hW h2 h1
  obtain ⟨e1, e2⟩ := @tile_inj P.WARP_TILE_SIZE w1 k1 w k h2 hw (by omega)
  subst e1 e2
  have er : r1 = j / 256 := by omega
  have ec : c1 = j % 16 := by omega
  rw [er, ec]

end tiles

section own_tile
variable {K : Type} [CommRing K]

omit [CommRing K] in
/-- An address outside the `r × r` tile of a `store_matrix_sync` keeps its value. -/
theorem store_matrix_sync_frame (mem : ℕ → K) (ptr ldm r : ℕ) (M : Frag K) (layout : Layout)
    (idx : ℕ) (h : ∀ i j, i < r → j < r → idx ≠ ptr + i * ldm + j) :
    store_matrix_sync mem ptr ldm r M layout idx = mem idx := by
  simp only [store_matrix_sync]
  rw [if_neg]
  rintro ⟨h1, h2, h3⟩
  rcases Nat.eq_zero_or_pos ldm with h0 | h0
  · rw [h0, Nat.div_zero] at h2
    rw [h0, Nat.mod_zero] at h3
    exact h 0 (idx - ptr) h2 h3 (by rw [h0]; omega)
  · have e := Nat.div_add_mod' (idx - ptr) ldm
    exact h _ _ h2 h3 (by omega)

/-- The in-place outer inverse DFT of the 16_16_16 backward kernel, one `(warp_id, k_idx)`
iteration: it changes only the tile of the warp, and what it writes at column `c` of the tile
is computed from column `c` of the same tile. -/
theorem bwd_outer_idft_own_tile (P : Params) (hv : P.Valid) (T : Tables K) (w k : ℕ)
    (s : BwdState K) :
    (∀ idx, (∀ r c, r < 16 → c < 16 → idx ≠ k_idx_offset_outer P k w + r * 256 + c) →
      (bwd_outer_idft P T w k s).a idx = s.a idx) ∧
    (∀ r c, r < 16 → c < 16 →
      (bwd_outer_idft P T w k s).a (k_idx_offset_outer P k w + r * 256 + c)
        = ∑ x ∈ Finset.range 16, (s.a (k_idx_offset_outer P k w + x * 256 + c)
            * T.twiddle_factors_256_ifft (k_idx_offset_outer P k w + x * 256 + c))
            * T.b_ifft (16 * x + r)) := by
  constructor
  · intro idx h
    simp only [bwd_outer_idft, complex_matmul_c2c_twiddle, hv.r_eq]
    exact store_matrix_sync_frame _ _ _ _ _ _ idx h
  · intro r c hr hc
    simp only [bwd_outer_idft, complex_matmul_c2c_twiddle, hv.r_eq, k_idx_offset_outer,
      twiddle_256_idft_frag]
    rw [store_col_apply _ _ _ _ _ _ _ hc hr (by norm_num)]
    simp only [mma, frag_mul, load_matrix_sync, b_frag_idft, hv.hsqrt]
    apply Finset.sum_congr rfl
    intro x _
    have e : 0 + x * 16 + r = 16 * x + r := by omega
    rw [e]

/-- The in-place outer inverse DFT of the 16_32_32 backward kernel, one `(warp_id, k_idx)`
iteration: it changes only the tile of the warp, and what it writes at column `c` of the tile
is computed from column `c` of the same tile. -/
theorem bwd32_outer_idft_own_tile (P : Params32) (hv : P.Valid) (T : Tables32 K) (w k : ℕ)
    (s : BwdState K) :
    (∀ idx, (∀ r c, r < 16 → c < 16 → idx ≠ k_idx_offset_outer32 P k w + r * 1024 + c) →
      (bwd32_outer_idft P T w k s).a idx = s.a idx) ∧
    (∀ r c, r < 16 → c < 16 →
      (bwd32_outer_idft P T w k s).a (k_idx_offset_outer32 P k w + r * 1024 + c)
        = ∑ x ∈ Finset.range 16, (s.a (k_idx_offset_outer32 P k w + x * 1024 + c)
            * T.twiddle_factors_N_ifft (k_idx_offset_outer32 P k w + x * 1024 + c))
            * T.b_16_ifft (16 * x + r)) := by
  constructor
  · intro idx h
    simp only [bwd32_outer_idft, complex_matmul_c2c_twiddle, hv.r_1_eq]
    exact store_matrix_sync_frame _ _ _ _ _ _ idx h
  · intro r c hr hc
    simp only [bwd32_outer_idft, complex_matmul_c2c_twiddle, hv.r_1_eq, k_idx_offset_outer32,
      twiddle_1024_idft_frag]
    rw [store_col_apply _ _ _ _ _ _ _ hc hr (by norm_num)]
    simp only [mma, frag_mul, load_matrix_sync, b_frag_idft_N_1, sqrt_N_1]
    apply Finset.sum_congr rfl
    intro x _
    have e : 0 + x * 16 + r = 16 * x + r := by omega
    rw [e]

end own_tile

/-- C27: per-warp tiles partition the sequence.  When `WARP_TILE_SIZE` divides 16,
`(k_idx, warp_id) -> k_idx * WARP_TILE_SIZE + warp_id` with `warp_id < WARP_TILE_SIZE` is a
bijection onto the block numbers (`k_idx < 16 / WARP_TILE_SIZE` onto `[0, 16)`; in the outer
stages of the 16_32_32 kernel `k_idx < 64 / WARP_TILE_SIZE` onto `[0, 64)`).  The inner
`k_idx_offset` is `256 * blk` (16_16_16) resp. `1024 * blk` (16_32_32), the outer one
`16 * blk`.  In the 16_16_16 kernels the inner blocks `[256 blk, 256 blk + 256)`, `blk < 16`,
and the outer tiles `256 r + 16 blk + c`, `r, c < 16`, `blk < 16`, each partition `[0, 4096)`;
in the 16_32_32 kernel the inner blocks `[1024 blk, 1024 blk + 1024)`, `blk < 16`, and the
outer tiles `1024 r + 16 blk + c`, `r, c < 16`, `blk < 64`, each partition `[0, 16384)`: every
tile index is in bounds, every index lies in exactly one tile at exactly one position, and
the tiles of different `(warp_id, k_idx)` are disjoint.  The in-place final inverse stage of
the backward kernels changes only the tile of the warp and computes column `c` of the tile
from column `c` of the same tile. -/
theorem C27_warp_tiles_partition {K : Type} [CommRing K]
    (P : Params) (hv : P.Valid) (P2 : Params32) (hv2 : P2.Valid) (T : Tables K)
    (T2 : Tables32 K) (s : BwdState K) :
    (∀ k w, k < 16 / P.WARP_TILE_SIZE → w < P.WARP_TILE_SIZE → k * P.WARP_TILE_SIZE + w < 16) ∧
    (∀ blk, blk < 16 → ∃! p : ℕ × ℕ, p.1 < 16 / P.WARP_TILE_SIZE ∧ p.2 < P.WARP_TILE_SIZE ∧ p.1 * P.WARP_TILE_SIZE + p.2 = blk) ∧
    (∀ k w, k < 16 / P.WARP_TILE_SIZE → w < P.WARP_TILE_SIZE → k * P.WARP_TILE_SIZE + w < 16) ∧
    (∀ blk, blk < 16 →
      ∃! p : ℕ × ℕ, p.1 < 16 / P.WARP_TILE_SIZE ∧ p.2 < P.WARP_TILE_SIZE ∧ p.1 * P.WARP_TILE_SIZE + p.2 = blk) ∧
    (∀ k w, k_idx_offset_inner P k w = 256 * (k * P.WARP_TILE_SIZE + w) ∧ k_idx_offset_outer P k w = 16 * (k * P.WARP_TILE_SIZE + w)) ∧
    (∀ k w i, k < 16 / P.WARP_TILE_SIZE → w < P.WARP_TILE_SIZE → i < 256 → k_idx_offset_inner P k w + i < 4096) ∧
    (∀ j, j < 4096 →
      ∃! p : ℕ × ℕ × ℕ, p.1 < 16 / P.WARP_TILE_SIZE ∧ p.2.1 < P.WARP_TILE_SIZE ∧ p.2.2 < P.DFT_SIZE * P.DFT_SIZE ∧
        k_idx_offset_inner P p.1 p.2.1 + p.2.2 = j) ∧
    (∀ k w r c, k < 16 / P.WARP_TILE_SIZE → w < P.WARP_TILE_SIZE → r < 16 → c < 16 →
      k_idx_offset_outer P k w + r * 256 + c < 4096) ∧
    (∀ j, j < 4096 →
      ∃! p : ℕ × ℕ × ℕ × ℕ, p.1 < 16 / P.WARP_TILE_SIZE ∧ p.2.1 < P.WARP_TILE_SIZE ∧ p.2.2.1 < 16 ∧ p.2.2.2 < 16 ∧
        k_idx_offset_outer P p.1 p.2.1 + p.2.2.1 * 256 + p.2.2.2 = j) ∧
    (∀ k w k1 w1 i i1, w < P.WARP_TILE_SIZE → w1 < P.WARP_TILE_SIZE → (w ≠ w1 ∨ k ≠ k1) → i < 256 → i1 < 256 →
      k_idx_offset_inner P k w + i ≠ k_idx_offset_inner P k1 w1 + i1) ∧
    (∀ k w k1 w1 r c r1 c1, k < 16 / P.WARP_TILE_SIZE → w < P.WARP_TILE_SIZE → k1 < 16 / P.WARP_TILE_SIZE → w1 < P.WARP_TILE_SIZE →
      (w ≠ w1 ∨ k ≠ k1) → r < 16 → c < 16 → r1 < 16 → c1 < 16 →
      k_idx_offset_outer P k w + r * 256 + c ≠ k_idx_offset_outer P k1 w1 + r1 * 256 + c1) ∧
    (∀ k w idx, (∀ r c, r < 16 → c < 16 → idx ≠ k_idx_offset_outer P k w + r * 256 + c) →
      (bwd_outer_idft P T w k s).a idx = s.a idx) ∧
    (∀ k w r c, r < 16 → c < 16 →
      (bwd_outer_idft P T w k s).a (k_idx_offset_outer P k w + r * 256 + c)
        = ∑ x ∈ Finset.range 16, (s.a (k_idx_offset_outer P k w + x * 256 + c)
            * T.twiddle_factors_256_ifft (k_idx_offset_outer P k w + x * 256 + c)) * T.b_ifft (16 * x + r)) ∧
    (∀ k w, k < 16 / P2.WARP_TILE_SIZE → w < P2.WARP_TILE_SIZE → k * P2.WARP_TILE_SIZE + w < 16) ∧
    (∀ blk, blk < 16 → ∃! p : ℕ × ℕ, p.1 < 16 / P2.WARP_TILE_SIZE ∧ p.2 < P2.WARP_TILE_SIZE ∧ p.1 * P2.WARP_TILE_SIZE + p.2 = blk) ∧
    (∀ k w, k < 64 / P2.WARP_TILE_SIZE → w < P2.WARP_TILE_SIZE → k * P2.WARP_TILE_SIZE + w < 64) ∧
    (∀ blk, blk < 64 →
      ∃! p : ℕ × ℕ, p.1 < 64 / P2.WARP_TILE_SIZE ∧ p.2 < P2.WARP_TILE_SIZE ∧ p.1 * P2.WARP_TILE_SIZE + p.2 = blk) ∧
    (∀ k w, k_idx_offset_inner32 P2 k w = 1024 * (k * P2.WARP_TILE_SIZE + w) ∧ k_idx_offset_outer32 P2 k w = 16 * (k * P2.WARP_TILE_SIZE + w)) ∧
    (∀ k w i, k < 16 / P2.WARP_TILE_SIZE → w < P2.WARP_TILE_SIZE → i < 1024 → k_idx_offset_inner32 P2 k w + i < 16384) ∧
    (∀ j, j < 16384 →
      ∃! p : ℕ × ℕ × ℕ, p.1 < 16 / P2.WARP_TILE_SIZE ∧ p.2.1 < P2.WARP_TILE_SIZE ∧ p.2.2 < sqrt_N_2 * sqrt_N_2 ∧
        k_idx_offset_inner32 P2 p.1 p.2.1 + p.2.2 = j) ∧
    (∀ k w r c, k < 64 / P2.WARP_TILE_SIZE → w < P2.WARP_TILE_SIZE → r < 16 → c < 16 →
      k_idx_offset_outer32 P2 k w + r * 1024 + c < 16384) ∧
    (∀ j, j < 16384 →
      ∃! p : ℕ × ℕ × ℕ × ℕ, p.1 < 64 / P2.WARP_TILE_SIZE ∧ p.2.1 < P2.WARP_TILE_SIZE ∧ p.2.2.1 < 16 ∧ p.2.2.2 < 16 ∧
        k_idx_offset_outer32 P2 p.1 p.2.1 + p.2.2.1 * 1024 + p.2.2.2 = j) ∧
    (∀ k w k1 w1 i i1, w < P2.WARP_TILE_SIZE → w1 < P2.WARP_TILE_SIZE → (w ≠ w1 ∨ k ≠ k1) → i < 1024 → i1 < 1024 →
      k_idx_offset_inner32 P2 k w + i ≠ k_idx_offset_inner32 P2 k1 w1 + i1) ∧
    (∀ k w k1 w1 r c r1 c1, k < 64 / P2.WARP_TILE_SIZE → w < P2.WARP_TILE_SIZE → k1 < 64 / P2.WARP_TILE_SIZE → w1 < P2.WARP_TILE_SIZE →
      (w ≠ w1 ∨ k ≠ k1) → r < 16 → c < 16 → r1 < 16 → c1 < 16 →
      k_idx_offset_outer32 P2 k w + r * 1024 + c ≠ k_idx_offset_outer32 P2 k1 w1 + r1 * 1024 + c1) ∧
    (∀ k w idx, (∀ r c, r < 16 → c < 16 → idx ≠ k_idx_offset_outer32 P2 k w + r * 1024 + c) →
      (bwd32_outer_idft P2 T2 w k s).a idx = s.a idx) ∧
    (∀ k w r c, r < 16 → c < 16 →
      (bwd32_outer_idft P2 T2 w k s).a (k_idx_offset_outer32 P2 k w + r * 1024 + c)
        = ∑ x ∈ Finset.range 16, (s.a (k_idx_offset_outer32 P2 k w + x * 1024 + c)
            * T2.twiddle_factors_N_ifft (k_idx_offset_outer32 P2 k w + x * 1024 + c)) * T2.b_16_ifft (16 * x + r)) := by
  have hD := hv.hDFT
  have hW := hv.hwarp
  have hW2 := hv2.hwarp
  refine ⟨?_, ?_, ?_, ?_, ?_, ?_, ?_, ?_, ?_, ?_, ?_, ?_, ?_, ?_, ?_, ?_, ?_, ?_, ?_, ?_, ?_,
    ?_, ?_, ?_, ?_, ?_⟩
  · intro k w hk hw
    exact tile_lt hW hw hk
  · intro blk hblk
    exact block_number_unique hW blk hblk
  · intro k w hk hw
    exact tile_lt hW hw hk
  · intro blk hblk
    exact block_number_unique hW blk hblk
  · intro k w
    simp only [k_idx_offset_inner, k_idx_offset_outer, hD]
    constructor <;> ring
  · intro k w i hk hw hi
    exact inner_block_lt P hD hW hk hw (by rw [hD]; exact hi)
  · intro j hj
    exact inner_block_cover P hD hW j hj
  · intro k w r c hk hw hr hc
    exact outer_tile_lt P hD hW hk hw hr hc
  · intro j hj
    exact outer_tile_cover P hD hW j hj
  · intro k w k1 w1 i i1 hw hw1 hne hi hi1
    have h1 := tile_ne hw hw1 hne
    simp only [k_idx_offset_inner, hD]
    omega
  · intro k w k1 w1 r c r1 c1 hk hw hk1 hw1 hne hr hc hr1 hc1
    have h1 := tile_ne hw hw1 hne
    have h2 := tile_lt hW hw hk
    have h3 := tile_lt hW hw1 hk1
    simp only [k_idx_offset_outer, hD]
    omega
  · intro k w idx h
    exact (bwd_outer_idft_own_tile P hv T w k s).1 idx h
  · intro k w r c hr hc
    exact (bwd_outer_idft_own_tile P hv T w k s).2 r c hr hc
  · intro k w hk hw
    exact tile_lt hW2 hw hk
  · intro blk hblk
    exact block_number_unique hW2 blk hblk
  · intro k w hk hw
    exact tile_lt64 hW2 hw hk
  · intro blk hblk
    exact block_number_unique64 hW2 blk hblk
  · intro k w
    simp only [k_idx_offset_inner32, k_idx_offset_outer32, sqrt_N_1, sqrt_N_2]
    constructor <;> ring
  · intro k w i hk hw hi
    exact inner_block_lt32 P2 hW2 hk hw hi
  · intro j hj
    exact inner_block_cover32 P2 hW2 j hj
  · intro k w r c hk hw hr hc
    exact outer_tile_lt32 P2 hW2 hk hw hr hc
  · intro j hj
    exact outer_tile_cover32 P2 hW2 j hj
  · intro k w k1 w1 i i1 hw hw1 hne hi hi1
    have h1 := tile_ne hw hw1 hne
    simp only [k_idx_offset_inner32, sqrt_N_2]
    omega
  · intro k w k1 w1 r c r1 c1 hk hw hk1 hw1 hne hr hc hr1 hc1
    have h1 := tile_ne hw hw1 hne
    have h2 := tile_lt64 hW2 hw hk
    have h3 := tile_lt64 hW2 hw1 hk1
    simp only [k_idx_offset_outer32, sqrt_N_1]
    omega
  · intro k w idx h
    exact (bwd32_outer_idft_own_tile P2 hv2 T2 w k s).1 idx h
  · intro k w r c hr hc
    exact (bwd32_outer_idft_own_tile P2 hv2 T2 w k s).2 r c hr hc

/-- Witness of C27: the configurations of 8 warps (`WARP_TILE_SIZE = 8`), tables of ones. -/
theorem C27_warp_tiles_partition_witness :
    (config 1 1 1 1).Valid ∧ (config32 1 1 1 1).Valid ∧
    (∀ k w, k < 16 / (config 1 1 1 1).WARP_TILE_SIZE → w < (config 1 1 1 1).WARP_TILE_SIZE → k * (config 1 1 1 1).WARP_TILE_SIZE + w < 16) ∧
    (∀ blk, blk < 16 → ∃! p : ℕ × ℕ, p.1 < 16 / (config 1 1 1 1).WARP_TILE_SIZE ∧ p.2 < (config 1 1 1 1).WARP_TILE_SIZE ∧ p.1 * (config 1 1 1 1).WARP_TILE_SIZE + p.2 = blk) ∧
    (∀ k w, k < 16 / (config 1 1 1 1).WARP_TILE_SIZE → w < (config 1 1 1 1).WARP_TILE_SIZE → k * (config 1 1 1 1).WARP_TILE_SIZE + w < 16) ∧
    (∀ blk, blk < 16 →
      ∃! p : ℕ × ℕ, p.1 < 16 / (config 1 1 1 1).WARP_TILE_SIZE ∧ p.2 < (config 1 1 1 1).WARP_TILE_SIZE ∧ p.1 * (config 1 1 1 1).WARP_TILE_SIZE + p.2 = blk) ∧
    (∀ k w, k_idx_offset_inner (config 1 1 1 1) k w = 256 * (k * (config 1 1 1 1).WARP_TILE_SIZE + w) ∧ k_idx_offset_outer (config 1 1 1 1) k w = 16 * (k * (config 1 1 1 1).WARP_TILE_SIZE + w)) ∧
    (∀ k w i, k < 16 / (config 1 1 1 1).WARP_TILE_SIZE → w < (config 1 1 1 1).WARP_TILE_SIZE → i < 256 → k_idx_offset_inner (config 1 1 1 1) k w + i < 4096) ∧
    (∀ j, j < 4096 →
      ∃! p : ℕ × ℕ × ℕ, p.1 < 16 / (config 1 1 1 1).WARP_TILE_SIZE ∧ p.2.1 < (config 1 1 1 1).WARP_TILE_SIZE ∧ p.2.2 < (config 1 1 1 1).DFT_SIZE * (config 1 1 1 1).DFT_SIZE ∧
        k_idx_offset_inner (config 1 1 1 1) p.1 p.2.1 + p.2.2 = j) ∧
    (∀ k w r c, k < 16 / (config 1 1 1 1).WARP_TILE_SIZE → w < (config 1 1 1 1).WARP_TILE_SIZE → r < 16 → c < 16 →
      k_idx_offset_outer (config 1 1 1 1) k w + r * 256 + c < 4096) ∧
    (∀ j, j < 4096 →
      ∃! p : ℕ × ℕ × ℕ × ℕ, p.1 < 16 / (config 1 1 1 1).WARP_TILE_SIZE ∧ p.2.1 < (config 1 1 1 1).WARP_TILE_SIZE ∧ p.2.2.1 < 16 ∧ p.2.2.2 < 16 ∧
        k_idx_offset_outer (config 1 1 1 1) p.1 p.2.1 + p.2.2.1 * 256 + p.2.2.2 = j) ∧
    (∀ k w k1 w1 i i1, w < (config 1 1 1 1).WARP_TILE_SIZE → w1 < (config 1 1 1 1).WARP_TILE_SIZE → (w ≠ w1 ∨ k ≠ k1) → i < 256 → i1 < 256 →
      k_idx_offset_inner (config 1 1 1 1) k w + i ≠ k_idx_offset_inner (config 1 1 1 1) k1 w1 + i1) ∧
    (∀ k w k1 w1 r c r1 c1, k < 16 / (config 1 1 1 1).WARP_TILE_SIZE → w < (config 1 1 1 1).WARP_TILE_SIZE → k1 < 16 / (config 1 1 1 1).WARP_TILE_SIZE → w1 < (config 1 1 1 1).WARP_TILE_SIZE →
      (w ≠ w1 ∨ k ≠ k1) → r < 16 → c < 16 → r1 < 16 → c1 < 16 →
      k_idx_offset_outer (config 1 1 1 1) k w + r * 256 + c ≠ k_idx_offset_outer (config 1 1 1 1) k1 w1 + r1 * 256 + c1) ∧
    (∀ k w idx, (∀ r c, r < 16 → c < 16 → idx ≠ k_idx_offset_outer (config 1 1 1 1) k w + r * 256 + c) →
      (bwd_outer_idft (config 1 1 1 1) (ones_tables ℤ) w k (⟨fun _ => 0, fun _ => 0, fun _ _ => 0, fun _ _ => 0, fun _ => 0, fun _ => 0⟩ : BwdState ℤ)).a idx = (⟨fun _ => 0, fun _ => 0, fun _ _ => 0, fun _ _ => 0, fun _ => 0, fun _ => 0⟩ : BwdState ℤ).a idx) ∧
    (∀ k w r c, r < 16 → c < 16 →
      (bwd_outer_idft (config 1 1 1 1) (ones_tables ℤ) w k (⟨fun _ => 0, fun _ => 0, fun _ _ => 0, fun _ _ => 0, fun _ => 0, fun _ => 0⟩ : BwdState ℤ)).a (k_idx_offset_outer (config 1 1 1 1) k w + r * 256 + c)
        = ∑ x ∈ Finset.range 16, ((⟨fun _ => 0, fun _ => 0, fun _ _ => 0, fun _ _ => 0, fun _ => 0, fun _ => 0⟩ : BwdState ℤ).a (k_idx_offset_outer (config 1 1 1 1) k w + x * 256 + c)
            * (ones_tables ℤ).twiddle_factors_256_ifft (k_idx_offset_outer (config 1 1 1 1) k w + x * 256 + c)) * (ones_tables ℤ).b_ifft (16 * x + r)) ∧
    (∀ k w, k < 16 / (config32 1 1 1 1).WARP_TILE_SIZE → w < (config32 1 1 1 1).WARP_TILE_SIZE → k * (config32 1 1 1 1).WARP_TILE_SIZE + w < 16) ∧
    (∀ blk, blk < 16 → ∃! p : ℕ × ℕ, p.1 < 16 / (config32 1 1 1 1).WARP_TILE_SIZE ∧ p.2 < (config32 1 1 1 1).WARP_TILE_SIZE ∧ p.1 * (config32 1 1 1 1).WARP_TILE_SIZE + p.2 = blk) ∧
    (∀ k w, k < 64 / (config32 1 1 1 1).WARP_TILE_SIZE → w < (config32 1 1 1 1).WARP_TILE_SIZE → k * (config32 1 1 1 1).WARP_TILE_SIZE + w < 64) ∧
    (∀ blk, blk < 64 →
      ∃! p : ℕ × ℕ, p.1 < 64 / (config32 1 1 1 1).WARP_TILE_SIZE ∧ p.2 < (config32 1 1 1 1).WARP_TILE_SIZE ∧ p.1 * (config32 1 1 1 1).WARP_TILE_SIZE + p.2 = blk) ∧
    (∀ k w, k_idx_offset_inner32 (config32 1 1 1 1) k w = 1024 * (k * (config32 1 1 1 1).WARP_TILE_SIZE + w) ∧ k_idx_offset_outer32 (config32 1 1 1 1) k w = 16 * (k * (config32 1 1 1 1).WARP_TILE_SIZE + w)) ∧
    (∀ k w i, k < 16 / (config32 1 1 1 1).WARP_TILE_SIZE → w < (config32 1 1 1 1).WARP_TILE_SIZE → i < 1024 → k_idx_offset_inner32 (config32 1 1 1 1) k w + i < 16384) ∧
    (∀ j, j < 16384 →
      ∃! p : ℕ × ℕ × ℕ, p.1 < 16 / (config32 1 1 1 1).WARP_TILE_SIZE ∧ p.2.1 < (config32 1 1 1 1).WARP_TILE_SIZE ∧ p.2.2 < sqrt_N_2 * sqrt_N_2 ∧
        k_idx_offset_inner32 (config32 1 1 1 1) p.1 p.2.1 + p.2.2 = j) ∧
    (∀ k w r c, k < 64 / (config32 1 1 1 1).WARP_TILE_SIZE → w < (config32 1 1 1 1).WARP_TILE_SIZE → r < 16 → c < 16 →
      k_idx_offset_outer32 (config32 1 1 1 1) k w + r * 1024 + c < 16384) ∧
    (∀ j, j < 16384 →
      ∃! p : ℕ × ℕ × ℕ × ℕ, p.1 < 64 / (config32 1 1 1 1).WARP_TILE_SIZE ∧ p.2.1 < (config32 1 1 1 1).WARP_TILE_SIZE ∧ p.2.2.1 < 16 ∧ p.2.2.2 < 16 ∧
        k_idx_offset_outer32 (config32 1 1 1 1) p.1 p.2.1 + p.2.2.1 * 1024 + p.2.2.2 = j) ∧
    (∀ k w k1 w1 i i1, w < (config32 1 1 1 1).WARP_TILE_SIZE → w1 < (config32 1 1 1 1).WARP_TILE_SIZE → (w ≠ w1 ∨ k ≠ k1) → i < 1024 → i1 < 1024 →
      k_idx_offset_inner32 (config32 1 1 1 1) k w + i ≠ k_idx_offset_inner32 (config32 1 1 1 1) k1 w1 + i1) ∧
    (∀ k w k1 w1 r c r1 c1, k < 64 / (config32 1 1 1 1).WARP_TILE_SIZE → w < (config32 1 1 1 1).WARP_TILE_SIZE → k1 < 64 / (config32 1 1 1 1).WARP_TILE_SIZE → w1 < (config32 1 1 1 1).WARP_TILE_SIZE →
      (w ≠ w1 ∨ k ≠ k1) → r < 16 → c < 16 → r1 < 16 → c1 < 16 →
      k_idx_offset_outer32 (config32 1 1 1 1) k w + r * 1024 + c ≠ k_idx_offset_outer32 (config32 1 1 1 1) k1 w1 + r1 * 1024 + c1) ∧
    (∀ k w idx, (∀ r c, r < 16 → c < 16 → idx ≠ k_idx_offset_outer32 (config32 1 1 1 1) k w + r * 1024 + c) →
      (bwd32_outer_idft (config32 1 1 1 1) (ones_tables32 ℤ) w k (⟨fun _ => 0, fun _ => 0, fun _ _ => 0, fun _ _ => 0, fun _ => 0, fun _ => 0⟩ : BwdState ℤ)).a idx = (⟨fun _ => 0, fun _ => 0, fun _ _ => 0, fun _ _ => 0, fun _ => 0, fun _ => 0⟩ : BwdState ℤ).a idx) ∧
    (∀ k w r c, r < 16 → c < 16 →
      (bwd32_outer_idft (config32 1 1 1 1) (ones_tables32 ℤ) w k (⟨fun _ => 0, fun _ => 0, fun _ _ => 0, fun _ _ => 0, fun _ => 0, fun _ => 0⟩ : BwdState ℤ)).a (k_idx_offset_outer32 (config32 1 1 1 1) k w + r * 1024 + c)
        = ∑ x ∈ Finset.range 16, ((⟨fun _ => 0, fun _ => 0, fun _ _ => 0, fun _ _ => 0, fun _ => 0, fun _ => 0⟩ : BwdState ℤ).a (k_idx_offset_outer32 (config32 1 1 1 1) k w + x * 1024 + c)
            * (ones_tables32 ℤ).twiddle_factors_N_ifft (k_idx_offset_outer32 (config32 1 1 1 1) k w + x * 1024 + c)) * (ones_tables32 ℤ).b_16_ifft (16 * x + r)) :=
  ⟨config_valid 1 1 1 1, config32_valid 1 1 1 1,
    C27_warp_tiles_partition (config 1 1 1 1) (config_valid 1 1 1 1) (config32 1 1 1 1)
      (config32_valid 1 1 1 1) (ones_tables ℤ) (ones_tables32 ℤ) (⟨fun _ => 0, fun _ => 0, fun _ _ => 0, fun _ _ => 0, fun _ => 0, fun _ => 0⟩ : BwdState ℤ)⟩

/-! ## Matrix staging, branch by branch -/

section matrix_staging
variable {K : Type}

/-- The matrix staging of the source, executed thread after thread, is the closed form
`stage_matrix` on both branches. -/
theorem stage_matrix_loop_eq {nt : ℕ} (hnt : 0 < nt) (ipm : ℕ) (regs : ℕ → ℕ → K)
    (plane : ℕ → K) :
    stage_matrix_loop nt ipm regs plane = stage_matrix nt ipm regs plane := by
  unfold stage_matrix_loop stage_matrix
  by_cases h : nt ≤ 128
  · rw [if_pos h, if_pos h]
    exact regs_to_shared_loop_eq hnt (ipm / 2) regs plane
  · rw [if_neg h, if_neg h]
    funext idx
    have key := forRange_write_once (fun p : ℕ → K => p)
      (fun x => regs (x / 2) (x % 2)) (fun t x => t < 128 ∧ x / 2 = t) nt
      (fun thread_id plane =>
        if thread_id < 128 then
          write_half2 thread_id (regs thread_id 0) (regs thread_id 1) plane
        else plane)
      (fun t _ s x hR => by
        dsimp only
        rw [if_pos hR.1]
        simp only [write_half2]
        by_cases h0 : x = 2 * t
        · rw [if_pos h0]
          have e1 : x / 2 = t := by omega
          have e2 : x % 2 = 0 := by omega
          rw [e1, e2]
        · rw [if_neg h0, if_pos (by omega)]
          have e1 : x / 2 = t := by omega
          have e2 : x % 2 = 1 := by omega
          rw [e1, e2])
      (fun t _ s x hR => by
        dsimp only
        by_cases ht : t < 128
        · rw [if_pos ht]
          simp only [write_half2]
          have : ¬ x / 2 = t := fun e => hR ⟨ht, e⟩
          rw [if_neg (by omega), if_neg (by omega)]
        · rw [if_neg ht])
      plane idx
    by_cases hc : idx / 2 < 128
    · rw [if_pos hc]
      exact key.1 ⟨idx / 2, by omega, hc, rfl⟩
    · rw [if_neg hc]
      apply key.2
      rintro t _ ⟨h1, h2⟩
      omega

/-- After the matrix staging of a table loaded by the guarded striped load, entry `j` of the
plane holds entry `j` of the table, on both branches. -/
theorem stage_matrix_loop_apply {nt ipm : ℕ} (hnt : 0 < nt)
    (h1 : nt ≤ 128 → ipm / 2 * nt = 128) (h2 : 128 < nt → ipm = 2) (src : ℕ → K)
    (regs : ℕ → ℕ → K) (plane : ℕ → K) (j : ℕ) (hj : j < 256) :
    stage_matrix_loop nt ipm (BlockLoad_striped_guarded nt (ipm / 2) 128 src 0 regs) plane j
      = src j := by
  rw [stage_matrix_loop_eq hnt]
  exact stage_matrix_apply hnt h1 h2 src regs plane j hj

/-- The `__half2` index `h` of a plane of `half` such indices is written by exactly one
(thread, iteration) of the staging loop. -/
theorem half2_writer_unique {nt items half : ℕ} (hnt : 0 < nt) (hitems : items * nt = half)
    (h : ℕ) (hh : h < half) :
    ∃! p : ℕ × ℕ, p.1 < nt ∧ p.2 < items ∧ h = p.2 * nt + p.1 := by
  have hd : h / nt < items := by
    rw [Nat.div_lt_iff_lt_mul hnt, hitems]
    exact hh
  refine ⟨(h % nt, h / nt), ⟨Nat.mod_lt _ hnt, hd, (Nat.div_add_mod' _ _).symm⟩, ?_⟩
  rintro ⟨t, i⟩ ⟨a1, a2, a3⟩
  simp only at a1 a2 a3
  have e1 : h % nt = t := by
    rw [a3, Nat.add_comm, Nat.add_mul_mod_self_right, Nat.mod_eq_of_lt a1]
  have e2 : h / nt = i := by
    rw [a3, Nat.add_comm, Nat.add_mul_div_right _ _ hnt, Nat.div_eq_of_lt a1, Nat.zero_add]
  rw [e1, e2]

/-- The number of matrix items per thread of the 16_16_16 kernels for 32, 64, 128 or more
than 128 threads. -/
theorem matrix_items_of {P : Params} (hD : P.DFT_SIZE = 16)
    (h : P.num_threads = 32 ∨ P.num_threads = 64 ∨ P.num_threads = 128 ∨
      128 < P.num_threads) :
    (P.num_threads ≤ 128 → P.items_per_thread_matrix / 2 * P.num_threads = 128) ∧
    (128 < P.num_threads → P.items_per_thread_matrix = 2) := by
  unfold Params.items_per_thread_matrix
  rw [hD]
  rcases h with h | h | h | h
  · rw [h]
    simp
  · rw [h]
    simp
  · rw [h]
    simp
  · constructor
    · intro h1
      omega
    · intro _
      rw [if_neg (by omega)]

/-- The number of 32×32 matrix items per thread of the 16_32_32 kernel when `num_threads`
divides 512. -/
theorem matrix_items_N_2_of {P : Params32} (h : P.num_threads ∣ 512) :
    0 < P.num_threads ∧ P.items_per_thread_matrix_N_2 / 2 * P.num_threads = 512 := by
  obtain ⟨c, hc⟩ := h
  have hpos : 0 < P.num_threads := by
    rcases Nat.eq_zero_or_pos P.num_threads with h0 | h0
    · rw [h0] at hc
      omega
    · exact h0
  refine ⟨hpos, ?_⟩
  unfold Params32.items_per_thread_matrix_N_2 N_2
  have e : 1024 = P.num_threads * (2 * c) := by
    rw [← Nat.mul_assoc, Nat.mul_comm P.num_threads 2, Nat.mul_assoc, ← hc]
  rw [e, Nat.mul_div_cancel_left _ hpos, Nat.mul_div_cancel_left _ (by norm_num : 0 < 2),
    Nat.mul_comm]
  exact hc.symm

end matrix_staging

/-- C26: matrix staging is index-preserving on both code paths.  For `num_threads` in
`{32, 64, 128}` (the branch `num_threads <= 128`; kernel `P`) and for `num_threads > 128`
(the branch where only threads 0..127 write; kernel `Q`), the staging loop of the source, run
thread after thread, is the staging of the prologue, and after staging the tables `b` and
`b_ifft` loaded by the guarded striped load, `b_real[j] = Re(b[j])`, `b_imag[j] = Im(b[j])`,
`b_real_2[j] = Re(b_ifft[j])` and `b_imag_2[j] = Im(b_ifft[j])` for every `j < 256`; the
`__half2` holding entry `j` is written by exactly one (thread, iteration), resp. exactly one
thread below 128; so both branches produce the same contents of the 256 entries.  In the
16_32_32 kernel the unbranched 32×32 staging copies all 1024 entries of the loaded table,
each `__half2` written by exactly one (thread, iteration), when `num_threads` divides 512. -/
theorem C26_matrix_staging (P Q : Params) (P2 : Params32) (T : Tables ℂ)
    (regs regs1 regs2 : ℕ → ℕ → ℂ) (plane plane1 plane2 src2 : ℕ → ℂ)
    (s s1 : PrologueState ℂ) (s2 : PrologueState32 ℂ)
    (h1 : P.DFT_SIZE = 16)
    (h2 : P.num_threads = 32 ∨ P.num_threads = 64 ∨ P.num_threads = 128)
    (h3 : Q.DFT_SIZE = 16)
    (h4 : 128 < Q.num_threads)
    (h5 : P2.num_threads ∣ 512) :
    (∀ (R : ℕ → ℕ → ℂ) (p : ℕ → ℂ),
      stage_matrix_loop P.num_threads P.items_per_thread_matrix R p
        = stage_matrix P.num_threads P.items_per_thread_matrix R p) ∧
    ((prologue_stage_1 P T s).b
        = stage_matrix P.num_threads P.items_per_thread_matrix
          (BlockLoad_striped_guarded P.num_threads (P.items_per_thread_matrix / 2)
            (P.DFT_SIZE * P.DFT_SIZE / 2) T.b 0 s.b_input_data) s.b ∧
      (prologue_stage_1 P T s).b_2
        = stage_matrix P.num_threads P.items_per_thread_matrix
          (BlockLoad_striped_guarded P.num_threads (P.items_per_thread_matrix / 2)
            (P.DFT_SIZE * P.DFT_SIZE / 2) T.b_ifft 0 s.b_input_data_2) s.b_2) ∧
    (∀ j, j < 256 →
      (stage_matrix_loop P.num_threads P.items_per_thread_matrix
          (BlockLoad_striped_guarded P.num_threads (P.items_per_thread_matrix / 2) (P.DFT_SIZE * P.DFT_SIZE / 2) T.b 0 regs)
          plane j).re = (T.b j).re ∧
      (stage_matrix_loop P.num_threads P.items_per_thread_matrix
          (BlockLoad_striped_guarded P.num_threads (P.items_per_thread_matrix / 2) (P.DFT_SIZE * P.DFT_SIZE / 2) T.b 0 regs)
          plane j).im = (T.b j).im ∧
      (stage_matrix_loop P.num_threads P.items_per_thread_matrix
          (BlockLoad_striped_guarded P.num_threads (P.items_per_thread_matrix / 2) (P.DFT_SIZE * P.DFT_SIZE / 2) T.b_ifft 0 regs)
          plane j).re = (T.b_ifft j).re ∧
      (stage_matrix_loop P.num_threads P.items_per_thread_matrix
          (BlockLoad_striped_guarded P.num_threads (P.items_per_thread_matrix / 2) (P.DFT_SIZE * P.DFT_SIZE / 2) T.b_ifft 0 regs)
          plane j).im = (T.b_ifft j).im) ∧
    (∀ j, j < 256 →
      ∃! p : ℕ × ℕ, p.1 < P.num_threads ∧ p.2 < P.items_per_thread_matrix / 2 ∧
        j / 2 = p.2 * P.num_threads + p.1) ∧
    (∀ (R : ℕ → ℕ → ℂ) (p : ℕ → ℂ),
      stage_matrix_loop Q.num_threads Q.items_per_thread_matrix R p
        = stage_matrix Q.num_threads Q.items_per_thread_matrix R p) ∧
    ((prologue_stage_1 Q T s1).b
        = stage_matrix Q.num_threads Q.items_per_thread_matrix
          (BlockLoad_striped_guarded Q.num_threads (Q.items_per_thread_matrix / 2)
            (Q.DFT_SIZE * Q.DFT_SIZE / 2) T.b 0 s1.b_input_data) s1.b ∧
      (prologue_stage_1 Q T s1).b_2
        = stage_matrix Q.num_threads Q.items_per_thread_matrix
          (BlockLoad_striped_guarded Q.num_threads (Q.items_per_thread_matrix / 2)
            (Q.DFT_SIZE * Q.DFT_SIZE / 2) T.b_ifft 0 s1.b_input_data_2) s1.b_2) ∧
    (∀ j, j < 256 →
      (stage_matrix_loop Q.num_threads Q.items_per_thread_matrix
          (BlockLoad_striped_guarded Q.num_threads (Q.items_per_thread_matrix / 2) (Q.DFT_SIZE * Q.DFT_SIZE / 2) T.b 0 regs1)
          plane1 j).re = (T.b j).re ∧
      (stage_matrix_loop Q.num_threads Q.items_per_thread_matrix
          (BlockLoad_striped_guarded Q.num_threads (Q.items_per_thread_matrix / 2) (Q.DFT_SIZE * Q.DFT_SIZE / 2) T.b 0 regs1)
          plane1 j).im = (T.b j).im ∧
      (stage_matrix_loop Q.num_threads Q.items_per_thread_matrix
          (BlockLoad_striped_guarded Q.num_threads (Q.items_per_thread_matrix / 2) (Q.DFT_SIZE * Q.DFT_SIZE / 2) T.b_ifft 0 regs1)
          plane1 j).re = (T.b_ifft j).re ∧
      (stage_matrix_loop Q.num_threads Q.items_per_thread_matrix
          (BlockLoad_striped_guarded Q.num_threads (Q.items_per_thread_matrix / 2) (Q.DFT_SIZE * Q.DFT_SIZE / 2) T.b_ifft 0 regs1)
          plane1 j).im = (T.b_ifft j).im) ∧
    (∀ j, j < 256 → ∃! t : ℕ, t < Q.num_threads ∧ t < 128 ∧ j / 2 = t) ∧
    (∀ j, j < 256 →
      stage_matrix_loop P.num_threads P.items_per_thread_matrix
          (BlockLoad_striped_guarded P.num_threads (P.items_per_thread_matrix / 2) (P.DFT_SIZE * P.DFT_SIZE / 2) T.b 0 regs)
          plane j
        = stage_matrix_loop Q.num_threads Q.items_per_thread_matrix
          (BlockLoad_striped_guarded Q.num_threads (Q.items_per_thread_matrix / 2) (Q.DFT_SIZE * Q.DFT_SIZE / 2) T.b 0 regs1)
          plane1 j ∧
      stage_matrix_loop P.num_threads P.items_per_thread_matrix
          (BlockLoad_striped_guarded P.num_threads (P.items_per_thread_matrix / 2) (P.DFT_SIZE * P.DFT_SIZE / 2) T.b_ifft 0 regs)
          plane j
        = stage_matrix_loop Q.num_threads Q.items_per_thread_matrix
          (BlockLoad_striped_guarded Q.num_threads (Q.items_per_thread_matrix / 2) (Q.DFT_SIZE * Q.DFT_SIZE / 2) T.b_ifft 0 regs1)
          plane1 j) ∧
    (∀ (R : ℕ → ℕ → ℂ) (p : ℕ → ℂ),
      regs_to_shared_loop P2.num_threads (P2.items_per_thread_matrix_N_2 / 2) R p
        = regs_to_shared P2.num_threads (P2.items_per_thread_matrix_N_2 / 2) R p) ∧
    ((prologue32_stage_5 P2 s2).b
        = regs_to_shared P2.num_threads (P2.items_per_thread_matrix_N_2 / 2)
          s2.b_input_data s2.b ∧
      (prologue32_stage_5 P2 s2).b_2
        = regs_to_shared P2.num_threads (P2.items_per_thread_matrix_N_2 / 2)
          s2.b_input_data_2 s2.b_2) ∧
    (∀ j, j < 1024 →
      regs_to_shared_loop P2.num_threads (P2.items_per_thread_matrix_N_2 / 2)
          (BlockLoad_striped_guarded P2.num_threads (P2.items_per_thread_matrix_N_2 / 2)
            (N_2 / 2) src2 0 regs2) plane2 j = src2 j) ∧
    (∀ j, j < 1024 →
      ∃! p : ℕ × ℕ, p.1 < P2.num_threads ∧ p.2 < P2.items_per_thread_matrix_N_2 / 2 ∧
        j / 2 = p.2 * P2.num_threads + p.1) := by
  have hP : 0 < P.num_threads := by omega
  have hQ : 0 < Q.num_threads := by omega
  have iP := matrix_items_of h1 (by omega)
  have iQ := matrix_items_of h3 (Or.inr (Or.inr (Or.inr h4)))
  have gP : P.DFT_SIZE * P.DFT_SIZE / 2 = 128 := by rw [h1]
  have gQ : Q.DFT_SIZE * Q.DFT_SIZE / 2 = 128 := by rw [h3]
  obtain ⟨hP2, i2⟩ := matrix_items_N_2_of h5
  have g2 : N_2 / 2 = 512 := rfl
  have aP : ∀ (src : ℕ → ℂ) j, j < 256 →
      stage_matrix_loop P.num_threads P.items_per_thread_matrix
        (BlockLoad_striped_guarded P.num_threads (P.items_per_thread_matrix / 2)
          (P.DFT_SIZE * P.DFT_SIZE / 2) src 0 regs) plane j = src j := by
    intro src j hj
    rw [gP]
    exact stage_matrix_loop_apply hP iP.1 iP.2 src regs plane j hj
  have aQ : ∀ (src : ℕ → ℂ) j, j < 256 →
      stage_matrix_loop Q.num_threads Q.items_per_thread_matrix
        (BlockLoad_striped_guarded Q.num_threads (Q.items_per_thread_matrix / 2)
          (Q.DFT_SIZE * Q.DFT_SIZE / 2) src 0 regs1) plane1 j = src j := by
    intro src j hj
    rw [gQ]
    exact stage_matrix_loop_apply hQ iQ.1 iQ.2 src regs1 plane1 j hj
  refine ⟨fun R p => stage_matrix_loop_eq hP _ R p, ⟨rfl, rfl⟩, ?_, ?_,
    fun R p => stage_matrix_loop_eq hQ _ R p, ⟨rfl, rfl⟩, ?_, ?_, ?_,
    fun R p => regs_to_shared_loop_eq hP2 _ R p, ⟨rfl, rfl⟩, ?_, ?_⟩
  · intro j hj
    rw [aP T.b j hj, aP T.b_ifft j hj]
    exact ⟨rfl, rfl, rfl, rfl⟩
  · intro j hj
    exact half2_writer_unique hP (iP.1 (by omega)) (j / 2) (by omega)
  · intro j hj
    rw [aQ T.b j hj, aQ T.b_ifft j hj]
    exact ⟨rfl, rfl, rfl, rfl⟩
  · intro j hj
    refine ⟨j / 2, ⟨by omega, by omega, rfl⟩, ?_⟩
    rintro t ⟨_, _, e⟩
    exact e.symm
  · intro j hj
    rw [aP T.b j hj, aP T.b_ifft j hj, aQ T.b j hj, aQ T.b_ifft j hj]
    exact ⟨rfl, rfl⟩
  · intro j hj
    rw [regs_to_shared_loop_eq hP2, g2,
      regs_to_shared_guarded hP2 i2 src2 0 regs2 plane2 j (by omega), Nat.zero_add]
  · intro j hj
    exact half2_writer_unique hP2 i2 (j / 2) (by omega)

/-- Witness of C26: 128 threads (32 × 4) on the first branch, 256 threads (32 × 8) on the
second and in the 16_32_32 kernel, tables of ones. -/
theorem C26_matrix_staging_witness :
    ((config128 1 1 1 1).DFT_SIZE = 16) ∧
    ((config128 1 1 1 1).num_threads = 32 ∨ (config128 1 1 1 1).num_threads = 64 ∨ (config128 1 1 1 1).num_threads = 128) ∧
    ((config 1 1 1 1).DFT_SIZE = 16) ∧
    (128 < (config 1 1 1 1).num_threads) ∧
    ((config32 1 1 1 1).num_threads ∣ 512) ∧
    (∀ (R : ℕ → ℕ → ℂ) (p : ℕ → ℂ),
      stage_matrix_loop (config128 1 1 1 1).num_threads (config128 1 1 1 1).items_per_thread_matrix R p
        = stage_matrix (config128 1 1 1 1).num_threads (config128 1 1 1 1).items_per_thread_matrix R p) ∧
    ((prologue_stage_1 (config128 1 1 1 1) (ones_tables ℂ) (PrologueState.zero ℂ)).b
        = stage_matrix (config128 1 1 1 1).num_threads (config128 1 1 1 1).items_per_thread_matrix
          (BlockLoad_striped_guarded (config128 1 1 1 1).num_threads ((config128 1 1 1 1).items_per_thread_matrix / 2)
            ((config128 1 1 1 1).DFT_SIZE * (config128 1 1 1 1).DFT_SIZE / 2) (ones_tables ℂ).b 0 (PrologueState.zero ℂ).b_input_data) (PrologueState.zero ℂ).b ∧
      (prologue_stage_1 (config128 1 1 1 1) (ones_tables ℂ) (PrologueState.zero ℂ)).b_2
        = stage_matrix (config128 1 1 1 1).num_threads (config128 1 1 1 1).items_per_thread_matrix
          (BlockLoad_striped_guarded (config128 1 1 1 1).num_threads ((config128 1 1 1 1).items_per_thread_matrix / 2)
            ((config128 1 1 1 1).DFT_SIZE * (config128 1 1 1 1).DFT_SIZE / 2) (ones_tables ℂ).b_ifft 0 (PrologueState.zero ℂ).b_input_data_2) (PrologueState.zero ℂ).b_2) ∧
    (∀ j, j < 256 →
      (stage_matrix_loop (config128 1 1 1 1).num_threads (config128 1 1 1 1).items_per_thread_matrix
          (BlockLoad_striped_guarded (config128 1 1 1 1).num_threads ((config128 1 1 1 1).items_per_thread_matrix / 2) ((config128 1 1 1 1).DFT_SIZE * (config128 1 1 1 1).DFT_SIZE / 2) (ones_tables ℂ).b 0 (fun _ _ => (0 : ℂ)))
          (fun _ => (0 : ℂ)) j).re = ((ones_tables ℂ).b j).re ∧
      (stage_matrix_loop (config128 1 1 1 1).num_threads (config128 1 1 1 1).items_per_thread_matrix
          (BlockLoad_striped_guarded (config128 1 1 1 1).num_threads ((config128 1 1 1 1).items_per_thread_matrix / 2) ((config128 1 1 1 1).DFT_SIZE * (config128 1 1 1 1).DFT_SIZE / 2) (ones_tables ℂ).b 0 (fun _ _ => (0 : ℂ)))
          (fun _ => (0 : ℂ)) j).im = ((ones_tables ℂ).b j).im ∧
      (stage_matrix_loop (config128 1 1 1 1).num_threads (config128 1 1 1 1).items_per_thread_matrix
          (BlockLoad_striped_guarded (config128 1 1 1 1).num_threads ((config128 1 1 1 1).items_per_thread_matrix / 2) ((config128 1 1 1 1).DFT_SIZE * (config128 1 1 1 1).DFT_SIZE / 2) (ones_tables ℂ).b_ifft 0 (fun _ _ => (0 : ℂ)))
          (fun _ => (0 : ℂ)) j).re = ((ones_tables ℂ).b_ifft j).re ∧
      (stage_matrix_loop (config128 1 1 1 1).num_threads (config128 1 1 1 1).items_per_thread_matrix
          (BlockLoad_striped_guarded (config128 1 1 1 1).num_threads ((config128 1 1 1 1).items_per_thread_matrix / 2) ((config128 1 1 1 1).DFT_SIZE * (config128 1 1 1 1).DFT_SIZE / 2) (ones_tables ℂ).b_ifft 0 (fun _ _ => (0 : ℂ)))
          (fun _ => (0 : ℂ)) j).im = ((ones_tables ℂ).b_ifft j).im) ∧
    (∀ j, j < 256 →
      ∃! p : ℕ × ℕ, p.1 < (config128 1 1 1 1).num_threads ∧ p.2 < (config128 1 1 1 1).items_per_thread_matrix / 2 ∧
        j / 2 = p.2 * (config128 1 1 1 1).num_threads + p.1) ∧
    (∀ (R : ℕ → ℕ → ℂ) (p : ℕ → ℂ),
      stage_matrix_loop (config 1 1 1 1).num_threads (config 1 1 1 1).items_per_thread_matrix R p
        = stage_matrix (config 1 1 1 1).num_threads (config 1 1 1 1).items_per_thread_matrix R p) ∧
    ((prologue_stage_1 (config 1 1 1 1) (ones_tables ℂ) (PrologueState.zero ℂ)).b
        = stage_matrix (config 1 1 1 1).num_threads (config 1 1 1 1).items_per_thread_matrix
          (BlockLoad_striped_guarded (config 1 1 1 1).num_threads ((config 1 1 1 1).items_per_thread_matrix / 2)
            ((config 1 1 1 1).DFT_SIZE * (config 1 1 1 1).DFT_SIZE / 2) (ones_tables ℂ).b 0 (PrologueState.zero ℂ).b_input_data) (PrologueState.zero ℂ).b ∧
      (prologue_stage_1 (config 1 1 1 1) (ones_tables ℂ) (PrologueState.zero ℂ)).b_2
        = stage_matrix (config 1 1 1 1).num_threads (config 1 1 1 1).items_per_thread_matrix
          (BlockLoad_striped_guarded (config 1 1 1 1).num_threads ((config 1 1 1 1).items_per_thread_matrix / 2)
            ((config 1 1 1 1).DFT_SIZE * (config 1 1 1 1).DFT_SIZE / 2) (ones_tables ℂ).b_ifft 0 (PrologueState.zero ℂ).b_input_data_2) (PrologueState.zero ℂ).b_2) ∧
    (∀ j, j < 256 →
      (stage_matrix_loop (config 1 1 1 1).num_threads (config 1 1 1 1).items_per_thread_matrix
          (BlockLoad_striped_guarded (config 1 1 1 1).num_threads ((config 1 1 1 1).items_per_thread_matrix / 2) ((config 1 1 1 1).DFT_SIZE * (config 1 1 1 1).DFT_SIZE / 2) (ones_tables ℂ).b 0 (fun _ _ => (0 : ℂ)))
          (all_ones ℂ) j).re = ((ones_tables ℂ).b j).re ∧
      (stage_matrix_loop (config 1 1 1 1).num_threads (config 1 1 1 1).items_per_thread_matrix
          (BlockLoad_striped_guarded (config 1 1 1 1).num_threads ((config 1 1 1 1).items_per_thread_matrix / 2) ((config 1 1 1 1).DFT_SIZE * (config 1 1 1 1).DFT_SIZE / 2) (ones_tables ℂ).b 0 (fun _ _ => (0 : ℂ)))
          (all_ones ℂ) j).im = ((ones_tables ℂ).b j).im ∧
      (stage_matrix_loop (config 1 1 1 1).num_threads (config 1 1 1 1).items_per_thread_matrix
          (BlockLoad_striped_guarded (config 1 1 1 1).num_threads ((config 1 1 1 1).items_per_thread_matrix / 2) ((config 1 1 1 1).DFT_SIZE * (config 1 1 1 1).DFT_SIZE / 2) (ones_tables ℂ).b_ifft 0 (fun _ _ => (0 : ℂ)))
          (all_ones ℂ) j).re = ((ones_tables ℂ).b_ifft j).re ∧
      (stage_matrix_loop (config 1 1 1 1).num_threads (config 1 1 1 1).items_per_thread_matrix
          (BlockLoad_striped_guarded (config 1 1 1 1).num_threads ((config 1 1 1 1).items_per_thread_matrix / 2) ((config 1 1 1 1).DFT_SIZE * (config 1 1 1 1).DFT_SIZE / 2) (ones_tables ℂ).b_ifft 0 (fun _ _ => (0 : ℂ)))
          (all_ones ℂ) j).im = ((ones_tables ℂ).b_ifft j).im) ∧
    (∀ j, j < 256 → ∃! t : ℕ, t < (config 1 1 1 1).num_threads ∧ t < 128 ∧ j / 2 = t) ∧
    (∀ j, j < 256 →
      stage_matrix_loop (config128 1 1 1 1).num_threads (config128 1 1 1 1).items_per_thread_matrix
          (BlockLoad_striped_guarded (config128 1 1 1 1).num_threads ((config128 1 1 1 1).items_per_thread_matrix / 2) ((config128 1 1 1 1).DFT_SIZE * (config128 1 1 1 1).DFT_SIZE / 2) (ones_tables ℂ).b 0 (fun _ _ => (0 : ℂ)))
          (fun _ => (0 : ℂ)) j
        = stage_matrix_loop (config 1 1 1 1).num_threads (config 1 1 1 1).items_per_thread_matrix
          (BlockLoad_striped_guarded (config 1 1 1 1).num_threads ((config 1 1 1 1).items_per_thread_matrix / 2) ((config 1 1 1 1).DFT_SIZE * (config 1 1 1 1).DFT_SIZE / 2) (ones_tables ℂ).b 0 (fun _ _ => (0 : ℂ)))
          (all_ones ℂ) j ∧
      stage_matrix_loop (config128 1 1 1 1).num_threads (config128 1 1 1 1).items_per_thread_matrix
          (BlockLoad_striped_guarded (config128 1 1 1 1).num_threads ((config128 1 1 1 1).items_per_thread_matrix / 2) ((config128 1 1 1 1).DFT_SIZE * (config128 1 1 1 1).DFT_SIZE / 2) (ones_tables ℂ).b_ifft 0 (fun _ _ => (0 : ℂ)))
          (fun _ => (0 : ℂ)) j
        = stage_matrix_loop (config 1 1 1 1).num_threads (config 1 1 1 1).items_per_thread_matrix
          (BlockLoad_striped_guarded (config 1 1 1 1).num_threads ((config 1 1 1 1).items_per_thread_matrix / 2) ((config 1 1 1 1).DFT_SIZE * (config 1 1 1 1).DFT_SIZE / 2) (ones_tables ℂ).b_ifft 0 (fun _ _ => (0 : ℂ)))
          (all_ones ℂ) j) ∧
    (∀ (R : ℕ → ℕ → ℂ) (p : ℕ → ℂ),
      regs_to_shared_loop (config32 1 1 1 1).num_threads ((config32 1 1 1 1).items_per_thread_matrix_N_2 / 2) R p
        = regs_to_shared (config32 1 1 1 1).num_threads ((config32 1 1 1 1).items_per_thread_matrix_N_2 / 2) R p) ∧
    ((prologue32_stage_5 (config32 1 1 1 1) (PrologueState32.zero ℂ)).b
        = regs_to_shared (config32 1 1 1 1).num_threads ((config32 1 1 1 1).items_per_thread_matrix_N_2 / 2)
          (PrologueState32.zero ℂ).b_input_data (PrologueState32.zero ℂ).b ∧
      (prologue32_stage_5 (config32 1 1 1 1) (PrologueState32.zero ℂ)).b_2
        = regs_to_shared (config32 1 1 1 1).num_threads ((config32 1 1 1 1).items_per_thread_matrix_N_2 / 2)
          (PrologueState32.zero ℂ).b_input_data_2 (PrologueState32.zero ℂ).b_2) ∧
    (∀ j, j < 1024 →
      regs_to_shared_loop (config32 1 1 1 1).num_threads ((config32 1 1 1 1).items_per_thread_matrix_N_2 / 2)
          (BlockLoad_striped_guarded (config32 1 1 1 1).num_threads ((config32 1 1 1 1).items_per_thread_matrix_N_2 / 2)
            (N_2 / 2) (all_ones ℂ) 0 (fun _ _ => (0 : ℂ))) (fun _ => (0 : ℂ)) j = (all_ones ℂ) j) ∧
    (∀ j, j < 1024 →
      ∃! p : ℕ × ℕ, p.1 < (config32 1 1 1 1).num_threads ∧ p.2 < (config32 1 1 1 1).items_per_thread_matrix_N_2 / 2 ∧
        j / 2 = p.2 * (config32 1 1 1 1).num_threads + p.1) :=
  ⟨rfl, Or.inr (Or.inr rfl), rfl, by decide, ⟨2, rfl⟩,
    C26_matrix_staging (config128 1 1 1 1) (config 1 1 1 1)
      (config32 1 1 1 1) (ones_tables ℂ) (fun _ _ => (0 : ℂ)) (fun _ _ => (0 : ℂ))
      (fun _ _ => (0 : ℂ)) (fun _ => (0 : ℂ)) (all_ones ℂ) (fun _ => (0 : ℂ)) (all_ones ℂ)
      (PrologueState.zero ℂ) (PrologueState.zero ℂ) (PrologueState32.zero ℂ)
      rfl (Or.inr (Or.inr rfl)) rfl (by decide) ⟨2, rfl⟩⟩

/-! ## The staging loops stay inside the planes -/

section layout

/-- The elements `2 * a_idx` and `2 * a_idx + 1` written by the staging loop
`for i < L / num_threads / 2: a_idx = i * num_threads + thread_id` lie below `L`. -/
theorem staging_index_lt {L nt i t : ℕ} (hi : i < L / nt / 2) (ht : t < nt) :
    2 * (i * nt + t) + 1 < L := by
  have h1 : (i + 1) * nt ≤ L / nt / 2 * nt := Nat.mul_le_mul_right nt hi
  have h2 : L / nt / 2 * 2 ≤ L / nt := Nat.div_mul_le_self _ _
  have h3 : L / nt / 2 * 2 * nt ≤ L / nt * nt := Nat.mul_le_mul_right nt h2
  have h4 : L / nt * nt ≤ L := Nat.div_mul_le_self _ _
  have e1 : (i + 1) * nt = i * nt + nt := by ring
  have e2 : L / nt / 2 * 2 * nt = 2 * (L / nt / 2 * nt) := by ring
  omega

/-- A `__half2` store at index `a_idx` of a plane with `2 * a_idx + 1 < len` stays inside the
region of the plane. -/
theorem half2_elems_in (r : Region) {a_idx : ℕ} (h : 2 * a_idx + 1 < r.len) :
    r.base ≤ (half2_elems r.base a_idx).1 ∧ (half2_elems r.base a_idx).2 < r.base + r.len := by
  simp only [half2_elems]
  omega

end layout

/-- C28: scratch layout.  The named sub-regions of the single flat shared buffer, in the
order of their declarations, are contiguous (each starts where the previous one ends) and
pairwise disjoint: forward 16_16_16: `a_real` `[0, N)`, `a_imag` `[N, 2N)`, then four
256-element matrix planes up to `2N + 1024`; backward 16_16_16: four `N`-element planes then
four 256-element planes up to `4N + 1024`; backward 16_32_32: four `N`-element planes then
four 1024-element planes up to `4N + 4096`.  Every element written by a staging loop
(`__half2` index `i * num_threads + thread_id`, elements `2 *` that and `2 *` that `+ 1` of the
plane) lies inside the region of the plane it targets: the sequence staging
(`i < items_per_thread_input / 2`) in `a_real`/`a_imag`, the matrix staging on both of its
branches (`i < items_per_thread_matrix / 2`, resp. `thread_id < 128`) and the unbranched 32×32
staging of the 16_32_32 kernel in the matrix planes. -/
theorem C28_scratch_layout (P : Params) (P2 : Params32)
    (h1 : P.DFT_SIZE = 16) :
    List.Chain' (fun r s : Region => r.base + r.len = s.base) (fwd_regions P.N) ∧
    List.Pairwise (fun r s : Region => r.base + r.len ≤ s.base) (fwd_regions P.N) ∧
    (fwd_regions P.N).map (fun r => (r.base, r.base + r.len))
      = [(0, P.N), (P.N, 2 * P.N), (2 * P.N, 2 * P.N + 256), (2 * P.N + 256, 2 * P.N + 512),
        (2 * P.N + 512, 2 * P.N + 768), (2 * P.N + 768, 2 * P.N + 1024)] ∧
    (∀ r ∈ (fwd_regions P.N).take 2, ∀ i thread_id, i < P.items_per_thread_input / 2 →
      thread_id < P.num_threads →
      (r.base ≤ (half2_elems r.base (i * P.num_threads + thread_id)).1 ∧ (half2_elems r.base (i * P.num_threads + thread_id)).2 < r.base + r.len)) ∧
    (∀ r ∈ (fwd_regions P.N).drop 2,
      (P.num_threads ≤ 128 → ∀ i thread_id, i < P.items_per_thread_matrix / 2 →
        thread_id < P.num_threads →
        (r.base ≤ (half2_elems r.base (i * P.num_threads + thread_id)).1 ∧ (half2_elems r.base (i * P.num_threads + thread_id)).2 < r.base + r.len)) ∧
      (128 < P.num_threads → ∀ thread_id, thread_id < 128 →
        (r.base ≤ (half2_elems r.base (thread_id)).1 ∧ (half2_elems r.base (thread_id)).2 < r.base + r.len))) ∧
    List.Chain' (fun r s : Region => r.base + r.len = s.base) (bwd_regions P.N) ∧
    List.Pairwise (fun r s : Region => r.base + r.len ≤ s.base) (bwd_regions P.N) ∧
    (bwd_regions P.N).map (fun r => (r.base, r.base + r.len))
      = [(0, P.N), (P.N, 2 * P.N), (2 * P.N, 3 * P.N), (3 * P.N, 4 * P.N),
        (4 * P.N, 4 * P.N + 256), (4 * P.N + 256, 4 * P.N + 512),
        (4 * P.N + 512, 4 * P.N + 768), (4 * P.N + 768, 4 * P.N + 1024)] ∧
    (∀ r ∈ (bwd_regions P.N).take 2, ∀ i thread_id, i < P.items_per_thread_input / 2 →
      thread_id < P.num_threads →
      (r.base ≤ (half2_elems r.base (i * P.num_threads + thread_id)).1 ∧ (half2_elems r.base (i * P.num_threads + thread_id)).2 < r.base + r.len)) ∧
    (∀ r ∈ (bwd_regions P.N).drop 4,
      (P.num_threads ≤ 128 → ∀ i thread_id, i < P.items_per_thread_matrix / 2 →
        thread_id < P.num_threads →
        (r.base ≤ (half2_elems r.base (i * P.num_threads + thread_id)).1 ∧ (half2_elems r.base (i * P.num_threads + thread_id)).2 < r.base + r.len)) ∧
      (128 < P.num_threads → ∀ thread_id, thread_id < 128 →
        (r.base ≤ (half2_elems r.base (thread_id)).1 ∧ (half2_elems r.base (thread_id)).2 < r.base + r.len))) ∧
    List.Chain' (fun r s : Region => r.base + r.len = s.base) (bwd32_regions P2.N) ∧
    List.Pairwise (fun r s : Region => r.base + r.len ≤ s.base) (bwd32_regions P2.N) ∧
    (bwd32_regions P2.N).map (fun r => (r.base, r.base + r.len))
      = [(0, P2.N), (P2.N, 2 * P2.N), (2 * P2.N, 3 * P2.N), (3 * P2.N, 4 * P2.N),
        (4 * P2.N, 4 * P2.N + 1024), (4 * P2.N + 1024, 4 * P2.N + 2048),
        (4 * P2.N + 2048, 4 * P2.N + 3072), (4 * P2.N + 3072, 4 * P2.N + 4096)] ∧
    (∀ r ∈ (bwd32_regions P2.N).take 2, ∀ i thread_id, i < P2.items_per_thread_input / 2 →
      thread_id < P2.num_threads →
      (r.base ≤ (half2_elems r.base (i * P2.num_threads + thread_id)).1 ∧ (half2_elems r.base (i * P2.num_threads + thread_id)).2 < r.base + r.len)) ∧
    (∀ r ∈ (bwd32_regions P2.N).drop 4,
      (P2.num_threads ≤ 128 → ∀ i thread_id, i < P2.items_per_thread_matrix_N_1 / 2 →
        thread_id < P2.num_threads →
        (r.base ≤ (half2_elems r.base (i * P2.num_threads + thread_id)).1 ∧ (half2_elems r.base (i * P2.num_threads + thread_id)).2 < r.base + r.len)) ∧
      (128 < P2.num_threads → ∀ thread_id, thread_id < 128 →
        (r.base ≤ (half2_elems r.base (thread_id)).1 ∧ (half2_elems r.base (thread_id)).2 < r.base + r.len))) ∧
    (∀ r ∈ (bwd32_regions P2.N).drop 4, ∀ i thread_id,
      i < P2.items_per_thread_matrix_N_2 / 2 → thread_id < P2.num_threads →
      (r.base ≤ (half2_elems r.base (i * P2.num_threads + thread_id)).1 ∧ (half2_elems r.base (i * P2.num_threads + thread_id)).2 < r.base + r.len)) := by
  have seqP : ∀ i t, i < P.items_per_thread_input / 2 → t < P.num_threads →
      2 * (i * P.num_threads + t) + 1 < P.N := fun i t hi ht => staging_index_lt hi ht
  have seqP2 : ∀ i t, i < P2.items_per_thread_input / 2 → t < P2.num_threads →
      2 * (i * P2.num_threads + t) + 1 < P2.N := fun i t hi ht => staging_index_lt hi ht
  have matP : P.num_threads ≤ 128 → ∀ i t, i < P.items_per_thread_matrix / 2 →
      t < P.num_threads → 2 * (i * P.num_threads + t) + 1 < 256 := by
    intro hle i t hi ht
    unfold Params.items_per_thread_matrix at hi
    rw [if_pos hle, h1] at hi
    exact staging_index_lt hi ht
  have matP2 : P2.num_threads ≤ 128 → ∀ i t, i < P2.items_per_thread_matrix_N_1 / 2 →
      t < P2.num_threads → 2 * (i * P2.num_threads + t) + 1 < 256 := by
    intro hle i t hi ht
    unfold Params32.items_per_thread_matrix_N_1 N_1 at hi
    rw [if_pos hle] at hi
    exact staging_index_lt hi ht
  have matN2 : ∀ i t, i < P2.items_per_thread_matrix_N_2 / 2 →
      t < P2.num_threads → 2 * (i * P2.num_threads + t) + 1 < 1024 := by
    intro i t hi ht
    unfold Params32.items_per_thread_matrix_N_2 N_2 at hi
    exact staging_index_lt hi ht
  refine ⟨?_, ?_, ?_, ?_, ?_, ?_, ?_, ?_, ?_, ?_, ?_, ?_, ?_, ?_, ?_, ?_⟩
  · simp only [fwd_regions, List.chain'_cons, List.chain'_singleton, and_true]
    omega
  · simp only [fwd_regions, List.pairwise_cons, List.mem_cons, List.mem_singleton,
      forall_eq_or_imp, forall_eq, List.not_mem_nil, false_implies, implies_true,
      List.Pairwise.nil, and_true]
    omega
  · simp only [fwd_regions, List.map_cons, List.map_nil]
    ring_nf
  · intro r hr i t hi ht
    simp only [fwd_regions, List.take, List.mem_cons, List.mem_singleton, List.not_mem_nil,
      or_false] at hr
    rcases hr with rfl | rfl <;> exact half2_elems_in _ (seqP i t hi ht)
  · intro r hr
    simp only [fwd_regions, List.drop, List.mem_cons, List.mem_singleton, List.not_mem_nil,
      or_false] at hr
    rcases hr with rfl | rfl | rfl | rfl <;>
      exact ⟨fun hle i t hi ht => half2_elems_in _ (matP hle i t hi ht),
        fun _ t ht => half2_elems_in _ (show 2 * t + 1 < 256 by omega)⟩
  · simp only [bwd_regions, List.chain'_cons, List.chain'_singleton, and_true]
    omega
  · simp only [bwd_regions, List.pairwise_cons, List.mem_cons, List.mem_singleton,
      forall_eq_or_imp, forall_eq, List.not_mem_nil, false_implies, implies_true,
      List.Pairwise.nil, and_true]
    omega
  · simp only [bwd_regions, List.map_cons, List.map_nil]
    ring_nf
  · intro r hr i t hi ht
    simp only [bwd_regions, List.take, List.mem_cons, List.mem_singleton, List.not_mem_nil,
      or_false] at hr
    rcases hr with rfl | rfl <;> exact half2_elems_in _ (seqP i t hi ht)
  · intro r hr
    simp only [bwd_regions, List.drop, List.mem_cons, List.mem_singleton, List.not_mem_nil,
      or_false] at hr
    rcases hr with rfl | rfl | rfl | rfl <;>
      exact ⟨fun hle i t hi ht => half2_elems_in _ (matP hle i t hi ht),
        fun _ t ht => half2_elems_in _ (show 2 * t + 1 < 256 by omega)⟩
  · simp only [bwd32_regions, N_2, List.chain'_cons, List.chain'_singleton, and_true]
    omega
  · simp only [bwd32_regions, N_2, List.pairwise_cons, List.mem_cons, List.mem_singleton,
      forall_eq_or_imp, forall_eq, List.not_mem_nil, false_implies, implies_true,
      List.Pairwise.nil, and_true]
    omega
  · simp only [bwd32_regions, N_2, List.map_cons, List.map_nil]
    ring_nf
  · intro r hr i t hi ht
    simp only [bwd32_regions, List.take, List.mem_cons, List.mem_singleton, List.not_mem_nil,
      or_false] at hr
    rcases hr with rfl | rfl <;> exact half2_elems_in _ (seqP2 i t hi ht)
  · intro r hr
    simp only [bwd32_regions, N_2, List.drop, List.mem_cons, List.mem_singleton,
      List.not_mem_nil, or_false] at hr
    rcases hr with rfl | rfl | rfl | rfl <;>
      exact ⟨fun hle i t hi ht => half2_elems_in _
          (show 2 * (i * P2.num_threads + t) + 1 < 1024 by
            have := matP2 hle i t hi ht
            omega),
        fun _ t ht => half2_elems_in _ (show 2 * t + 1 < 1024 by omega)⟩
  · intro r hr i t hi ht
    simp only [bwd32_regions, N_2, List.drop, List.mem_cons, List.mem_singleton,
      List.not_mem_nil, or_false] at hr
    rcases hr with rfl | rfl | rfl | rfl <;> exact half2_elems_in _ (matN2 i t hi ht)

/-- Witness of C28: the configurations with 256 threads. -/
theorem C28_scratch_layout_witness :
    ((config 1 1 1 1).DFT_SIZE = 16) ∧
    List.Chain' (fun r s : Region => r.base + r.len = s.base) (fwd_regions (config 1 1 1 1).N) ∧
    List.Pairwise (fun r s : Region => r.base + r.len ≤ s.base) (fwd_regions (config 1 1 1 1).N) ∧
    (fwd_regions (config 1 1 1 1).N).map (fun r => (r.base, r.base + r.len))
      = [(0, (config 1 1 1 1).N), ((config 1 1 1 1).N, 2 * (config 1 1 1 1).N), (2 * (config 1 1 1 1).N, 2 * (config 1 1 1 1).N + 256), (2 * (config 1 1 1 1).N + 256, 2 * (config 1 1 1 1).N + 512),
        (2 * (config 1 1 1 1).N + 512, 2 * (config 1 1 1 1).N + 768), (2 * (config 1 1 1 1).N + 768, 2 * (config 1 1 1 1).N + 1024)] ∧
    (∀ r ∈ (fwd_regions (config 1 1 1 1).N).take 2, ∀ i thread_id, i < (config 1 1 1 1).items_per_thread_input / 2 →
      thread_id < (config 1 1 1 1).num_threads →
      (r.base ≤ (half2_elems r.base (i * (config 1 1 1 1).num_threads + thread_id)).1 ∧ (half2_elems r.base (i * (config 1 1 1 1).num_threads + thread_id)).2 < r.base + r.len)) ∧
    (∀ r ∈ (fwd_regions (config 1 1 1 1).N).drop 2,
      ((config 1 1 1 1).num_threads ≤ 128 → ∀ i thread_id, i < (config 1 1 1 1).items_per_thread_matrix / 2 →
        thread_id < (config 1 1 1 1).num_threads →
        (r.base ≤ (half2_elems r.base (i * (config 1 1 1 1).num_threads + thread_id)).1 ∧ (half2_elems r.base (i * (config 1 1 1 1).num_threads + thread_id)).2 < r.base + r.len)) ∧
      (128 < (config 1 1 1 1).num_threads → ∀ thread_id, thread_id < 128 →
        (r.base ≤ (half2_elems r.base (thread_id)).1 ∧ (half2_elems r.base (thread_id)).2 < r.base + r.len))) ∧
    List.Chain' (fun r s : Region => r.base + r.len = s.base) (bwd_regions (config 1 1 1 1).N) ∧
    List.Pairwise (fun r s : Region => r.base + r.len ≤ s.base) (bwd_regions (config 1 1 1 1).N) ∧
    (bwd_regions (config 1 1 1 1).N).map (fun r => (r.base, r.base + r.len))
      = [(0, (config 1 1 1 1).N), ((config 1 1 1 1).N, 2 * (config 1 1 1 1).N), (2 * (config 1 1 1 1).N, 3 * (config 1 1 1 1).N), (3 * (config 1 1 1 1).N, 4 * (config 1 1 1 1).N),
        (4 * (config 1 1 1 1).N, 4 * (config 1 1 1 1).N + 256), (4 * (config 1 1 1 1).N + 256, 4 * (config 1 1 1 1).N + 512),
        (4 * (config 1 1 1 1).N + 512, 4 * (config 1 1 1 1).N + 768), (4 * (config 1 1 1 1).N + 768, 4 * (config 1 1 1 1).N + 1024)] ∧
    (∀ r ∈ (bwd_regions (config 1 1 1 1).N).take 2, ∀ i thread_id, i < (config 1 1 1 1).items_per_thread_input / 2 →
      thread_id < (config 1 1 1 1).num_threads →
      (r.base ≤ (half2_elems r.base (i * (config 1 1 1 1).num_threads + thread_id)).1 ∧ (half2_elems r.base (i * (config 1 1 1 1).num_threads + thread_id)).2 < r.base + r.len)) ∧
    (∀ r ∈ (bwd_regions (config 1 1 1 1).N).drop 4,
      ((config 1 1 1 1).num_threads ≤ 128 → ∀ i thread_id, i < (config 1 1 1 1).items_per_thread_matrix / 2 →
        thread_id < (config 1 1 1 1).num_threads →
        (r.base ≤ (half2_elems r.base (i * (config 1 1 1 1).num_threads + thread_id)).1 ∧ (half2_elems r.base (i * (config 1 1 1 1).num_threads + thread_id)).2 < r.base + r.len)) ∧
      (128 < (config 1 1 1 1).num_threads → ∀ thread_id, thread_id < 128 →
        (r.base ≤ (half2_elems r.base (thread_id)).1 ∧ (half2_elems r.base (thread_id)).2 < r.base + r.len))) ∧
    List.Chain' (fun r s : Region => r.base + r.len = s.base) (bwd32_regions (config32 1 1 1 1).N) ∧
    List.Pairwise (fun r s : Region => r.base + r.len ≤ s.base) (bwd32_regions (config32 1 1 1 1).N) ∧
    (bwd32_regions (config32 1 1 1 1).N).map (fun r => (r.base, r.base + r.len))
      = [(0, (config32 1 1 1 1).N), ((config32 1 1 1 1).N, 2 * (config32 1 1 1 1).N), (2 * (config32 1 1 1 1).N, 3 * (config32 1 1 1 1).N), (3 * (config32 1 1 1 1).N, 4 * (config32 1 1 1 1).N),
        (4 * (config32 1 1 1 1).N, 4 * (config32 1 1 1 1).N + 1024), (4 * (config32 1 1 1 1).N + 1024, 4 * (config32 1 1 1 1).N + 2048),
        (4 * (config32 1 1 1 1).N + 2048, 4 * (config32 1 1 1 1).N + 3072), (4 * (config32 1 1 1 1).N + 3072, 4 * (config32 1 1 1 1).N + 4096)] ∧
    (∀ r ∈ (bwd32_regions (config32 1 1 1 1).N).take 2, ∀ i thread_id, i < (config32 1 1 1 1).items_per_thread_input / 2 →
      thread_id < (config32 1 1 1 1).num_threads →
      (r.base ≤ (half2_elems r.base (i * (config32 1 1 1 1).num_threads + thread_id)).1 ∧ (half2_elems r.base (i * (config32 1 1 1 1).num_threads + thread_id)).2 < r.base + r.len)) ∧
    (∀ r ∈ (bwd32_regions (config32 1 1 1 1).N).drop 4,
      ((config32 1 1 1 1).num_threads ≤ 128 → ∀ i thread_id, i < (config32 1 1 1 1).items_per_thread_matrix_N_1 / 2 →
        thread_id < (config32 1 1 1 1).num_threads →
        (r.base ≤ (half2_elems r.base (i * (config32 1 1 1 1).num_threads + thread_id)).1 ∧ (half2_elems r.base (i * (config32 1 1 1 1).num_threads + thread_id)).2 < r.base + r.len)) ∧
      (128 < (config32 1 1 1 1).num_threads → ∀ thread_id, thread_id < 128 →
        (r.base ≤ (half2_elems r.base (thread_id)).1 ∧ (half2_elems r.base (thread_id)).2 < r.base + r.len))) ∧
    (∀ r ∈ (bwd32_regions (config32 1 1 1 1).N).drop 4, ∀ i thread_id,
      i < (config32 1 1 1 1).items_per_thread_matrix_N_2 / 2 → thread_id < (config32 1 1 1 1).num_threads →
      (r.base ≤ (half2_elems r.base (i * (config32 1 1 1 1).num_threads + thread_id)).1 ∧ (half2_elems r.base (i * (config32 1 1 1 1).num_threads + thread_id)).2 < r.base + r.len)) :=
  ⟨rfl, C28_scratch_layout (config 1 1 1 1) (config32 1 1 1 1) rfl⟩

/-! ## Barriers of the channel loops -/

section barriers

set_option maxRecDepth 100000 in
/-- No two statements of the channel loop of the forward kernel that stand between the same
two barriers have conflicting accesses. -/
theorem fwd_channel_races : races (two_iterations fwd_channel_loop_body) = [] := rfl

set_option maxRecDepth 100000 in
/-- No two statements of the channel loop of the 16_16_16 backward kernel that stand between
the same two barriers have conflicting accesses. -/
theorem bwd_channel_races : races (two_iterations bwd_channel_loop_body) = [] := rfl

set_option maxRecDepth 100000 in
/-- No two statements of the channel loop of the 16_32_32 backward kernel that stand between
the same two barriers have conflicting accesses. -/
theorem bwd32_channel_races : races (two_iterations bwd32_channel_loop_body) = [] := rfl

end barriers

/-- C21, amended: barrier discipline of the channel loops of the three kernels, on their
statement sequences (a helper call is one statement, a loop is taken on two consecutive
iterations).  Inside the per-block inner loop the successive matrix-multiply calls are NOT
separated by `__syncthreads()` (those barriers are commented out), nor is the second forward
matrix multiply separated from the `x * N` scaling; the only barriers inside the inner loop
of the backward kernels stand between the `x * N` scaling and the conjugate product and
between the conjugate product and the first inverse matrix multiply.  The listed pairs are
all the transitions of a channel loop that no barrier separates: consecutive iterations of
the fragment-load loop and of the outer loops, and the transitions of the inner loop.  Every
two statements whose accesses to the scratch planes can meet in an element from different
warps (same plane, one of them a write, not both confined to the same per-thread or per-warp
part of the plane) are separated by a barrier: the bulk load of the filter, the capture of
`k_frag`, the outer DFT loop, the inner loop, the outer inverse DFT loop and the write-back
loops are separated from one another (without the barrier of line 408, resp. 543, the listed
pairs would conflict).  The transitions without a barrier join statements confined to the
block of the executing warp: one `(warp_id, k_idx)` iteration of the inner loop changes the
scratch planes only inside `[k_idx_offset, k_idx_offset + 256)` (16_16_16) resp.
`[k_idx_offset, k_idx_offset + 1024)` (16_32_32). -/
theorem C21_barrier_discipline_amended {K : Type} [CommRing K] [StarRing K]
    (P : Params) (hv : P.Valid) (P2 : Params32) (hv2 : P2.Valid) (T : Tables K)
    (T2 : Tables32 K) (kf : ℕ → ℕ → Frag K) (w k : ℕ) (sf : FwdState K) (s : BwdState K) :
    unsynced_transitions fwd_inner_loop_body = [(416, 451), (451, 472)] ∧
    unsynced_transitions bwd_inner_loop_body
      = [(426, 440), (440, 452), (452, 466), (466, 477), (507, 529)] ∧
    unsynced_transitions bwd32_inner_loop_body
      = [(488, 502), (502, 514), (514, 528), (528, 539), (569, 580)] ∧
    (unsynced_transitions (two_iterations fwd_channel_loop_body)).dedup
      = [(360, 360), (397, 397), (472, 416), (416, 451), (451, 472), (493, 493)] ∧
    (unsynced_transitions (two_iterations bwd_channel_loop_body)).dedup
      = [(369, 369), (406, 395), (395, 406), (529, 426), (426, 440), (440, 452), (452, 466),
        (466, 477), (507, 529), (551, 551)] ∧
    (unsynced_transitions (two_iterations bwd32_channel_loop_body)).dedup
      = [(430, 430), (467, 456), (456, 467), (580, 488), (488, 502), (502, 514), (514, 528),
        (528, 539), (569, 580), (602, 602)] ∧
    races (two_iterations fwd_channel_loop_body) = [] ∧
    races (two_iterations bwd_channel_loop_body) = [] ∧
    races (two_iterations bwd32_channel_loop_body) = [] ∧
    races ([Stmt.op 397 .matmul [⟨.a, true, .outer⟩]] ++ fwd_inner_loop_body)
      = [(397, 416), (397, 451), (397, 472)] ∧
    races (bwd_inner_loop_body
        ++ [Stmt.op 551 .matmul [⟨.a, false, .outer⟩, ⟨.a, true, .outer⟩]])
      = [(529, 551), (507, 551)] ∧
    (∀ idx, ¬ (k_idx_offset_inner P k w ≤ idx ∧ idx < k_idx_offset_inner P k w + 256) →
      (fwd_inner P T kf w k sf).a idx = sf.a idx) ∧
    (∀ idx, ¬ (k_idx_offset_inner P k w ≤ idx ∧ idx < k_idx_offset_inner P k w + 256) →
      (bwd_inner P T kf w k s).a idx = s.a idx ∧ (bwd_inner P T kf w k s).a_2 idx = s.a_2 idx) ∧
    (∀ idx, ¬ (k_idx_offset_inner32 P2 k w ≤ idx ∧ idx < k_idx_offset_inner32 P2 k w + 1024) →
      (bwd32_inner P2 T2 kf w k s).a idx = s.a idx ∧
        (bwd32_inner P2 T2 kf w k s).a_2 idx = s.a_2 idx) := by
  have e : k_idx_offset_inner P k w = 256 * (k * P.WARP_TILE_SIZE + w) := by
    simp only [k_idx_offset_inner, hv.hDFT]
    ring
  have e2 : k_idx_offset_inner32 P2 k w = 1024 * (k * P2.WARP_TILE_SIZE + w) := by
    simp only [k_idx_offset_inner32, sqrt_N_2]
    ring
  refine ⟨rfl, rfl, rfl, by decide, by decide, by decide, fwd_channel_races,
    bwd_channel_races, bwd32_channel_races, rfl, rfl, ?_, ?_, ?_⟩
  · intro idx h
    rw [e] at h
    exact fwd_inner_frame P hv T kf w k sf idx h
  · intro idx h
    rw [e] at h
    exact bwd_inner_frame P hv T kf w k s idx h
  · intro idx h
    rw [e2] at h
    exact bwd32_inner_frame P2 hv2 T2 kf w k s idx h

/-- Witness of C21: warp 3, second iteration, of the configurations with 8 warps, tables of
ones. -/
theorem C21_barrier_discipline_amended_witness :
    (config 1 1 1 1).Valid ∧ (config32 1 1 1 1).Valid ∧
    unsynced_transitions fwd_inner_loop_body = [(416, 451), (451, 472)] ∧
    unsynced_transitions bwd_inner_loop_body
      = [(426, 440), (440, 452), (452, 466), (466, 477), (507, 529)] ∧
    unsynced_transitions bwd32_inner_loop_body
      = [(488, 502), (502, 514), (514, 528), (528, 539), (569, 580)] ∧
    (unsynced_transitions (two_iterations fwd_channel_loop_body)).dedup
      = [(360, 360), (397, 397), (472, 416), (416, 451), (451, 472), (493, 493)] ∧
    (unsynced_transitions (two_iterations bwd_channel_loop_body)).dedup
      = [(369, 369), (406, 395), (395, 406), (529, 426), (426, 440), (440, 452), (452, 466),
        (466, 477), (507, 529), (551, 551)] ∧
    (unsynced_transitions (two_iterations bwd32_channel_loop_body)).dedup
      = [(430, 430), (467, 456), (456, 467), (580, 488), (488, 502), (502, 514), (514, 528),
        (528, 539), (569, 580), (602, 602)] ∧
    races (two_iterations fwd_channel_loop_body) = [] ∧
    races (two_iterations bwd_channel_loop_body) = [] ∧
    races (two_iterations bwd32_channel_loop_body) = [] ∧
    races ([Stmt.op 397 .matmul [⟨.a, true, .outer⟩]] ++ fwd_inner_loop_body)
      = [(397, 416), (397, 451), (397, 472)] ∧
    races (bwd_inner_loop_body
        ++ [Stmt.op 551 .matmul [⟨.a, false, .outer⟩, ⟨.a, true, .outer⟩]])
      = [(529, 551), (507, 551)] ∧
    (∀ idx, ¬ (k_idx_offset_inner (config 1 1 1 1) 1 3 ≤ idx ∧ idx < k_idx_offset_inner (config 1 1 1 1) 1 3 + 256) →
      (fwd_inner (config 1 1 1 1) (ones_tables ℤ) (fun _ _ _ _ => (1 : ℤ)) 3 1 (⟨fun _ => 0, fun _ => 0⟩ : FwdState ℤ)).a idx = (⟨fun _ => 0, fun _ => 0⟩ : FwdState ℤ).a idx) ∧
    (∀ idx, ¬ (k_idx_offset_inner (config 1 1 1 1) 1 3 ≤ idx ∧ idx < k_idx_offset_inner (config 1 1 1 1) 1 3 + 256) →
      (bwd_inner (config 1 1 1 1) (ones_tables ℤ) (fun _ _ _ _ => (1 : ℤ)) 3 1 (⟨fun _ => 0, fun _ => 0, fun _ _ => 0, fun _ _ => 0, fun _ => 0, fun _ => 0⟩ : BwdState ℤ)).a idx = (⟨fun _ => 0, fun _ => 0, fun _ _ => 0, fun _ _ => 0, fun _ => 0, fun _ => 0⟩ : BwdState ℤ).a idx ∧ (bwd_inner (config 1 1 1 1) (ones_tables ℤ) (fun _ _ _ _ => (1 : ℤ)) 3 1 (⟨fun _ => 0, fun _ => 0, fun _ _ => 0, fun _ _ => 0, fun _ => 0, fun _ => 0⟩ : BwdState ℤ)).a_2 idx = (⟨fun _ => 0, fun _ => 0, fun _ _ => 0, fun _ _ => 0, fun _ => 0, fun _ => 0⟩ : BwdState ℤ).a_2 idx) ∧
    (∀ idx, ¬ (k_idx_offset_inner32 (config32 1 1 1 1) 1 3 ≤ idx ∧ idx < k_idx_offset_inner32 (config32 1 1 1 1) 1 3 + 1024) →
      (bwd32_inner (config32 1 1 1 1) (ones_tables32 ℤ) (fun _ _ _ _ => (1 : ℤ)) 3 1 (⟨fun _ => 0, fun _ => 0, fun _ _ => 0, fun _ _ => 0, fun _ => 0, fun _ => 0⟩ : BwdState ℤ)).a idx = (⟨fun _ => 0, fun _ => 0, fun _ _ => 0, fun _ _ => 0, fun _ => 0, fun _ => 0⟩ : BwdState ℤ).a idx ∧
        (bwd32_inner (config32 1 1 1 1) (ones_tables32 ℤ) (fun _ _ _ _ => (1 : ℤ)) 3 1 (⟨fun _ => 0, fun _ => 0, fun _ _ => 0, fun _ _ => 0, fun _ => 0, fun _ => 0⟩ : BwdState ℤ)).a_2 idx = (⟨fun _ => 0, fun _ => 0, fun _ _ => 0, fun _ _ => 0, fun _ => 0, fun _ => 0⟩ : BwdState ℤ).a_2 idx) :=
  ⟨config_valid 1 1 1 1, config32_valid 1 1 1 1,
    C21_barrier_discipline_amended (config 1 1 1 1) (config_valid 1 1 1 1) (config32 1 1 1 1)
      (config32_valid 1 1 1 1) (ones_tables ℤ) (ones_tables32 ℤ) (fun _ _ _ _ => (1 : ℤ)) 3 1
      (⟨fun _ => 0, fun _ => 0⟩ : FwdState ℤ)
      (⟨fun _ => 0, fun _ => 0, fun _ _ => 0, fun _ _ => 0, fun _ => 0, fun _ => 0⟩ : BwdState ℤ)⟩

/-- Counterexample to C21 as stated: in the inner loop of the forward kernel the matrix
multiply of line 451 (writes the block) is followed by the matrix multiply of line 472 (reads
and writes the block) with no barrier between them (the `__syncthreads()` of line 470 is
commented out); in the backward kernels the second forward matrix multiply of `x` (line 466,
resp. 528) is followed by the `x * N` scaling (line 477, resp. 539) with no barrier between
them. -/
theorem C21_barrier_discipline_counterexample :
    (451, 472) ∈ unsynced_transitions fwd_inner_loop_body ∧
    (466, 477) ∈ unsynced_transitions bwd_inner_loop_body ∧
    (528, 539) ∈ unsynced_transitions bwd32_inner_loop_body := by
  decide

end Monarch
